import Mathlib

/-! # Rex tile quadtree and bindless texture arena

A shallow embedding of `engine_rex/TileNode.cpp` and `osgEarth/TextureArena.cpp`.

Conventions of the embedding:

* `osg::Matrixf` is a 4x4 matrix over `ℚ`; every constant of the sources
  (`0`, `0.5`, `1`) is exactly representable, rounding of single-precision
  products is not modelled.
* Unsigned machine integers are `Nat`; where the source subtracts two unsigned
  values the result is reduced modulo `2^32`.
* Reference-counted pointers are `Option`s of an identity (`none` is the null
  pointer); a dereference of a null pointer ends the run in an explicit fault.
* Locks are not modelled: every operation below runs to completion on the
  state it is given.
-/

set_option autoImplicit false

namespace Rex

/-! ## Matrices and the per-quadrant scale/bias table -/

/-- The type `osg::Matrixf`, row-major, acting on row vectors from the right. -/
abbrev Matrixf := Matrix (Fin 4) (Fin 4) ℚ

/-- Scale and bias matrices, one for each TileKey quadrant (`scaleBias[4]`). -/
def scaleBias (quadrant : Fin 4) : Matrixf :=
  match quadrant with
  | 0 => !![1/2, 0, 0, 0; 0, 1/2, 0, 0; 0, 0, 1, 0; 0, 1/2, 0, 1]
  | 1 => !![1/2, 0, 0, 0; 0, 1/2, 0, 0; 0, 0, 1, 0; 1/2, 1/2, 0, 1]
  | 2 => !![1/2, 0, 0, 0; 0, 1/2, 0, 0; 0, 0, 1, 0; 0, 0, 0, 1]
  | 3 => !![1/2, 0, 0, 0; 0, 1/2, 0, 0; 0, 0, 1, 0; 1/2, 0, 0, 1]

/-- The call `m.preMult(other)` of `osg::Matrixf`: `m` becomes `other * m`. -/
def preMult (m other : Matrixf) : Matrixf := other * m

/-- The row vector `(u, v, 0, 1)` of a texture coordinate. -/
def texCoord (u v : ℚ) : Fin 4 → ℚ := ![u, v, 0, 1]

/-- The offset the specification states for each quadrant: quadrant 0 at
(0, 0.5), 1 at (0.5, 0.5), 2 at (0, 0), 3 at (0.5, 0). -/
def specOffset (q : Fin 4) : ℚ × ℚ :=
  match q with
  | 0 => (0, 1/2)
  | 1 => (1/2, 1/2)
  | 2 => (0, 0)
  | 3 => (1/2, 0)

/-! ## Tile keys -/

/-- Layer UIDs (`osgEarth::UID`, a signed integer). -/
abbrev UID := Int

/-- Identity of a texture object (the address a texture pointer holds). -/
abbrev TextureId := Nat

/-- A quadtree cell: level of detail and grid coordinate. -/
structure TileKey where
  lod : Nat
  x : Nat
  y : Nat
deriving DecidableEq

/-- Modelled from the spec: `TileKey` is declared outside the given sources; a
key identifies one quadtree cell and its quadrant index 0..3 is determined by
the parity of its coordinates (level 0 keys report quadrant 0). -/
def TileKey.getQuadrant (k : TileKey) : Fin 4 :=
  if k.lod = 0 then 0
  else if k.x % 2 = 0 ∧ k.y % 2 = 0 then 0
  else if k.x % 2 = 0 then 2
  else if k.y % 2 = 0 then 1
  else 3

/-- Modelled from the spec: `TileKey::createChildKey` is declared outside the
given sources; children are computed deterministically via the quadrant index
0..3, one level down. -/
def TileKey.createChildKey (k : TileKey) (quadrant : Fin 4) : TileKey :=
  { lod := k.lod + 1, x := 2 * k.x + quadrant.val % 2, y := 2 * k.y + quadrant.val / 2 }

/-! ## Samplers, rendering passes and the render model -/

/-- Indices of `SamplerBinding::Usage`. -/
def SamplerBinding.COLOR : Nat := 0
/-- Index of the parent-colour slot. -/
def SamplerBinding.COLOR_PARENT : Nat := 1
/-- Index of the elevation slot. -/
def SamplerBinding.ELEVATION : Nat := 2
/-- Index of the normal-map slot. -/
def SamplerBinding.NORMAL : Nat := 3
/-- Index of the land-cover slot. -/
def SamplerBinding.LANDCOVER : Nat := 4
/-- First index of the generic shared slots. -/
def SamplerBinding.SHARED : Nat := 5

/-- One entry of `RenderBindings`: whether the slot is in use and, for shared
slots, the layer it is bound to. -/
structure SamplerBinding where
  active : Bool
  sourceUID : Option UID
deriving DecidableEq

instance : Inhabited SamplerBinding := ⟨⟨false, none⟩⟩

/-- The call `bindings[i].isActive()`. -/
def isActive (bindings : List SamplerBinding) (i : Nat) : Bool :=
  (bindings.getD i default).active

/-- A texture reference with its transform, data revision and optional
in-flight replacement. -/
structure Sampler where
  _texture : Option TextureId
  _matrix : Matrixf
  _futureTexture : Option TextureId
  _revision : Nat
deriving DecidableEq

/-- A default-constructed sampler: no texture, identity matrix, revision 0. -/
instance : Inhabited Sampler := ⟨⟨none, 1, none, 0⟩⟩

/-- Modelled from the spec: `Sampler::ownsTexture` is declared in the render
model header, outside the given sources; a sampler is owned when it holds this
tile's own data, that is, a texture that is not borrowed through a scale/bias
(identity matrix). -/
def Sampler.ownsTexture (s : Sampler) : Bool :=
  s._texture.isSome && decide (s._matrix = 1)

/-- Modelled from the spec: `Sampler::inheritsTexture` is declared in the render
model header, outside the given sources; a sampler inherits when it is borrowed
from an ancestor via scale/bias or has no data of its own. -/
def Sampler.inheritsTexture (s : Sampler) : Bool :=
  !s._texture.isSome || !decide (s._matrix = 1)

/-- Modelled from the spec: `Sampler::inheritFrom` is declared in the render
model header, outside the given sources; it re-derives texture, matrix and
revision from the parent's sampler, pre-multiplying the matrix by the scale/bias,
and leaves the future texture alone. -/
def Sampler.inheritFrom (s rhs : Sampler) (sb : Matrixf) : Sampler :=
  { s with _texture := rhs._texture, _matrix := preMult rhs._matrix sb, _revision := rhs._revision }

/-- The statement `sampler._matrix.preMult(sb)` on one sampler. -/
def Sampler.preMultBy (s : Sampler) (sb : Matrixf) : Sampler :=
  { s with _matrix := preMult s._matrix sb }

/-- What the rendering code reads of a map layer. -/
structure Layer where
  uid : UID
  isTileLayer : Bool
deriving DecidableEq

/-- One colour data source bound on a tile.  `_parent` is the address of the
corresponding pass in the parent tile, kept as its index in the parent's
vector of passes. -/
structure RenderingPass where
  _sourceUID : UID
  _samplers : List Sampler
  _layer : Option Layer
  _tileLayer : Option Layer
  _parent : Option Nat
deriving DecidableEq

/-- A default-constructed pass: UID -1 and the two slots COLOR, COLOR_PARENT. -/
instance : Inhabited RenderingPass := ⟨⟨-1, [default, default], none, none, none⟩⟩

/-- The accessor `pass.sampler(binding)`. -/
def RenderingPass.sampler (p : RenderingPass) (binding : Nat) : Sampler :=
  p._samplers.getD binding default

/-- Assignment to the slot `pass.sampler(binding)`. -/
def RenderingPass.assignSampler (p : RenderingPass) (binding : Nat) (s : Sampler) : RenderingPass :=
  { p with _samplers := p._samplers.set binding s }

/-- Modelled from the spec: `RenderingPass::ownsTexture` is declared outside the
given sources; a pass owns its texture when its COLOR sampler does. -/
def RenderingPass.ownsTexture (p : RenderingPass) : Bool :=
  (p.sampler SamplerBinding.COLOR).ownsTexture

/-- Modelled from the spec: the negation of `ownsTexture`. -/
def RenderingPass.inheritsTexture (p : RenderingPass) : Bool :=
  !p.ownsTexture

/-- Modelled from the spec: `RenderingPass::setLayer` is declared outside the
given sources; passes are keyed by the UID of their source layer. -/
def RenderingPass.setLayer (p : RenderingPass) (layer : Option Layer) : RenderingPass :=
  match layer with
  | none => { p with _layer := none }
  | some l =>
    { p with _layer := some l,
             _tileLayer := if l.isTileLayer then some l else none,
             _sourceUID := l.uid }

/-- Modelled from the spec: `RenderingPass::setSampler` is declared outside the
given sources; it installs texture, matrix and revision in one slot. -/
def RenderingPass.setSampler (p : RenderingPass) (binding : Nat) (tex : Option TextureId)
    (matrix : Matrixf) (revision : Nat) : RenderingPass :=
  p.assignSampler binding
    { (p.sampler binding) with _texture := tex, _matrix := matrix, _revision := revision }

/-- Modelled from the spec: `RenderingPass::inheritFrom` is declared outside the
given sources; the pass takes the parent pass's UID, layer and samplers, every
sampler matrix pre-multiplied by the scale/bias. -/
def RenderingPass.inheritFrom (p rhs : RenderingPass) (sb : Matrixf) : RenderingPass :=
  { p with _sourceUID := rhs._sourceUID,
           _samplers := rhs._samplers.map (fun s => s.preMultBy sb),
           _layer := rhs._layer,
           _tileLayer := rhs._tileLayer }

/-- Passes and shared samplers of one tile. -/
structure TileRenderModel where
  _passes : List RenderingPass
  _sharedSamplers : List Sampler
deriving DecidableEq

/-- Index of the first pass with the given UID (`getPass` returns its address). -/
def getPassIdx (passes : List RenderingPass) (uid : UID) : Option Nat :=
  match passes.findIdx (fun p => p._sourceUID == uid) with
  | i => if i < passes.length then some i else none

/-- The lookup `renderModel.getPass(uid)`: first pass with that UID, if any. -/
def TileRenderModel.getPass (m : TileRenderModel) (uid : UID) : Option RenderingPass :=
  m._passes.find? (fun p => p._sourceUID == uid)

/-- The call `renderModel.addPass(parent)`: a default pass appended at the end,
remembering the parent pass. -/
def addPass (passes : List RenderingPass) (parent : Option Nat) : List RenderingPass :=
  passes ++ [{ (default : RenderingPass) with _parent := parent }]

/-- Modelled from the spec: `setSharedSampler` is declared outside the given
sources; it installs the texture as owned (identity matrix) with its revision. -/
def TileRenderModel.setSharedSampler (m : TileRenderModel) (binding : Nat)
    (tex : Option TextureId) (revision : Nat) : TileRenderModel :=
  let sampler := m._sharedSamplers.getD binding default
  let sampler := { sampler with _texture := tex, _matrix := 1, _revision := revision }
  { m with _sharedSamplers := m._sharedSamplers.set binding sampler }

/-- Modelled from the spec: `clearSharedSampler` is declared outside the given
sources; it clears the slot entirely. -/
def TileRenderModel.clearSharedSampler (m : TileRenderModel) (binding : Nat) : TileRenderModel :=
  let sampler := m._sharedSamplers.getD binding default
  let sampler := { sampler with _texture := none, _matrix := 1, _revision := 0 }
  { m with _sharedSamplers := m._sharedSamplers.set binding sampler }

/-! ## Engine context, options and the tile node -/

/-- Subtraction of two `unsigned` values, reduced modulo `2^32`. -/
def usub32 (a b : Nat) : Nat := (a + 2 ^ 32 - b % 2 ^ 32) % 2 ^ 32

/-- The terrain options read by the tile node. -/
structure TerrainOptions where
  minExpiryFrames : Nat
  minExpiryTime : ℚ
  progressive : Bool
  firstLOD : Nat
  minLOD : Nat
  normalizeEdges : Bool
  pixelSizeOnScreenMode : Bool
  tilePixelSize : ℚ

/-- The frame clock of the engine context. -/
structure Clock where
  frame : Nat
  time : ℚ

/-- A manifest of requested layers, given by the answers of its query
functions (all declared outside the given sources). -/
structure CreateTileManifest where
  includesLayer : Option Layer → Bool
  includesUID : UID → Bool
  includesElevation : Bool
  includesConstraints : Bool
  includesLandCover : Bool
  progressive : Option Bool

/-- What a tile reads of its `EngineContext`: render bindings, options, number
of LODs of the selection info, the clock, whether a map is set and whether the
geometry pool has a geometry for a key, and two parameters standing for
declarations outside the given sources: the visual-range test of tile layers
and the answers of a default-constructed (empty) manifest. -/
structure EngineContext where
  bindings : List SamplerBinding
  options : TerrainOptions
  numLODs : Nat
  clock : Clock
  isKeyInVisualRange : Layer → TileKey → Bool
  emptyManifest : CreateTileManifest
  mapValid : Bool
  pooledGeometry : TileKey → Bool

/-- State of the future held by a load operation. -/
inductive FutureState where
  | abandoned
  | working
  | available
deriving DecidableEq

/-- One pending `LoadTileDataOperation`: its manifest and its result future. -/
structure LoadTileDataOperation where
  _manifest : CreateTileManifest
  _result : FutureState

/-- The surface node of a tile, as far as the tile node reads and writes it. -/
structure SurfaceNode where
  elevationRaster : Option TextureId
  elevationMatrix : Matrixf
deriving DecidableEq

/-- The fields of one `TileNode` apart from its scene-graph children and its
pending child-creation results. -/
structure TileData where
  _key : TileKey
  _renderModel : TileRenderModel
  _surface : Option SurfaceNode
  _loadQueue : List LoadTileDataOperation
  _loadsInQueue : Nat
  _nextLoadManifestPtr : Option CreateTileManifest
  _childrenReady : Bool
  _lastTraversalTime : ℚ
  _lastTraversalFrame : Nat
  _empty : Bool
  _imageUpdatesActive : Bool
  _doNotExpire : Bool
  _revision : Nat
  _createChildAsync : Bool
  _merged : Bool

/-- The future of one child-creation job: the key it was dispatched for,
whether its result is available, and the child it produced (`none` is the null
result of a cancelled job). -/
structure CreateChildResult where
  childkey : TileKey
  available : Bool
  value : Option TileData

/-- A tile node: its own fields, its scene-graph children and the pending
child-creation results. -/
inductive TileNode where
  | mk (d : TileData) (children : List TileNode) (createChildResults : List CreateChildResult)

/-- The fields of the node itself. -/
def TileNode.d : TileNode → TileData
  | .mk d _ _ => d

/-- The scene-graph children (`_children`). -/
def TileNode.children : TileNode → List TileNode
  | .mk _ cs _ => cs

/-- The pending results (`_createChildResults`). -/
def TileNode.createChildResults : TileNode → List CreateChildResult
  | .mk _ _ rs => rs

/-- The call `getNumChildren()`. -/
def TileNode.getNumChildren (t : TileNode) : Nat := t.children.length

/-- The method `createGeometry(progress)` with a progress that is not
cancelled: without a map nothing happens; with a pooled geometry a new surface
is made that keeps the current elevation raster; otherwise the node is empty. -/
def TileData.createGeometry (ctx : EngineContext) (t : TileData) : TileData :=
  if !ctx.mapValid then t
  else if ctx.pooledGeometry t._key then
    let raster := match t._surface with
      | some s => s.elevationRaster
      | none => none
    let matrix := match t._surface with
      | some s => s.elevationMatrix
      | none => 1
    { t with _empty := false,
             _surface := some (if raster.isSome then ⟨raster, matrix⟩ else ⟨none, 1⟩) }
  else { t with _empty := true }

/-- Modelled from the spec: the member `_merged` is declared in the header,
outside the given sources, and the constructor's initialiser list does not
mention it; the flag says that the tile has received a merge, so a new tile
starts with it cleared. -/
def initialMerged : Bool := false

/-- The constructor `TileNode(key, parent, context, progress)` with a progress
that is not cancelled.  The initialiser list does not mention `_merged`, which
starts as `initialMerged`. -/
def TileData.new (ctx : EngineContext) (key : TileKey) : TileData :=
  TileData.createGeometry ctx
    { _key := key,
      _renderModel := ⟨[], []⟩,
      _surface := none,
      _loadQueue := [],
      _loadsInQueue := 0,
      _nextLoadManifestPtr := none,
      _childrenReady := false,
      _lastTraversalTime := 0,
      _lastTraversalFrame := 0,
      _empty := false,
      _imageUpdatesActive := false,
      _doNotExpire := false,
      _revision := 0,
      _createChildAsync := true,
      _merged := initialMerged }

/-- A freshly constructed tile node: no children, no pending results. -/
def TileNode.new (ctx : EngineContext) (key : TileKey) : TileNode :=
  .mk (TileData.new ctx key) [] []

/-- The test `passInLegalRange(pass)`. -/
def TileData.passInLegalRange (ctx : EngineContext) (t : TileData) (pass : RenderingPass) : Bool :=
  match pass._tileLayer with
  | none => true
  | some l => ctx.isKeyInVisualRange l t._key

/-- The accessor `getElevationRaster()`. -/
def TileData.getElevationRaster (t : TileData) : Option TextureId :=
  match t._surface with
  | some s => s.elevationRaster
  | none => none

/-- The accessor `getElevationMatrix()`. -/
def TileData.getElevationMatrix (t : TileData) : Matrixf :=
  match t._surface with
  | some s => s.elevationMatrix
  | none => 1

/-- The method `setElevationRaster(image, matrix)`. -/
def TileData.setElevationRaster (t : TileData) (image : Option TextureId) (matrix : Matrixf) :
    TileData :=
  if image ≠ t.getElevationRaster ∨ matrix ≠ t.getElevationMatrix then
    match t._surface with
    | some _ => { t with _surface := some ⟨image, matrix⟩ }
    | none => t
  else t

/-- The method `updateElevationRaster()`; image 0 of a texture is identified
with the texture. -/
def TileData.updateElevationRaster (t : TileData) : TileData :=
  let elev := t._renderModel._sharedSamplers.getD SamplerBinding.ELEVATION default
  if elev._texture.isSome then t.setElevationRaster elev._texture elev._matrix
  else t.setElevationRaster none 1

/-- The method `refreshLayers(manifest)`: a new operation is pushed on the load
queue and the cached counter and manifest pointer are refreshed. -/
def TileData.refreshLayers (t : TileData) (manifest : CreateTileManifest) : TileData :=
  let q := t._loadQueue ++ [⟨manifest, FutureState.abandoned⟩]
  { t with _loadQueue := q,
           _loadsInQueue := q.length,
           _nextLoadManifestPtr :=
             if q.length > 0 then (q.head?).map (fun op => op._manifest) else none }

/-- The method `refreshAllLayers()`: a refresh with the empty manifest. -/
def TileData.refreshAllLayers (ctx : EngineContext) (t : TileData) : TileData :=
  t.refreshLayers ctx.emptyManifest

/-! ## Data inheritance at creation: `initializeData` -/

/-- Body of the loop over the parent's passes in `initializeData` for a pass in
legal range: copy the parent pass, remember it as parent, scale/bias every
sampler, and with image blending start COLOR_PARENT from COLOR. -/
def initializePass (ctx : EngineContext) (quadrant : Fin 4) (p : Nat)
    (parentPass : RenderingPass) : RenderingPass :=
  let myPass := { parentPass with _parent := some p }
  let samplers := myPass._samplers.map (fun s => s.preMultBy (scaleBias quadrant))
  let samplers :=
    if isActive ctx.bindings SamplerBinding.COLOR_PARENT then
      samplers.set SamplerBinding.COLOR_PARENT (samplers.getD SamplerBinding.COLOR default)
    else samplers
  { myPass with _samplers := samplers }

/-- The loop `for p < parent passes` of `initializeData`, from index `p` on. -/
def initializePasses (ctx : EngineContext) (t : TileData) (quadrant : Fin 4) :
    Nat → List RenderingPass → List RenderingPass → List RenderingPass
  | _, [], mine => mine
  | p, parentPass :: rest, mine =>
    if !t.passInLegalRange ctx parentPass then
      initializePasses ctx t quadrant (p + 1) rest mine
    else
      initializePasses ctx t quadrant (p + 1) rest (mine ++ [initializePass ctx quadrant p parentPass])

/-- The method `initializeData()` on a tile whose parent is `parent` (`none`
for a root).  Registration in the live-tile index and the update notification
go to external collaborators and leave the tile unchanged. -/
def TileData.initializeData (ctx : EngineContext) (parent : Option TileData) (t : TileData) :
    TileData :=
  match parent with
  | none => t
  | some parent =>
    let quadrant := t._key.getQuadrant
    let passes := initializePasses ctx t quadrant 0 parent._renderModel._passes t._renderModel._passes
    let shared := parent._renderModel._sharedSamplers.map (fun s => s.preMultBy (scaleBias quadrant))
    let t1 := { t with _renderModel := ⟨passes, shared⟩ }
    if isActive ctx.bindings SamplerBinding.ELEVATION then t1.updateElevationRaster else t1

/-! ## Dormancy -/

/-- The method `isDormant()`. -/
def TileData.isDormant (ctx : EngineContext) (t : TileData) : Bool :=
  let minMinExpiryFrames := 3
  let frame := ctx.clock.frame
  let now := ctx.clock.time
  decide (usub32 frame t._lastTraversalFrame > max ctx.options.minExpiryFrames minMinExpiryFrames) &&
  decide (now - t._lastTraversalTime > ctx.options.minExpiryTime)

/-- The timestamp update at the head of a cull traversal in `traverse`. -/
def TileData.touch (ctx : EngineContext) (t : TileData) : TileData :=
  { t with _lastTraversalFrame := ctx.clock.frame, _lastTraversalTime := ctx.clock.time }

/-! ## Re-inheriting data from the parent: `refreshInheritedData` -/

/-- First loop of `refreshInheritedData`: delete any inherited pass whose parent
pass no longer exists.  The index `p` runs over the live vector; an erased
element is followed by `--p` and the loop's `++p`. -/
def removeOrphanedPasses (parentModel : TileRenderModel) (myPasses : List RenderingPass)
    (p changes : Nat) : List RenderingPass × Nat :=
  if h : p < myPasses.length then
    let myPass := myPasses.get ⟨p, h⟩
    if myPass.inheritsTexture && (parentModel.getPass myPass._sourceUID).isNone then
      removeOrphanedPasses parentModel (myPasses.eraseIdx p) p (changes + 1)
    else
      removeOrphanedPasses parentModel myPasses (p + 1) changes
  else (myPasses, changes)
termination_by myPasses.length - p
decreasing_by
  all_goals simp_wf
  · rw [List.length_eraseIdx]
    simp [h]
    omega
  · omega

/-- The COLOR step on a pass found in this tile: re-inherit when the sampler
inherits; every such re-inheritance counts as a change. -/
def refreshColor (ctx : EngineContext) (quadrant : Fin 4) (parentPass myPass : RenderingPass) :
    RenderingPass × Nat :=
  if isActive ctx.bindings SamplerBinding.COLOR then
    let mySampler := myPass.sampler SamplerBinding.COLOR
    if mySampler.inheritsTexture then
      (myPass.assignSampler SamplerBinding.COLOR
        (mySampler.inheritFrom (parentPass.sampler SamplerBinding.COLOR) (scaleBias quadrant)), 1)
    else (myPass, 0)
  else (myPass, 0)

/-- The COLOR_PARENT step on a pass found in this tile: compare with the
parent's colour sampler and rewrite only on a difference. -/
def refreshColorParent (ctx : EngineContext) (t : TileData) (quadrant : Fin 4)
    (parentPass myPass : RenderingPass) : RenderingPass × Nat :=
  if isActive ctx.bindings SamplerBinding.COLOR_PARENT then
    let mySampler := myPass.sampler SamplerBinding.COLOR_PARENT
    let parentColorSampler := parentPass.sampler SamplerBinding.COLOR
    let newMatrix := preMult parentColorSampler._matrix (scaleBias quadrant)
    if mySampler._texture ≠ parentColorSampler._texture ∨
        mySampler._matrix ≠ newMatrix ∨
        mySampler._revision ≠ parentColorSampler._revision then
      if parentColorSampler._texture.isSome && t.passInLegalRange ctx parentPass then
        (myPass.assignSampler SamplerBinding.COLOR_PARENT
          { mySampler with _texture := parentColorSampler._texture,
                           _matrix := newMatrix,
                           _revision := parentColorSampler._revision }, 1)
      else
        (myPass.assignSampler SamplerBinding.COLOR_PARENT (myPass.sampler SamplerBinding.COLOR), 1)
    else (myPass, 0)
  else (myPass, 0)

/-- Body of the second loop of `refreshInheritedData` for the parent pass at
index `p`: refresh the matching pass of this tile, or add it when it is
missing and in legal range. -/
def refreshPass (ctx : EngineContext) (t : TileData) (quadrant : Fin 4) (p : Nat)
    (parentPass : RenderingPass) (myPasses : List RenderingPass) (changes : Nat) :
    List RenderingPass × Nat :=
  match getPassIdx myPasses parentPass._sourceUID with
  | some i =>
    let myPass := myPasses.getD i default
    let (myPass1, c1) := refreshColor ctx quadrant parentPass myPass
    let (myPass2, c2) := refreshColorParent ctx t quadrant parentPass myPass1
    (myPasses.set i myPass2, changes + c1 + c2)
  | none =>
    if t.passInLegalRange ctx parentPass then
      let added : RenderingPass := { (default : RenderingPass) with _parent := some p }
      (myPasses ++ [added.inheritFrom parentPass (scaleBias quadrant)], changes + 1)
    else (myPasses, changes)

/-- The second loop of `refreshInheritedData`, from parent index `p` on. -/
def refreshPasses (ctx : EngineContext) (t : TileData) (quadrant : Fin 4) :
    Nat → List RenderingPass → List RenderingPass → Nat → List RenderingPass × Nat
  | _, [], myPasses, changes => (myPasses, changes)
  | p, parentPass :: rest, myPasses, changes =>
    let r := refreshPass ctx t quadrant p parentPass myPasses changes
    refreshPasses ctx t quadrant (p + 1) rest r.1 r.2

/-- Assignment to `_renderModel._sharedSamplers`. -/
def TileData.setShared (t : TileData) (shared : List Sampler) : TileData :=
  { t with _renderModel := { t._renderModel with _sharedSamplers := shared } }

/-- Assignment to `_renderModel._passes`. -/
def TileData.setPasses (t : TileData) (passes : List RenderingPass) : TileData :=
  { t with _renderModel := { t._renderModel with _passes := passes } }

/-- Body of the third loop of `refreshInheritedData` for an inheriting shared
sampler: re-inherit from the parent's sampler of the same slot and, for the
elevation slot, refresh the cached raster. -/
def refreshSharedSampler (quadrant : Fin 4) (binding : Nat) (parentSampler : Sampler)
    (t : TileData) : TileData :=
  let mySampler := t._renderModel._sharedSamplers.getD binding default
  let t1 := t.setShared (t._renderModel._sharedSamplers.set binding
    (mySampler.inheritFrom parentSampler (scaleBias quadrant)))
  if binding = SamplerBinding.ELEVATION then t1.updateElevationRaster else t1

/-- The third loop of `refreshInheritedData`, from binding index `binding` on:
every inheriting shared sampler is re-inherited and counted. -/
def refreshSharedSamplers (quadrant : Fin 4) :
    Nat → List Sampler → TileData → Nat → TileData × Nat
  | _, [], t, changes => (t, changes)
  | binding, parentSampler :: rest, t, changes =>
    let mySampler := t._renderModel._sharedSamplers.getD binding default
    if mySampler.inheritsTexture then
      refreshSharedSamplers quadrant (binding + 1) rest
        (refreshSharedSampler quadrant binding parentSampler t) (changes + 1)
    else
      refreshSharedSamplers quadrant (binding + 1) rest t changes

/-- The part of `refreshInheritedData` that works on the tile itself: the three
loops, returning the tile and the number of changes counted. -/
def TileData.refreshOwn (ctx : EngineContext) (t : TileData) (parent : TileData) :
    TileData × Nat :=
  let quadrant := t._key.getQuadrant
  let r1 := removeOrphanedPasses parent._renderModel t._renderModel._passes 0 0
  let r2 := refreshPasses ctx t quadrant 0 parent._renderModel._passes r1.1 r1.2
  let t1 := t.setPasses r2.1
  refreshSharedSamplers quadrant 0 parent._renderModel._sharedSamplers t1 r2.2

mutual
/-- The method `refreshInheritedData(parent, bindings)`.  Returns the refreshed
subtree and the keys of the tiles the method ran on, in call order. -/
def TileNode.refreshInheritedData (ctx : EngineContext) (parent : TileData) :
    TileNode → TileNode × List TileKey
  | .mk d children results =>
    let r := d.refreshOwn ctx parent
    if r.2 > 0 then
      let d1 := { r.1 with _revision := r.1._revision + 1 }
      if d1._childrenReady then
        let rc := refreshSubTiles ctx d1 4 children
        (.mk d1 rc.1 results, d._key :: rc.2)
      else (.mk d1 children results, [d._key])
    else (.mk r.1 children results, [d._key])
/-- The loop `for i < 4: getSubTile(i)->refreshInheritedData(this, bindings)`. -/
def refreshSubTiles (ctx : EngineContext) (parent : TileData) :
    Nat → List TileNode → List TileNode × List TileKey
  | 0, cs => (cs, [])
  | _, [] => ([], [])
  | n + 1, c :: cs =>
    let r := c.refreshInheritedData ctx parent
    let rs := refreshSubTiles ctx parent n cs
    (r.1 :: rs.1, r.2 ++ rs.2)
end

/-! ## Merging a loaded data model: `merge` -/

/-- One entry of `model->colorLayers()`, as far as `merge` reads it. -/
structure TerrainTileColorLayerModel where
  layer : Option Layer
  isImageLayerModel : Bool
  texture : Option TextureId
  matrix : Matrixf
  revision : Nat
  asyncLoading : Bool
  requiresUpdateCall : Bool

/-- The elevation part of a tile model. -/
structure TerrainTileElevationModel where
  texture : Option TextureId
  revision : Nat
  normalMapTexture : Option TextureId

/-- The land-cover part of a tile model. -/
structure TerrainTileLandCoverModel where
  texture : Option TextureId
  revision : Nat

/-- One entry of `model->sharedLayers()`. -/
structure TerrainTileImageLayerModel where
  texture : Option TextureId
  uid : UID
  revision : Nat

/-- A loaded tile-data model; a `none` entry is an invalid reference. -/
structure TerrainTileModel where
  colorLayers : List (Option TerrainTileColorLayerModel)
  elevationModel : Option TerrainTileElevationModel
  landCoverModel : Option TerrainTileLandCoverModel
  sharedLayers : List TerrainTileImageLayerModel

/-- Dereference of a pass's `parent()` pointer in the parent tile. -/
def parentPassAt (parent : Option TileData) (idx : Option Nat) : Option RenderingPass :=
  match parent, idx with
  | some par, some i => par._renderModel._passes.get? i
  | _, _ => none

/-- The lookup `getParentTile() ? getParentTile()->_renderModel.getPass(uid) : nullptr`,
as the index of the pass in the parent's vector. -/
def getParentPassIdx (parent : Option TileData) (uid : UID) : Option Nat :=
  match parent with
  | some par => getPassIdx par._renderModel._passes uid
  | none => none

/-- In-place update of the pass at index `i`. -/
def updatePass (passes : List RenderingPass) (i : Nat) (f : RenderingPass → RenderingPass) :
    List RenderingPass :=
  passes.set i (f (passes.getD i default))

/-- The async-loading branch of `merge` on one pass: keep serving the parent's
data and park the new texture as the future texture. -/
def mergeAsync (ctx : EngineContext) (parent : Option TileData) (quadrant : Fin 4)
    (texture : Option TextureId) (pass : RenderingPass) : RenderingPass :=
  let pass1 :=
    match parentPassAt parent pass._parent with
    | some parentPass =>
      let q := pass.inheritFrom parentPass (scaleBias quadrant)
      if isActive ctx.bindings SamplerBinding.COLOR_PARENT then
        let colorParent := q.sampler SamplerBinding.COLOR_PARENT
        let parentColor := parentPass.sampler SamplerBinding.COLOR
        q.assignSampler SamplerBinding.COLOR_PARENT
          { colorParent with _texture := parentColor._texture,
                             _matrix := preMult parentColor._matrix (scaleBias quadrant) }
      else q
    | none => pass
  pass1.assignSampler SamplerBinding.COLOR
    { (pass1.sampler SamplerBinding.COLOR) with _futureTexture := texture }

/-- What `merge` does to the pass of an image layer model that carries a
texture: install the texture as COLOR sampler, for a new pass copy it into
COLOR_PARENT when image blending is on, and take the async-loading branch when
the layer loads asynchronously. -/
def mergeImagePass (ctx : EngineContext) (parent : Option TileData) (quadrant : Fin 4)
    (m : TerrainTileColorLayerModel) (isNewPass : Bool) (pass : RenderingPass) : RenderingPass :=
  let p1 := pass.setSampler SamplerBinding.COLOR m.texture m.matrix m.revision
  let p2 :=
    if isNewPass && isActive ctx.bindings SamplerBinding.COLOR_PARENT then
      p1.assignSampler SamplerBinding.COLOR_PARENT (p1.sampler SamplerBinding.COLOR)
    else p1
  if m.asyncLoading then mergeAsync ctx parent quadrant m.texture p2 else p2

/-- Body of the first colour loop of `merge` for one entry of the model. -/
def mergeColorLayer (ctx : EngineContext) (parent : Option TileData)
    (colorLayerModel : Option TerrainTileColorLayerModel) (t : TileData) (uidsLoaded : List UID) :
    TileData × List UID :=
  match colorLayerModel with
  | none => (t, uidsLoaded)
  | some m =>
    match m.layer with
    | none => (t, uidsLoaded)
    | some layer =>
      let myPasses := t._renderModel._passes
      let pass := getPassIdx myPasses layer.uid
      let parentPass : Option Nat :=
        match pass with
        | some i => (myPasses.getD i default)._parent
        | none => getParentPassIdx parent layer.uid
      let isNewPass := pass.isNone
      let i := pass.getD myPasses.length
      let myPasses1 :=
        if isNewPass then updatePass (addPass myPasses parentPass) i (fun q => q.setLayer (some layer))
        else myPasses
      if m.isImageLayerModel && m.texture.isSome then
        let myPasses2 := updatePass myPasses1 i
          (mergeImagePass ctx parent t._key.getQuadrant m isNewPass)
        ({ (t.setPasses myPasses2) with
            _imageUpdatesActive := t._imageUpdatesActive || m.requiresUpdateCall },
         uidsLoaded.insert (myPasses2.getD i default)._sourceUID)
      else
        (t.setPasses myPasses1, uidsLoaded.insert (myPasses1.getD i default)._sourceUID)

/-- The first colour loop of `merge` over the entries of the model. -/
def mergeColorLayers (ctx : EngineContext) (parent : Option TileData) :
    List (Option TerrainTileColorLayerModel) → TileData → List UID → TileData × List UID
  | [], t, uidsLoaded => (t, uidsLoaded)
  | m :: rest, t, uidsLoaded =>
    let r := mergeColorLayer ctx parent m t uidsLoaded
    mergeColorLayers ctx parent rest r.1 r.2

/-- The second colour loop of `merge`: every pass that this tile owns, that was
asked for and that was not delivered is converted into an inherited pass, or
erased when the parent has no such pass. -/
def releaseOrphanedPasses (parent : Option TileData) (quadrant : Fin 4)
    (manifest : CreateTileManifest) (uidsLoaded : List UID) (myPasses : List RenderingPass)
    (p : Nat) : List RenderingPass :=
  if h : p < myPasses.length then
    let myPass := myPasses.get ⟨p, h⟩
    if myPass.ownsTexture && manifest.includesLayer myPass._layer &&
        !uidsLoaded.contains myPass._sourceUID then
      match parent.bind (fun par => par._renderModel.getPass myPass._sourceUID) with
      | some parentPass =>
        releaseOrphanedPasses parent quadrant manifest uidsLoaded
          (myPasses.set p (myPass.inheritFrom parentPass (scaleBias quadrant))) (p + 1)
      | none =>
        releaseOrphanedPasses parent quadrant manifest uidsLoaded (myPasses.eraseIdx p) p
    else
      releaseOrphanedPasses parent quadrant manifest uidsLoaded myPasses (p + 1)
  else myPasses
termination_by myPasses.length - p
decreasing_by
  all_goals simp_wf
  · omega
  · rw [List.length_eraseIdx]
    simp [h]
    omega
  · omega

/-- The colour section of `merge` (guarded by the COLOR binding). -/
def TileData.mergeColor (ctx : EngineContext) (parent : Option TileData)
    (model : TerrainTileModel) (manifest : CreateTileManifest) (t : TileData) : TileData :=
  if isActive ctx.bindings SamplerBinding.COLOR then
    let r := mergeColorLayers ctx parent model.colorLayers t []
    r.1.setPasses
      (releaseOrphanedPasses parent t._key.getQuadrant manifest r.2 r.1._renderModel._passes 0)
  else t

/-- The method `inheritSharedSampler(binding)`. -/
def TileData.inheritSharedSampler (parent : Option TileData) (binding : Nat) (t : TileData) :
    TileData :=
  let t1 : TileData :=
    match parent with
    | some par =>
      let mySampler := par._renderModel._sharedSamplers.getD binding default
      let mySampler :=
        if mySampler._texture.isSome then mySampler.preMultBy (scaleBias t._key.getQuadrant)
        else mySampler
      { t with _renderModel :=
          { t._renderModel with _sharedSamplers := t._renderModel._sharedSamplers.set binding mySampler } }
    | none => { t with _renderModel := t._renderModel.clearSharedSampler binding }
  { t1 with _revision := t1._revision + 1 }

/-- The elevation section of `merge`; the flag tells whether new elevation
data was installed or dropped. -/
def TileData.mergeElevation (ctx : EngineContext) (parent : Option TileData)
    (model : TerrainTileModel) (manifest : CreateTileManifest) (t : TileData) : TileData × Bool :=
  if isActive ctx.bindings SamplerBinding.ELEVATION then
    match model.elevationModel.bind (fun e => e.texture.map (fun tex => (tex, e.revision))) with
    | some (tex, revision) =>
      let t1 := { t with _renderModel :=
        t._renderModel.setSharedSampler SamplerBinding.ELEVATION (some tex) revision }
      (t1.updateElevationRaster, true)
    | none =>
      if manifest.includesElevation &&
          (t._renderModel._sharedSamplers.getD SamplerBinding.ELEVATION default).ownsTexture then
        ((t.inheritSharedSampler parent SamplerBinding.ELEVATION).updateElevationRaster, true)
      else (t, false)
  else (t, false)

/-- The normal-map section of `merge`.  The edge stitching of `updateNormalMap`
rewrites pixels of images only and leaves every modelled field alone. -/
def TileData.mergeNormal (ctx : EngineContext) (parent : Option TileData)
    (model : TerrainTileModel) (manifest : CreateTileManifest) (t : TileData) : TileData :=
  if isActive ctx.bindings SamplerBinding.NORMAL then
    match model.elevationModel.bind (fun e => e.texture.map (fun _ => e)) with
    | some e =>
      match e.normalMapTexture with
      | some tex =>
        { t with _renderModel :=
            t._renderModel.setSharedSampler SamplerBinding.NORMAL (some tex) e.revision }
      | none => t
    | none =>
      if manifest.includesElevation &&
          (t._renderModel._sharedSamplers.getD SamplerBinding.NORMAL default).ownsTexture then
        t.inheritSharedSampler parent SamplerBinding.NORMAL
      else t
  else t

/-- The land-cover section of `merge`. -/
def TileData.mergeLandCover (ctx : EngineContext) (parent : Option TileData)
    (model : TerrainTileModel) (manifest : CreateTileManifest) (t : TileData) : TileData :=
  if isActive ctx.bindings SamplerBinding.LANDCOVER then
    match model.landCoverModel.bind (fun e => e.texture.map (fun tex => (tex, e.revision))) with
    | some (tex, revision) =>
      { t with _renderModel :=
          t._renderModel.setSharedSampler SamplerBinding.LANDCOVER (some tex) revision }
    | none =>
      if manifest.includesLandCover &&
          (t._renderModel._sharedSamplers.getD SamplerBinding.LANDCOVER default).ownsTexture then
        t.inheritSharedSampler parent SamplerBinding.LANDCOVER
      else t
  else t

/-- The shared binding slot bound to a layer: the first active slot from
`SHARED` on whose source UID is set to `uid`. -/
def findSharedBinding (bindings : List SamplerBinding) (uid : UID) : Option Nat :=
  (List.range bindings.length).find? (fun i =>
    decide (SamplerBinding.SHARED ≤ i) && isActive bindings i &&
      decide ((bindings.getD i default).sourceUID = some uid))

/-- First loop over `model->sharedLayers()`: install every delivered texture in
its shared slot and record the UID. -/
def mergeSharedLayers (ctx : EngineContext) :
    List TerrainTileImageLayerModel → TileData → List UID → TileData × List UID
  | [], t, uidsLoaded => (t, uidsLoaded)
  | layerModel :: rest, t, uidsLoaded =>
    match layerModel.texture, findSharedBinding ctx.bindings layerModel.uid with
    | some tex, some bindingIndex =>
      mergeSharedLayers ctx rest
        { t with _renderModel :=
            t._renderModel.setSharedSampler bindingIndex (some tex) layerModel.revision }
        (uidsLoaded.insert layerModel.uid)
    | _, _ => mergeSharedLayers ctx rest t uidsLoaded

/-- Second loop over the shared slots: every active slot that was asked for and
not delivered goes back to the parent's data.  An unset source UID reads as 0. -/
def releaseSharedLayers (ctx : EngineContext) (parent : Option TileData)
    (manifest : CreateTileManifest) (uidsLoaded : List UID) : List Nat → TileData → TileData
  | [], t => t
  | i :: rest, t =>
    let uid := ((ctx.bindings.getD i default).sourceUID).getD 0
    if decide (SamplerBinding.SHARED ≤ i) && isActive ctx.bindings i &&
        manifest.includesUID uid && !uidsLoaded.contains uid then
      releaseSharedLayers ctx parent manifest uidsLoaded rest (t.inheritSharedSampler parent i)
    else releaseSharedLayers ctx parent manifest uidsLoaded rest t

/-- Everything `merge` does to the tile itself before it propagates to the
children: geometry, colour passes, elevation, normals, land cover and shared
layers, in that order. -/
def TileData.mergeOwn (ctx : EngineContext) (parent : Option TileData)
    (model : TerrainTileModel) (manifest : CreateTileManifest) (t : TileData) : TileData :=
  let t0 := if manifest.includesConstraints then t.createGeometry ctx else t
  let t1 := t0.mergeColor ctx parent model manifest
  let t2 := (t1.mergeElevation ctx parent model manifest).1
  let t3 := t2.mergeNormal ctx parent model manifest
  let t4 := t3.mergeLandCover ctx parent model manifest
  let r := mergeSharedLayers ctx model.sharedLayers t4 []
  releaseSharedLayers ctx parent manifest r.2 (List.range ctx.bindings.length) r.1

/-- The method `merge(model, manifest)` on a tile whose parent is `parent`.
Returns the merged subtree and the keys of the descendants on which
`refreshInheritedData` ran. -/
def TileNode.merge (ctx : EngineContext) (parent : Option TileData)
    (model : TerrainTileModel) (manifest : CreateTileManifest) : TileNode → TileNode × List TileKey
  | .mk d children results =>
    let d1 := d.mergeOwn ctx parent model manifest
    let rc := if d1._childrenReady then refreshSubTiles ctx d1 4 children else (children, [])
    (.mk { d1 with _revision := d1._revision + 1, _merged := true } rc.1 results, rc.2)

/-- The predicate `isLoaded()`. -/
def TileData.isLoaded (t : TileData) : Bool := t._merged

/-! ## Child creation, subdivision and pruning -/

/-- Result of running code that may dereference a null pointer: either it
finishes with a value, or it stops at the dereference with the tile as it was
at that moment. -/
inductive Outcome (α : Type) where
  | ok (a : α)
  | nullDeref (t : TileNode)

/-- The call `addChild(child)` of `osg::Group`: a null child is not added. -/
def addChild (children : List TileNode) (child : Option TileData) : List TileNode :=
  match child with
  | some c => children ++ [.mk c [] []]
  | none => children

/-- Replace the last child (the one just added) by its updated state. -/
def setLastChild (children : List TileNode) (c : TileData) : List TileNode :=
  children.dropLast ++ [.mk c [] []]

/-- The attach loop of `createChildren` over the available results: add the
child, set up inheritance from this tile, enqueue a refresh of all its layers.
Stops at `child->initializeData()` when the result holds a null child. -/
def attachChildren (ctx : EngineContext) (d : TileData) :
    List CreateChildResult → List TileNode → List TileNode ⊕ List TileNode
  | [], children => .inl children
  | r :: rest, children =>
    match r.value with
    | none => .inr (addChild children none)
    | some child =>
      let children1 := addChild children (some child)
      let child1 := (child.initializeData ctx (some d)).refreshAllLayers ctx
      attachChildren ctx d rest (setLastChild children1 child1)

/-- The dispatch loop of `createChildren`: one pending job per quadrant. -/
def dispatchCreateChildJobs (d : TileData) : List CreateChildResult :=
  [0, 1, 2, 3].map (fun quadrant => ⟨d._key.createChildKey quadrant, false, none⟩)

/-- The synchronous loop of `createChildren`: each child is constructed, added,
initialised and asked to refresh its layers on the spot. -/
def createChildrenSync (ctx : EngineContext) (d : TileData) :
    List (Fin 4) → List TileNode → List TileNode
  | [], children => children
  | quadrant :: rest, children =>
    let child := TileData.new ctx (d._key.createChildKey quadrant)
    let child1 := (child.initializeData ctx (some d)).refreshAllLayers ctx
    createChildrenSync ctx d rest (children ++ [.mk child1 [] []])

/-- The method `createChildren(context)`; the Boolean is its return value
`_createChildResults.empty()`. -/
def TileNode.createChildren (ctx : EngineContext) : TileNode → Outcome (TileNode × Bool)
  | .mk d children results =>
    if d._createChildAsync then
      if results.isEmpty then
        let results1 := results ++ dispatchCreateChildJobs d
        .ok (.mk d children results1, results1.isEmpty)
      else
        let numChildrenReady := ((results.take 4).filter (fun r => r.available)).length
        if numChildrenReady = 4 then
          match attachChildren ctx d (results.take 4) children with
          | .inl children1 => .ok (.mk d children1 [], true)
          | .inr children1 => .nullDeref (.mk d children1 results)
        else .ok (.mk d children results, results.isEmpty)
    else
      .ok (.mk d (createChildrenSync ctx d [0, 1, 2, 3] children) results, results.isEmpty)

/-- Assignment to the member `_childrenReady`. -/
def TileNode.setChildrenReady (b : Bool) : TileNode → TileNode
  | .mk d children results => .mk { d with _childrenReady := b } children results

/-- The guarded creation step shared by `cull` and `subdivide`:
`if (!_childrenReady) _childrenReady = createChildren(context)`. -/
def TileNode.createChildrenIfNotReady (ctx : EngineContext) (t : TileNode) : Outcome TileNode :=
  if !t.d._childrenReady then
    match t.createChildren ctx with
    | .ok (t1, ready) => .ok (t1.setChildrenReady ready)
    | .nullDeref t1 => .nullDeref t1
  else .ok t

/-- The method `subdivide()`. -/
def TileNode.subdivide (ctx : EngineContext) (t : TileNode) : Outcome TileNode :=
  if t.d._key.lod ≠ usub32 ctx.numLODs 1 then t.createChildrenIfNotReady ctx
  else .ok t

/-- The method `removeSubTiles()`: the children are released and detached and
the pending results are dropped. -/
def TileNode.removeSubTiles : TileNode → TileNode
  | .mk d _ _ => .mk { d with _childrenReady := false } [] []

/-- An asynchronous child-creation job finishing: the `i`-th pending result
becomes available with the child the job produced (`none` when the job was
cancelled or found no live parent). -/
def TileNode.resolveCreateChild (i : Nat) (value : Option TileData) : TileNode → TileNode
  | .mk d children results =>
    match results.get? i with
    | some r => .mk d children (results.set i { r with available := true, value := value })
    | none => .mk d children results

/-- The predicate `areSubTilesDormant()`; children beyond a dereferenced
position are not looked at. -/
def TileNode.areSubTilesDormant (ctx : EngineContext) (t : TileNode) : Bool :=
  decide (t.getNumChildren ≥ 4) &&
    ((t.children.take 4).all (fun c => c.d.isDormant ctx))

/-! ## The load queue -/

/-- What a tile hands to its collaborators during a cull traversal. -/
inductive Event where
  | acceptChild (key : TileKey)
  | acceptSurface
  | createChildren
  | dispatchLoad
  | submitToMerger
deriving DecidableEq

/-- Modelled from the spec: `dirty()` is declared outside the given sources; a
tile's data is marked dirty while load operations are queued. -/
def TileData.dirty (t : TileData) : Bool := decide (t._loadsInQueue > 0)

/-- The method `processLoadQueue(culler)`.  The call `op->dispatch()` is
declared outside the given sources; it starts the job of the operation, after
which its result is no longer abandoned. -/
def TileData.processLoadQueue (t : TileData) : TileData × List Event :=
  match t._loadQueue with
  | [] => (t, [])
  | op :: rest =>
    if op._result = FutureState.abandoned then
      ({ t with _loadQueue := { op with _result := FutureState.working } :: rest },
       [Event.dispatchLoad])
    else if op._result = FutureState.available then
      ({ t with _loadQueue := rest,
                _loadsInQueue := rest.length,
                _nextLoadManifestPtr := (rest.head?).map (fun o => o._manifest) },
       [Event.submitToMerger])
    else (t, [])

/-- The method `load(culler)`: the load priority it computes is a
single-precision number that nothing modelled here reads. -/
def TileData.load (t : TileData) : TileData × List Event := t.processLoadQueue

/-- The method `nextLoadIsProgressive()`, with the grouping the compiler gives
it: `(progressive && ptr == null) || !ptr->progressive().isSetTo(false)`; it
has no value when the second operand dereferences a null manifest pointer. -/
def TileData.nextLoadIsProgressive (ctx : EngineContext) (t : TileData) : Option Bool :=
  if ctx.options.progressive && t._nextLoadManifestPtr.isNone then some true
  else
    match t._nextLoadManifestPtr with
    | some m => some (decide (m.progressive ≠ some false))
    | none => none

/-! ## The cull traversal -/

/-- What `cull` asks of the culler, the camera and the tile's surface for one
tile. -/
structure TerrainCuller where
  surfaceVisible : Bool
  rangeCallbackPixels : Option ℚ
  pixelSizeOnScreen : ℚ
  anyChildBoxWithinRange : Bool
  inheritViewpoint : Bool
  isSpy : Bool
  isCulled : Bool
  lastFramePassedCull : Nat

/-- The method `shouldSubDivide(culler, selectionInfo)`. -/
def TileData.shouldSubDivide (ctx : EngineContext) (culler : TerrainCuller) (t : TileData) : Bool :=
  let currLOD := t._key.lod
  if currLOD < ctx.numLODs ∧ currLOD ≠ usub32 ctx.numLODs 1 then
    if ctx.options.pixelSizeOnScreenMode then
      let tileSizeInPixels : ℚ := (culler.rangeCallbackPixels).getD (-1)
      let tileSizeInPixels :=
        if tileSizeInPixels ≤ 0 then culler.pixelSizeOnScreen else tileSizeInPixels
      decide (tileSizeInPixels > ctx.options.tilePixelSize)
    else culler.anyChildBoxWithinRange
  else false

/-- The keys of the sub-tiles `getSubTile(0..3)` the culler is passed to. -/
def TileNode.subTileKeys (t : TileNode) : List TileKey :=
  (t.children.take 4).map (fun c => c.d._key)

/-- The load step at the end of `cull`. -/
def TileNode.loadIf (b : Bool) : TileNode → TileNode × List Event
  | .mk d children results =>
    if d.dirty && b then
      let r := d.load
      (.mk r.1 children results, r.2)
    else (.mk d children results, [])

/-- The method `cull(culler)` on a tile whose parent is `parent`.  Returns the
tile, the method's return value and what was handed to the collaborators, in
order. -/
def TileNode.cull (ctx : EngineContext) (culler : TerrainCuller) (parent : Option TileData)
    (t : TileNode) : Outcome (TileNode × Bool × List Event) :=
  if !culler.surfaceVisible then .ok (t, false, [])
  else
    let childrenInRange := t.d.shouldSubDivide ctx culler
    let canCreateChildren := childrenInRange
    let canLoadData :=
      t.d._doNotExpire || decide (t.d._key.lod = ctx.options.firstLOD) ||
        decide (t.d._key.lod ≥ ctx.options.minLOD)
    let blocked : Option Bool :=
      if culler.inheritViewpoint then some false
      else if ctx.options.progressive then
        match parent with
        | some par => if par.dirty then par.nextLoadIsProgressive ctx else some false
        | none => some false
      else some false
    match blocked with
    | none => .nullDeref t
    | some progressiveBlock =>
      let canCreateChildren := if culler.inheritViewpoint then false else canCreateChildren
      let canLoadData :=
        if culler.inheritViewpoint then false
        else if progressiveBlock then false
        else canLoadData
      if childrenInRange then
        let created : Outcome (TileNode × Bool × List Event) :=
          if !t.d._childrenReady && canCreateChildren then
            match t.createChildrenIfNotReady ctx with
            | .ok t1 => .ok (t1, false, [Event.createChildren])
            | .nullDeref t1 => .nullDeref t1
          else .ok (t, canLoadData, [])
        match created with
        | .nullDeref t1 => .nullDeref t1
        | .ok (t1, canLoadData1, ev1) =>
          let ev2 :=
            if t1.d._childrenReady then t1.subTileKeys.map Event.acceptChild
            else [Event.acceptSurface]
          let r := t1.loadIf canLoadData1
          .ok (r.1, true, ev1 ++ ev2 ++ r.2)
      else
        let r := t.loadIf canLoadData
        .ok (r.1, true, [Event.acceptSurface] ++ r.2)

/-- The method `cull_spy(culler)`. -/
def TileNode.cull_spy (ctx : EngineContext) (culler : TerrainCuller) (t : TileNode) : List Event :=
  if usub32 ctx.clock.frame culler.lastFramePassedCull < 2 then [Event.acceptSurface]
  else if t.d._childrenReady then t.subTileKeys.map Event.acceptChild
  else []

/-- The timestamp update of `traverse` applied to a node. -/
def TileNode.touch (ctx : EngineContext) : TileNode → TileNode
  | .mk d children results => .mk (d.touch ctx) children results

/-- The cull-visitor branch of `traverse(nv)`. -/
def TileNode.traverseCull (ctx : EngineContext) (culler : TerrainCuller) (parent : Option TileData)
    (t : TileNode) : Outcome (TileNode × List Event) :=
  let t1 := t.touch ctx
  if t1.d._empty then
    let r := t1.loadIf true
    .ok (r.1, r.2)
  else if culler.isSpy then .ok (t1, t1.cull_spy ctx culler)
  else if !culler.isCulled then
    match t1.cull ctx culler parent with
    | .ok (t2, _, ev) => .ok (t2, ev)
    | .nullDeref t2 => .nullDeref t2
  else .ok (t1, [])

end Rex

namespace Arena

/-! ## The bindless texture arena -/

/-- The pixel format `GL_RED`. -/
def GL_RED : Nat := 0x1903
/-- The pixel format `GL_RG`. -/
def GL_RG : Nat := 0x8227
/-- The pixel format `GL_RGB`. -/
def GL_RGB : Nat := 0x1907
/-- The pixel format `GL_RGBA`. -/
def GL_RGBA : Nat := 0x1908
/-- The internal format `GL_R16F`. -/
def GL_R16F : Nat := 0x822D
/-- The internal format `GL_RG8`. -/
def GL_RG8 : Nat := 0x822B
/-- The internal format `GL_RGB8`. -/
def GL_RGB8 : Nat := 0x8051
/-- The internal format `GL_RGBA8`. -/
def GL_RGBA8 : Nat := 0x8058

/-- The size `sizeof(GLuint64)` in bytes. -/
def sizeofGLuint64 : Nat := 8

/-- What the arena reads of an `osg::Image`. -/
structure Image where
  compressed : Bool
  pixelFormat : Nat
  internalTextureFormat : Nat
  numMipmapLevels : Nat
deriving DecidableEq

/-- A compiled GL texture object of one context: its bindless handle and
whether it is resident. -/
structure GLTexture where
  handle : Nat
  resident : Bool
deriving DecidableEq

/-- The per-context state of one texture (`Texture::GCState`). -/
structure TextureGCState where
  _gltexture : Option GLTexture
  _compileSet : Bool
deriving DecidableEq

instance : Inhabited TextureGCState := ⟨⟨none, false⟩⟩

/-- A texture object: its image (`none` while not loaded), what its URI would
load, and its per-context compiled state. -/
structure Texture where
  _image : Option Image
  uriImage : Option Image
  _gc : List TextureGCState
deriving DecidableEq

instance : Inhabited Texture := ⟨⟨none, none, []⟩⟩

/-- A GPU buffer object: its storage size in bytes and the handles it holds. -/
structure GLBuffer where
  size : Nat
  data : List Nat
deriving DecidableEq

/-- A call into the GL driver made by the handle table. -/
inductive GLCall where
  | getAlignment
  | bufferStorage (size : Nat) (data : List Nat)
  | bufferSubData (offset size : Nat) (data : List Nat)
  | bindBufferBase (index : Int)
deriving DecidableEq

/-- The handle lookup table of one context (`HandleLUT`, an `SSBO`): host-side
array `_buf`, GPU buffer `_buffer`, and the bookkeeping of sizes. -/
structure HandleLUT where
  _requiredSize : Nat
  _allocatedSize : Nat
  _numTextures : Nat
  _buf : Option (List Nat)
  _dirty : Bool
  _buffer : Option GLBuffer
  _alignment : Option Int
  _bindingIndex : Int
deriving DecidableEq

/-- A default-constructed table: nothing allocated, binding index not chosen. -/
instance : Inhabited HandleLUT := ⟨⟨0, 0, 0, none, false, none, none, -1⟩⟩

/-- The per-context state of the arena (`TextureArena::GCState`); textures are
referred to by their index in the store of texture objects. -/
structure GCState where
  _inUse : Bool
  _toAdd : List Nat
  _toActivate : List Nat
  _toDeactivate : List Nat
  _handleLUT : HandleLUT
deriving DecidableEq

instance : Inhabited GCState := ⟨⟨false, [], [], [], default⟩⟩

/-- The arena together with the texture objects its pointers refer to:
`store` holds every texture object, `_textures` the registered ones in
registration order, `_gc` the per-context state. -/
structure TextureArena where
  store : List Texture
  _textures : List Nat
  _gc : List GCState
deriving DecidableEq

/-- What the arena takes from its surroundings: the handle the driver assigns
to a texture compiled in a context, the in-place image compressor, the alignment
the driver reports, and the indeterminate content of a newly allocated array. -/
structure GLEnv where
  newHandle : Nat → Nat → Nat
  compressImageInPlace : Image → Image
  alignment : Int
  freshArray : Nat → List Nat

/-- The content of `new GLuint64[n]`: `n` entries of indeterminate value. -/
def newArray (env : GLEnv) (n : Nat) : List Nat :=
  (List.range n).map (fun i => (env.freshArray n).getD i 0)

/-- An arena with no texture registered, over a store of texture objects and
with `n` default per-context states. -/
def TextureArena.empty (store : List Texture) (n : Nat) : TextureArena :=
  { store := store, _textures := [], _gc := List.replicate n default }

/-- The accessor `tex->get(state)`. -/
def Texture.get (t : Texture) (ctx : Nat) : TextureGCState := t._gc.getD ctx default

/-- The predicate `Texture::isCompiled(state)`. -/
def Texture.isCompiled (t : Texture) (ctx : Nat) : Bool := (t.get ctx)._gltexture.isSome

/-- The state change of `Texture::compileGLObjects(state)`: a GL texture object
with its bindless handle, not yet resident. -/
def Texture.compileGLObjects (env : GLEnv) (ref ctx : Nat) (t : Texture) : Texture :=
  { t with _gc := t._gc.set ctx { (t.get ctx) with _gltexture := some ⟨env.newHandle ref ctx, false⟩ } }

/-- The method `Texture::makeResident(state, toggle)`. -/
def Texture.makeResident (ctx : Nat) (toggle : Bool) (t : Texture) : Texture :=
  match (t.get ctx)._gltexture with
  | some g => { t with _gc := t._gc.set ctx { (t.get ctx) with _gltexture := some { g with resident := toggle } } }
  | none => t

/-- Update of the texture object a pointer refers to. -/
def updateTexture (store : List Texture) (ref : Nat) (f : Texture → Texture) : List Texture :=
  match store.get? ref with
  | some t => store.set ref (f t)
  | none => store

/-- The normalisation of the internal texture format in `add`. -/
def normalizedInternalFormat (pixelFormat : Nat) : Nat :=
  if pixelFormat = GL_RED then GL_R16F
  else if pixelFormat = GL_RG then GL_RG8
  else if pixelFormat = GL_RGB then GL_RGB8
  else if pixelFormat = GL_RGBA then GL_RGBA8
  else GL_RGBA8

/-- The image preparation of `add`: an image that is not compressed gets its
internal format normalised (when it equals the pixel format) and is compressed
in place. -/
def prepareImage (env : GLEnv) (img : Image) : Image :=
  if !img.compressed then
    let img1 :=
      if img.pixelFormat = img.internalTextureFormat then
        { img with internalTextureFormat := normalizedInternalFormat img.pixelFormat }
      else img
    env.compressImageInPlace img1
  else img

/-- The method `TextureArena::add(tex)`; `none` is the null pointer. -/
def TextureArena.add (env : GLEnv) (tex : Option Nat) (a : TextureArena) : TextureArena :=
  match tex with
  | none => a
  | some ref =>
    let t := a.store.getD ref default
    let image := if t._image.isSome then t._image else t.uriImage
    match image with
    | none => { a with store := updateTexture a.store ref (fun t => { t with _image := none }) }
    | some img =>
      { store := updateTexture a.store ref (fun t => { t with _image := some (prepareImage env img) }),
        _textures := a._textures ++ [ref],
        _gc := a._gc.map (fun gc => if gc._inUse then { gc with _toAdd := gc._toAdd ++ [ref] } else gc) }

/-- The method `HandleLUT::release()`: the GPU buffer is handed to the releaser
and the host array is freed. -/
def HandleLUT.release (l : HandleLUT) : HandleLUT :=
  { l with _buffer := none, _buf := none }

/-- The bindless handle `refresh` reads for a texture in a context: the handle
of its GL object, or 0 when it has none. -/
def currentHandle (store : List Texture) (ctx : Nat) (ref : Nat) : Nat :=
  match ((store.getD ref default).get ctx)._gltexture with
  | some g => g.handle
  | none => 0

/-- The loop of `HandleLUT::refresh` from index `i` on, over the host array and
the dirty flag. -/
def refreshLoop (store : List Texture) (ctx : Nat) :
    List Nat → Nat → List Nat → Bool → List Nat × Bool
  | [], _, buf, dirty => (buf, dirty)
  | ref :: rest, i, buf, dirty =>
    let handle := currentHandle store ctx ref
    if buf.getD i 0 ≠ handle then refreshLoop store ctx rest (i + 1) (buf.set i handle) true
    else refreshLoop store ctx rest (i + 1) buf dirty

/-- The method `HandleLUT::refresh(textures, state)`. -/
def HandleLUT.refresh (store : List Texture) (ctx : Nat) (textures : List Nat) (l : HandleLUT) :
    HandleLUT :=
  let r := refreshLoop store ctx textures 0 (l._buf.getD []) l._dirty
  { l with _buf := some r.1, _dirty := r.2 }

/-- The method `HandleLUT::update()`: when dirty, the whole host array is
uploaded into the existing GPU buffer and the flag is cleared. -/
def HandleLUT.update (l : HandleLUT) : HandleLUT × List GLCall × Bool :=
  let updateMe := l._dirty
  if updateMe then
    ({ l with _buffer := l._buffer.map (fun b => { b with data := l._buf.getD [] }),
              _dirty := false },
     [GLCall.bufferSubData 0 l._allocatedSize (l._buf.getD [])], updateMe)
  else (l, [], updateMe)

/-- The one-time discovery at the head of the reallocation branch of `sync`:
the buffer alignment is asked of the driver when not yet known, and the
binding index is fixed to 5 when not yet chosen. -/
def HandleLUT.discover (env : GLEnv) (l : HandleLUT) : HandleLUT :=
  let l1 := if l._alignment.isNone then { l with _alignment := some env.alignment } else l
  if l1._bindingIndex < 0 then { l1 with _bindingIndex := 5 } else l1

/-- The reallocation branch of `sync`: release, allocate a host array with one
entry per texture, copy the handles, create the GPU buffer from it. -/
def HandleLUT.reallocate (env : GLEnv) (store : List Texture) (ctx : Nat) (textures : List Nat)
    (l : HandleLUT) : HandleLUT × List GLCall :=
  let ev1 := if l._alignment.isNone then [GLCall.getAlignment] else []
  let l3 := (l.discover env).release
  let l4 := { l3 with _numTextures := textures.length,
                      _allocatedSize := l3._requiredSize,
                      _buf := some (newArray env textures.length) }
  let l5 := l4.refresh store ctx textures
  let data := l5._buf.getD []
  ({ l5 with _buffer := some ⟨l5._allocatedSize, data⟩ },
   ev1 ++ [GLCall.bufferStorage l5._allocatedSize data])

/-- The method `HandleLUT::sync(textures, state)`. -/
def HandleLUT.sync (env : GLEnv) (store : List Texture) (ctx : Nat) (textures : List Nat)
    (l : HandleLUT) : HandleLUT × List GLCall :=
  let l0 := { l with _requiredSize := textures.length * sizeofGLuint64 }
  if l0._requiredSize > l0._allocatedSize then
    l0.reallocate env store ctx textures
  else if l0._dirty then
    let l1 := l0.refresh store ctx textures
    let r := l1.update
    (r.1, r.2.1)
  else (l0, [])

/-- The first loop of `apply` over the to-add queue: compiled textures go to
the activate queue; others are compiled on the spot, or, with an incremental
compile operation, submitted once and kept for the next frame. -/
def processToAdd (env : GLEnv) (ctx : Nat) (ico : Bool) :
    List Nat → List Texture → List Nat → List Nat → List Texture × List Nat × List Nat
  | [], store, toActivate, stillCompiling => (store, toActivate, stillCompiling)
  | ref :: rest, store, toActivate, stillCompiling =>
    let tex := store.getD ref default
    if !tex.isCompiled ctx then
      if ico then
        let store1 :=
          if !(tex.get ctx)._compileSet then
            updateTexture store ref (fun t => { t with _gc := t._gc.set ctx { (t.get ctx) with _compileSet := true } })
          else store
        processToAdd env ctx ico rest store1 toActivate (stillCompiling ++ [ref])
      else
        processToAdd env ctx ico rest (updateTexture store ref (Texture.compileGLObjects env ref ctx))
          (toActivate ++ [ref]) stillCompiling
    else processToAdd env ctx ico rest store (toActivate ++ [ref]) stillCompiling

/-- Residency toggling of every texture of a queue, in queue order. -/
def makeAllResident (ctx : Nat) (toggle : Bool) : List Nat → List Texture → List Texture
  | [], store => store
  | ref :: rest, store =>
    makeAllResident ctx toggle rest (updateTexture store ref (Texture.makeResident ctx toggle))

/-- The method `TextureArena::apply(state)` for the context `ctx`; `ico` tells
whether an incremental compile operation is at hand.  Returns the arena and the
driver calls of the handle table. -/
def TextureArena.apply (env : GLEnv) (ctx : Nat) (ico : Bool) (a : TextureArena) :
    TextureArena × List GLCall :=
  if a._textures.isEmpty then (a, [])
  else
    let gc := a._gc.getD ctx default
    let gc1 := if gc._inUse = false then { gc with _inUse := true, _toAdd := a._textures } else gc
    let ico1 := if !gc1._toAdd.isEmpty then ico else false
    let r := processToAdd env ctx ico1 gc1._toAdd a.store gc1._toActivate []
    let gc2 := { gc1 with _toAdd := r.2.2, _toActivate := r.2.1 }
    let store1 := makeAllResident ctx false gc2._toDeactivate r.1
    let gc3 := { gc2 with _toDeactivate := [] }
    let store2 := if !gc3._toActivate.isEmpty then makeAllResident ctx true gc3._toActivate store1 else store1
    let gc4 :=
      if !gc3._toActivate.isEmpty then
        { gc3 with _toActivate := [], _handleLUT := { gc3._handleLUT with _dirty := true } }
      else gc3
    let s := gc4._handleLUT.sync env store2 ctx a._textures
    let gc5 := { gc4 with _handleLUT := s.1 }
    ({ a with store := store2, _gc := a._gc.set ctx gc5 },
     s.2 ++ [GLCall.bindBufferBase gc5._handleLUT._bindingIndex])

end Arena

namespace Rex

/-! ## Sample values for concrete runs -/

/-- Sample options: progressive off, expiry after 0 frames (so the floor of 3
applies) and 5 seconds. -/
def sampleOptions : TerrainOptions :=
  { minExpiryFrames := 0, minExpiryTime := 5, progressive := false, firstLOD := 0, minLOD := 0,
    normalizeEdges := false, pixelSizeOnScreenMode := false, tilePixelSize := 256 }

/-- Sample manifest that asks for everything. -/
def sampleManifest : CreateTileManifest :=
  { includesLayer := fun _ => true, includesUID := fun _ => true, includesElevation := true,
    includesConstraints := false, includesLandCover := true, progressive := none }

/-- Sample context with the given bindings and clock: 20 LODs, every key in
visual range, a map and a pooled geometry for every key. -/
def sampleContext (bindings : List SamplerBinding) (frame : Nat) (time : ℚ) : EngineContext :=
  { bindings := bindings, options := sampleOptions, numLODs := 20, clock := ⟨frame, time⟩,
    isKeyInVisualRange := fun _ _ => true, emptyManifest := sampleManifest,
    mapValid := true, pooledGeometry := fun _ => true }

/-- Sample bindings: the slots up to LANDCOVER with the given activity of
COLOR and COLOR_PARENT; the shared slots inactive. -/
def sampleBindings (color colorParent : Bool) : List SamplerBinding :=
  [⟨color, none⟩, ⟨colorParent, none⟩, ⟨false, none⟩, ⟨false, none⟩, ⟨false, none⟩]

/-- The root key. -/
def rootKey : TileKey := ⟨0, 0, 0⟩

end Rex

namespace Rex

/-- A freshly constructed root tile in synchronous creation mode. -/
def sampleSyncTile : TileNode :=
  .mk { TileData.new (sampleContext [] 0 0) rootKey with _createChildAsync := false } [] []

/-- The tile `sampleSyncTile` after its four children were created. -/
def sampleSubdivided : TileNode :=
  (TileNode.mk { TileData.new (sampleContext [] 0 0) rootKey with _createChildAsync := false }
    (createChildrenSync (sampleContext [] 0 0)
      { TileData.new (sampleContext [] 0 0) rootKey with _createChildAsync := false }
      [0, 1, 2, 3] []) []).setChildrenReady true

/-- A culler for which the tile passes the horizon test and whose answer on
the range of the children is `inRange`; an ordinary camera. -/
def sampleCuller (inRange : Bool) : TerrainCuller :=
  { surfaceVisible := true, rangeCallbackPixels := none, pixelSizeOnScreen := 0,
    anyChildBoxWithinRange := inRange, inheritViewpoint := false, isSpy := false,
    isCulled := false, lastFramePassedCull := 0 }

/-- A sampler holding texture `tex` as its own data (identity matrix). -/
def ownSampler (tex : TextureId) (revision : Nat) : Sampler := ⟨some tex, 1, none, revision⟩

/-- A pass for layer `uid` with the given COLOR and COLOR_PARENT samplers. -/
def samplePass (uid : UID) (color colorParent : Sampler) : RenderingPass :=
  { _sourceUID := uid, _samplers := [color, colorParent], _layer := some ⟨uid, false⟩,
    _tileLayer := none, _parent := none }

/-- A tile with the given key and passes and no shared samplers, otherwise as
constructed. -/
def sampleTile (key : TileKey) (passes : List RenderingPass) : TileData :=
  { TileData.new (sampleContext [] 0 0) key with _renderModel := ⟨passes, []⟩ }

/-- A child tile at level 1 with one shared slot holding an empty sampler
(which therefore inherits), not subdivided. -/
def sampleInheritingChild : TileNode :=
  .mk ((sampleTile ⟨1, 0, 0⟩ []).setShared [default]) [] []

/-- A parent tile with one shared slot and no passes. -/
def sampleSharedParent : TileData := (sampleTile rootKey []).setShared [default]

/-- The fate of one pass in the second colour loop of `merge`, given the UIDs
`uidsLoaded` recorded by the first loop: a pass that the tile owns, that the
manifest includes and that was not delivered is re-inherited from the parent's
pass of the same UID, or dropped (`none`) when there is no such parent pass;
any other pass stays as it is. -/
def orphanFate (parent : Option TileData) (quadrant : Fin 4) (manifest : CreateTileManifest)
    (uidsLoaded : List UID) (myPass : RenderingPass) : Option RenderingPass :=
  if myPass.ownsTexture && manifest.includesLayer myPass._layer &&
      !uidsLoaded.contains myPass._sourceUID then
    (parent.bind (fun par => par._renderModel.getPass myPass._sourceUID)).map
      (fun parentPass => myPass.inheritFrom parentPass (scaleBias quadrant))
  else some myPass

/-- The parent pointers of the passes are not stale: where a pass's `parent()`
points at a pass of the parent tile, that pass has the same UID. -/
def LinksOK (parent : Option TileData) (passes : List RenderingPass) : Prop :=
  ∀ p ∈ passes, ∀ pp, parentPassAt parent p._parent = some pp → pp._sourceUID = p._sourceUID

/-- A tile model that delivers nothing. -/
def emptyModel : TerrainTileModel := ⟨[], none, none, []⟩

/-- A pass for layer 7 that owns texture 3. -/
def sampleOwnedPass : RenderingPass := samplePass 7 (ownSampler 3 1) default

/-- A tile at level 1, quadrant 0, whose only pass is `sampleOwnedPass`. -/
def sampleOwnedTile : TileData := sampleTile ⟨1, 0, 0⟩ [sampleOwnedPass]

/-- A parent tile with a pass for layer 7 that owns texture 5. -/
def sampleParentWithPass : TileData := sampleTile rootKey [samplePass 7 (ownSampler 5 1) default]

/-- Sample context in progressive mode. -/
def sampleProgressiveContext : EngineContext :=
  { sampleContext [] 0 0 with options := { sampleOptions with progressive := true } }

/-- A parent tile that is dirty with a progressive load pending: a root tile
on which `refreshAllLayers` was called once. -/
def sampleDirtyParent : TileData :=
  (sampleTile rootKey []).refreshAllLayers sampleProgressiveContext

/-- A culler as `sampleCuller true`, for an inherit-viewpoint camera. -/
def sampleInheritViewpointCuller : TerrainCuller :=
  { sampleCuller true with inheritViewpoint := true }

/-- Whether an event is one of the two things the load step hands out. -/
def Event.isLoad : Event → Bool
  | .dispatchLoad => true
  | .submitToMerger => true
  | _ => false

/-- A new level-1 tile on which `refreshAllLayers` was called once: dirty, with
one undispatched operation queued. -/
def sampleDirtyTile : TileNode :=
  .mk ((TileData.new (sampleContext [] 0 0) ⟨1, 0, 0⟩).refreshAllLayers (sampleContext [] 0 0)) [] []

/-- One thing that happens to the load queue of a tile: a `refreshLayers`
call, a `processLoadQueue` call, or the job of the `i`-th queued operation
changing the state of its result. -/
inductive QueueStep where
  | refreshLayers (manifest : CreateTileManifest)
  | processLoadQueue
  | jobProgress (i : Nat) (result : FutureState)

/-- A run of queue steps from tile `t`.  Alongside the tile it collects the
manifests of the operations handed to the merger, in the order they were
handed over; the operation a `processLoadQueue` call hands over is the front
of the queue at the time of the call. -/
def runQueue : List QueueStep → TileData → List CreateTileManifest →
    TileData × List CreateTileManifest
  | [], t, merged => (t, merged)
  | .refreshLayers manifest :: rest, t, merged => runQueue rest (t.refreshLayers manifest) merged
  | .processLoadQueue :: rest, t, merged =>
    let handed :=
      if t.processLoadQueue.2 = [Event.submitToMerger] then
        (t._loadQueue.head?.map (fun op => op._manifest)).toList
      else []
    runQueue rest t.processLoadQueue.1 (merged ++ handed)
  | .jobProgress i result :: rest, t, merged =>
    runQueue rest
      { t with _loadQueue :=
          match t._loadQueue.get? i with
          | some op => t._loadQueue.set i { op with _result := result }
          | none => t._loadQueue }
      merged

/-- The manifests `refreshLayers` was called with during a run, in order. -/
def enqueuedManifests : List QueueStep → List CreateTileManifest
  | [] => []
  | .refreshLayers manifest :: rest => manifest :: enqueuedManifests rest
  | _ :: rest => enqueuedManifests rest

/-- What `createChildren` makes of the child a creation job delivered: it is
initialised from the parent and a refresh of all its layers is enqueued. -/
def attachedChild (ctx : EngineContext) (d child : TileData) : TileData :=
  (child.initializeData ctx (some d)).refreshAllLayers ctx

/-- Every pass of the list has the COLOR slot. -/
def SlotsOK (passes : List RenderingPass) : Prop :=
  ∀ p ∈ passes, p._samplers ≠ []

/-- A model delivering one image layer: layer 7 with texture 9 at revision 4,
identity matrix, loaded synchronously. -/
def sampleImageModel : TerrainTileModel :=
  ⟨[some ⟨some ⟨7, false⟩, true, some 9, 1, 4, false, false⟩], none, none, []⟩

/-- A model delivering layer 7 with texture 9 through the scale/bias of
quadrant 0 instead of the identity matrix. -/
def sampleScaledImageModel : TerrainTileModel :=
  ⟨[some ⟨some ⟨7, false⟩, true, some 9, scaleBias 0, 4, false, false⟩], none, none, []⟩

/-- The passes have pairwise distinct source UIDs. -/
def UIDsDistinct (passes : List RenderingPass) : Prop :=
  (passes.map (fun p => p._sourceUID)).Nodup

/-- A level-1 tile with an owned pass for layer 1, whose parent pointer refers
to the first pass of the parent, and an owned pass for layer 2. -/
def sampleStaleTile : TileData :=
  sampleTile ⟨1, 0, 0⟩
    [{ samplePass 1 (ownSampler 3 1) default with _parent := some 0 },
     samplePass 2 (ownSampler 4 1) default]

/-- A parent tile whose first and only pass is for layer 2. -/
def sampleShrunkParent : TileData := sampleTile rootKey [samplePass 2 (ownSampler 5 1) default]

/-- A model delivering layer 1, which loads asynchronously, with texture 9. -/
def sampleAsyncModel : TerrainTileModel :=
  ⟨[some ⟨some ⟨1, false⟩, true, some 9, 1, 4, true, false⟩], none, none, []⟩

/-! ## The update traversal: image updates and future textures -/

/-- One image of a texture as the update traversal reads it: whether it asks
for update calls, and its width `s()` as read after the update call, if one is
made. -/
structure TexImage where
  requiresUpdateCall : Bool
  s : Int

/-- The images of the textures: `getNumImages()` is the length of the list and
`getImage(i)` its `i`-th entry, `none` for a null image. -/
abbrev TextureImages := TextureId → List (Option TexImage)

/-- Number of images of the list on which `image->update(&nv)` is called. -/
def countUpdated (imgs : List (Option TexImage)) : Nat :=
  (imgs.filter (fun i =>
    match i with
    | some im => im.requiresUpdateCall
    | none => false)).length

/-- Number of images of the list that are present with a valid size. -/
def countResolved (imgs : List (Option TexImage)) : Nat :=
  (imgs.filter (fun i =>
    match i with
    | some im => decide (im.s > 0)
    | none => false)).length

/-- Body of the sampler loop of the update branch of `traverse`.  Returns the
sampler, the number of update calls made and the number of futures resolved. -/
def Sampler.updateImages (images : TextureImages) (sampler : Sampler) : Sampler × Nat × Nat :=
  let numOwned :=
    if sampler.ownsTexture then
      match sampler._texture with
      | some tex => countUpdated (images tex)
      | none => 0
    else 0
  match sampler._futureTexture with
  | none => (sampler, numOwned, 0)
  | some future =>
    let levelsDoneUpdating := (images future).length - countResolved (images future)
    let numUpdated := countUpdated (images future)
    if levelsDoneUpdating = 0 then
      ({ sampler with _texture := some future, _matrix := 1, _futureTexture := none },
       numOwned + numUpdated, 1)
    else if numUpdated = 0 then
      ({ sampler with _futureTexture := none }, numOwned + numUpdated, 0)
    else (sampler, numOwned + numUpdated, 0)

/-- The sampler loop over one pass. -/
def RenderingPass.updateImages (images : TextureImages) (pass : RenderingPass) :
    RenderingPass × Nat × Nat :=
  let rs := pass._samplers.map (Sampler.updateImages images)
  ({ pass with _samplers := rs.map (fun r => r.1) },
   (rs.map (fun r => r.2.1)).sum, (rs.map (fun r => r.2.2)).sum)

/-- The image-update part of the update branch of `traverse` on the tile
itself: every sampler of every pass is visited, and the update traversal is
switched off when no update call was made.  Returns the tile and the number
of futures resolved. -/
def TileData.updateImages (images : TextureImages) (t : TileData) : TileData × Nat :=
  let rs := t._renderModel._passes.map (RenderingPass.updateImages images)
  let numUpdatedTotal : Nat := (rs.map (fun r => r.2.1)).sum
  let numFuturesResolved : Nat := (rs.map (fun r => r.2.2)).sum
  let t1 := t.setPasses (rs.map (fun r => r.1))
  (if numUpdatedTotal = 0 then { t1 with _imageUpdatesActive := false } else t1,
   numFuturesResolved)

/-- The update branch of `traverse(nv)` up to the traversal of the children or
the surface: with image updates active the samplers are updated and, if a
future was resolved, the first four children re-inherit.  Returns the subtree
and the keys of the tiles on which `refreshInheritedData` ran. -/
def TileNode.traverseUpdate (ctx : EngineContext) (images : TextureImages) :
    TileNode → TileNode × List TileKey
  | .mk d children results =>
    if d._imageUpdatesActive then
      let r := d.updateImages images
      if r.2 > 0 then
        let rc := refreshSubTiles ctx r.1 4 children
        (.mk r.1 rc.1 results, rc.2)
      else (.mk r.1 children results, [])
    else (.mk d children results, [])

/-- Every image of the texture is present with a valid size. -/
def allResolved (images : TextureImages) (tex : TextureId) : Prop :=
  ∀ i ∈ images tex, ∃ im, i = some im ∧ im.s > 0

/-- No image of the texture asks for an update call. -/
def noneUpdated (images : TextureImages) (tex : TextureId) : Prop :=
  ∀ im, some im ∈ images tex → im.requiresUpdateCall = false

/-- Sample images: texture 9 has one image, resolved (width 256); texture 8 has
one image that has no size yet and asks for no update. -/
def sampleImages : TextureImages := fun tex =>
  if tex = 9 then [some ⟨false, 256⟩] else if tex = 8 then [some ⟨false, 0⟩] else []

/-- A tile with image updates active whose only pass serves texture 5 through
a scale/bias while texture 9 loads. -/
def sampleFutureTile : TileNode :=
  .mk { sampleTile ⟨1, 0, 0⟩
          [samplePass 7 ⟨some 5, scaleBias 0, some 9, 1⟩ default] with
        _imageUpdatesActive := true } [] []

/-- The cached members of the load queue agree with the queue: the counter is
its length and the manifest pointer refers to the manifest of the front
operation, being null when there is none. -/
def QueueInv (t : TileData) : Prop :=
  t._loadsInQueue = t._loadQueue.length ∧
  t._nextLoadManifestPtr = t._loadQueue.head?.map (fun op => op._manifest)

/-- A root tile with one queued load whose manifest has `progressive`
explicitly set to false. -/
def sampleNonProgressiveLoad : TileData :=
  (sampleTile rootKey []).refreshLayers { sampleManifest with progressive := some false }

/-- The matrix of a sampler that started from the identity and was
pre-multiplied by the scale/bias matrix of each quadrant of the chain in turn,
once per level of inheritance. -/
def inheritedMatrix (quadrants : List (Fin 4)) : Matrixf :=
  quadrants.foldl (fun m q => preMult m (scaleBias q)) 1

/-- A sampler handed down a chain of quadrants by `initializeData`, which
pre-multiplies its matrix at every level. -/
def inheritedSampler (s : Sampler) (quadrants : List (Fin 4)) : Sampler :=
  quadrants.foldl (fun s1 q => s1.preMultBy (scaleBias q)) s

/-- A manifest that asks for nothing. -/
def sampleNothingManifest : CreateTileManifest :=
  { includesLayer := fun _ => false, includesUID := fun _ => false, includesElevation := false,
    includesConstraints := false, includesLandCover := false, progressive := none }

/-- A parent tile with passes for the layers 7 and 8, each holding its own
texture, and two shared samplers of which the first holds a texture. -/
def sampleTwoPassParent : TileData :=
  (sampleTile rootKey [samplePass 7 (ownSampler 5 1) default,
    samplePass 8 (ownSampler 6 2) (ownSampler 4 1)]).setShared [ownSampler 9 3, default]

/-- The passes `initializeData` gives a tile that had none: the initialised
copies of the parent's passes in legal range. -/
def initializedPasses (ctx : EngineContext) (t : TileData) (parentPasses : List RenderingPass) :
    List RenderingPass :=
  ((parentPasses.enumFrom 0).filter (fun ip => t.passInLegalRange ctx ip.2)).map
    (fun ip => initializePass ctx t._key.getQuadrant ip.1 ip.2)

/-- Four new sub-tiles of the level-1 tile at (0, 0), without data. -/
def sampleSubTiles : List TileNode :=
  [0, 1, 2, 3].map (fun q => TileNode.mk (sampleTile ((⟨1, 0, 0⟩ : TileKey).createChildKey q) []) [] [])

/-- A parent with a pass for layer 7 that owns texture 5 and one shared
sampler that owns texture 9. -/
def sampleOwningParent : TileData := sampleParentWithPass.setShared [ownSampler 9 3]

/-- A level-1 tile with its own data throughout, a pass for layer 7 that owns
texture 3 and a shared sampler that owns texture 4, with four ready
sub-tiles. -/
def sampleOwningChild : TileNode :=
  .mk { sampleOwnedTile.setShared [ownSampler 4 1] with _childrenReady := true }
    sampleSubTiles []

/-- A level-1 tile whose only shared sampler is empty and so inherits, with
four ready sub-tiles. -/
def sampleInheritingParentNode : TileNode :=
  .mk { (sampleTile ⟨1, 0, 0⟩ []).setShared [default] with _childrenReady := true }
    sampleSubTiles []

/-- A parent tile with two passes for the same layer 7, the first holding
texture 5 at revision 1 and the second texture 6 at revision 2. -/
def sampleDuplicateParent : TileData :=
  sampleTile rootKey [samplePass 7 (ownSampler 5 1) default, samplePass 7 (ownSampler 6 2) default]

/-! ## Reachable tile states -/

/-- The states a tile reaches from construction (no children, children not
ready, no pending result; asynchronous or synchronous creation) by cull calls,
`subdivide()`, `removeSubTiles()` and child-creation jobs finishing with any
result, under any context, culler and parent.  A call that stops at a null
dereference has no successor state. -/
inductive Reachable : TileNode → Prop where
  | fresh (d : TileData) : d._childrenReady = false → Reachable (.mk d [] [])
  | cull (ctx : EngineContext) (culler : TerrainCuller) (parent : Option TileData)
      (t t1 : TileNode) (ret : Bool) (ev : List Event) :
      Reachable t → t.cull ctx culler parent = .ok (t1, ret, ev) → Reachable t1
  | subdivide (ctx : EngineContext) (t t1 : TileNode) :
      Reachable t → t.subdivide ctx = .ok t1 → Reachable t1
  | removeSubTiles (t : TileNode) : Reachable t → Reachable t.removeSubTiles
  | resolve (i : Nat) (value : Option TileData) (t : TileNode) :
      Reachable t → Reachable (t.resolveCreateChild i value)

/-- The shape every reachable tile has: either four children, ready, nothing
pending; or no children, not ready, and zero or four pending results (none in
synchronous mode). -/
def ChildrenInv (t : TileNode) : Prop :=
  (t.children.length = 4 ∧ t.d._childrenReady = true ∧ t.createChildResults = []) ∨
  (t.children.length = 0 ∧ t.d._childrenReady = false ∧
    (t.createChildResults.length = 0 ∨ t.createChildResults.length = 4) ∧
    (t.d._createChildAsync = false → t.createChildResults = []))

end Rex

namespace Arena

/-! ## Reachable arenas and sample values -/

/-- The arenas reached from an empty arena (over a store of texture objects
and `n` per-context states) by `add` calls and `apply` calls. -/
inductive ArenaReachable (env : GLEnv) (store : List Texture) (n : Nat) : TextureArena → Prop where
  | empty : ArenaReachable env store n (TextureArena.empty store n)
  | add (tex : Option Nat) (a : TextureArena) :
      ArenaReachable env store n a → ArenaReachable env store n (a.add env tex)
  | apply (ctx : Nat) (ico : Bool) (a : TextureArena) :
      ArenaReachable env store n a → ArenaReachable env store n (a.apply env ctx ico).1

/-- The bookkeeping of a handle table is consistent with `N` registered
textures: 8 bytes are allocated per entry, there are at most `N` entries, and
a non-empty table has a host array and a GPU buffer of exactly that many
entries. -/
def LUTConsistent (N : Nat) (l : HandleLUT) : Prop :=
  l._allocatedSize = 8 * l._numTextures ∧ l._numTextures ≤ N ∧
  (0 < l._numTextures →
    ∃ b g, l._buf = some b ∧ b.length = l._numTextures ∧ l._buffer = some g ∧
      g.size = l._allocatedSize ∧ g.data.length = l._numTextures)

/-- Every per-context handle table of the arena is consistent with the number
of registered textures, and there are `n` per-context states. -/
def ArenaInv (n : Nat) (a : TextureArena) : Prop :=
  a._gc.length = n ∧ ∀ gc ∈ a._gc, LUTConsistent a._textures.length gc._handleLUT

/-- A sample driver: texture `ref` gets handle `100 + ref` in every context,
compression marks the image compressed, new arrays hold zeros. -/
def sampleEnv : GLEnv :=
  { newHandle := fun ref _ => 100 + ref,
    compressImageInPlace := fun img => { img with compressed := true },
    alignment := 16,
    freshArray := fun _ => [] }

/-- A sample texture object with a loaded RGBA image and room for one context. -/
def sampleTexture : Texture :=
  { _image := some ⟨false, GL_RGBA, GL_RGBA, 1⟩, uriImage := none, _gc := [default] }

/-- A handle table of three entries, 24 bytes allocated, holding the handles
10, 20, 30 and marked dirty. -/
def sampleLUT : HandleLUT :=
  { _requiredSize := 24, _allocatedSize := 24, _numTextures := 3, _buf := some [10, 20, 30],
    _dirty := true, _buffer := some ⟨24, [10, 20, 30]⟩, _alignment := some 16,
    _bindingIndex := 5 }

/-- An arena for one context in which `sampleTexture` has been registered. -/
def sampleArena : TextureArena :=
  (TextureArena.empty [sampleTexture] 1).add sampleEnv (some 0)

/-- A texture compiled in context 0 with the given handle, resident. -/
def compiledTexture (handle : Nat) : Texture :=
  { _image := some ⟨true, GL_RGBA, GL_RGBA8, 1⟩, uriImage := none,
    _gc := [⟨some ⟨handle, true⟩, false⟩] }

/-- The method `TextureArena::activate(tex)`: the texture is queued for
activation in every context; `none` is the null pointer. -/
def TextureArena.activate (tex : Option Nat) (a : TextureArena) : TextureArena :=
  match tex with
  | none => a
  | some ref =>
    { a with _gc := a._gc.map (fun gc => { gc with _toActivate := gc._toActivate ++ [ref] }) }

/-- The method `TextureArena::deactivate(tex)`: the texture is queued for
deactivation in every context; `none` is the null pointer. -/
def TextureArena.deactivate (tex : Option Nat) (a : TextureArena) : TextureArena :=
  match tex with
  | none => a
  | some ref =>
    { a with _gc := a._gc.map (fun gc => { gc with _toDeactivate := gc._toDeactivate ++ [ref] }) }

/-- The to-add queue that `apply` works on in context `ctx`: every registered
texture on the context's first apply, the context's queue afterwards. -/
def toAddAtApply (ctx : Nat) (a : TextureArena) : List Nat :=
  if (a._gc.getD ctx default)._inUse = false then a._textures
  else (a._gc.getD ctx default)._toAdd

/-- The result of the first loop of `apply` in context `ctx`: the store, the
activate queue and the textures still compiling. -/
def addStage (env : GLEnv) (ctx : Nat) (ico : Bool) (a : TextureArena) :
    List Texture × List Nat × List Nat :=
  processToAdd env ctx (if !(toAddAtApply ctx a).isEmpty then ico else false)
    (toAddAtApply ctx a) a.store (a._gc.getD ctx default)._toActivate []

/-- The handle of texture `ref` in context `ctx` and whether it is resident,
if the texture is compiled there. -/
def glTextureOf (store : List Texture) (ref ctx : Nat) : Option GLTexture :=
  ((store.getD ref default).get ctx)._gltexture

/-- An arena for one context with no texture registered, in which texture 0,
compiled and resident, was queued for activation. -/
def sampleUnregistered : TextureArena :=
  (TextureArena.empty [compiledTexture 7] 1).activate (some 0)

/-- An arena for one context in which a compiled texture is registered and was
then queued for deactivation and for activation. -/
def sampleToggled : TextureArena :=
  ((({ store := [compiledTexture 7], _textures := [0], _gc := [default] } :
    TextureArena).deactivate (some 0)).activate (some 0))

/-- The compile requests `ico->add(...)` made by the first loop of `apply`, in
order: one for every texture met that is not compiled and has no compile set
yet, when an incremental compile operation is at hand. -/
def compileRequests (env : GLEnv) (ctx : Nat) (ico : Bool) : List Nat → List Texture → List Nat
  | [], _ => []
  | ref :: rest, store =>
    let tex := store.getD ref default
    if !tex.isCompiled ctx then
      if ico then
        if !(tex.get ctx)._compileSet then
          ref :: compileRequests env ctx ico rest
            (updateTexture store ref
              (fun t => { t with _gc := t._gc.set ctx { (t.get ctx) with _compileSet := true } }))
        else compileRequests env ctx ico rest store
      else
        compileRequests env ctx ico rest
          (updateTexture store ref (Texture.compileGLObjects env ref ctx))
    else compileRequests env ctx ico rest store

/-- A texture object that is not compiled, with room for one context. -/
def uncompiledTexture : Texture :=
  { _image := some ⟨true, GL_RGBA, GL_RGBA8, 1⟩, uriImage := none, _gc := [default] }

/-- An arena for one context, not yet applied, in which one uncompiled texture
is registered. -/
def sampleFresh : TextureArena :=
  { store := [uncompiledTexture], _textures := [0], _gc := [default] }

/-- Whether texture `ref` has a compile set in context `ctx`. -/
def compileSetOf (store : List Texture) (ref ctx : Nat) : Bool :=
  ((store.getD ref default).get ctx)._compileSet

/-- The compile requests made by `apply(state)` in context `ctx`. -/
def TextureArena.applyCompileRequests (env : GLEnv) (ctx : Nat) (ico : Bool)
    (a : TextureArena) : List Nat :=
  if a._textures.isEmpty then []
  else
    compileRequests env ctx (if !(toAddAtApply ctx a).isEmpty then ico else false)
      (toAddAtApply ctx a) a.store

/-- The image `add` finds for a texture: the one in memory, or else the one its
URI loads (`none` when the load fails). -/
def imageForAdd (a : TextureArena) (ref : Nat) : Option Image :=
  if (a.store.getD ref default)._image.isSome then (a.store.getD ref default)._image
  else (a.store.getD ref default).uriImage

/-- A texture object without an image whose URI loads nothing. -/
def unloadableTexture : Texture := { _image := none, uriImage := none, _gc := [default] }

/-- An arena with two contexts, the first in use and the second not, in which
texture 0 is registered; the store also holds texture 1, with a loaded image,
and texture 2, which cannot be loaded. -/
def sampleTwoContexts : TextureArena :=
  { store := [sampleTexture, sampleTexture, unloadableTexture], _textures := [0],
    _gc := [{ (default : GCState) with _inUse := true }, default] }

/-- The internal format `GL_R8`. -/
def GL_R8 : Nat := 0x8229

/-- A texture object whose loaded image has one channel (`GL_RED`), is not
compressed and already has the sized internal format `GL_R8`. -/
def sizedRedTexture : Texture :=
  { _image := some ⟨false, GL_RED, GL_R8, 1⟩, uriImage := none, _gc := [default] }

/-- The internal format `GL_COMPRESSED_RGB_S3TC_DXT1_EXT`. -/
def GL_COMPRESSED_RGB_S3TC_DXT1_EXT : Nat := 0x83F0
/-- The internal format `GL_COMPRESSED_RGBA_S3TC_DXT5_EXT`. -/
def GL_COMPRESSED_RGBA_S3TC_DXT5_EXT : Nat := 0x83F3
/-- The parameter name `GL_TEXTURE_MAG_FILTER`. -/
def GL_TEXTURE_MAG_FILTER : Nat := 0x2800
/-- The parameter name `GL_TEXTURE_MIN_FILTER`. -/
def GL_TEXTURE_MIN_FILTER : Nat := 0x2801
/-- The parameter name `GL_TEXTURE_WRAP_S`. -/
def GL_TEXTURE_WRAP_S : Nat := 0x2802
/-- The parameter name `GL_TEXTURE_WRAP_T`. -/
def GL_TEXTURE_WRAP_T : Nat := 0x2803
/-- The filter `GL_LINEAR`. -/
def GL_LINEAR : Nat := 0x2601
/-- The filter `GL_LINEAR_MIPMAP_LINEAR`. -/
def GL_LINEAR_MIPMAP_LINEAR : Nat := 0x2703
/-- The wrap mode `GL_REPEAT`. -/
def GL_REPEAT : Nat := 0x2901

/-- A call into the GL driver made by `Texture::compileGLObjects` on the target
`GL_TEXTURE_2D_ARRAY`. -/
inductive TexCall where
  | bind
  | texStorage3D (levels internalFormat : Nat)
  | texParameteri (pname param : Nat)
  | getHandle
  | compressedTexSubImage3D (mipLevel slice : Nat)
  | texSubImage3D (mipLevel slice : Nat)
  | generateMipmap
deriving DecidableEq

/-- Whether a call sets a texture parameter. -/
def TexCall.isParameter : TexCall → Bool
  | .texParameteri _ _ => true
  | _ => false

/-- Whether a call uploads the pixels of one slice of one mip level. -/
def TexCall.isUpload : TexCall → Bool
  | .compressedTexSubImage3D _ _ => true
  | .texSubImage3D _ _ => true
  | _ => false

/-- The internal format `compileGLObjects` allocates the storage with. -/
def storageInternalFormat (img : Image) : Nat :=
  if img.compressed then img.internalTextureFormat
  else if img.pixelFormat = GL_RGB then GL_COMPRESSED_RGB_S3TC_DXT1_EXT
  else if img.pixelFormat = GL_RGBA then GL_COMPRESSED_RGBA_S3TC_DXT5_EXT
  else GL_RGBA8

/-- The upload loops of `compileGLObjects`: for every mip level, every slice. -/
def uploadCalls (img : Image) (slices : Nat) : List TexCall :=
  (List.range img.numMipmapLevels).flatMap (fun mipLevel =>
    (List.range slices).map (fun r =>
      if img.compressed then TexCall.compressedTexSubImage3D mipLevel r
      else TexCall.texSubImage3D mipLevel r))

/-- The driver calls of `Texture::compileGLObjects(state)`, in order, for an
image with `slices` slices (`_image->r()`). -/
def compileGLCalls (img : Image) (slices : Nat) : List TexCall :=
  let numMipLevels := img.numMipmapLevels
  let useGPUmipmaps := decide (numMipLevels ≤ 1)
  [TexCall.bind, TexCall.texStorage3D numMipLevels (storageInternalFormat img),
   TexCall.texParameteri GL_TEXTURE_MIN_FILTER GL_LINEAR_MIPMAP_LINEAR,
   TexCall.texParameteri GL_TEXTURE_MAG_FILTER GL_LINEAR,
   TexCall.texParameteri GL_TEXTURE_WRAP_S GL_REPEAT,
   TexCall.texParameteri GL_TEXTURE_WRAP_T GL_REPEAT,
   TexCall.getHandle] ++
  uploadCalls img slices ++
  (if useGPUmipmaps then [TexCall.generateMipmap] else [])

end Arena

/-! # Theorems -/

namespace Rex

/-! ## Scale/bias matrices -/

/-- Entries of the scale/bias table. -/
lemma scaleBias_apply (q i j : Fin 4) :
    scaleBias q i j =
      if i = 3 then
        (if j = 0 then (specOffset q).1 else if j = 1 then (specOffset q).2
          else if j = 3 then 1 else 0)
      else if i = j then (if i = 2 then 1 else 1/2) else 0 := by
  fin_cases q <;> fin_cases i <;> fin_cases j <;> rfl

/-- Entries of the product with a scale/bias matrix: the first two rows are
halved, the third is kept, and the offset row adds the offsets times the first
two rows. -/
lemma scaleBias_mul_apply (q : Fin 4) (M : Matrixf) (j : Fin 4) :
    (scaleBias q * M) 0 j = M 0 j / 2 ∧
    (scaleBias q * M) 1 j = M 1 j / 2 ∧
    (scaleBias q * M) 2 j = M 2 j ∧
    (scaleBias q * M) 3 j = (specOffset q).1 * M 0 j + (specOffset q).2 * M 1 j + M 3 j := by
  simp only [Matrix.mul_apply, Fin.sum_univ_four, scaleBias_apply]
  fin_cases q <;> simp [specOffset] <;> ring_nf <;> simp

/-- The image of a texture coordinate under a scale/bias matrix. -/
lemma vecMul_scaleBias (q : Fin 4) (u v : ℚ) :
    Matrix.vecMul (texCoord u v) (scaleBias q) =
      texCoord (u / 2 + (specOffset q).1) (v / 2 + (specOffset q).2) := by
  funext i
  simp only [Matrix.vecMul, Matrix.dotProduct, Fin.sum_univ_four, scaleBias_apply, texCoord]
  fin_cases q <;> fin_cases i <;> simp [specOffset] <;> ring

/-- C5: for every quadrant q and every rational (u,v) in the unit square, the
row vector (u,v,0,1) times scaleBias[q] is (u/2 + ox, v/2 + oy, 0, 1) with
offsets (0,1/2), (1/2,1/2), (0,0), (1/2,0) for q = 0,1,2,3; the image lies in
the quarter square of side 1/2 at that offset, the four offsets are pairwise
distinct, and every point of the unit square is the image of some point of the
unit square under some quadrant. -/
theorem scaleBias_maps_unit_square_to_quadrant :
    (specOffset 0 = (0, 1/2) ∧ specOffset 1 = (1/2, 1/2) ∧
      specOffset 2 = (0, 0) ∧ specOffset 3 = (1/2, 0)) ∧
    (∀ (q : Fin 4) (u v : ℚ), 0 ≤ u → u ≤ 1 → 0 ≤ v → v ≤ 1 →
      ∃ x y : ℚ, Matrix.vecMul (texCoord u v) (scaleBias q) = texCoord x y ∧
        x = u / 2 + (specOffset q).1 ∧ y = v / 2 + (specOffset q).2 ∧
        (specOffset q).1 ≤ x ∧ x ≤ (specOffset q).1 + 1 / 2 ∧
        (specOffset q).2 ≤ y ∧ y ≤ (specOffset q).2 + 1 / 2) ∧
    (∀ q q2 : Fin 4, q ≠ q2 → specOffset q ≠ specOffset q2) ∧
    (∀ x y : ℚ, 0 ≤ x → x ≤ 1 → 0 ≤ y → y ≤ 1 →
      ∃ (q : Fin 4) (u v : ℚ), 0 ≤ u ∧ u ≤ 1 ∧ 0 ≤ v ∧ v ≤ 1 ∧
        Matrix.vecMul (texCoord u v) (scaleBias q) = texCoord x y) := by
  refine ⟨⟨rfl, rfl, rfl, rfl⟩, ?_, ?_, ?_⟩
  · intro q u v hu0 hu1 hv0 hv1
    refine ⟨_, _, vecMul_scaleBias q u v, rfl, rfl, ?_, ?_, ?_, ?_⟩ <;> linarith
  · intro q q2 h
    fin_cases q <;> fin_cases q2 <;> simp [specOffset, Prod.ext_iff] at h ⊢
  · intro x y hx0 hx1 hy0 hy1
    by_cases hx : x ≤ 1 / 2
    · by_cases hy : y ≤ 1 / 2
      · refine ⟨2, 2 * x, 2 * y, by linarith, by linarith, by linarith, by linarith, ?_⟩
        rw [vecMul_scaleBias]
        exact congrArg₂ texCoord (by simp only [specOffset]; ring) (by simp only [specOffset]; ring)
      · refine ⟨0, 2 * x, 2 * y - 1, by linarith, by linarith, by linarith, by linarith, ?_⟩
        rw [vecMul_scaleBias]
        exact congrArg₂ texCoord (by simp only [specOffset]; ring) (by simp only [specOffset]; ring)
    · by_cases hy : y ≤ 1 / 2
      · refine ⟨3, 2 * x - 1, 2 * y, by linarith, by linarith, by linarith, by linarith, ?_⟩
        rw [vecMul_scaleBias]
        exact congrArg₂ texCoord (by simp only [specOffset]; ring) (by simp only [specOffset]; ring)
      · refine ⟨1, 2 * x - 1, 2 * y - 1, by linarith, by linarith, by linarith, by linarith, ?_⟩
        rw [vecMul_scaleBias]
        exact congrArg₂ texCoord (by simp only [specOffset]; ring) (by simp only [specOffset]; ring)

/-- Witness for C5: the midpoint of the top edge goes to (3/4, 1) under the
matrix of quadrant 1. -/
theorem scaleBias_maps_unit_square_to_quadrant_witness :
    ∃ x y : ℚ, Matrix.vecMul (texCoord (1/2) 1) (scaleBias 1) = texCoord x y ∧
      x = 3/4 ∧ y = 1 := by
  obtain ⟨x, y, h, hx, hy, _⟩ :=
    scaleBias_maps_unit_square_to_quadrant.2.1 1 (1/2) 1
      (by norm_num) (by norm_num) (by norm_num) (by norm_num)
  refine ⟨x, y, h, ?_, ?_⟩
  · rw [hx]; norm_num [specOffset]
  · rw [hy]; norm_num [specOffset]

/-! ## Dormancy -/

/-- Unsigned subtraction agrees with subtraction of naturals when nothing wraps. -/
lemma usub32_of_le (a b : Nat) (ha : a < 2 ^ 32) (hb : b ≤ a) : usub32 a b = a - b := by
  unfold usub32
  have hb2 : b % 2 ^ 32 = b := Nat.mod_eq_of_lt (by omega)
  rw [hb2]
  omega

/-- C7: for every tile and clock reading whose frame is not before the last
traversal frame, isDormant() is true exactly when more than
max(minExpiryFrames, 3) frames and more than minExpiryTime seconds have passed
since the last traversal, both comparisons strict; a tile is not dormant in
the frame in which traverse stamped it, nor at exactly either threshold. -/
theorem isDormant_iff_both_thresholds_exceeded (ctx : EngineContext) (t : TileData)
    (hframe : ctx.clock.frame < 2 ^ 32) (hlast : t._lastTraversalFrame ≤ ctx.clock.frame) :
    (t.isDormant ctx = true ↔
      (ctx.clock.frame - t._lastTraversalFrame > max ctx.options.minExpiryFrames 3 ∧
        ctx.clock.time - t._lastTraversalTime > ctx.options.minExpiryTime)) ∧
    (t.touch ctx).isDormant ctx = false ∧
    (ctx.clock.frame = t._lastTraversalFrame → t.isDormant ctx = false) ∧
    (ctx.clock.frame - t._lastTraversalFrame = max ctx.options.minExpiryFrames 3 →
      t.isDormant ctx = false) ∧
    (ctx.clock.time - t._lastTraversalTime = ctx.options.minExpiryTime →
      t.isDormant ctx = false) := by
  have hsub := usub32_of_le ctx.clock.frame t._lastTraversalFrame hframe hlast
  have hiff : t.isDormant ctx = true ↔
      (ctx.clock.frame - t._lastTraversalFrame > max ctx.options.minExpiryFrames 3 ∧
        ctx.clock.time - t._lastTraversalTime > ctx.options.minExpiryTime) := by
    simp only [TileData.isDormant, hsub, Bool.and_eq_true, decide_eq_true_eq]
  have hfalse : ∀ {P : Prop}, (P → ¬ (ctx.clock.frame - t._lastTraversalFrame >
        max ctx.options.minExpiryFrames 3 ∧
        ctx.clock.time - t._lastTraversalTime > ctx.options.minExpiryTime)) →
      P → t.isDormant ctx = false := by
    intro P hP hp
    rw [← Bool.not_eq_true, hiff]
    exact hP hp
  refine ⟨hiff, ?_, ?_, ?_, ?_⟩
  · have h0 : usub32 ctx.clock.frame ctx.clock.frame = 0 := by
      rw [usub32_of_le _ _ hframe (le_refl _)]
      omega
    simp [TileData.isDormant, TileData.touch, h0]
  · refine hfalse ?_
    intro h hc
    have := hc.1
    have h3 : 3 ≤ max ctx.options.minExpiryFrames 3 := le_max_right _ _
    omega
  · refine hfalse ?_
    intro h hc
    have := hc.1
    omega
  · refine hfalse ?_
    intro h hc
    have := hc.2
    rw [h] at this
    exact lt_irrefl _ this

/-- Witness for C7: a tile last traversed at frame 2 and time 0 is dormant at
frame 10 and time 100 under an expiry of 0 frames (floor 3) and 5 seconds. -/
theorem isDormant_iff_both_thresholds_exceeded_witness :
    (sampleContext [] 10 100).clock.frame < 2 ^ 32 ∧
    ({ TileData.new (sampleContext [] 10 100) rootKey with
        _lastTraversalFrame := 2 } : TileData)._lastTraversalFrame ≤
      (sampleContext [] 10 100).clock.frame ∧
    ({ TileData.new (sampleContext [] 10 100) rootKey with
        _lastTraversalFrame := 2 } : TileData).isDormant (sampleContext [] 10 100) = true := by
  refine ⟨by decide, by decide, ?_⟩
  refine (isDormant_iff_both_thresholds_exceeded (sampleContext [] 10 100) _
    (by decide) (by decide)).1.mpr ⟨by decide, ?_⟩
  norm_num [sampleContext, sampleOptions, TileData.new, TileData.createGeometry]

/-! ## Zero or four children -/

/-- A successful attach loop adds one child per result. -/
lemma attachChildren_length (ctx : EngineContext) (d : TileData) (rs : List CreateChildResult) :
    ∀ (cs cs1 : List TileNode), attachChildren ctx d rs cs = .inl cs1 →
      cs1.length = cs.length + rs.length := by
  induction rs with
  | nil =>
    intro cs cs1 h
    simp [attachChildren] at h
    simp [← h]
  | cons r rest ih =>
    intro cs cs1 h
    unfold attachChildren at h
    cases hv : r.value with
    | none => simp [hv] at h
    | some child =>
      simp only [hv] at h
      have := ih _ _ h
      simp [setLastChild, addChild] at this
      simp [this]
      omega

/-- The synchronous loop adds one child per quadrant. -/
lemma createChildrenSync_length (ctx : EngineContext) (d : TileData) (qs : List (Fin 4)) :
    ∀ cs : List TileNode, (createChildrenSync ctx d qs cs).length = cs.length + qs.length := by
  induction qs with
  | nil => intro cs; simp [createChildrenSync]
  | cons q rest ih =>
    intro cs
    simp [createChildrenSync, ih]
    omega

/-- The guarded creation step keeps the shape of the tile. -/
lemma createChildrenIfNotReady_inv (ctx : EngineContext) (t t1 : TileNode)
    (hinv : ChildrenInv t) (h : t.createChildrenIfNotReady ctx = .ok t1) : ChildrenInv t1 := by
  obtain ⟨d, cs, rs⟩ := t
  unfold TileNode.createChildrenIfNotReady at h
  simp only [TileNode.d] at h
  cases hready : d._childrenReady with
  | true =>
    simp [hready] at h
    rw [← h]
    exact hinv
  | false =>
    simp only [hready, Bool.not_false, if_true] at h
    rcases hinv with ⟨_, hr, _⟩ | ⟨hlen, _, hres, hsync⟩
    · simp [TileNode.d, hready] at hr
    · simp only [TileNode.children, TileNode.createChildResults, TileNode.d] at hlen hres hsync
      have hcs : cs = [] := List.length_eq_zero.mp hlen
      subst hcs
      unfold TileNode.createChildren at h
      cases hasync : d._createChildAsync with
      | false =>
        have hrs : rs = [] := hsync hasync
        subst hrs
        simp [hasync] at h
        rw [← h]
        left
        simp [TileNode.setChildrenReady, TileNode.children, TileNode.d,
          TileNode.createChildResults, createChildrenSync_length]
      | true =>
        simp only [hasync, if_true] at h
        by_cases hempty : rs.isEmpty = true
        · simp [hempty, dispatchCreateChildJobs] at h
          have hrs : rs = [] := List.isEmpty_iff.mp hempty
          subst hrs
          rw [← h]
          right
          simp [TileNode.setChildrenReady, TileNode.children, TileNode.d,
            TileNode.createChildResults, hasync]
        · simp only [hempty] at h
          have hlen4 : rs.length = 4 := by
            rcases hres with h0 | h4
            · exact absurd (List.isEmpty_iff.mpr (List.length_eq_zero.mp h0)) hempty
            · exact h4
          by_cases hcount : ((rs.take 4).filter (fun r => r.available)).length = 4
          · simp only [hcount, if_true] at h
            cases hatt : attachChildren ctx d (rs.take 4) [] with
            | inl cs1 =>
              simp [hatt] at h
              have hl := attachChildren_length ctx d _ _ _ hatt
              rw [← h]
              left
              simp [TileNode.setChildrenReady, TileNode.children, TileNode.d,
                TileNode.createChildResults, hl, hlen4]
            | inr cs1 => simp [hatt] at h
          · simp [hcount] at h
            rw [← h]
            right
            have hne : rs ≠ [] := fun hh => hempty (List.isEmpty_iff.mpr hh)
            simp [TileNode.setChildrenReady, TileNode.children, TileNode.d,
              TileNode.createChildResults, hlen4, hasync, hne]

/-- The load step touches neither children, readiness, pending results nor the
creation mode. -/
lemma loadIf_inv (b : Bool) (t : TileNode) (hinv : ChildrenInv t) : ChildrenInv (t.loadIf b).1 := by
  obtain ⟨d, cs, rs⟩ := t
  unfold TileNode.loadIf
  by_cases hb : (d.dirty && b) = true
  · simp only [hb, if_true]
    unfold TileData.load TileData.processLoadQueue
    cases hq : d._loadQueue with
    | nil => simpa [ChildrenInv, TileNode.children, TileNode.d, TileNode.createChildResults] using hinv
    | cons op rest =>
      simp only
      split_ifs <;>
        simpa [ChildrenInv, TileNode.children, TileNode.d, TileNode.createChildResults] using hinv
  · simp only [hb]
    simpa using hinv

/-- The events of a cull call between the creation step and the load step:
the culler goes to the sub-tiles when the children are in range and ready, and
to the tile's own surface otherwise. -/
lemma cull_ok_cases (ctx : EngineContext) (culler : TerrainCuller) (parent : Option TileData)
    (t t1 : TileNode) (ret : Bool) (ev : List Event)
    (hvis : culler.surfaceVisible = true)
    (h : t.cull ctx culler parent = .ok (t1, ret, ev)) :
    ∃ (t0 : TileNode) (canLoad : Bool) (ev1 : List Event),
      ((t0 = t ∧ ev1 = []) ∨
        (t.createChildrenIfNotReady ctx = .ok t0 ∧ ev1 = [Event.createChildren] ∧
          t.d.shouldSubDivide ctx culler = true ∧ culler.inheritViewpoint = false ∧
          canLoad = false)) ∧
      t1 = (t0.loadIf canLoad).1 ∧ ret = true ∧
      ev = ev1 ++
        (if t.d.shouldSubDivide ctx culler = true ∧ t0.d._childrenReady = true then
          t0.subTileKeys.map Event.acceptChild else [Event.acceptSurface]) ++
        (t0.loadIf canLoad).2 := by
  unfold TileNode.cull at h
  simp only [hvis, Bool.not_true, Bool.false_eq_true, if_false] at h
  split at h
  · simp at h
  · rename_i progressiveBlock hblock
    by_cases hrange : t.d.shouldSubDivide ctx culler = true
    · simp only [hrange, if_true] at h
      by_cases hcreate : (!t.d._childrenReady &&
          (if culler.inheritViewpoint = true then false else true)) = true
      · simp only [hcreate, if_true] at h
        cases hc : t.createChildrenIfNotReady ctx with
        | nullDeref t2 => simp [hc] at h
        | ok t0 =>
          simp only [hc] at h
          have hiv : culler.inheritViewpoint = false := by
            cases hh : culler.inheritViewpoint with
            | false => rfl
            | true => simp [hh] at hcreate
          injection h with h
          simp only [Prod.mk.injEq] at h
          obtain ⟨h1, h2, h3⟩ := h
          refine ⟨t0, false, [Event.createChildren], Or.inr ⟨rfl, rfl, hrange, hiv, rfl⟩,
            h1.symm, h2.symm, ?_⟩
          rw [← h3]
          by_cases hr : t0.d._childrenReady = true <;> simp [hr, hrange]
      · simp only [hcreate] at h
        injection h with h
        simp only [Prod.mk.injEq] at h
        obtain ⟨h1, h2, h3⟩ := h
        refine ⟨t, _, [], Or.inl ⟨rfl, rfl⟩, h1.symm, h2.symm, ?_⟩
        rw [← h3]
        by_cases hr : t.d._childrenReady = true <;> simp [hr, hrange]
    · simp only [hrange] at h
      injection h with h
      simp only [Prod.mk.injEq] at h
      obtain ⟨h1, h2, h3⟩ := h
      refine ⟨t, _, [], Or.inl ⟨rfl, rfl⟩, h1.symm, h2.symm, ?_⟩
      rw [← h3]
      simp [hrange]

/-- Pending results finishing keep the shape of the tile. -/
lemma resolveCreateChild_inv (i : Nat) (value : Option TileData) (t : TileNode)
    (hinv : ChildrenInv t) : ChildrenInv (t.resolveCreateChild i value) := by
  obtain ⟨d, cs, rs⟩ := t
  cases hg : rs.get? i with
  | none =>
    simp only [TileNode.resolveCreateChild, hg]
    exact hinv
  | some r =>
    simp only [TileNode.resolveCreateChild, hg]
    have hi : i < rs.length := by
      rcases Nat.lt_or_ge i rs.length with h | h
      · exact h
      · rw [List.get?_eq_none.mpr h] at hg
        cases hg
    rcases hinv with ⟨_, _, hres⟩ | ⟨hlen, hr, hres, hsync⟩
    · simp only [TileNode.createChildResults] at hres
      subst hres
      simp at hi
    · right
      simp only [TileNode.children, TileNode.d, TileNode.createChildResults] at *
      refine ⟨hlen, hr, by simpa using hres, ?_⟩
      intro hs
      have := hsync hs
      subst this
      simp at hi

/-- Every reachable tile has the shape `ChildrenInv`. -/
lemma reachable_inv (t : TileNode) (h : Reachable t) : ChildrenInv t := by
  induction h with
  | fresh d hd =>
    right
    simp [TileNode.children, TileNode.d, TileNode.createChildResults, hd]
  | cull ctx culler parent t t1 ret ev _ hstep ih =>
    by_cases hvis : culler.surfaceVisible = true
    · obtain ⟨t0, canLoad, ev1, hpre, h1, _, _⟩ :=
        cull_ok_cases ctx culler parent t t1 ret ev hvis hstep
      rw [h1]
      apply loadIf_inv
      rcases hpre with ⟨h0, _⟩ | ⟨hc, _⟩
      · rw [h0]; exact ih
      · exact createChildrenIfNotReady_inv ctx t t0 ih hc
    · unfold TileNode.cull at hstep
      simp only [Bool.not_eq_true] at hvis
      simp [hvis] at hstep
      rw [← hstep.1]
      exact ih
  | subdivide ctx t t1 _ hstep ih =>
    unfold TileNode.subdivide at hstep
    split_ifs at hstep with hl
    · exact createChildrenIfNotReady_inv ctx t t1 ih hstep
    · injection hstep with hstep
      rw [← hstep]
      exact ih
  | removeSubTiles t _ _ =>
    obtain ⟨d, cs, rs⟩ := t
    right
    simp [TileNode.removeSubTiles, TileNode.children, TileNode.d, TileNode.createChildResults]
  | resolve i value t _ ih => exact resolveCreateChild_inv i value t ih

/-- C1: in every state reachable from a freshly constructed tile (no children,
children not ready, no pending results; asynchronous or synchronous creation
mode) by cull calls, subdivide(), removeSubTiles() and creation jobs finishing
in any pattern, the tile has exactly 0 or exactly 4 children, and
childrenReady is true only when it has 4. -/
theorem reachable_zero_or_four_children (t : TileNode) (h : Reachable t) :
    (t.getNumChildren = 0 ∨ t.getNumChildren = 4) ∧
    (t.d._childrenReady = true → t.getNumChildren = 4) := by
  rcases reachable_inv t h with ⟨hlen, _, _⟩ | ⟨hlen, hr, _, _⟩
  · exact ⟨Or.inr hlen, fun _ => hlen⟩
  · refine ⟨Or.inl hlen, fun hr2 => ?_⟩
    rw [hr] at hr2
    cases hr2

/-- Witness for C1: a synchronous root tile after subdivide() is reachable,
ready, and has four children. -/
theorem reachable_zero_or_four_children_witness :
    Reachable sampleSubdivided ∧ sampleSubdivided.d._childrenReady = true ∧
      sampleSubdivided.getNumChildren = 4 := by
  have hreach : Reachable sampleSubdivided :=
    Reachable.subdivide (sampleContext [] 0 0) sampleSyncTile sampleSubdivided
      (Reachable.fresh _ rfl) rfl
  exact ⟨hreach, rfl, (reachable_zero_or_four_children sampleSubdivided hreach).2 rfl⟩

/-! ## Children or surface in `cull` -/

/-- The load step hands nothing to the culler's traversal: its events are a
dispatch, a submission to the merger, or nothing. -/
lemma loadIf_events (b : Bool) (t : TileNode) :
    (t.loadIf b).2 = [] ∨ (t.loadIf b).2 = [Event.dispatchLoad] ∨
      (t.loadIf b).2 = [Event.submitToMerger] := by
  obtain ⟨d, cs, rs⟩ := t
  unfold TileNode.loadIf
  by_cases hb : (d.dirty && b) = true
  · simp only [hb, if_true]
    unfold TileData.load TileData.processLoadQueue
    cases hq : d._loadQueue with
    | nil => simp
    | cons op rest =>
      simp only
      split_ifs <;> simp
  · simp [hb]

/-- A newly constructed tile creates its children asynchronously. -/
lemma new_createChildAsync (ctx : EngineContext) (key : TileKey) :
    (TileData.new ctx key)._createChildAsync = true := by
  unfold TileData.new TileData.createGeometry
  split_ifs <;> rfl

/-- C2 (the code at the failing input): on a new tile whose four creation
results are all available, the second one holding the null child of a
cancelled job, createChildren does not return false with nothing attached: it
attaches and initialises the first child and then stops at the dereference of
the null child, the pending results still in place. -/
theorem createChildren_null_result_partial_attach (ctx : EngineContext) (key : TileKey)
    (c0 c2 c3 : TileData) :
    (TileNode.mk (TileData.new ctx key) []
        [⟨key.createChildKey 0, true, some c0⟩, ⟨key.createChildKey 1, true, none⟩,
         ⟨key.createChildKey 2, true, some c2⟩, ⟨key.createChildKey 3, true, some c3⟩]).createChildren
        ctx =
      .nullDeref (.mk (TileData.new ctx key)
        [.mk ((c0.initializeData ctx (some (TileData.new ctx key))).refreshAllLayers ctx) [] []]
        [⟨key.createChildKey 0, true, some c0⟩, ⟨key.createChildKey 1, true, none⟩,
         ⟨key.createChildKey 2, true, some c2⟩, ⟨key.createChildKey 3, true, some c3⟩]) := by
  simp [TileNode.createChildren, new_createChildAsync, attachChildren, addChild, setLastChild]

/-! ## Inheritance at creation -/

/-- Refreshing the elevation raster leaves the render model alone. -/
lemma updateElevationRaster_renderModel (t : TileData) :
    t.updateElevationRaster._renderModel = t._renderModel := by
  unfold TileData.updateElevationRaster TileData.setElevationRaster
  simp only
  split_ifs <;> (try rfl) <;> (cases t._surface <;> rfl)

/-- The loop of `initializeData` appends, in the parent's order, the initialised
copy of every parent pass in legal range. -/
lemma initializePasses_eq (ctx : EngineContext) (t : TileData) (q : Fin 4)
    (ps : List RenderingPass) :
    ∀ (p : Nat) (mine : List RenderingPass),
      initializePasses ctx t q p ps mine =
        mine ++ ((ps.enumFrom p).filter (fun ip => t.passInLegalRange ctx ip.2)).map
          (fun ip => initializePass ctx q ip.1 ip.2) := by
  induction ps with
  | nil => intro p mine; simp [initializePasses]
  | cons pp rest ih =>
    intro p mine
    unfold initializePasses
    by_cases hl : t.passInLegalRange ctx pp = true
    · simp [hl, ih, List.enumFrom, List.filter]
    · simp only [Bool.not_eq_true] at hl
      simp [hl, ih, List.enumFrom, List.filter]

/-- The samplers of an initialised pass, slot by slot. -/
lemma initializePass_sampler (ctx : EngineContext) (q : Fin 4) (p : Nat) (pp : RenderingPass)
    (s : Nat) (hs : s < pp._samplers.length) :
    (initializePass ctx q p pp).sampler s =
      if isActive ctx.bindings SamplerBinding.COLOR_PARENT = true ∧ s = SamplerBinding.COLOR_PARENT
      then (pp.sampler SamplerBinding.COLOR).preMultBy (scaleBias q)
      else (pp.sampler s).preMultBy (scaleBias q) := by
  unfold initializePass RenderingPass.sampler
  by_cases hcp : isActive ctx.bindings SamplerBinding.COLOR_PARENT = true
  · simp only [hcp, if_true, true_and]
    by_cases hs1 : s = SamplerBinding.COLOR_PARENT
    · subst hs1
      have h0 : SamplerBinding.COLOR < pp._samplers.length := by
        simp only [SamplerBinding.COLOR_PARENT, SamplerBinding.COLOR] at *
        omega
      simp [List.getD_eq_getElem?_getD, List.getElem?_set, hs, h0]
    · simp only [if_neg hs1]
      have hne : SamplerBinding.COLOR_PARENT ≠ s := fun h => hs1 h.symm
      simp [List.getD_eq_getElem?_getD, List.getElem?_set, hs, hne]
  · simp only [hcp, false_and, if_false]
    simp [List.getD_eq_getElem?_getD, hs]

/-- C6 (amended): after initializeData on a child with parent `parent`, the
child's passes are its previous ones (none for a new child) followed by the
parent's passes in legal range for the child's key, in the parent's order;
each copied pass keeps UID and layer, remembers its parent pass, and every
sampler keeps the parent's texture and revision with matrix
scaleBias[q] * (parent's matrix), except that with the COLOR_PARENT binding
active the COLOR_PARENT slot is a copy of the child's COLOR slot; the shared
samplers are the parent's, scaled the same way; for quadrant 2 the offset row
of every matrix is the parent's and the two scale rows are halved. -/
theorem initializeData_copies_parent_scaled (ctx : EngineContext) (parent t : TileData) :
    (t.initializeData ctx (some parent))._renderModel._passes =
      t._renderModel._passes ++
        ((parent._renderModel._passes.enumFrom 0).filter
          (fun ip => t.passInLegalRange ctx ip.2)).map
          (fun ip => initializePass ctx t._key.getQuadrant ip.1 ip.2) ∧
    (∀ (p : Nat) (pp : RenderingPass),
      (initializePass ctx t._key.getQuadrant p pp)._sourceUID = pp._sourceUID ∧
      (initializePass ctx t._key.getQuadrant p pp)._layer = pp._layer ∧
      (initializePass ctx t._key.getQuadrant p pp)._tileLayer = pp._tileLayer ∧
      (initializePass ctx t._key.getQuadrant p pp)._parent = some p ∧
      (initializePass ctx t._key.getQuadrant p pp)._samplers.length = pp._samplers.length ∧
      ∀ s, s < pp._samplers.length →
        (initializePass ctx t._key.getQuadrant p pp).sampler s =
          if isActive ctx.bindings SamplerBinding.COLOR_PARENT = true ∧
              s = SamplerBinding.COLOR_PARENT
          then (pp.sampler SamplerBinding.COLOR).preMultBy (scaleBias t._key.getQuadrant)
          else (pp.sampler s).preMultBy (scaleBias t._key.getQuadrant)) ∧
    (t.initializeData ctx (some parent))._renderModel._sharedSamplers =
      parent._renderModel._sharedSamplers.map
        (fun s => s.preMultBy (scaleBias t._key.getQuadrant)) ∧
    (∀ (s : Sampler) (q : Fin 4),
      (s.preMultBy (scaleBias q))._texture = s._texture ∧
      (s.preMultBy (scaleBias q))._revision = s._revision ∧
      (s.preMultBy (scaleBias q))._futureTexture = s._futureTexture ∧
      (s.preMultBy (scaleBias q))._matrix = scaleBias q * s._matrix) ∧
    (∀ (M : Matrixf) (j : Fin 4),
      (scaleBias 2 * M) 3 j = M 3 j ∧ (scaleBias 2 * M) 0 j = M 0 j / 2 ∧
      (scaleBias 2 * M) 1 j = M 1 j / 2 ∧ (scaleBias 2 * M) 2 j = M 2 j) := by
  refine ⟨?_, ?_, ?_, ?_, ?_⟩
  · unfold TileData.initializeData
    simp only
    split_ifs
    · rw [updateElevationRaster_renderModel]
      exact initializePasses_eq ctx t _ _ 0 _
    · exact initializePasses_eq ctx t _ _ 0 _
  · intro p pp
    refine ⟨?_, ?_, ?_, ?_, ?_, ?_⟩
    · simp [initializePass]
    · simp [initializePass]
    · simp [initializePass]
    · simp [initializePass]
    · unfold initializePass
      simp only
      split_ifs <;> simp
    · intro s hs
      exact initializePass_sampler ctx _ p pp s hs
  · unfold TileData.initializeData
    simp only
    split_ifs
    · rw [updateElevationRaster_renderModel]
    · rfl
  · intro s q
    exact ⟨rfl, rfl, rfl, rfl⟩
  · intro M j
    obtain ⟨h0, h1, h2, h3⟩ := scaleBias_mul_apply 2 M j
    refine ⟨?_, h0, h1, h2⟩
    rw [h3]
    simp [specOffset]

/-- C6 (counterexample): with the COLOR_PARENT binding active and a parent pass
whose COLOR sampler holds texture 1 and whose COLOR_PARENT sampler holds
texture 2, the child's COLOR_PARENT sampler after initializeData holds
texture 1: it does not keep the texture of the parent's sampler in that slot. -/
theorem initializeData_colorParent_not_kept :
    ((sampleTile ⟨1, 0, 0⟩ []).initializeData (sampleContext (sampleBindings true true) 0 0)
        (some (sampleTile rootKey [samplePass 1 (ownSampler 1 0) (ownSampler 2 0)]))
      )._renderModel._passes.map (fun p => (p.sampler SamplerBinding.COLOR_PARENT)._texture)
      = [some 1] ∧
    (sampleTile rootKey [samplePass 1 (ownSampler 1 0) (ownSampler 2 0)])._renderModel._passes.map
      (fun p => (p.sampler SamplerBinding.COLOR_PARENT)._texture) = [some 2] := by
  constructor
  · simp [TileData.initializeData, updateElevationRaster_renderModel, initializePasses,
      initializePass, sampleTile, samplePass, ownSampler, sampleContext, sampleBindings,
      isActive, TileData.passInLegalRange, RenderingPass.sampler, SamplerBinding.COLOR_PARENT,
      SamplerBinding.COLOR, SamplerBinding.ELEVATION, Sampler.preMultBy]
  · simp [sampleTile, samplePass, ownSampler, RenderingPass.sampler, SamplerBinding.COLOR_PARENT]

end Rex

namespace Rex

/-! ## Index loops that erase while they iterate -/

/-- The element right after a prefix. -/
lemma get_append_length {α : Type} (pre : List α) (x : α) (rest : List α)
    (h : pre.length < (pre ++ x :: rest).length) :
    (pre ++ x :: rest).get ⟨pre.length, h⟩ = x := by
  induction pre with
  | nil => rfl
  | cons a pre ih => simpa using ih (by simp)

/-- Overwriting the element right after a prefix. -/
lemma set_append_length {α : Type} (pre : List α) (x a : α) (rest : List α) :
    (pre ++ x :: rest).set pre.length a = pre ++ a :: rest := by
  induction pre with
  | nil => rfl
  | cons b pre ih => simp [ih]

/-- Erasing the element right after a prefix. -/
lemma eraseIdx_append_length {α : Type} (pre : List α) (x : α) (rest : List α) :
    (pre ++ x :: rest).eraseIdx pre.length = pre ++ rest := by
  induction pre with
  | nil => rfl
  | cons b pre ih => simp [ih]

/-- The first loop of `refreshInheritedData` keeps exactly the passes that own
their texture or still have a parent pass, and counts the others. -/
lemma removeOrphanedPasses_eq (parentModel : TileRenderModel) (post : List RenderingPass) :
    ∀ (pre : List RenderingPass) (changes : Nat),
      removeOrphanedPasses parentModel (pre ++ post) pre.length changes =
        (pre ++ post.filter (fun myPass =>
            !(myPass.inheritsTexture && (parentModel.getPass myPass._sourceUID).isNone)),
         changes + (post.filter (fun myPass =>
            myPass.inheritsTexture && (parentModel.getPass myPass._sourceUID).isNone)).length) := by
  induction post with
  | nil =>
    intro pre changes
    rw [removeOrphanedPasses]
    simp
  | cons x rest ih =>
    intro pre changes
    rw [removeOrphanedPasses]
    have hlt : pre.length < (pre ++ x :: rest).length := by simp
    rw [dif_pos hlt]
    simp only [get_append_length pre x rest hlt]
    by_cases hx : (x.inheritsTexture && (parentModel.getPass x._sourceUID).isNone) = true
    · rw [if_pos hx, eraseIdx_append_length, ih pre (changes + 1)]
      simp [List.filter, hx]
      omega
    · rw [if_neg hx]
      have hsplit : pre ++ x :: rest = (pre ++ [x]) ++ rest := by simp
      have hlen : pre.length + 1 = (pre ++ [x]).length := by simp
      rw [hsplit, hlen, ih (pre ++ [x]) changes]
      simp only [Bool.not_eq_true] at hx
      simp [List.filter, hx]

end Rex

namespace Rex

/-! ## Counting changes in `refreshInheritedData` -/

/-- The first loop never lowers the count, and leaves the passes alone when it
counts nothing. -/
lemma removeOrphanedPasses_count (parentModel : TileRenderModel) (passes : List RenderingPass)
    (changes : Nat) :
    changes ≤ (removeOrphanedPasses parentModel passes 0 changes).2 ∧
    ((removeOrphanedPasses parentModel passes 0 changes).2 = changes →
      (removeOrphanedPasses parentModel passes 0 changes).1 = passes) := by
  have h := removeOrphanedPasses_eq parentModel passes [] changes
  simp only [List.nil_append, List.length_nil] at h
  rw [h]
  refine ⟨Nat.le_add_right _ _, ?_⟩
  intro hc
  simp only at hc
  have hnil : passes.filter (fun myPass =>
      myPass.inheritsTexture && (parentModel.getPass myPass._sourceUID).isNone) = [] := by
    apply List.length_eq_zero.mp
    omega
  simp only
  rw [List.filter_eq_self]
  intro a ha
  have hna := List.filter_eq_nil_iff.mp hnil a ha
  cases hb : (a.inheritsTexture && (parentModel.getPass a._sourceUID).isNone) with
  | true => exact absurd hb hna
  | false => rfl

/-- The COLOR step changes the pass only when it counts a change. -/
lemma refreshColor_zero (ctx : EngineContext) (q : Fin 4) (parentPass myPass : RenderingPass)
    (h : (refreshColor ctx q parentPass myPass).2 = 0) :
    (refreshColor ctx q parentPass myPass).1 = myPass := by
  unfold refreshColor at h ⊢
  by_cases ha : isActive ctx.bindings SamplerBinding.COLOR = true
  · simp only [ha, if_true] at h ⊢
    by_cases hi : (myPass.sampler SamplerBinding.COLOR).inheritsTexture = true
    · simp [hi] at h
    · simp [hi]
  · simp [ha]

/-- The COLOR_PARENT step changes the pass only when it counts a change. -/
lemma refreshColorParent_zero (ctx : EngineContext) (t : TileData) (q : Fin 4)
    (parentPass myPass : RenderingPass)
    (h : (refreshColorParent ctx t q parentPass myPass).2 = 0) :
    (refreshColorParent ctx t q parentPass myPass).1 = myPass := by
  unfold refreshColorParent at h ⊢
  by_cases ha : isActive ctx.bindings SamplerBinding.COLOR_PARENT = true
  · simp only [ha, if_true] at h ⊢
    by_cases hd : (myPass.sampler SamplerBinding.COLOR_PARENT)._texture ≠
          (parentPass.sampler SamplerBinding.COLOR)._texture ∨
        (myPass.sampler SamplerBinding.COLOR_PARENT)._matrix ≠
          preMult (parentPass.sampler SamplerBinding.COLOR)._matrix (scaleBias q) ∨
        (myPass.sampler SamplerBinding.COLOR_PARENT)._revision ≠
          (parentPass.sampler SamplerBinding.COLOR)._revision
    · rw [if_pos hd] at h
      split_ifs at h
    · rw [if_neg hd]
  · simp [ha]

/-- Writing back the pass an index already holds changes nothing. -/
lemma set_getD_self_pass (l : List RenderingPass) (i : Nat) :
    l.set i (l.getD i default) = l := by
  apply List.ext_getElem?
  intro n
  rw [List.getElem?_set]
  by_cases hn : i = n
  · subst hn
    by_cases hi : i < l.length
    · simp [hi, List.getD_eq_getElem?_getD, List.getElem?_eq_getElem hi]
    · simp [hi]
      omega
  · simp [hn]

/-- One iteration of the second loop never lowers the count, and leaves the
passes alone when it counts nothing. -/
lemma refreshPass_count (ctx : EngineContext) (t : TileData) (q : Fin 4) (p : Nat)
    (parentPass : RenderingPass) (myPasses : List RenderingPass) (changes : Nat) :
    changes ≤ (refreshPass ctx t q p parentPass myPasses changes).2 ∧
    ((refreshPass ctx t q p parentPass myPasses changes).2 = changes →
      (refreshPass ctx t q p parentPass myPasses changes).1 = myPasses) := by
  unfold refreshPass
  cases hidx : getPassIdx myPasses parentPass._sourceUID with
  | none =>
    simp only
    split_ifs
    · exact ⟨Nat.le_add_right _ _, fun h => by simp at h⟩
    · exact ⟨le_refl _, fun _ => rfl⟩
  | some i =>
    simp only
    refine ⟨by omega, ?_⟩
    intro h
    have h1 : (refreshColor ctx q parentPass (myPasses.getD i default)).2 = 0 := by omega
    have h2 : (refreshColorParent ctx t q parentPass
        (refreshColor ctx q parentPass (myPasses.getD i default)).1).2 = 0 := by omega
    rw [refreshColorParent_zero ctx t q parentPass _ h2, refreshColor_zero ctx q parentPass _ h1]
    exact set_getD_self_pass myPasses i

/-- The second loop never lowers the count, and leaves the passes alone when it
counts nothing. -/
lemma refreshPasses_count (ctx : EngineContext) (t : TileData) (q : Fin 4)
    (parentPasses : List RenderingPass) :
    ∀ (p : Nat) (myPasses : List RenderingPass) (changes : Nat),
      changes ≤ (refreshPasses ctx t q p parentPasses myPasses changes).2 ∧
      ((refreshPasses ctx t q p parentPasses myPasses changes).2 = changes →
        (refreshPasses ctx t q p parentPasses myPasses changes).1 = myPasses) := by
  induction parentPasses with
  | nil => intro p myPasses changes; simp [refreshPasses]
  | cons pp rest ih =>
    intro p myPasses changes
    unfold refreshPasses
    simp only
    obtain ⟨hle1, hz1⟩ := refreshPass_count ctx t q p pp myPasses changes
    obtain ⟨hle2, hz2⟩ := ih (p + 1) (refreshPass ctx t q p pp myPasses changes).1
      (refreshPass ctx t q p pp myPasses changes).2
    refine ⟨le_trans hle1 hle2, ?_⟩
    intro h
    have h1 : (refreshPass ctx t q p pp myPasses changes).2 = changes := by omega
    rw [hz2 (by omega), hz1 h1]

end Rex

namespace Rex

/-- Refreshing the elevation raster touches nothing but the surface. -/
lemma updateElevationRaster_fields (t : TileData) :
    t.updateElevationRaster._revision = t._revision ∧
    t.updateElevationRaster._childrenReady = t._childrenReady ∧
    t.updateElevationRaster._key = t._key := by
  unfold TileData.updateElevationRaster TileData.setElevationRaster
  simp only
  split_ifs <;> (try exact ⟨rfl, rfl, rfl⟩) <;> (cases t._surface <;> exact ⟨rfl, rfl, rfl⟩)

/-- One re-inheritance of a shared sampler keeps revision, readiness, key and
passes, and every shared sampler of another slot. -/
lemma refreshSharedSampler_fields (q : Fin 4) (binding : Nat) (ps : Sampler) (t : TileData) :
    (refreshSharedSampler q binding ps t)._revision = t._revision ∧
    (refreshSharedSampler q binding ps t)._childrenReady = t._childrenReady ∧
    (refreshSharedSampler q binding ps t)._key = t._key ∧
    (refreshSharedSampler q binding ps t)._renderModel._passes = t._renderModel._passes ∧
    (∀ b, b ≠ binding →
      (refreshSharedSampler q binding ps t)._renderModel._sharedSamplers.getD b default =
        t._renderModel._sharedSamplers.getD b default) := by
  unfold refreshSharedSampler
  simp only
  have hget : ∀ (b : Nat) (x : Sampler), b ≠ binding →
      (t._renderModel._sharedSamplers.set binding x).getD b default =
        t._renderModel._sharedSamplers.getD b default := by
    intro b x hb
    simp [List.getD_eq_getElem?_getD, List.getElem?_set, Ne.symm hb]
  split_ifs
  · obtain ⟨e, f, g⟩ := updateElevationRaster_fields
      (t.setShared (t._renderModel._sharedSamplers.set binding
        ((t._renderModel._sharedSamplers.getD binding default).inheritFrom ps (scaleBias q))))
    rw [e, f, g, updateElevationRaster_renderModel]
    exact ⟨rfl, rfl, rfl, rfl, fun b hb => hget b _ hb⟩
  · exact ⟨rfl, rfl, rfl, rfl, fun b hb => hget b _ hb⟩

/-- The third loop keeps revision, readiness, key and passes. -/
lemma refreshSharedSamplers_fields (q : Fin 4) (parentShared : List Sampler) :
    ∀ (binding : Nat) (t : TileData) (changes : Nat),
      (refreshSharedSamplers q binding parentShared t changes).1._revision = t._revision ∧
      (refreshSharedSamplers q binding parentShared t changes).1._childrenReady =
        t._childrenReady ∧
      (refreshSharedSamplers q binding parentShared t changes).1._key = t._key ∧
      (refreshSharedSamplers q binding parentShared t changes).1._renderModel._passes =
        t._renderModel._passes := by
  induction parentShared with
  | nil => intro binding t changes; simp [refreshSharedSamplers]
  | cons ps rest ih =>
    intro binding t changes
    unfold refreshSharedSamplers
    simp only
    split_ifs with h1
    · obtain ⟨a, b, c, d⟩ := ih (binding + 1) (refreshSharedSampler q binding ps t) (changes + 1)
      obtain ⟨e, f, g, h, _⟩ := refreshSharedSampler_fields q binding ps t
      rw [a, b, c, d, e, f, g, h]
      exact ⟨rfl, rfl, rfl, rfl⟩
    · exact ih (binding + 1) t changes

/-- The third loop never lowers the count, and leaves the tile alone when it
counts nothing. -/
lemma refreshSharedSamplers_count (q : Fin 4) (parentShared : List Sampler) :
    ∀ (binding : Nat) (t : TileData) (changes : Nat),
      changes ≤ (refreshSharedSamplers q binding parentShared t changes).2 ∧
      ((refreshSharedSamplers q binding parentShared t changes).2 = changes →
        (refreshSharedSamplers q binding parentShared t changes).1 = t) := by
  induction parentShared with
  | nil => intro binding t changes; simp [refreshSharedSamplers]
  | cons ps rest ih =>
    intro binding t changes
    unfold refreshSharedSamplers
    simp only
    by_cases h1 : (t._renderModel._sharedSamplers.getD binding default).inheritsTexture = true
    · rw [if_pos h1]
      obtain ⟨hle, _⟩ := ih (binding + 1) (refreshSharedSampler q binding ps t) (changes + 1)
      exact ⟨by omega, fun h => by omega⟩
    · rw [if_neg h1]
      exact ih (binding + 1) t changes

/-- The third loop counts a change for every inheriting shared sampler within
the parent's slots. -/
lemma refreshSharedSamplers_pos (q : Fin 4) (parentShared : List Sampler) :
    ∀ (binding : Nat) (t : TileData) (changes : Nat) (b : Nat),
      binding ≤ b → b < binding + parentShared.length →
      (t._renderModel._sharedSamplers.getD b default).inheritsTexture = true →
      changes < (refreshSharedSamplers q binding parentShared t changes).2 := by
  induction parentShared with
  | nil => intro binding t changes b h1 h2; simp at h2; omega
  | cons ps rest ih =>
    intro binding t changes b hb1 hb2 hinh
    simp only [List.length_cons] at hb2
    unfold refreshSharedSamplers
    simp only
    by_cases h1 : (t._renderModel._sharedSamplers.getD binding default).inheritsTexture = true
    · rw [if_pos h1]
      have := (refreshSharedSamplers_count q rest (binding + 1)
        (refreshSharedSampler q binding ps t) (changes + 1)).1
      omega
    · rw [if_neg h1]
      have hne : binding ≠ b := by
        intro h
        subst h
        exact h1 hinh
      exact ih (binding + 1) t changes b (by omega) (by omega) hinh

end Rex

namespace Rex

/-- The default-constructed sampler. -/
lemma default_sampler : (default : Sampler) = ⟨none, 1, none, 0⟩ := rfl

/-- Assigning the passes a tile already has changes nothing. -/
lemma setPasses_self (t : TileData) : t.setPasses t._renderModel._passes = t := by
  cases t
  rfl

/-- The work of `refreshInheritedData` on the tile itself keeps revision,
readiness and key. -/
lemma refreshOwn_fields (ctx : EngineContext) (parent t : TileData) :
    (t.refreshOwn ctx parent).1._revision = t._revision ∧
    (t.refreshOwn ctx parent).1._childrenReady = t._childrenReady ∧
    (t.refreshOwn ctx parent).1._key = t._key := by
  obtain ⟨a, b, c, _⟩ := refreshSharedSamplers_fields t._key.getQuadrant
    parent._renderModel._sharedSamplers 0
    (t.setPasses (refreshPasses ctx t t._key.getQuadrant 0 parent._renderModel._passes
      (removeOrphanedPasses parent._renderModel t._renderModel._passes 0 0).1
      (removeOrphanedPasses parent._renderModel t._renderModel._passes 0 0).2).1)
    (refreshPasses ctx t t._key.getQuadrant 0 parent._renderModel._passes
      (removeOrphanedPasses parent._renderModel t._renderModel._passes 0 0).1
      (removeOrphanedPasses parent._renderModel t._renderModel._passes 0 0).2).2
  exact ⟨a, b, c⟩

/-- When the three loops count no change the tile is left as it was. -/
lemma refreshOwn_zero (ctx : EngineContext) (parent t : TileData)
    (h : (t.refreshOwn ctx parent).2 = 0) : (t.refreshOwn ctx parent).1 = t := by
  obtain ⟨h1le, h1z⟩ := removeOrphanedPasses_count parent._renderModel t._renderModel._passes 0
  obtain ⟨h2le, h2z⟩ := refreshPasses_count ctx t t._key.getQuadrant parent._renderModel._passes 0
    (removeOrphanedPasses parent._renderModel t._renderModel._passes 0 0).1
    (removeOrphanedPasses parent._renderModel t._renderModel._passes 0 0).2
  obtain ⟨h3le, h3z⟩ := refreshSharedSamplers_count t._key.getQuadrant
    parent._renderModel._sharedSamplers 0
    (t.setPasses (refreshPasses ctx t t._key.getQuadrant 0 parent._renderModel._passes
      (removeOrphanedPasses parent._renderModel t._renderModel._passes 0 0).1
      (removeOrphanedPasses parent._renderModel t._renderModel._passes 0 0).2).1)
    (refreshPasses ctx t t._key.getQuadrant 0 parent._renderModel._passes
      (removeOrphanedPasses parent._renderModel t._renderModel._passes 0 0).1
      (removeOrphanedPasses parent._renderModel t._renderModel._passes 0 0).2).2
  have h3 : (refreshSharedSamplers t._key.getQuadrant 0 parent._renderModel._sharedSamplers
    (t.setPasses (refreshPasses ctx t t._key.getQuadrant 0 parent._renderModel._passes
      (removeOrphanedPasses parent._renderModel t._renderModel._passes 0 0).1
      (removeOrphanedPasses parent._renderModel t._renderModel._passes 0 0).2).1)
    (refreshPasses ctx t t._key.getQuadrant 0 parent._renderModel._passes
      (removeOrphanedPasses parent._renderModel t._renderModel._passes 0 0).1
      (removeOrphanedPasses parent._renderModel t._renderModel._passes 0 0).2).2).2 = 0 := h
  have e3 := h3z (by omega)
  have e2 := h2z (by omega)
  have e1 := h1z (by omega)
  show (refreshSharedSamplers t._key.getQuadrant 0 parent._renderModel._sharedSamplers
    (t.setPasses (refreshPasses ctx t t._key.getQuadrant 0 parent._renderModel._passes
      (removeOrphanedPasses parent._renderModel t._renderModel._passes 0 0).1
      (removeOrphanedPasses parent._renderModel t._renderModel._passes 0 0).2).1)
    (refreshPasses ctx t t._key.getQuadrant 0 parent._renderModel._passes
      (removeOrphanedPasses parent._renderModel t._renderModel._passes 0 0).1
      (removeOrphanedPasses parent._renderModel t._renderModel._passes 0 0).2).2).1 = t
  rw [e3, e2, e1]
  exact setPasses_self t

/-- An inheriting shared sampler in a slot the parent has makes the loops count
at least one change. -/
lemma refreshOwn_pos (ctx : EngineContext) (parent t : TileData) (b : Nat)
    (hb : b < parent._renderModel._sharedSamplers.length)
    (hinh : (t._renderModel._sharedSamplers.getD b default).inheritsTexture = true) :
    0 < (t.refreshOwn ctx parent).2 := by
  have h := refreshSharedSamplers_pos t._key.getQuadrant parent._renderModel._sharedSamplers 0
    (t.setPasses (refreshPasses ctx t t._key.getQuadrant 0 parent._renderModel._passes
      (removeOrphanedPasses parent._renderModel t._renderModel._passes 0 0).1
      (removeOrphanedPasses parent._renderModel t._renderModel._passes 0 0).2).1)
    (refreshPasses ctx t t._key.getQuadrant 0 parent._renderModel._passes
      (removeOrphanedPasses parent._renderModel t._renderModel._passes 0 0).1
      (removeOrphanedPasses parent._renderModel t._renderModel._passes 0 0).2).2
    b (Nat.zero_le _) (by omega) hinh
  exact lt_of_le_of_lt (Nat.zero_le _) h

/-- Every call of `refreshInheritedData` records at least the tile it runs on. -/
lemma refreshInheritedData_trace_pos (ctx : EngineContext) (parent : TileData) (t : TileNode) :
    1 ≤ (t.refreshInheritedData ctx parent).2.length := by
  obtain ⟨d, cs, rs⟩ := t
  rw [TileNode.refreshInheritedData]
  simp only
  split_ifs <;> simp

/-- The loop over the sub-tiles calls `refreshInheritedData` on each of the
first `n` children. -/
lemma refreshSubTiles_trace_length (ctx : EngineContext) (parent : TileData) :
    ∀ (n : Nat) (cs : List TileNode),
      min n cs.length ≤ (refreshSubTiles ctx parent n cs).2.length := by
  intro n
  induction n with
  | zero => intro cs; simp
  | succ n ih =>
    intro cs
    cases cs with
    | nil => simp
    | cons c rest =>
      rw [refreshSubTiles]
      simp only [List.length_cons, List.length_append]
      have h1 := refreshInheritedData_trace_pos ctx parent c
      have h2 := ih rest
      omega

end Rex

namespace Rex

/-- The COLOR step counts nothing exactly when the COLOR binding is inactive
or the sampler does not inherit. -/
lemma refreshColor_zero_iff (ctx : EngineContext) (q : Fin 4) (parentPass myPass : RenderingPass) :
    (refreshColor ctx q parentPass myPass).2 = 0 ↔
      (isActive ctx.bindings SamplerBinding.COLOR = true →
        (myPass.sampler SamplerBinding.COLOR).inheritsTexture = false) := by
  unfold refreshColor
  by_cases ha : isActive ctx.bindings SamplerBinding.COLOR = true
  · rw [if_pos ha]
    simp only
    by_cases hi : (myPass.sampler SamplerBinding.COLOR).inheritsTexture = true
    · rw [if_pos hi]
      simp [ha, hi]
    · rw [if_neg hi]
      simp [ha, hi]
  · rw [if_neg ha]
    simp [ha]

/-- The COLOR_PARENT step counts nothing exactly when the COLOR_PARENT binding
is inactive or the sampler already is the parent's colour sampler scaled. -/
lemma refreshColorParent_zero_iff (ctx : EngineContext) (t : TileData) (q : Fin 4)
    (parentPass myPass : RenderingPass) :
    (refreshColorParent ctx t q parentPass myPass).2 = 0 ↔
      (isActive ctx.bindings SamplerBinding.COLOR_PARENT = true →
        (myPass.sampler SamplerBinding.COLOR_PARENT)._texture =
          (parentPass.sampler SamplerBinding.COLOR)._texture ∧
        (myPass.sampler SamplerBinding.COLOR_PARENT)._matrix =
          preMult (parentPass.sampler SamplerBinding.COLOR)._matrix (scaleBias q) ∧
        (myPass.sampler SamplerBinding.COLOR_PARENT)._revision =
          (parentPass.sampler SamplerBinding.COLOR)._revision) := by
  unfold refreshColorParent
  by_cases ha : isActive ctx.bindings SamplerBinding.COLOR_PARENT = true
  · rw [if_pos ha]
    simp only
    by_cases hd : (myPass.sampler SamplerBinding.COLOR_PARENT)._texture ≠
          (parentPass.sampler SamplerBinding.COLOR)._texture ∨
        (myPass.sampler SamplerBinding.COLOR_PARENT)._matrix ≠
          preMult (parentPass.sampler SamplerBinding.COLOR)._matrix (scaleBias q) ∨
        (myPass.sampler SamplerBinding.COLOR_PARENT)._revision ≠
          (parentPass.sampler SamplerBinding.COLOR)._revision
    · rw [if_pos hd]
      have hne : ¬ ((myPass.sampler SamplerBinding.COLOR_PARENT)._texture =
          (parentPass.sampler SamplerBinding.COLOR)._texture ∧
        (myPass.sampler SamplerBinding.COLOR_PARENT)._matrix =
          preMult (parentPass.sampler SamplerBinding.COLOR)._matrix (scaleBias q) ∧
        (myPass.sampler SamplerBinding.COLOR_PARENT)._revision =
          (parentPass.sampler SamplerBinding.COLOR)._revision) := by
        rintro ⟨h1, h2, h3⟩
        rcases hd with h | h | h
        · exact h h1
        · exact h h2
        · exact h h3
      constructor
      · intro h
        split_ifs at h
      · intro h
        exact absurd (h ha) hne
    · rw [if_neg hd]
      have hd2 := hd
      rw [not_or, not_or] at hd2
      obtain ⟨h1, h2, h3⟩ := hd2
      exact ⟨fun _ _ => ⟨not_not.mp h1, not_not.mp h2, not_not.mp h3⟩, fun _ => rfl⟩
  · rw [if_neg ha]
    simp [ha]

/-- One iteration of the second loop counts nothing exactly when there is
nothing to re-inherit for the parent pass: the tile's pass of that UID has a
COLOR sampler that does not inherit and a COLOR_PARENT sampler that already is
the parent's colour sampler scaled (each as far as the binding is active), or
the tile has no such pass and the parent pass is out of legal range. -/
lemma refreshPass_zero_iff (ctx : EngineContext) (t : TileData) (q : Fin 4) (p : Nat)
    (parentPass : RenderingPass) (myPasses : List RenderingPass) (changes : Nat) :
    (refreshPass ctx t q p parentPass myPasses changes).2 = changes ↔
      (∀ i, getPassIdx myPasses parentPass._sourceUID = some i →
        (isActive ctx.bindings SamplerBinding.COLOR = true →
          ((myPasses.getD i default).sampler SamplerBinding.COLOR).inheritsTexture = false) ∧
        (isActive ctx.bindings SamplerBinding.COLOR_PARENT = true →
          ((myPasses.getD i default).sampler SamplerBinding.COLOR_PARENT)._texture =
            (parentPass.sampler SamplerBinding.COLOR)._texture ∧
          ((myPasses.getD i default).sampler SamplerBinding.COLOR_PARENT)._matrix =
            preMult (parentPass.sampler SamplerBinding.COLOR)._matrix (scaleBias q) ∧
          ((myPasses.getD i default).sampler SamplerBinding.COLOR_PARENT)._revision =
            (parentPass.sampler SamplerBinding.COLOR)._revision)) ∧
      (getPassIdx myPasses parentPass._sourceUID = none →
        t.passInLegalRange ctx parentPass = false) := by
  unfold refreshPass
  cases hidx : getPassIdx myPasses parentPass._sourceUID with
  | none =>
    simp only
    by_cases hl : t.passInLegalRange ctx parentPass = true
    · rw [if_pos hl]
      simp [hl]
    · rw [if_neg hl]
      simp [hl]
  | some i =>
    simp only
    have hc := refreshColor_zero_iff ctx q parentPass (myPasses.getD i default)
    constructor
    · intro h
      have h1 : (refreshColor ctx q parentPass (myPasses.getD i default)).2 = 0 := by omega
      have h2 : (refreshColorParent ctx t q parentPass
          (refreshColor ctx q parentPass (myPasses.getD i default)).1).2 = 0 := by omega
      rw [refreshColor_zero ctx q parentPass _ h1] at h2
      refine ⟨?_, fun hn => by cases hn⟩
      intro j hj
      injection hj with hj
      subst hj
      exact ⟨hc.mp h1, (refreshColorParent_zero_iff ctx t q parentPass _).mp h2⟩
    · rintro ⟨hall, _⟩
      obtain ⟨hA, hB⟩ := hall i rfl
      have h1 := hc.mpr hA
      have h2 : (refreshColorParent ctx t q parentPass
          (refreshColor ctx q parentPass (myPasses.getD i default)).1).2 = 0 := by
        rw [refreshColor_zero ctx q parentPass _ h1]
        exact (refreshColorParent_zero_iff ctx t q parentPass _).mpr hB
      omega

/-- The second loop counts nothing exactly when every iteration counts nothing
on the passes as they are at the start. -/
lemma refreshPasses_zero_iff (ctx : EngineContext) (t : TileData) (q : Fin 4)
    (parentPasses : List RenderingPass) :
    ∀ (p : Nat) (myPasses : List RenderingPass) (changes : Nat),
      (refreshPasses ctx t q p parentPasses myPasses changes).2 = changes ↔
        ∀ pp ∈ parentPasses, (refreshPass ctx t q 0 pp myPasses 0).2 = 0 := by
  have hidx : ∀ (p p1 c c1 : Nat) (pp : RenderingPass) (mine : List RenderingPass),
      (refreshPass ctx t q p pp mine c).2 = c ↔ (refreshPass ctx t q p1 pp mine c1).2 = c1 := by
    intro p p1 c c1 pp mine
    rw [refreshPass_zero_iff, refreshPass_zero_iff]
  induction parentPasses with
  | nil => intro p myPasses changes; simp [refreshPasses]
  | cons pp rest ih =>
    intro p myPasses changes
    unfold refreshPasses
    simp only
    obtain ⟨hle1, hz1⟩ := refreshPass_count ctx t q p pp myPasses changes
    obtain ⟨hle2, _⟩ := refreshPasses_count ctx t q rest (p + 1)
      (refreshPass ctx t q p pp myPasses changes).1 (refreshPass ctx t q p pp myPasses changes).2
    constructor
    · intro h
      have h1 : (refreshPass ctx t q p pp myPasses changes).2 = changes := by omega
      rw [hz1 h1, h1] at h
      intro x hx
      rcases List.mem_cons.mp hx with rfl | hx
      · exact (hidx p 0 changes 0 x myPasses).mp h1
      · exact (ih (p + 1) myPasses changes).mp h x hx
    · intro hall
      have h1 : (refreshPass ctx t q p pp myPasses changes).2 = changes :=
        (hidx p 0 changes 0 pp myPasses).mpr (hall pp (List.mem_cons_self _ _))
      rw [hz1 h1, h1]
      exact (ih (p + 1) myPasses changes).mpr (fun x hx => hall x (List.mem_cons_of_mem _ hx))

/-- The first loop counts nothing exactly when no inheriting pass lacks a
parent pass. -/
lemma removeOrphanedPasses_zero_iff (parentModel : TileRenderModel) (passes : List RenderingPass)
    (changes : Nat) :
    (removeOrphanedPasses parentModel passes 0 changes).2 = changes ↔
      ∀ P ∈ passes, P.inheritsTexture = true → (parentModel.getPass P._sourceUID).isSome = true := by
  have h := removeOrphanedPasses_eq parentModel passes [] changes
  simp only [List.nil_append, List.length_nil] at h
  rw [h]
  simp only
  constructor
  · intro hc P hP hi
    have hnil : passes.filter (fun myPass =>
        myPass.inheritsTexture && (parentModel.getPass myPass._sourceUID).isNone) = [] := by
      apply List.length_eq_zero.mp
      omega
    have := List.filter_eq_nil_iff.mp hnil P hP
    cases hg : parentModel.getPass P._sourceUID with
    | none => simp [hi, hg] at this
    | some g => rfl
  · intro hall
    have hnil : passes.filter (fun myPass =>
        myPass.inheritsTexture && (parentModel.getPass myPass._sourceUID).isNone) = [] := by
      rw [List.filter_eq_nil_iff]
      intro P hP
      cases hi : P.inheritsTexture with
      | false => simp
      | true =>
        have := hall P hP hi
        cases hg : parentModel.getPass P._sourceUID with
        | none => rw [hg] at this; cases this
        | some g => simp
    rw [hnil]
    rfl

/-- The third loop counts nothing exactly when no shared sampler in a slot it
visits inherits. -/
lemma refreshSharedSamplers_zero_iff (q : Fin 4) (parentShared : List Sampler) :
    ∀ (binding : Nat) (t : TileData) (changes : Nat),
      (refreshSharedSamplers q binding parentShared t changes).2 = changes ↔
        ∀ b, binding ≤ b → b < binding + parentShared.length →
          (t._renderModel._sharedSamplers.getD b default).inheritsTexture = false := by
  induction parentShared with
  | nil =>
    intro binding t changes
    simp only [refreshSharedSamplers, List.length_nil, Nat.add_zero, true_iff]
    intro b h1 h2
    omega
  | cons ps rest ih =>
    intro binding t changes
    unfold refreshSharedSamplers
    simp only [List.length_cons]
    by_cases h1 : (t._renderModel._sharedSamplers.getD binding default).inheritsTexture = true
    · rw [if_pos h1]
      obtain ⟨hle, _⟩ := refreshSharedSamplers_count q rest (binding + 1)
        (refreshSharedSampler q binding ps t) (changes + 1)
      constructor
      · intro h
        omega
      · intro hall
        have := hall binding (le_refl _) (by omega)
        rw [h1] at this
        cases this
    · rw [if_neg h1]
      rw [ih (binding + 1) t changes]
      constructor
      · intro hall b hb1 hb2
        by_cases hb : b = binding
        · subst hb
          cases hv : (t._renderModel._sharedSamplers.getD b default).inheritsTexture with
          | false => rfl
          | true => exact absurd hv h1
        · exact hall b (by omega) (by omega)
      · intro hall b hb1 hb2
        exact hall b (by omega) (by omega)

/-- The three loops of `refreshInheritedData` count nothing exactly when the
tile has nothing to re-inherit. -/
lemma refreshOwn_zero_iff (ctx : EngineContext) (parent t : TileData) :
    (t.refreshOwn ctx parent).2 = 0 ↔
      (∀ P ∈ t._renderModel._passes, P.inheritsTexture = true →
        (parent._renderModel.getPass P._sourceUID).isSome = true) ∧
      (∀ pp ∈ parent._renderModel._passes,
        (refreshPass ctx t t._key.getQuadrant 0 pp t._renderModel._passes 0).2 = 0) ∧
      (∀ b, b < parent._renderModel._sharedSamplers.length →
        (t._renderModel._sharedSamplers.getD b default).inheritsTexture = false) := by
  obtain ⟨h1le, h1z⟩ := removeOrphanedPasses_count parent._renderModel t._renderModel._passes 0
  obtain ⟨h2le, h2z⟩ := refreshPasses_count ctx t t._key.getQuadrant parent._renderModel._passes 0
    (removeOrphanedPasses parent._renderModel t._renderModel._passes 0 0).1
    (removeOrphanedPasses parent._renderModel t._renderModel._passes 0 0).2
  obtain ⟨h3le, _⟩ := refreshSharedSamplers_count t._key.getQuadrant
    parent._renderModel._sharedSamplers 0
    (t.setPasses (refreshPasses ctx t t._key.getQuadrant 0 parent._renderModel._passes
      (removeOrphanedPasses parent._renderModel t._renderModel._passes 0 0).1
      (removeOrphanedPasses parent._renderModel t._renderModel._passes 0 0).2).1)
    (refreshPasses ctx t t._key.getQuadrant 0 parent._renderModel._passes
      (removeOrphanedPasses parent._renderModel t._renderModel._passes 0 0).1
      (removeOrphanedPasses parent._renderModel t._renderModel._passes 0 0).2).2
  have hr := removeOrphanedPasses_zero_iff parent._renderModel t._renderModel._passes 0
  constructor
  · intro h
    have e1 : (removeOrphanedPasses parent._renderModel t._renderModel._passes 0 0).2 = 0 := by
      unfold TileData.refreshOwn at h
      simp only at h
      omega
    have e2 : (refreshPasses ctx t t._key.getQuadrant 0 parent._renderModel._passes
        (removeOrphanedPasses parent._renderModel t._renderModel._passes 0 0).1
        (removeOrphanedPasses parent._renderModel t._renderModel._passes 0 0).2).2 = 0 := by
      unfold TileData.refreshOwn at h
      simp only at h
      omega
    have hp1 := h1z e1
    rw [hp1, e1] at e2
    have hp2 := (refreshPasses_count ctx t t._key.getQuadrant parent._renderModel._passes 0
      t._renderModel._passes 0).2 e2
    refine ⟨hr.mp e1, (refreshPasses_zero_iff ctx t _ _ 0 _ 0).mp e2, ?_⟩
    unfold TileData.refreshOwn at h
    simp only at h
    rw [hp1, e1, hp2, e2, setPasses_self] at h
    intro b hb
    exact (refreshSharedSamplers_zero_iff _ _ 0 t 0).mp h b (Nat.zero_le _) (by omega)
  · rintro ⟨hA, hB, hC⟩
    have e1 := hr.mpr hA
    have hp1 := h1z e1
    have e2 : (refreshPasses ctx t t._key.getQuadrant 0 parent._renderModel._passes
        t._renderModel._passes 0).2 = 0 := (refreshPasses_zero_iff ctx t _ _ 0 _ 0).mpr hB
    have hp2 := (refreshPasses_count ctx t t._key.getQuadrant parent._renderModel._passes 0
      t._renderModel._passes 0).2 e2
    unfold TileData.refreshOwn
    simp only
    rw [hp1, e1, hp2, e2, setPasses_self]
    exact (refreshSharedSamplers_zero_iff _ _ 0 t 0).mpr (fun b _ hb => hC b (by omega))

/-- C4 (amended): refreshInheritedData counts every re-inheritance as a change,
whether or not a value changes.  For every parent and child (in particular a
child to which refreshInheritedData(parent) has already been applied and whose
parent is unchanged), the change count of a call is 0 exactly when the child
has nothing to re-inherit: no inheriting pass of the child lacks a parent pass
of its UID; for every parent pass, the child's pass of that UID has a COLOR
sampler that does not inherit (when the COLOR binding is active) and a
COLOR_PARENT sampler with the texture and revision of the parent's colour
sampler and its matrix scaled (when the COLOR_PARENT binding is active), or the
child has no such pass and the parent pass is out of legal range; and no shared
sampler of the child in a slot the parent has inherits.  When the count is 0
the call changes nothing (revision, passes, samplers and the whole subtree are
as before) and runs on no other tile.  When the count is positive, as it is
whenever the child has an inheriting shared sampler in a slot the parent has,
the revision is bumped by one, and, if the children are ready, the call
recurses into each of the first four sub-tiles. -/
theorem refreshInheritedData_zero_changes_or_recount (ctx : EngineContext) (parent : TileData)
    (t : TileNode) :
    ((t.d.refreshOwn ctx parent).2 = 0 ↔
      (∀ P ∈ t.d._renderModel._passes, P.inheritsTexture = true →
        (parent._renderModel.getPass P._sourceUID).isSome = true) ∧
      (∀ pp ∈ parent._renderModel._passes,
        (∀ i, getPassIdx t.d._renderModel._passes pp._sourceUID = some i →
          (isActive ctx.bindings SamplerBinding.COLOR = true →
            ((t.d._renderModel._passes.getD i default).sampler
              SamplerBinding.COLOR).inheritsTexture = false) ∧
          (isActive ctx.bindings SamplerBinding.COLOR_PARENT = true →
            ((t.d._renderModel._passes.getD i default).sampler
                SamplerBinding.COLOR_PARENT)._texture =
              (pp.sampler SamplerBinding.COLOR)._texture ∧
            ((t.d._renderModel._passes.getD i default).sampler
                SamplerBinding.COLOR_PARENT)._matrix =
              preMult (pp.sampler SamplerBinding.COLOR)._matrix
                (scaleBias t.d._key.getQuadrant) ∧
            ((t.d._renderModel._passes.getD i default).sampler
                SamplerBinding.COLOR_PARENT)._revision =
              (pp.sampler SamplerBinding.COLOR)._revision)) ∧
        (getPassIdx t.d._renderModel._passes pp._sourceUID = none →
          t.d.passInLegalRange ctx pp = false)) ∧
      (∀ b, b < parent._renderModel._sharedSamplers.length →
        (t.d._renderModel._sharedSamplers.getD b default).inheritsTexture = false)) ∧
    ((t.d.refreshOwn ctx parent).2 = 0 →
      t.refreshInheritedData ctx parent = (t, [t.d._key])) ∧
    (0 < (t.d.refreshOwn ctx parent).2 →
      (t.refreshInheritedData ctx parent).1.d._revision = t.d._revision + 1 ∧
      (t.d._childrenReady = true →
        1 + min 4 t.children.length ≤ (t.refreshInheritedData ctx parent).2.length)) ∧
    (∀ b, b < parent._renderModel._sharedSamplers.length →
      (t.d._renderModel._sharedSamplers.getD b default).inheritsTexture = true →
      0 < (t.d.refreshOwn ctx parent).2 ∧
      (t.refreshInheritedData ctx parent).1.d._revision = t.d._revision + 1 ∧
      (t.d._childrenReady = true →
        1 + min 4 t.children.length ≤ (t.refreshInheritedData ctx parent).2.length)) := by
  obtain ⟨d, cs, rs⟩ := t
  simp only [TileNode.d, TileNode.children]
  obtain ⟨hrev, hready, hkey⟩ := refreshOwn_fields ctx parent d
  have hposcase : 0 < (d.refreshOwn ctx parent).2 →
      ((TileNode.mk d cs rs).refreshInheritedData ctx parent).1.d._revision = d._revision + 1 ∧
      (d._childrenReady = true →
        1 + min 4 cs.length ≤
          ((TileNode.mk d cs rs).refreshInheritedData ctx parent).2.length) := by
    intro hpos
    refine ⟨?_, ?_⟩
    · rw [TileNode.refreshInheritedData]
      simp only [gt_iff_lt, hpos, if_true]
      split_ifs <;> simp [TileNode.d, hrev]
    · intro hr
      rw [TileNode.refreshInheritedData]
      simp only [gt_iff_lt, hpos, if_true]
      have hr1 : (d.refreshOwn ctx parent).1._childrenReady = true := by rw [hready]; exact hr
      rw [if_pos hr1]
      simp only [List.length_cons]
      refine le_trans ?_ (Nat.succ_le_succ (refreshSubTiles_trace_length ctx _ 4 cs))
      omega
  refine ⟨?_, ?_, hposcase, ?_⟩
  · rw [refreshOwn_zero_iff]
    constructor
    · rintro ⟨hA, hB, hC⟩
      exact ⟨hA, fun pp hpp => (refreshPass_zero_iff ctx d _ 0 pp _ 0).mp (hB pp hpp), hC⟩
    · rintro ⟨hA, hB, hC⟩
      exact ⟨hA, fun pp hpp => (refreshPass_zero_iff ctx d _ 0 pp _ 0).mpr (hB pp hpp), hC⟩
  · intro h0
    rw [TileNode.refreshInheritedData]
    simp only [h0, lt_irrefl, if_false]
    rw [refreshOwn_zero ctx parent d h0]
  · intro b hb hinh
    have hpos := refreshOwn_pos ctx parent d b hb hinh
    exact ⟨hpos, hposcase hpos⟩

/-- Witness for C4: a child that owns its pass for layer 7 and its shared
sampler, with four ready sub-tiles, under a parent that has a pass for layer 7
and a shared sampler: nothing is re-inherited, the count is 0, the child is
returned as it was and the call runs on no sub-tile.  A child with an
inheriting shared sampler and four ready sub-tiles under a parent with that
slot: the count is positive, the revision goes from 0 to 1 and the call runs
on the child and its four sub-tiles. -/
theorem refreshInheritedData_zero_changes_or_recount_witness :
    (sampleOwningChild.d.refreshOwn (sampleContext (sampleBindings true false) 0 0)
        sampleOwningParent).2 = 0 ∧
    sampleOwningChild.refreshInheritedData (sampleContext (sampleBindings true false) 0 0)
        sampleOwningParent = (sampleOwningChild, [⟨1, 0, 0⟩]) ∧
    sampleOwningChild.children.length = 4 ∧
    0 < (sampleInheritingParentNode.d.refreshOwn (sampleContext [] 0 0) sampleSharedParent).2 ∧
    (sampleInheritingParentNode.refreshInheritedData (sampleContext [] 0 0)
        sampleSharedParent).1.d._revision = 1 ∧
    5 ≤ (sampleInheritingParentNode.refreshInheritedData (sampleContext [] 0 0)
        sampleSharedParent).2.length := by
  have h := refreshInheritedData_zero_changes_or_recount
    (sampleContext (sampleBindings true false) 0 0) sampleOwningParent sampleOwningChild
  have h0 : (sampleOwningChild.d.refreshOwn (sampleContext (sampleBindings true false) 0 0)
      sampleOwningParent).2 = 0 := by
    rw [h.1]
    refine ⟨?_, ?_, ?_⟩
    · intro P hP _
      have hP2 : P ∈ [sampleOwnedPass] := hP
      rw [List.mem_singleton] at hP2
      subst hP2
      rfl
    · intro pp hpp
      have hpp2 : pp ∈ [samplePass 7 (ownSampler 5 1) default] := hpp
      rw [List.mem_singleton] at hpp2
      subst hpp2
      have hidx : getPassIdx sampleOwningChild.d._renderModel._passes
          (samplePass 7 (ownSampler 5 1) default)._sourceUID = some 0 := by decide
      rw [hidx]
      refine ⟨?_, fun hn => by cases hn⟩
      intro i hi
      injection hi with hi
      subst hi
      refine ⟨fun _ => ?_, fun hcp => ?_⟩
      · simp [sampleOwningChild, TileNode.d, sampleOwnedTile, sampleTile, TileData.setShared,
          sampleOwnedPass, samplePass, RenderingPass.sampler, SamplerBinding.COLOR, ownSampler,
          Sampler.inheritsTexture]
      · exact absurd hcp (by decide)
    · intro b hb
      have hb1 : b < 1 := hb
      have hb0 : b = 0 := by omega
      subst hb0
      simp [sampleOwningChild, TileNode.d, sampleOwnedTile, sampleTile, TileData.setShared,
        ownSampler, Sampler.inheritsTexture]
  have hi := (refreshInheritedData_zero_changes_or_recount (sampleContext [] 0 0)
    sampleSharedParent sampleInheritingParentNode).2.2.2 0 (by decide) rfl
  refine ⟨h0, h.2.1 h0, rfl, hi.1, hi.2.1, ?_⟩
  exact hi.2.2 rfl

/-- C4 (counterexample): a child with one inheriting shared sampler under a
parent with one shared slot.  After a first refreshInheritedData, a second one
against the same parent still counts one change and bumps the revision from 1
to 2, although the child's shared samplers are the same after both calls. -/
theorem refreshInheritedData_second_call_counts_again :
    (((sampleInheritingChild.refreshInheritedData (sampleContext [] 0 0)
        sampleSharedParent).1).d.refreshOwn (sampleContext [] 0 0) sampleSharedParent).2 = 1 ∧
    ((sampleInheritingChild.refreshInheritedData (sampleContext [] 0 0)
        sampleSharedParent).1).d._revision = 1 ∧
    (((sampleInheritingChild.refreshInheritedData (sampleContext [] 0 0)
        sampleSharedParent).1).refreshInheritedData (sampleContext [] 0 0)
        sampleSharedParent).1.d._revision = 2 ∧
    (((sampleInheritingChild.refreshInheritedData (sampleContext [] 0 0)
        sampleSharedParent).1).refreshInheritedData (sampleContext [] 0 0)
        sampleSharedParent).1.d._renderModel._sharedSamplers =
      ((sampleInheritingChild.refreshInheritedData (sampleContext [] 0 0)
        sampleSharedParent).1).d._renderModel._sharedSamplers := by
  have hfirst : (sampleInheritingChild.refreshInheritedData (sampleContext [] 0 0)
      sampleSharedParent).1 =
      .mk { ((sampleTile ⟨1, 0, 0⟩ []).setShared
              [⟨none, preMult 1 (scaleBias 0), none, 0⟩]) with _revision := 1 } [] [] := by
    simp [sampleInheritingChild, sampleSharedParent, TileNode.refreshInheritedData,
      TileData.refreshOwn, sampleTile, TileData.setShared, TileData.setPasses,
      removeOrphanedPasses, refreshPasses, refreshSharedSamplers, refreshSharedSampler,
      Sampler.inheritsTexture, Sampler.inheritFrom, TileData.new, TileData.createGeometry,
      sampleContext, SamplerBinding.ELEVATION, rootKey, TileKey.getQuadrant]
    rfl
  rw [hfirst]
  have hcount : (TileData.refreshOwn (sampleContext [] 0 0)
      { ((sampleTile ⟨1, 0, 0⟩ []).setShared
          [⟨none, preMult 1 (scaleBias 0), none, 0⟩]) with _revision := 1 }
      sampleSharedParent).2 = 1 := by
    simp [sampleSharedParent, TileData.refreshOwn, sampleTile, TileData.setShared,
      TileData.setPasses, removeOrphanedPasses, refreshPasses, refreshSharedSamplers,
      Sampler.inheritsTexture]
  refine ⟨hcount, rfl, ?_, ?_⟩
  · rw [TileNode.refreshInheritedData]
    simp only [TileNode.d, hcount]
    have hrev := (refreshOwn_fields (sampleContext [] 0 0) sampleSharedParent
      { ((sampleTile ⟨1, 0, 0⟩ []).setShared
          [⟨none, preMult 1 (scaleBias 0), none, 0⟩]) with _revision := 1 }).1
    simp [hrev]
    split_ifs <;> simp [TileNode.d, hrev]
  · simp [sampleSharedParent, TileNode.refreshInheritedData,
      TileData.refreshOwn, sampleTile, TileData.setShared, TileData.setPasses,
      removeOrphanedPasses, refreshPasses, refreshSharedSamplers, refreshSharedSampler,
      Sampler.inheritsTexture, Sampler.inheritFrom, TileData.new, TileData.createGeometry,
      sampleContext, SamplerBinding.ELEVATION, rootKey, TileKey.getQuadrant, TileNode.d,
      default_sampler]

end Rex

namespace Rex

/-! ## Orphaned passes in `merge` -/

/-- The fate of a pass that is owned, asked for and not delivered. -/
lemma orphanFate_pos (parent : Option TileData) (q : Fin 4) (manifest : CreateTileManifest)
    (uidsLoaded : List UID) (x : RenderingPass)
    (hx : (x.ownsTexture && manifest.includesLayer x._layer &&
        !uidsLoaded.contains x._sourceUID) = true) :
    orphanFate parent q manifest uidsLoaded x =
      (parent.bind (fun par => par._renderModel.getPass x._sourceUID)).map
        (fun parentPass => x.inheritFrom parentPass (scaleBias q)) := by
  unfold orphanFate
  rw [if_pos hx]

/-- The fate of any other pass. -/
lemma orphanFate_neg (parent : Option TileData) (q : Fin 4) (manifest : CreateTileManifest)
    (uidsLoaded : List UID) (x : RenderingPass)
    (hx : ¬ (x.ownsTexture && manifest.includesLayer x._layer &&
        !uidsLoaded.contains x._sourceUID) = true) :
    orphanFate parent q manifest uidsLoaded x = some x := by
  unfold orphanFate
  rw [if_neg hx]

/-- The second colour loop of `merge` maps every pass through `orphanFate`,
dropping the passes without a fate. -/
lemma releaseOrphanedPasses_eq (parent : Option TileData) (q : Fin 4)
    (manifest : CreateTileManifest) (uidsLoaded : List UID) (post : List RenderingPass) :
    ∀ pre : List RenderingPass,
      releaseOrphanedPasses parent q manifest uidsLoaded (pre ++ post) pre.length =
        pre ++ post.filterMap (orphanFate parent q manifest uidsLoaded) := by
  induction post with
  | nil =>
    intro pre
    rw [releaseOrphanedPasses]
    simp
  | cons x rest ih =>
    intro pre
    rw [releaseOrphanedPasses]
    have hlt : pre.length < (pre ++ x :: rest).length := by simp
    rw [dif_pos hlt]
    simp only [get_append_length pre x rest hlt]
    by_cases hx : (x.ownsTexture && manifest.includesLayer x._layer &&
        !uidsLoaded.contains x._sourceUID) = true
    · rw [if_pos hx]
      have hf := orphanFate_pos parent q manifest uidsLoaded x hx
      cases hpp : parent.bind (fun par => par._renderModel.getPass x._sourceUID) with
      | none =>
        simp only
        rw [hpp] at hf
        rw [eraseIdx_append_length, ih pre, List.filterMap_cons_none hf]
      | some parentPass =>
        simp only
        rw [hpp] at hf
        rw [set_append_length]
        have hsplit : pre ++ x.inheritFrom parentPass (scaleBias q) :: rest =
            (pre ++ [x.inheritFrom parentPass (scaleBias q)]) ++ rest := by simp
        have hlen : pre.length + 1 = (pre ++ [x.inheritFrom parentPass (scaleBias q)]).length := by
          simp
        rw [hsplit, hlen, ih, List.filterMap_cons_some hf]
        simp
    · rw [if_neg hx]
      have hf := orphanFate_neg parent q manifest uidsLoaded x hx
      have hsplit : pre ++ x :: rest = (pre ++ [x]) ++ rest := by simp
      have hlen : pre.length + 1 = (pre ++ [x]).length := by simp
      rw [hsplit, hlen, ih, List.filterMap_cons_some hf]
      simp

/-- The method `inheritSharedSampler` leaves the passes and the key alone. -/
lemma inheritSharedSampler_passes (parent : Option TileData) (binding : Nat) (t : TileData) :
    (t.inheritSharedSampler parent binding)._renderModel._passes = t._renderModel._passes ∧
    (t.inheritSharedSampler parent binding)._key = t._key := by
  unfold TileData.inheritSharedSampler
  cases parent <;> exact ⟨rfl, rfl⟩

/-- The elevation section of `merge` leaves the passes alone. -/
lemma mergeElevation_passes (ctx : EngineContext) (parent : Option TileData)
    (model : TerrainTileModel) (manifest : CreateTileManifest) (t : TileData) :
    (t.mergeElevation ctx parent model manifest).1._renderModel._passes =
      t._renderModel._passes := by
  unfold TileData.mergeElevation
  split_ifs <;> (try split) <;>
    simp [updateElevationRaster_renderModel, inheritSharedSampler_passes,
      TileRenderModel.setSharedSampler]

/-- The normal-map section of `merge` leaves the passes alone. -/
lemma mergeNormal_passes (ctx : EngineContext) (parent : Option TileData)
    (model : TerrainTileModel) (manifest : CreateTileManifest) (t : TileData) :
    (t.mergeNormal ctx parent model manifest)._renderModel._passes = t._renderModel._passes := by
  unfold TileData.mergeNormal
  split_ifs <;> (try split) <;> (try split) <;>
    simp [inheritSharedSampler_passes, TileRenderModel.setSharedSampler]

/-- The land-cover section of `merge` leaves the passes alone. -/
lemma mergeLandCover_passes (ctx : EngineContext) (parent : Option TileData)
    (model : TerrainTileModel) (manifest : CreateTileManifest) (t : TileData) :
    (t.mergeLandCover ctx parent model manifest)._renderModel._passes =
      t._renderModel._passes := by
  unfold TileData.mergeLandCover
  split_ifs <;> (try split) <;>
    simp [inheritSharedSampler_passes, TileRenderModel.setSharedSampler]

/-- The first shared-layer loop of `merge` leaves the passes alone. -/
lemma mergeSharedLayers_passes (ctx : EngineContext) (layers : List TerrainTileImageLayerModel) :
    ∀ (t : TileData) (uids : List UID),
      (mergeSharedLayers ctx layers t uids).1._renderModel._passes = t._renderModel._passes := by
  induction layers with
  | nil => intro t uids; rfl
  | cons m rest ih =>
    intro t uids
    unfold mergeSharedLayers
    split
    · rw [ih]
      rfl
    · exact ih t uids

/-- The second shared-layer loop of `merge` leaves the passes alone. -/
lemma releaseSharedLayers_passes (ctx : EngineContext) (parent : Option TileData)
    (manifest : CreateTileManifest) (uids : List UID) (is : List Nat) :
    ∀ t : TileData,
      (releaseSharedLayers ctx parent manifest uids is t)._renderModel._passes =
        t._renderModel._passes := by
  induction is with
  | nil => intro t; rfl
  | cons i rest ih =>
    intro t
    unfold releaseSharedLayers
    simp only
    split_ifs
    · rw [ih]
      exact (inheritSharedSampler_passes parent i t).1
    · exact ih t

/-- Rebuilding the geometry leaves the render model and the key alone. -/
lemma createGeometry_renderModel (ctx : EngineContext) (t : TileData) :
    (t.createGeometry ctx)._renderModel = t._renderModel ∧ (t.createGeometry ctx)._key = t._key := by
  unfold TileData.createGeometry
  split_ifs <;> exact ⟨rfl, rfl⟩

/-- What `getPassIdx` returns is the index of a pass with the UID asked for. -/
lemma getPassIdx_some (passes : List RenderingPass) (uid : UID) (j : Nat)
    (h : getPassIdx passes uid = some j) :
    j < passes.length ∧ (passes.getD j default)._sourceUID = uid := by
  unfold getPassIdx at h
  simp only at h
  split_ifs at h with hlt
  injection h with h
  subst h
  refine ⟨hlt, ?_⟩
  have := List.findIdx_getElem (p := fun p : RenderingPass => p._sourceUID == uid) (w := hlt)
  rw [List.getD_eq_getElem?_getD, List.getElem?_eq_getElem hlt]
  simpa using this

/-- Updating one index leaves the others alone. -/
lemma updatePass_getElem?_ne (l : List RenderingPass) (i k : Nat) (f : RenderingPass → RenderingPass)
    (h : i ≠ k) : (updatePass l i f)[k]? = l[k]? := by
  unfold updatePass
  exact List.getElem?_set_ne h

/-- Updating the last index of a list that ends in `x`. -/
lemma updatePass_append_last (l : List RenderingPass) (x : RenderingPass)
    (f : RenderingPass → RenderingPass) :
    updatePass (l ++ [x]) l.length f = l ++ [f x] := by
  unfold updatePass
  have h1 : (l ++ [x]).getD l.length default = x := by
    rw [List.getD_eq_getElem?_getD, List.getElem?_concat_length]
    rfl
  rw [h1]
  exact set_append_length l x (f x) []

/-- The pass an update leaves at the updated index. -/
lemma updatePass_getD_self (l : List RenderingPass) (i : Nat) (f : RenderingPass → RenderingPass)
    (h : i < l.length) : (updatePass l i f).getD i default = f (l.getD i default) := by
  unfold updatePass
  rw [List.getD_eq_getElem?_getD, List.getElem?_set_self h]
  rfl



/-- The async-loading branch keeps the parent pointer of the pass, and keeps
its UID when that pointer is not stale. -/
lemma mergeAsync_parent_uid (ctx : EngineContext) (parent : Option TileData) (q : Fin 4)
    (tex : Option TextureId) (pass : RenderingPass) :
    (mergeAsync ctx parent q tex pass)._parent = pass._parent ∧
    ((∀ pp, parentPassAt parent pass._parent = some pp → pp._sourceUID = pass._sourceUID) →
      (mergeAsync ctx parent q tex pass)._sourceUID = pass._sourceUID) := by
  unfold mergeAsync
  cases hpp : parentPassAt parent pass._parent with
  | none => exact ⟨rfl, fun _ => rfl⟩
  | some pp =>
    simp only
    split_ifs
    · exact ⟨rfl, fun h => h pp rfl⟩
    · exact ⟨rfl, fun h => h pp rfl⟩

/-- The image branch of `merge` keeps the parent pointer of the pass, and keeps
its UID when that pointer is not stale. -/
lemma mergeImagePass_parent_uid (ctx : EngineContext) (parent : Option TileData) (q : Fin 4)
    (m : TerrainTileColorLayerModel) (isNew : Bool) (pass : RenderingPass) :
    (mergeImagePass ctx parent q m isNew pass)._parent = pass._parent ∧
    ((∀ pp, parentPassAt parent pass._parent = some pp → pp._sourceUID = pass._sourceUID) →
      (mergeImagePass ctx parent q m isNew pass)._sourceUID = pass._sourceUID) := by
  unfold mergeImagePass
  simp only
  split_ifs
  all_goals first
    | exact ⟨rfl, fun _ => rfl⟩
    | exact ⟨(mergeAsync_parent_uid ctx parent q m.texture _).1,
        fun h => (mergeAsync_parent_uid ctx parent q m.texture _).2 h⟩


/-- Updating a pass keeps the parent pointers fresh when the new pass is. -/
lemma linksOK_updatePass (parent : Option TileData) (l : List RenderingPass) (i : Nat)
    (f : RenderingPass → RenderingPass) (hl : LinksOK parent l)
    (hf : i < l.length → ∀ pp, parentPassAt parent (f (l.getD i default))._parent = some pp →
      pp._sourceUID = (f (l.getD i default))._sourceUID) :
    LinksOK parent (updatePass l i f) := by
  intro p hp pp hpp
  unfold updatePass at hp
  by_cases hi : i < l.length
  · rcases List.mem_or_eq_of_mem_set hp with h | h
    · exact hl p h pp hpp
    · subst h
      exact hf hi pp hpp
  · rw [List.set_eq_of_length_le (by omega)] at hp
    exact hl p hp pp hpp

/-- Appending a pass keeps the parent pointers fresh when the new pass is. -/
lemma linksOK_append (parent : Option TileData) (l : List RenderingPass) (x : RenderingPass)
    (hl : LinksOK parent l)
    (hx : ∀ pp, parentPassAt parent x._parent = some pp → pp._sourceUID = x._sourceUID) :
    LinksOK parent (l ++ [x]) := by
  intro p hp pp hpp
  rcases List.mem_append.mp hp with h | h
  · exact hl p h pp hpp
  · rw [List.mem_singleton.mp h] at hpp ⊢
    exact hx pp hpp

/-- The pass `merge` adds for a layer points at the parent's pass of that
layer, if there is one. -/
lemma newPass_link (parent : Option TileData) (layer : Layer) :
    ∀ pp, parentPassAt parent
        ((({ (default : RenderingPass) with
            _parent := getParentPassIdx parent layer.uid }).setLayer (some layer)))._parent = some pp →
      pp._sourceUID = layer.uid := by
  intro pp hpp
  cases parent with
  | none => simp [parentPassAt, RenderingPass.setLayer] at hpp
  | some par =>
    simp only [RenderingPass.setLayer, getParentPassIdx] at hpp
    cases hidx : getPassIdx par._renderModel._passes layer.uid with
    | none => simp [hidx, parentPassAt] at hpp
    | some j =>
      obtain ⟨hj, huid⟩ := getPassIdx_some _ _ _ hidx
      simp only [hidx, parentPassAt] at hpp
      rw [List.getD_eq_getElem?_getD] at huid
      rw [List.get?_eq_getElem?] at hpp
      rw [hpp] at huid
      exact huid



/-- One iteration of the first colour loop of `merge` on an entry for layer
`layer`: the passes of other UIDs stay where they are, the parent pointers
stay fresh, the key stays, and the UID recorded as loaded is the layer's. -/
lemma mergeColorLayer_some (ctx : EngineContext) (parent : Option TileData)
    (m : TerrainTileColorLayerModel) (layer : Layer) (hlayer : m.layer = some layer)
    (t : TileData) (uids : List UID) (hl : LinksOK parent t._renderModel._passes) :
    (mergeColorLayer ctx parent (some m) t uids).2 = uids.insert layer.uid ∧
    (mergeColorLayer ctx parent (some m) t uids).1._key = t._key ∧
    LinksOK parent (mergeColorLayer ctx parent (some m) t uids).1._renderModel._passes ∧
    (∀ (k : Nat) (P : RenderingPass), t._renderModel._passes[k]? = some P →
      layer.uid ≠ P._sourceUID →
      (mergeColorLayer ctx parent (some m) t uids).1._renderModel._passes[k]? = some P) := by
  unfold mergeColorLayer
  simp only [hlayer]
  cases hidx : getPassIdx t._renderModel._passes layer.uid with
  | some j =>
    obtain ⟨hj, huid⟩ := getPassIdx_some _ _ _ hidx
    have hmem : t._renderModel._passes.getD j default ∈ t._renderModel._passes := by
      rw [List.getD_eq_getElem?_getD, List.getElem?_eq_getElem hj]
      exact List.getElem_mem hj
    have hlinkj := hl _ hmem
    simp only [Option.isNone_some, Bool.false_eq_true, if_false, Option.getD_some]
    have hkeep : ∀ (k : Nat) (P : RenderingPass), t._renderModel._passes[k]? = some P →
        layer.uid ≠ P._sourceUID → j ≠ k := by
      intro k P hk hne hjk
      subst hjk
      rw [List.getD_eq_getElem?_getD, hk] at huid
      exact hne huid.symm
    by_cases himg : (m.isImageLayerModel && m.texture.isSome) = true
    · rw [if_pos himg]
      have hF := mergeImagePass_parent_uid ctx parent t._key.getQuadrant m false
        (t._renderModel._passes.getD j default)
      refine ⟨?_, rfl, ?_, ?_⟩
      · show uids.insert _ = _
        rw [updatePass_getD_self _ _ _ hj, hF.2 hlinkj, huid]
      · show LinksOK parent (updatePass _ _ _)
        apply linksOK_updatePass parent _ _ _ hl
        intro _ pp hpp
        rw [hF.1] at hpp
        rw [hF.2 hlinkj]
        exact hlinkj pp hpp
      · intro k P hk hne
        show (updatePass _ _ _)[k]? = some P
        rw [updatePass_getElem?_ne _ _ _ _ (hkeep k P hk hne)]
        exact hk
    · rw [if_neg himg]
      refine ⟨?_, rfl, hl, fun k P hk _ => hk⟩
      show uids.insert _ = _
      rw [huid]
  | none =>
    simp only [Option.isNone_none, if_true, Option.getD_none]
    have hnew := newPass_link parent layer
    have hbase : updatePass (addPass t._renderModel._passes
          (getParentPassIdx parent layer.uid))
        t._renderModel._passes.length (fun q => q.setLayer (some layer)) =
        t._renderModel._passes ++
          [({ (default : RenderingPass) with
              _parent := getParentPassIdx parent layer.uid }).setLayer (some layer)] := by
      unfold addPass
      rw [updatePass_append_last]
    rw [hbase]
    have huidnew : (({ (default : RenderingPass) with
        _parent := getParentPassIdx parent layer.uid }).setLayer (some layer))._sourceUID = layer.uid := rfl
    have hklt : ∀ (k : Nat) (P : RenderingPass), t._renderModel._passes[k]? = some P →
        k < t._renderModel._passes.length := by
      intro k P hk
      by_contra hge
      rw [List.getElem?_eq_none (by omega)] at hk
      cases hk
    have hlinknew : ∀ pp, parentPassAt parent
        (({ (default : RenderingPass) with
          _parent := getParentPassIdx parent layer.uid }).setLayer (some layer))._parent = some pp →
        pp._sourceUID = (({ (default : RenderingPass) with
          _parent := getParentPassIdx parent layer.uid }).setLayer (some layer))._sourceUID := by
      intro pp hpp
      rw [huidnew]
      exact hnew pp hpp
    by_cases himg : (m.isImageLayerModel && m.texture.isSome) = true
    · rw [if_pos himg, updatePass_append_last]
      have hF := mergeImagePass_parent_uid ctx parent t._key.getQuadrant m true
        (({ (default : RenderingPass) with
          _parent := getParentPassIdx parent layer.uid }).setLayer (some layer))
      refine ⟨?_, rfl, ?_, ?_⟩
      · show uids.insert _ = _
        rw [List.getD_eq_getElem?_getD, List.getElem?_concat_length]
        simp only [Option.getD_some]
        rw [hF.2 hlinknew, huidnew]
      · show LinksOK parent (_ ++ [_])
        apply linksOK_append parent _ _ hl
        intro pp hpp
        rw [hF.1] at hpp
        rw [hF.2 hlinknew]
        exact hlinknew pp hpp
      · intro k P hk _
        show (_ ++ [_])[k]? = some P
        rw [List.getElem?_append_left (hklt k P hk)]
        exact hk
    · rw [if_neg himg]
      refine ⟨?_, rfl, ?_, ?_⟩
      · show uids.insert _ = _
        rw [List.getD_eq_getElem?_getD, List.getElem?_concat_length]
        simp only [Option.getD_some]
        rw [huidnew]
      · show LinksOK parent (_ ++ [_])
        exact linksOK_append parent _ _ hl hlinknew
      · intro k P hk _
        show (_ ++ [_])[k]? = some P
        rw [List.getElem?_append_left (hklt k P hk)]
        exact hk

/-- One iteration of the first colour loop of `merge` on any entry that is not
for the UID of pass `P`: `P` stays at its index and its UID is not recorded. -/
lemma mergeColorLayer_keeps (ctx : EngineContext) (parent : Option TileData)
    (e : Option TerrainTileColorLayerModel) (t : TileData) (uids : List UID)
    (hl : LinksOK parent t._renderModel._passes) (k : Nat) (P : RenderingPass)
    (hk : t._renderModel._passes[k]? = some P) (hnot : P._sourceUID ∉ uids)
    (hno : ∀ cm, e = some cm → ∀ l, cm.layer = some l → l.uid ≠ P._sourceUID) :
    (mergeColorLayer ctx parent e t uids).1._key = t._key ∧
    LinksOK parent (mergeColorLayer ctx parent e t uids).1._renderModel._passes ∧
    (mergeColorLayer ctx parent e t uids).1._renderModel._passes[k]? = some P ∧
    P._sourceUID ∉ (mergeColorLayer ctx parent e t uids).2 := by
  cases e with
  | none => exact ⟨rfl, hl, hk, hnot⟩
  | some m =>
    cases hlayer : m.layer with
    | none =>
      have hskip : mergeColorLayer ctx parent (some m) t uids = (t, uids) := by
        unfold mergeColorLayer
        simp only [hlayer]
      rw [hskip]
      exact ⟨rfl, hl, hk, hnot⟩
    | some layer =>
      obtain ⟨h2, hkey, hlinks, hkeep⟩ := mergeColorLayer_some ctx parent m layer hlayer t uids hl
      have hne : layer.uid ≠ P._sourceUID := hno m rfl layer hlayer
      refine ⟨hkey, hlinks, hkeep k P hk hne, ?_⟩
      rw [h2]
      intro hmem
      rcases List.mem_insert_iff.mp hmem with h | h
      · exact hne h.symm
      · exact hnot h

/-- The first colour loop of `merge` over a model with no entry for the UID of
pass `P`: `P` stays at its index and its UID is not recorded as loaded. -/
lemma mergeColorLayers_keeps (ctx : EngineContext) (parent : Option TileData)
    (k : Nat) (P : RenderingPass) :
    ∀ (entries : List (Option TerrainTileColorLayerModel)) (t : TileData) (uids : List UID),
      LinksOK parent t._renderModel._passes →
      t._renderModel._passes[k]? = some P →
      P._sourceUID ∉ uids →
      (∀ cm, some cm ∈ entries → ∀ l, cm.layer = some l → l.uid ≠ P._sourceUID) →
      (mergeColorLayers ctx parent entries t uids).1._key = t._key ∧
      (mergeColorLayers ctx parent entries t uids).1._renderModel._passes[k]? = some P ∧
      P._sourceUID ∉ (mergeColorLayers ctx parent entries t uids).2 := by
  intro entries
  induction entries with
  | nil =>
    intro t uids _ hk hnot _
    exact ⟨rfl, hk, hnot⟩
  | cons e rest ih =>
    intro t uids hl hk hnot hno
    obtain ⟨hkey, hl1, hk1, hnot1⟩ := mergeColorLayer_keeps ctx parent e t uids hl k P hk hnot
      (fun cm hcm l hlay => hno cm (hcm ▸ List.mem_cons_self _ _) l hlay)
    obtain ⟨hkey2, hk2, hnot2⟩ := ih _ _ hl1 hk1 hnot1
      (fun cm hcm l hlay => hno cm (List.mem_cons_of_mem _ hcm) l hlay)
    unfold mergeColorLayers
    exact ⟨hkey2.trans hkey, hk2, hnot2⟩

/-- The passes after `merge` are those the colour section leaves. -/
lemma merge_passes (ctx : EngineContext) (parent : Option TileData)
    (model : TerrainTileModel) (manifest : CreateTileManifest) (d : TileData)
    (children : List TileNode) (results : List CreateChildResult) :
    ((TileNode.mk d children results).merge ctx parent model manifest).1.d._renderModel._passes =
      ((if manifest.includesConstraints then d.createGeometry ctx else d).mergeColor
        ctx parent model manifest)._renderModel._passes := by
  rw [TileNode.merge]
  simp only [TileNode.d, TileData.mergeOwn]
  rw [releaseSharedLayers_passes, mergeSharedLayers_passes, mergeLandCover_passes,
    mergeNormal_passes, mergeElevation_passes]

/-- The colour section of `merge`, with the COLOR binding active, maps every
pass left by the first loop through `orphanFate`. -/
lemma mergeColor_passes (ctx : EngineContext) (parent : Option TileData)
    (model : TerrainTileModel) (manifest : CreateTileManifest) (t : TileData)
    (hcolor : isActive ctx.bindings SamplerBinding.COLOR = true) :
    (t.mergeColor ctx parent model manifest)._renderModel._passes =
      (mergeColorLayers ctx parent model.colorLayers t []).1._renderModel._passes.filterMap
        (orphanFate parent t._key.getQuadrant manifest
          (mergeColorLayers ctx parent model.colorLayers t []).2) := by
  unfold TileData.mergeColor
  rw [if_pos hcolor]
  have h := releaseOrphanedPasses_eq parent t._key.getQuadrant manifest
    (mergeColorLayers ctx parent model.colorLayers t []).2
    (mergeColorLayers ctx parent model.colorLayers t []).1._renderModel._passes []
  simp only [List.nil_append, List.length_nil] at h
  exact h

/-- The COLOR sampler of a pass after `inheritFrom` is the parent's, scaled. -/
lemma inheritFrom_ownsTexture (P pp : RenderingPass) (sb : Matrixf) :
    (P.inheritFrom pp sb).ownsTexture = true ↔
      (pp.sampler SamplerBinding.COLOR)._texture.isSome = true ∧
      preMult (pp.sampler SamplerBinding.COLOR)._matrix sb = 1 := by
  unfold RenderingPass.ownsTexture RenderingPass.sampler RenderingPass.inheritFrom
    SamplerBinding.COLOR
  cases hs : pp._samplers with
  | nil =>
    have hd : (default : Sampler)._texture = none := rfl
    simp [Sampler.ownsTexture, hd]
  | cons s rest =>
    simp [Sampler.ownsTexture, Sampler.preMultBy]

/-- A pass found by `getPass(uid)` has that UID. -/
lemma getPass_uid (m : TileRenderModel) (uid : UID) (pp : RenderingPass)
    (h : m.getPass uid = some pp) : pp._sourceUID = uid := by
  unfold TileRenderModel.getPass at h
  have := List.find?_some h
  simpa using this

/-- C3 (amended): in `merge(model, manifest)` with the COLOR binding active, on
a tile whose parent pointers are not stale, take a pass `P` at index `k` that
owns its texture, whose layer the manifest includes and for which the model
has no colour-layer entry.  The passes after the merge are the passes
`passes1` left by the first loop, each mapped through `orphanFate`; `P` is still
at index `k` of `passes1`, and its fate is decided by the parent's pass of the
same UID alone: if the parent has one, `P` is replaced by the pass inherited
from it (same UID, every sampler the parent's with its matrix pre-multiplied by
the scale/bias of this tile's quadrant), which is in the result and is owned
only if the parent's COLOR sampler has a texture and its scaled matrix is the
identity; otherwise (no parent, or a parent without such a pass) `P` is
dropped. -/
theorem merge_orphaned_pass_follows_parent_pass
    (ctx : EngineContext) (parent : Option TileData) (model : TerrainTileModel)
    (manifest : CreateTileManifest) (d : TileData) (children : List TileNode)
    (results : List CreateChildResult)
    (hcolor : isActive ctx.bindings SamplerBinding.COLOR = true)
    (hlinks : LinksOK parent d._renderModel._passes)
    (k : Nat) (P : RenderingPass) (hk : d._renderModel._passes[k]? = some P)
    (hown : P.ownsTexture = true) (hinc : manifest.includesLayer P._layer = true)
    (hno : ∀ cm, some cm ∈ model.colorLayers → ∀ l, cm.layer = some l → l.uid ≠ P._sourceUID) :
    ∃ (passes1 : List RenderingPass) (uidsLoaded : List UID),
      ((TileNode.mk d children results).merge ctx parent model manifest).1.d._renderModel._passes =
        passes1.filterMap (orphanFate parent d._key.getQuadrant manifest uidsLoaded) ∧
      passes1[k]? = some P ∧
      orphanFate parent d._key.getQuadrant manifest uidsLoaded P =
        (parent.bind (fun par => par._renderModel.getPass P._sourceUID)).map
          (fun pp => P.inheritFrom pp (scaleBias d._key.getQuadrant)) ∧
      (∀ pp, parent.bind (fun par => par._renderModel.getPass P._sourceUID) = some pp →
        P.inheritFrom pp (scaleBias d._key.getQuadrant) ∈
          ((TileNode.mk d children results).merge ctx parent model manifest).1.d._renderModel._passes ∧
        (P.inheritFrom pp (scaleBias d._key.getQuadrant))._sourceUID = P._sourceUID ∧
        (P.inheritFrom pp (scaleBias d._key.getQuadrant))._samplers =
          pp._samplers.map (fun s =>
            { s with _matrix := preMult s._matrix (scaleBias d._key.getQuadrant) }) ∧
        ((P.inheritFrom pp (scaleBias d._key.getQuadrant)).ownsTexture = true ↔
          (pp.sampler SamplerBinding.COLOR)._texture.isSome = true ∧
          preMult (pp.sampler SamplerBinding.COLOR)._matrix (scaleBias d._key.getQuadrant) = 1)) := by
  have hd0 : (if manifest.includesConstraints then d.createGeometry ctx else d)._renderModel =
        d._renderModel ∧
      (if manifest.includesConstraints then d.createGeometry ctx else d)._key = d._key := by
    split_ifs
    · exact createGeometry_renderModel ctx d
    · exact ⟨rfl, rfl⟩
  have hres := merge_passes ctx parent model manifest d children results
  rw [mergeColor_passes ctx parent model manifest _ hcolor, hd0.2] at hres
  obtain ⟨_, hk1, hnot1⟩ := mergeColorLayers_keeps ctx parent k P model.colorLayers
    (if manifest.includesConstraints then d.createGeometry ctx else d) []
    (by rw [hd0.1]; exact hlinks) (by rw [hd0.1]; exact hk) (List.not_mem_nil _) hno
  have hfate := orphanFate_pos parent d._key.getQuadrant manifest
    (mergeColorLayers ctx parent model.colorLayers
      (if manifest.includesConstraints then d.createGeometry ctx else d) []).2 P
    (by simp [hown, hinc, hnot1])
  refine ⟨_, _, hres, hk1, hfate, ?_⟩
  intro pp hpp
  refine ⟨?_, ?_, rfl, inheritFrom_ownsTexture P pp _⟩
  · rw [hres, List.mem_filterMap]
    refine ⟨P, List.getElem?_mem hk1, ?_⟩
    rw [hfate, hpp]
    rfl
  · cases parent with
    | none => cases hpp
    | some par => exact getPass_uid par._renderModel P._sourceUID pp hpp

/-- Witness for C3: a level-1 tile owning a pass for layer 7, under a parent
that has a pass for layer 7, merged with a model that delivers nothing. -/
theorem merge_orphaned_pass_follows_parent_pass_witness :
    ∃ (passes1 : List RenderingPass) (uidsLoaded : List UID),
      ((TileNode.mk sampleOwnedTile [] []).merge (sampleContext (sampleBindings true false) 0 0)
          (some sampleParentWithPass) emptyModel sampleManifest).1.d._renderModel._passes =
        passes1.filterMap (orphanFate (some sampleParentWithPass) sampleOwnedTile._key.getQuadrant
          sampleManifest uidsLoaded) ∧
      passes1[0]? = some sampleOwnedPass ∧
      orphanFate (some sampleParentWithPass) sampleOwnedTile._key.getQuadrant sampleManifest
          uidsLoaded sampleOwnedPass =
        ((some sampleParentWithPass).bind
            (fun par => par._renderModel.getPass sampleOwnedPass._sourceUID)).map
          (fun pp => sampleOwnedPass.inheritFrom pp (scaleBias sampleOwnedTile._key.getQuadrant)) ∧
      (∀ pp, (some sampleParentWithPass).bind
            (fun par => par._renderModel.getPass sampleOwnedPass._sourceUID) = some pp →
        sampleOwnedPass.inheritFrom pp (scaleBias sampleOwnedTile._key.getQuadrant) ∈
          ((TileNode.mk sampleOwnedTile [] []).merge (sampleContext (sampleBindings true false) 0 0)
            (some sampleParentWithPass) emptyModel sampleManifest).1.d._renderModel._passes ∧
        (sampleOwnedPass.inheritFrom pp (scaleBias sampleOwnedTile._key.getQuadrant))._sourceUID =
          sampleOwnedPass._sourceUID ∧
        (sampleOwnedPass.inheritFrom pp (scaleBias sampleOwnedTile._key.getQuadrant))._samplers =
          pp._samplers.map (fun s =>
            { s with _matrix := preMult s._matrix (scaleBias sampleOwnedTile._key.getQuadrant) }) ∧
        ((sampleOwnedPass.inheritFrom pp
            (scaleBias sampleOwnedTile._key.getQuadrant)).ownsTexture = true ↔
          (pp.sampler SamplerBinding.COLOR)._texture.isSome = true ∧
          preMult (pp.sampler SamplerBinding.COLOR)._matrix
            (scaleBias sampleOwnedTile._key.getQuadrant) = 1)) :=
  merge_orphaned_pass_follows_parent_pass (sampleContext (sampleBindings true false) 0 0)
    (some sampleParentWithPass) emptyModel sampleManifest sampleOwnedTile [] []
    rfl
    (by simp [LinksOK, sampleOwnedTile, sampleTile, sampleOwnedPass, samplePass, parentPassAt])
    0 sampleOwnedPass rfl
    (by simp [RenderingPass.ownsTexture, RenderingPass.sampler, sampleOwnedPass, samplePass,
      ownSampler, Sampler.ownsTexture, SamplerBinding.COLOR])
    rfl
    (by simp [emptyModel])

/-- C3 (counterexample): a level-1 tile owns a pass for layer 7; its parent
tile exists but has no pass for layer 7.  A merge with the COLOR binding
active, a manifest that includes the layer and a model without any entry for
it removes the pass from the tile, although a parent exists. -/
theorem merge_removes_orphan_although_parent_exists :
    sampleOwnedTile._renderModel._passes = [sampleOwnedPass] ∧
    sampleOwnedPass.ownsTexture = true ∧
    sampleManifest.includesLayer sampleOwnedPass._layer = true ∧
    emptyModel.colorLayers = [] ∧
    isActive (sampleContext (sampleBindings true false) 0 0).bindings SamplerBinding.COLOR = true ∧
    (some (sampleTile rootKey [])).isSome = true ∧
    ((TileNode.mk sampleOwnedTile [] []).merge (sampleContext (sampleBindings true false) 0 0)
        (some (sampleTile rootKey [])) emptyModel sampleManifest).1.d._renderModel._passes = [] := by
  have hown : sampleOwnedPass.ownsTexture = true := by
    simp [RenderingPass.ownsTexture, RenderingPass.sampler, sampleOwnedPass, samplePass,
      ownSampler, Sampler.ownsTexture, SamplerBinding.COLOR]
  refine ⟨rfl, hown, rfl, rfl, rfl, rfl, ?_⟩
  have hcolor : isActive (sampleContext (sampleBindings true false) 0 0).bindings
      SamplerBinding.COLOR = true := rfl
  rw [merge_passes, mergeColor_passes _ _ _ _ _ hcolor]
  have hfate : orphanFate (some (sampleTile rootKey [])) (⟨1, 0, 0⟩ : TileKey).getQuadrant
      sampleManifest [] sampleOwnedPass = none := by
    rw [orphanFate_pos _ _ _ _ _ (by simp [hown, sampleManifest])]
    rfl
  show List.filterMap (orphanFate (some (sampleTile rootKey [])) (⟨1, 0, 0⟩ : TileKey).getQuadrant
      sampleManifest []) [sampleOwnedPass] = []
  rw [List.filterMap_cons_none hfate]
  rfl

end Rex

namespace Rex

/-! ## When `cull` creates children and when it loads -/

/-- The load step emits no creation event. -/
lemma loadIf_no_create (b : Bool) (t : TileNode) : Event.createChildren ∉ (t.loadIf b).2 := by
  rcases loadIf_events b t with h | h | h <;> simp [h]

/-- With an inherit-viewpoint camera a visible tile's cull call returns with
the tile as it was and accepts either the sub-tiles or the surface only. -/
lemma cull_inheritViewpoint (ctx : EngineContext) (culler : TerrainCuller)
    (parent : Option TileData) (t : TileNode)
    (hiv : culler.inheritViewpoint = true) :
    ∃ ret ev, t.cull ctx culler parent = .ok (t, ret, ev) ∧ Event.createChildren ∉ ev ∧
      Event.dispatchLoad ∉ ev ∧ Event.submitToMerger ∉ ev := by
  obtain ⟨d, cs, rs⟩ := t
  unfold TileNode.cull
  by_cases hvis : culler.surfaceVisible = true
  · simp only [hvis, hiv, Bool.not_true, Bool.false_eq_true, if_false, if_true, TileNode.d,
      Bool.and_false, TileNode.loadIf]
    by_cases hrange : d.shouldSubDivide ctx culler = true
    · simp only [hrange, if_true]
      refine ⟨_, _, rfl, ?_, ?_, ?_⟩ <;> split_ifs <;> simp
    · simp only [hrange]
      refine ⟨_, _, rfl, ?_, ?_, ?_⟩ <;> simp
  · simp only [Bool.not_eq_true] at hvis
    simp only [hvis, Bool.not_false, if_true]
    exact ⟨_, _, rfl, by simp, by simp, by simp⟩

/-- The progressive test of `cull`: the value it computes, when it computes
one, says whether the parent is dirty with a progressive load pending under an
ordinary camera in progressive mode. -/
lemma cull_blocked_some (ctx : EngineContext) (culler : TerrainCuller)
    (parent : Option TileData) (pb : Bool)
    (h : (if culler.inheritViewpoint = true then some false
        else if ctx.options.progressive = true then
          match parent with
          | some par => if par.dirty = true then TileData.nextLoadIsProgressive ctx par
              else some false
          | none => some false
        else some false) = some pb) :
    (pb = true ↔ culler.inheritViewpoint = false ∧ ctx.options.progressive = true ∧
      ∃ par, parent = some par ∧ par.dirty = true ∧
        par.nextLoadIsProgressive ctx = some true) := by
  by_cases hiv : culler.inheritViewpoint = true
  · rw [if_pos hiv] at h
    injection h with h
    subst h
    simp [hiv]
  · rw [if_neg hiv] at h
    simp only [Bool.not_eq_true] at hiv
    by_cases hp : ctx.options.progressive = true
    · rw [if_pos hp] at h
      cases parent with
      | none =>
        simp only at h
        injection h with h
        subst h
        simp
      | some par =>
        simp only at h
        by_cases hd : par.dirty = true
        · rw [if_pos hd] at h
          simp [hiv, hp, hd, h]
        · rw [if_neg hd] at h
          injection h with h
          subst h
          simp [hd]
    · rw [if_neg hp] at h
      injection h with h
      subst h
      simp [hp]

/-- Every cull call that passes the horizon test and returns took one of two
paths.  Creation path (ordinary camera, children in range and not ready): the
guarded creation step ran, then the sub-tiles or the surface were accepted, and
the load step ran with loading forbidden.  Other path: no creation step; the
load step ran with loading allowed by the camera, the progressive test `pb`
and the LOD policy. -/
lemma cull_ok_paths (ctx : EngineContext) (culler : TerrainCuller) (parent : Option TileData)
    (t t1 : TileNode) (ret : Bool) (ev : List Event)
    (hvis : culler.surfaceVisible = true)
    (h : t.cull ctx culler parent = .ok (t1, ret, ev)) :
    ∃ pb : Bool,
      (pb = true ↔ culler.inheritViewpoint = false ∧ ctx.options.progressive = true ∧
        ∃ par, parent = some par ∧ par.dirty = true ∧
          par.nextLoadIsProgressive ctx = some true) ∧
      ((culler.inheritViewpoint = false ∧ t.d.shouldSubDivide ctx culler = true ∧
          t.d._childrenReady = false ∧
          ∃ t0, t.createChildrenIfNotReady ctx = .ok t0 ∧ t1 = (t0.loadIf false).1 ∧
            ev = [Event.createChildren] ++
              (if t0.d._childrenReady = true then t0.subTileKeys.map Event.acceptChild
                else [Event.acceptSurface]) ++ (t0.loadIf false).2) ∨
       (¬ (culler.inheritViewpoint = false ∧ t.d.shouldSubDivide ctx culler = true ∧
          t.d._childrenReady = false) ∧
          t1 = (t.loadIf (!culler.inheritViewpoint && !pb &&
            (t.d._doNotExpire || decide (t.d._key.lod = ctx.options.firstLOD) ||
              decide (t.d._key.lod ≥ ctx.options.minLOD)))).1 ∧
          ev = (if t.d.shouldSubDivide ctx culler = true ∧ t.d._childrenReady = true then
                t.subTileKeys.map Event.acceptChild else [Event.acceptSurface]) ++
              (t.loadIf (!culler.inheritViewpoint && !pb &&
                (t.d._doNotExpire || decide (t.d._key.lod = ctx.options.firstLOD) ||
                  decide (t.d._key.lod ≥ ctx.options.minLOD)))).2)) := by
  unfold TileNode.cull at h
  simp only [hvis, Bool.not_true, Bool.false_eq_true, if_false] at h
  split at h
  · cases h
  · rename_i pb hblock
    refine ⟨pb, cull_blocked_some ctx culler parent pb hblock, ?_⟩
    have hcan : (if culler.inheritViewpoint = true then false
        else if pb = true then false
        else t.d._doNotExpire || decide (t.d._key.lod = ctx.options.firstLOD) ||
          decide (t.d._key.lod ≥ ctx.options.minLOD)) =
        (!culler.inheritViewpoint && !pb &&
          (t.d._doNotExpire || decide (t.d._key.lod = ctx.options.firstLOD) ||
            decide (t.d._key.lod ≥ ctx.options.minLOD))) := by
      cases culler.inheritViewpoint <;> cases pb <;> simp
    rw [hcan] at h
    by_cases hrange : t.d.shouldSubDivide ctx culler = true
    · simp only [hrange, if_true] at h
      by_cases hiv : culler.inheritViewpoint = true
      · right
        simp only [hiv, Bool.false_eq_true, if_false, if_true, Bool.and_false] at h
        injection h with h
        simp only [Prod.mk.injEq] at h
        obtain ⟨h1, _, h3⟩ := h
        refine ⟨by simp [hiv], ?_, ?_⟩
        · rw [← h1]; simp [hiv]
        · rw [← h3]
          by_cases hr : t.d._childrenReady = true <;> simp [hr, hrange, hiv]
      · simp only [Bool.not_eq_true] at hiv
        cases hr : t.d._childrenReady with
        | true =>
          right
          simp only [hr, hiv, Bool.not_true, Bool.false_and, Bool.false_eq_true, if_false] at h
          injection h with h
          simp only [Prod.mk.injEq] at h
          obtain ⟨h1, _, h3⟩ := h
          refine ⟨by simp [hr], ?_, ?_⟩
          · rw [← h1]; simp [hiv]
          · rw [← h3]
            simp [hr, hrange, hiv]
        | false =>
          left
          simp only [hr, hiv, Bool.not_false, Bool.true_and, Bool.false_eq_true, if_false,
            if_true] at h
          cases hc : t.createChildrenIfNotReady ctx with
          | nullDeref t2 => simp [hc] at h
          | ok t0 =>
            simp only [hc] at h
            injection h with h
            simp only [Prod.mk.injEq] at h
            obtain ⟨h1, _, h3⟩ := h
            exact ⟨hiv, hrange, rfl, t0, rfl, h1.symm, h3.symm⟩
    · right
      simp only [hrange] at h
      injection h with h
      simp only [Prod.mk.injEq] at h
      obtain ⟨h1, _, h3⟩ := h
      refine ⟨by simp [hrange], h1.symm, ?_⟩
      rw [← h3]
      simp [hrange]

/-- C11 (amended): child creation is dispatched or polled by a cull call
exactly when the tile passes the horizon test, the children are in range,
the children are not ready and the camera is not inherit-viewpoint.  With an
inherit-viewpoint camera the call returns with the tile unchanged and without
a creation step; for every call that returns, a creation step happened if and
only if these four conditions hold, whatever the state of the parent tile and
whether or not the progressive option is set. -/
theorem cull_creates_children_iff_in_range_and_not_inherit_viewpoint
    (ctx : EngineContext) (culler : TerrainCuller) (parent : Option TileData) (t : TileNode) :
    (culler.inheritViewpoint = true →
      ∃ ret ev, t.cull ctx culler parent = .ok (t, ret, ev) ∧ Event.createChildren ∉ ev) ∧
    (∀ t1 ret ev, t.cull ctx culler parent = .ok (t1, ret, ev) →
      (Event.createChildren ∈ ev ↔
        culler.surfaceVisible = true ∧ culler.inheritViewpoint = false ∧
        t.d.shouldSubDivide ctx culler = true ∧ t.d._childrenReady = false)) := by
  constructor
  · intro hiv
    obtain ⟨ret, ev, h, hno, _, _⟩ := cull_inheritViewpoint ctx culler parent t hiv
    exact ⟨ret, ev, h, hno⟩
  · intro t1 ret ev h
    by_cases hvis : culler.surfaceVisible = true
    · obtain ⟨pb, _, hpath⟩ := cull_ok_paths ctx culler parent t t1 ret ev hvis h
      rcases hpath with ⟨hiv, hrange, hnr, t0, _, _, hev⟩ | ⟨hnot, _, hev⟩
      · constructor
        · intro _
          exact ⟨hvis, hiv, hrange, hnr⟩
        · intro _
          rw [hev]
          simp
      · constructor
        · intro hin
          exfalso
          rw [hev] at hin
          rcases List.mem_append.mp hin with h1 | h1
          · split_ifs at h1 <;> simp at h1
          · exact loadIf_no_create _ _ h1
        · rintro ⟨_, hiv, hrange, hnr⟩
          exact absurd ⟨hiv, hrange, hnr⟩ hnot
    · simp only [Bool.not_eq_true] at hvis
      unfold TileNode.cull at h
      simp only [hvis, Bool.not_false, if_true] at h
      injection h with h
      simp only [Prod.mk.injEq] at h
      rw [← h.2.2]
      simp [hvis]

/-- Witness for C11: a new level-1 tile whose children are in range, culled by
an inherit-viewpoint camera, returns unchanged and without a creation step. -/
theorem cull_creates_children_iff_in_range_and_not_inherit_viewpoint_witness :
    ∃ ret ev, (TileNode.new (sampleContext [] 0 0) ⟨1, 0, 0⟩).cull (sampleContext [] 0 0)
        sampleInheritViewpointCuller none =
          .ok (TileNode.new (sampleContext [] 0 0) ⟨1, 0, 0⟩, ret, ev) ∧
      Event.createChildren ∉ ev :=
  (cull_creates_children_iff_in_range_and_not_inherit_viewpoint (sampleContext [] 0 0)
    sampleInheritViewpointCuller none (TileNode.new (sampleContext [] 0 0) ⟨1, 0, 0⟩)).1 rfl

/-- C11 (counterexample): progressive mode, a parent that is dirty with a
progressive load pending, an ordinary camera and a new level-1 tile whose
children are in range.  The cull call dispatches the four creation jobs. -/
theorem cull_creates_children_while_parent_load_pending :
    sampleProgressiveContext.options.progressive = true ∧
    sampleDirtyParent.dirty = true ∧
    sampleDirtyParent.nextLoadIsProgressive sampleProgressiveContext = some true ∧
    ∃ t1, (TileNode.new sampleProgressiveContext ⟨1, 0, 0⟩).cull sampleProgressiveContext
        (sampleCuller true) (some sampleDirtyParent) =
          .ok (t1, true, [Event.createChildren, Event.acceptSurface]) ∧
      t1.createChildResults.length = 4 := by
  refine ⟨rfl, rfl, rfl, _, rfl, rfl⟩

end Rex

namespace Rex

/-- The guarded creation step changes no field of the tile but `_childrenReady`. -/
lemma createChildrenIfNotReady_d (ctx : EngineContext) (t t0 : TileNode)
    (h : t.createChildrenIfNotReady ctx = .ok t0) :
    t0.d = { t.d with _childrenReady := t0.d._childrenReady } := by
  obtain ⟨d, cs, rs⟩ := t
  unfold TileNode.createChildrenIfNotReady at h
  simp only [TileNode.d] at h ⊢
  by_cases hr : (!d._childrenReady) = true
  · simp only [hr, if_true] at h
    unfold TileNode.createChildren at h
    by_cases hasync : d._createChildAsync = true
    · simp only [hasync, if_true] at h
      by_cases hempty : rs.isEmpty = true
      · simp only [hempty, if_true] at h
        injection h with h
        subst h
        rfl
      · simp only [hempty] at h
        by_cases hcount : ((rs.take 4).filter (fun r => r.available)).length = 4
        · simp only [hcount, if_true] at h
          cases ha : attachChildren ctx d (rs.take 4) cs with
          | inl cs1 =>
            simp only [ha] at h
            injection h with h
            subst h
            rfl
          | inr cs1 => simp [ha] at h
        · simp only [hcount] at h
          injection h with h
          subst h
          rfl
    · simp only [hasync] at h
      injection h with h
      subst h
      rfl
  · simp only [hr] at h
    injection h with h
    subst h
    rfl

/-- The load step with loading forbidden does nothing. -/
lemma loadIf_false (t : TileNode) : t.loadIf false = (t, []) := by
  obtain ⟨d, cs, rs⟩ := t
  simp [TileNode.loadIf]

/-- The load step with loading allowed on a dirty tile is `processLoadQueue`. -/
lemma loadIf_true_dirty (t : TileNode) (b : Bool) (hd : (t.d.dirty && b) = true) :
    (t.loadIf b).1.d = t.d.processLoadQueue.1 ∧ (t.loadIf b).2 = t.d.processLoadQueue.2 := by
  obtain ⟨d, cs, rs⟩ := t
  simp only [TileNode.d] at hd
  simp [TileNode.loadIf, hd, TileNode.d, TileData.load]

/-- The load step on a tile that is clean or may not load does nothing. -/
lemma loadIf_not (t : TileNode) (b : Bool) (hd : ¬ (t.d.dirty && b) = true) :
    t.loadIf b = (t, []) := by
  obtain ⟨d, cs, rs⟩ := t
  simp only [TileNode.d] at hd
  simp [TileNode.loadIf, hd]

/-- The load step hands out load events only. -/
lemma loadIf_filter_isLoad (b : Bool) (t : TileNode) :
    (t.loadIf b).2.filter Event.isLoad = (t.loadIf b).2 := by
  rcases loadIf_events b t with h | h | h <;> rw [h] <;> rfl

/-- Accepting the sub-tiles or the surface is not a load event. -/
lemma accept_filter_isLoad (c : Prop) [Decidable c] (ks : List TileKey) :
    (if c then ks.map Event.acceptChild else [Event.acceptSurface]).filter Event.isLoad = [] := by
  split_ifs
  · induction ks with
    | nil => rfl
    | cons k rest ih => simp [Event.isLoad]
  · rfl

/-- C12: for every cull call that passes the horizon test and returns, the
load queue is advanced if and only if the tile is dirty, the LOD policy
permits loading (doNotExpire, or LOD equal to firstLOD, or LOD at least
minLOD), the camera is not inherit-viewpoint, progressive mode does not block
(the parent is not dirty with a progressive load pending) and no creation step
happened in this call.  When these hold, the tile afterwards is the tile after
`processLoadQueue` and the load events of the call are those of
`processLoadQueue`; otherwise the queue, its cached counter and the manifest
pointer are untouched and the call has no load event.  In particular a call
with a creation step loads nothing. -/
theorem cull_advances_load_queue_iff_permitted
    (ctx : EngineContext) (culler : TerrainCuller) (parent : Option TileData)
    (t t1 : TileNode) (ret : Bool) (ev : List Event)
    (hvis : culler.surfaceVisible = true)
    (h : t.cull ctx culler parent = .ok (t1, ret, ev)) :
    ((t.d.dirty = true ∧
        (t.d._doNotExpire = true ∨ t.d._key.lod = ctx.options.firstLOD ∨
          t.d._key.lod ≥ ctx.options.minLOD) ∧
        culler.inheritViewpoint = false ∧
        ¬ (ctx.options.progressive = true ∧ ∃ par, parent = some par ∧ par.dirty = true ∧
          par.nextLoadIsProgressive ctx = some true) ∧
        Event.createChildren ∉ ev) →
      t1.d = t.d.processLoadQueue.1 ∧ ev.filter Event.isLoad = t.d.processLoadQueue.2) ∧
    (¬ (t.d.dirty = true ∧
        (t.d._doNotExpire = true ∨ t.d._key.lod = ctx.options.firstLOD ∨
          t.d._key.lod ≥ ctx.options.minLOD) ∧
        culler.inheritViewpoint = false ∧
        ¬ (ctx.options.progressive = true ∧ ∃ par, parent = some par ∧ par.dirty = true ∧
          par.nextLoadIsProgressive ctx = some true) ∧
        Event.createChildren ∉ ev) →
      t1.d._loadQueue = t.d._loadQueue ∧ t1.d._loadsInQueue = t.d._loadsInQueue ∧
      t1.d._nextLoadManifestPtr = t.d._nextLoadManifestPtr ∧ ev.filter Event.isLoad = []) ∧
    (Event.createChildren ∈ ev →
      t1.d._loadQueue = t.d._loadQueue ∧ ev.filter Event.isLoad = []) := by
  obtain ⟨pb, hpb, hpath⟩ := cull_ok_paths ctx culler parent t t1 ret ev hvis h
  rcases hpath with ⟨hiv, hrange, hnr, t0, hc, h1, hev⟩ | ⟨hnot, h1, hev⟩
  · have hd0 := createChildrenIfNotReady_d ctx t t0 hc
    rw [loadIf_false] at h1 hev
    have hin : Event.createChildren ∈ ev := by rw [hev]; simp
    have hfil : ev.filter Event.isLoad = [] := by
      rw [hev]
      simp only [List.filter_append, accept_filter_isLoad, List.append_nil]
      rfl
    have hq : t1.d._loadQueue = t.d._loadQueue ∧ t1.d._loadsInQueue = t.d._loadsInQueue ∧
        t1.d._nextLoadManifestPtr = t.d._nextLoadManifestPtr := by
      rw [h1, hd0]
      exact ⟨rfl, rfl, rfl⟩
    refine ⟨?_, ?_, ?_⟩
    · rintro ⟨_, _, _, _, hno⟩
      exact absurd hin hno
    · intro _
      exact ⟨hq.1, hq.2.1, hq.2.2, hfil⟩
    · intro _
      exact ⟨hq.1, hfil⟩
  · have hno : Event.createChildren ∉ ev := by
      rw [hev]
      intro hin
      rcases List.mem_append.mp hin with h2 | h2
      · split_ifs at h2 <;> simp at h2
      · exact loadIf_no_create _ _ h2
    have hfil : ev.filter Event.isLoad =
        (t.loadIf (!culler.inheritViewpoint && !pb &&
          (t.d._doNotExpire || decide (t.d._key.lod = ctx.options.firstLOD) ||
            decide (t.d._key.lod ≥ ctx.options.minLOD)))).2 := by
      rw [hev, List.filter_append, accept_filter_isLoad, List.nil_append, loadIf_filter_isLoad]
    refine ⟨?_, ?_, ?_⟩
    · rintro ⟨hdirty, hlod, hiv, hprog, _⟩
      have hpbf : pb = false := by
        cases hh : pb with
        | false => rfl
        | true => exact absurd (hpb.mp hh).2 hprog
      have hb : (t.d.dirty && (!culler.inheritViewpoint && !pb &&
          (t.d._doNotExpire || decide (t.d._key.lod = ctx.options.firstLOD) ||
            decide (t.d._key.lod ≥ ctx.options.minLOD)))) = true := by
        rw [hdirty, hiv, hpbf]
        rcases hlod with h2 | h2 | h2 <;> simp [h2]
      obtain ⟨hl1, hl2⟩ := loadIf_true_dirty t _ hb
      rw [hfil, h1]
      exact ⟨hl1, hl2⟩
    · intro hcond
      have hb : ¬ (t.d.dirty && (!culler.inheritViewpoint && !pb &&
          (t.d._doNotExpire || decide (t.d._key.lod = ctx.options.firstLOD) ||
            decide (t.d._key.lod ≥ ctx.options.minLOD)))) = true := by
        intro hb
        apply hcond
        simp only [Bool.and_eq_true, Bool.not_eq_true', Bool.or_eq_true, decide_eq_true_eq] at hb
        obtain ⟨hdirty, ⟨hiv, hpbf⟩, hlod⟩ := hb
        refine ⟨hdirty, ?_, hiv, ?_, hno⟩
        · rcases hlod with (h2 | h2) | h2
          · exact Or.inl h2
          · exact Or.inr (Or.inl h2)
          · exact Or.inr (Or.inr h2)
        · intro hprog
          have := hpb.mpr ⟨hiv, hprog⟩
          rw [hpbf] at this
          cases this
      rw [loadIf_not t _ hb] at h1 hfil
      rw [hfil, h1]
      exact ⟨rfl, rfl, rfl, rfl⟩
    · intro hin
      exact absurd hin hno

/-- Witness for C12: a dirty level-1 tile whose children are out of range, an
ordinary camera, no parent: the call dispatches the queued load. -/
theorem cull_advances_load_queue_iff_permitted_witness :
    ∃ t1 ev, sampleDirtyTile.cull (sampleContext [] 0 0) (sampleCuller false) none =
        .ok (t1, true, ev) ∧
      t1.d = sampleDirtyTile.d.processLoadQueue.1 ∧
      ev.filter Event.isLoad = [Event.dispatchLoad] :=
  ⟨_, _, rfl,
    ((cull_advances_load_queue_iff_permitted (sampleContext [] 0 0) (sampleCuller false) none
      sampleDirtyTile _ true _ rfl rfl).1
      ⟨rfl, Or.inr (Or.inr (Nat.zero_le _)), rfl, by simp [sampleContext, sampleOptions], by decide⟩)⟩

end Rex

namespace Rex

/-! ## The load queue is first in, first out -/

/-- The manifests handed to the merger so far followed by those still queued
are the manifests initially queued followed by those enqueued during the run. -/
lemma runQueue_fifo (steps : List QueueStep) :
    ∀ (t : TileData) (merged : List CreateTileManifest),
      (runQueue steps t merged).2 ++
          (runQueue steps t merged).1._loadQueue.map (fun op => op._manifest) =
        merged ++ t._loadQueue.map (fun op => op._manifest) ++ enqueuedManifests steps := by
  induction steps with
  | nil => intro t merged; simp [runQueue, enqueuedManifests]
  | cons s rest ih =>
    intro t merged
    cases s with
    | refreshLayers manifest =>
      simp only [runQueue, enqueuedManifests]
      rw [ih]
      simp [TileData.refreshLayers]
    | processLoadQueue =>
      simp only [runQueue, enqueuedManifests]
      rw [ih]
      congr 1
      unfold TileData.processLoadQueue
      cases hq : t._loadQueue with
      | nil => simp [hq]
      | cons op others =>
        simp only
        by_cases hab : op._result = FutureState.abandoned
        · simp [hab, hq]
        · by_cases hav : op._result = FutureState.available
          · simp [hab, hav, hq]
          · simp [hab, hav, hq]
    | jobProgress i result =>
      simp only [runQueue, enqueuedManifests]
      rw [ih]
      congr 2
      cases hg : t._loadQueue.get? i with
      | none => rfl
      | some op =>
        simp only
        apply List.ext_getElem?
        intro k
        simp only [List.getElem?_map]
        by_cases hik : i = k
        · subst hik
          rw [List.get?_eq_getElem?] at hg
          by_cases hlt : i < t._loadQueue.length
          · rw [List.getElem?_set_self hlt, hg]
            rfl
          · rw [List.getElem?_eq_none (by omega)] at hg
            cases hg
        · rw [List.getElem?_set_ne hik]

/-- C13: `processLoadQueue` touches only the front operation.  On an empty
queue it does nothing.  If the front operation is abandoned (undispatched) it
is dispatched and the queue keeps its operations, their order and the cached
counter and pointer.  Otherwise, if the front result is available, one
submission goes to the merger and the front is popped, so the queue is its
former tail and is shorter by exactly one.  In every other case nothing
changes and nothing is handed out.  Consequently, over any run of
`refreshLayers` calls, `processLoadQueue` calls and job progress, the
operations handed to the merger followed by those still queued are, in order,
those queued at the start followed by those `refreshLayers` enqueued. -/
theorem processLoadQueue_front_only_fifo (t : TileData) :
    (t._loadQueue = [] → t.processLoadQueue = (t, [])) ∧
    (∀ op rest, t._loadQueue = op :: rest → op._result = FutureState.abandoned →
      t.processLoadQueue.2 = [Event.dispatchLoad] ∧
      t.processLoadQueue.1._loadQueue = { op with _result := FutureState.working } :: rest ∧
      t.processLoadQueue.1._loadQueue.length = t._loadQueue.length ∧
      t.processLoadQueue.1._loadQueue.map (fun o => o._manifest) =
        t._loadQueue.map (fun o => o._manifest) ∧
      t.processLoadQueue.1 = { t with _loadQueue := t.processLoadQueue.1._loadQueue }) ∧
    (∀ op rest, t._loadQueue = op :: rest → op._result = FutureState.available →
      t.processLoadQueue.2 = [Event.submitToMerger] ∧
      t.processLoadQueue.1._loadQueue = rest ∧
      t.processLoadQueue.1._loadQueue.length + 1 = t._loadQueue.length ∧
      t.processLoadQueue.1._loadsInQueue = rest.length) ∧
    (∀ op rest, t._loadQueue = op :: rest → op._result = FutureState.working →
      t.processLoadQueue = (t, [])) ∧
    (∀ steps : List QueueStep,
      (runQueue steps t []).2 ++
          (runQueue steps t []).1._loadQueue.map (fun op => op._manifest) =
        t._loadQueue.map (fun op => op._manifest) ++ enqueuedManifests steps) := by
  refine ⟨?_, ?_, ?_, ?_, ?_⟩
  · intro hq
    unfold TileData.processLoadQueue
    rw [hq]
  · intro op rest hq hab
    unfold TileData.processLoadQueue
    rw [hq]
    simp only
    rw [if_pos hab]
    exact ⟨rfl, rfl, rfl, rfl, rfl⟩
  · intro op rest hq hav
    unfold TileData.processLoadQueue
    rw [hq]
    have hab : ¬ op._result = FutureState.abandoned := by rw [hav]; decide
    simp only
    rw [if_neg hab, if_pos hav]
    exact ⟨rfl, rfl, rfl, rfl⟩
  · intro op rest hq hw
    unfold TileData.processLoadQueue
    rw [hq]
    have hab : ¬ op._result = FutureState.abandoned := by rw [hw]; decide
    have hav : ¬ op._result = FutureState.available := by rw [hw]; decide
    simp only
    rw [if_neg hab, if_neg hav]
  · intro steps
    have h := runQueue_fifo steps t []
    simpa using h

/-- Witness for C13: a new tile on which `refreshAllLayers` was called once has
one undispatched operation; `processLoadQueue` dispatches it and keeps it
queued. -/
theorem processLoadQueue_front_only_fifo_witness :
    sampleDirtyTile.d.processLoadQueue.2 = [Event.dispatchLoad] ∧
    sampleDirtyTile.d.processLoadQueue.1._loadQueue.length = 1 :=
  have h := (processLoadQueue_front_only_fifo sampleDirtyTile.d).2.1
    ⟨(sampleContext [] 0 0).emptyManifest, FutureState.abandoned⟩ [] rfl rfl
  ⟨h.1, h.2.2.1⟩

end Rex

namespace Rex

/-! ## Revision and merged flag -/

/-- Replacing the shared sampler of a slot keeps the revision. -/
lemma inheritSharedSampler_revision (parent : Option TileData) (binding : Nat) (t : TileData) :
    (t.inheritSharedSampler parent binding)._revision = t._revision + 1 := by
  unfold TileData.inheritSharedSampler
  cases parent <;> rfl

/-- One iteration of the first colour loop keeps the revision. -/
lemma mergeColorLayer_revision (ctx : EngineContext) (parent : Option TileData)
    (e : Option TerrainTileColorLayerModel) (t : TileData) (uids : List UID) :
    (mergeColorLayer ctx parent e t uids).1._revision = t._revision := by
  unfold mergeColorLayer
  cases e with
  | none => rfl
  | some m =>
    cases hl : m.layer with
    | none => simp only [hl]
    | some layer =>
      simp only [hl]
      split_ifs <;> rfl

/-- The first colour loop keeps the revision. -/
lemma mergeColorLayers_revision (ctx : EngineContext) (parent : Option TileData)
    (entries : List (Option TerrainTileColorLayerModel)) :
    ∀ (t : TileData) (uids : List UID),
      (mergeColorLayers ctx parent entries t uids).1._revision = t._revision := by
  induction entries with
  | nil => intro t uids; rfl
  | cons e rest ih =>
    intro t uids
    unfold mergeColorLayers
    simp only
    rw [ih, mergeColorLayer_revision]

/-- The colour section of `merge` keeps the revision. -/
lemma mergeColor_revision (ctx : EngineContext) (parent : Option TileData)
    (model : TerrainTileModel) (manifest : CreateTileManifest) (t : TileData) :
    (t.mergeColor ctx parent model manifest)._revision = t._revision := by
  unfold TileData.mergeColor
  split_ifs
  · exact mergeColorLayers_revision ctx parent model.colorLayers t []
  · rfl

/-- The elevation section of `merge` never lowers the revision. -/
lemma mergeElevation_revision (ctx : EngineContext) (parent : Option TileData)
    (model : TerrainTileModel) (manifest : CreateTileManifest) (t : TileData) :
    t._revision ≤ (t.mergeElevation ctx parent model manifest).1._revision := by
  have hu := fun x : TileData => (updateElevationRaster_fields x).1
  unfold TileData.mergeElevation
  split_ifs <;> (try split) <;>
    simp [hu, inheritSharedSampler_revision]

/-- The normal-map section of `merge` never lowers the revision. -/
lemma mergeNormal_revision (ctx : EngineContext) (parent : Option TileData)
    (model : TerrainTileModel) (manifest : CreateTileManifest) (t : TileData) :
    t._revision ≤ (t.mergeNormal ctx parent model manifest)._revision := by
  unfold TileData.mergeNormal
  split_ifs <;> (try split) <;> (try split) <;>
    simp [inheritSharedSampler_revision]

/-- The land-cover section of `merge` never lowers the revision. -/
lemma mergeLandCover_revision (ctx : EngineContext) (parent : Option TileData)
    (model : TerrainTileModel) (manifest : CreateTileManifest) (t : TileData) :
    t._revision ≤ (t.mergeLandCover ctx parent model manifest)._revision := by
  unfold TileData.mergeLandCover
  split_ifs <;> (try split) <;>
    simp [inheritSharedSampler_revision]

/-- The first shared-layer loop of `merge` keeps the revision. -/
lemma mergeSharedLayers_revision (ctx : EngineContext)
    (layers : List TerrainTileImageLayerModel) :
    ∀ (t : TileData) (uids : List UID),
      (mergeSharedLayers ctx layers t uids).1._revision = t._revision := by
  induction layers with
  | nil => intro t uids; rfl
  | cons m rest ih =>
    intro t uids
    unfold mergeSharedLayers
    split
    · rw [ih]
    · exact ih t uids

/-- The second shared-layer loop of `merge` never lowers the revision. -/
lemma releaseSharedLayers_revision (ctx : EngineContext) (parent : Option TileData)
    (manifest : CreateTileManifest) (uids : List UID) (is : List Nat) :
    ∀ t : TileData,
      t._revision ≤ (releaseSharedLayers ctx parent manifest uids is t)._revision := by
  induction is with
  | nil => intro t; exact le_refl _
  | cons i rest ih =>
    intro t
    unfold releaseSharedLayers
    simp only
    split_ifs
    · refine le_trans ?_ (ih _)
      rw [inheritSharedSampler_revision]
      exact Nat.le_succ _
    · exact ih t

/-- What `merge` does to the tile itself never lowers the revision. -/
lemma mergeOwn_revision (ctx : EngineContext) (parent : Option TileData)
    (model : TerrainTileModel) (manifest : CreateTileManifest) (t : TileData) :
    t._revision ≤ (t.mergeOwn ctx parent model manifest)._revision := by
  unfold TileData.mergeOwn
  simp only
  refine le_trans ?_ (releaseSharedLayers_revision ctx parent manifest _ _ _)
  rw [mergeSharedLayers_revision]
  refine le_trans ?_ (mergeLandCover_revision ctx parent model manifest _)
  refine le_trans ?_ (mergeNormal_revision ctx parent model manifest _)
  refine le_trans ?_ (mergeElevation_revision ctx parent model manifest _)
  rw [mergeColor_revision]
  split_ifs
  · unfold TileData.createGeometry
    split_ifs <;> exact le_refl _
  · exact le_refl _

/-- C15: for every tile and every `merge(model, manifest)`, the tile's revision
counter after the merge is strictly greater than before and `isLoaded()` is
true afterwards; `isLoaded()` is false on a newly constructed tile, which has
never been merged (the revision is an unbounded counter here; the initial
value of the merged flag is `initialMerged`). -/
theorem merge_bumps_revision_and_marks_loaded (ctx : EngineContext) (parent : Option TileData)
    (model : TerrainTileModel) (manifest : CreateTileManifest) (t : TileNode) :
    t.d._revision < (t.merge ctx parent model manifest).1.d._revision ∧
    (t.merge ctx parent model manifest).1.d.isLoaded = true ∧
    (∀ key : TileKey, (TileNode.new ctx key).d.isLoaded = false) := by
  obtain ⟨d, cs, rs⟩ := t
  refine ⟨?_, ?_, ?_⟩
  · rw [TileNode.merge]
    simp only [TileNode.d]
    exact Nat.lt_succ_of_le (mergeOwn_revision ctx parent model manifest d)
  · rw [TileNode.merge]
    rfl
  · intro key
    simp only [TileNode.new, TileNode.d, TileData.isLoaded, TileData.new,
      TileData.createGeometry]
    split_ifs <;> rfl

end Rex

namespace Rex

/-! ## Dispatch, poll and attach in `createChildren` -/

/-- The attach loop over results that all hold a child attaches one initialised
child per result, in order. -/
lemma attachChildren_all (ctx : EngineContext) (d : TileData) (rs : List CreateChildResult)
    (cs0 : List TileData) (hv : rs.map (fun r => r.value) = cs0.map some) :
    ∀ children : List TileNode,
      attachChildren ctx d rs children =
        .inl (children ++ cs0.map (fun c => TileNode.mk (attachedChild ctx d c) [] [])) := by
  induction rs generalizing cs0 with
  | nil =>
    intro children
    cases cs0 with
    | nil => simp [attachChildren]
    | cons c rest => simp at hv
  | cons r rest ih =>
    intro children
    cases cs0 with
    | nil => simp at hv
    | cons c cs1 =>
      simp only [List.map_cons, List.cons.injEq] at hv
      unfold attachChildren
      rw [hv.1]
      simp only
      rw [ih cs1 hv.2]
      simp [addChild, setLastChild, attachedChild]

/-- An attached child keeps its key and has one more operation queued, for
the empty manifest and not yet dispatched. -/
lemma attachedChild_fields (ctx : EngineContext) (d child : TileData) :
    (attachedChild ctx d child)._key = child._key ∧
    (attachedChild ctx d child)._loadQueue =
      child._loadQueue ++ [⟨ctx.emptyManifest, FutureState.abandoned⟩] := by
  unfold attachedChild TileData.refreshAllLayers TileData.refreshLayers TileData.initializeData
  simp only
  split_ifs
  · have h := updateElevationRaster_fields
      ({ child with _renderModel :=
          ⟨initializePasses ctx child child._key.getQuadrant 0 d._renderModel._passes
              child._renderModel._passes,
            d._renderModel._sharedSamplers.map
              (fun s => s.preMultBy (scaleBias child._key.getQuadrant))⟩ } : TileData)
    refine ⟨h.2.2, ?_⟩
    unfold TileData.updateElevationRaster TileData.setElevationRaster
    simp only
    split_ifs <;> (try rfl) <;> (cases child._surface <;> rfl)
  · exact ⟨rfl, rfl⟩

/-- The constructor gives the tile the key it is called with. -/
lemma new_key (ctx : EngineContext) (key : TileKey) : (TileData.new ctx key)._key = key := by
  unfold TileData.new TileData.createGeometry
  split_ifs <;> rfl

/-- C18: in async mode, `createChildren` (a) with no pending results
dispatches exactly four jobs, for the keys of quadrants 0, 1, 2, 3 in that
order, attaches nothing and returns false; (b) with pending results of which
fewer than four are available attaches nothing, keeps the pending results and
returns false; (c) with four available results, each holding the child its
job constructed, attaches the four children after the existing ones in result
order, each initialised from the parent and with a refresh of all layers
enqueued, clears the pending results and returns true; the attached child has
the key of the delivered child, which for a job dispatched in (a) is
`createChildKey(i)`. -/
theorem createChildren_async_dispatches_polls_attaches (ctx : EngineContext) (d : TileData)
    (children : List TileNode) (hasync : d._createChildAsync = true) :
    ((TileNode.mk d children []).createChildren ctx =
      .ok (.mk d children
        [⟨d._key.createChildKey 0, false, none⟩, ⟨d._key.createChildKey 1, false, none⟩,
         ⟨d._key.createChildKey 2, false, none⟩, ⟨d._key.createChildKey 3, false, none⟩],
        false)) ∧
    (∀ results : List CreateChildResult, results ≠ [] →
      ((results.take 4).filter (fun r => r.available)).length < 4 →
      (TileNode.mk d children results).createChildren ctx = .ok (.mk d children results, false)) ∧
    (∀ (k0 k1 k2 k3 : TileKey) (c0 c1 c2 c3 : TileData),
      (TileNode.mk d children
          [⟨k0, true, some c0⟩, ⟨k1, true, some c1⟩, ⟨k2, true, some c2⟩,
           ⟨k3, true, some c3⟩]).createChildren ctx =
        .ok (.mk d
          (children ++
            [.mk (attachedChild ctx d c0) [] [], .mk (attachedChild ctx d c1) [] [],
             .mk (attachedChild ctx d c2) [] [], .mk (attachedChild ctx d c3) [] []]) [],
          true)) ∧
    (∀ child : TileData,
      (attachedChild ctx d child)._key = child._key ∧
      (attachedChild ctx d child)._loadQueue =
        child._loadQueue ++ [⟨ctx.emptyManifest, FutureState.abandoned⟩]) ∧
    (∀ quadrant : Fin 4,
      (attachedChild ctx d (TileData.new ctx (d._key.createChildKey quadrant)))._key =
        d._key.createChildKey quadrant) := by
  refine ⟨?_, ?_, ?_, ?_, ?_⟩
  · simp [TileNode.createChildren, hasync, dispatchCreateChildJobs]
  · intro results hne hlt
    have hempty : results.isEmpty = false := by
      cases results with
      | nil => exact absurd rfl hne
      | cons r rest => rfl
    have hcount : ¬ ((results.take 4).filter (fun r => r.available)).length = 4 := by omega
    unfold TileNode.createChildren
    simp only [hasync, hempty, if_true, Bool.false_eq_true, if_false]
    rw [if_neg hcount]
  · intro k0 k1 k2 k3 c0 c1 c2 c3
    have ha := attachChildren_all ctx d
      [⟨k0, true, some c0⟩, ⟨k1, true, some c1⟩, ⟨k2, true, some c2⟩, ⟨k3, true, some c3⟩]
      [c0, c1, c2, c3] rfl children
    unfold TileNode.createChildren
    simp only [hasync, if_true, List.isEmpty_cons, Bool.false_eq_true, if_false, List.take,
      List.filter, List.length]
    simp only [List.take] at ha
    rw [ha]
    rfl
  · intro child
    exact attachedChild_fields ctx d child
  · intro quadrant
    rw [(attachedChild_fields ctx d _).1, new_key]

/-- Witness for C18: a new root tile with no pending results dispatches the
four jobs; with the four results pending and none available it keeps waiting. -/
theorem createChildren_async_dispatches_polls_attaches_witness :
    (TileNode.mk (TileData.new (sampleContext [] 0 0) rootKey) []
        (dispatchCreateChildJobs (TileData.new (sampleContext [] 0 0) rootKey))).createChildren
        (sampleContext [] 0 0) =
      .ok (.mk (TileData.new (sampleContext [] 0 0) rootKey) []
        (dispatchCreateChildJobs (TileData.new (sampleContext [] 0 0) rootKey)), false) :=
  (createChildren_async_dispatches_polls_attaches (sampleContext [] 0 0)
    (TileData.new (sampleContext [] 0 0) rootKey) [] rfl).2.1
    (dispatchCreateChildJobs (TileData.new (sampleContext [] 0 0) rootKey))
    (by simp [dispatchCreateChildJobs]) (by decide)

end Rex

namespace Rex

/-! ## Installing delivered data in `merge` -/

/-- Writing a sampler slot keeps the number of slots. -/
lemma assignSampler_slots (p : RenderingPass) (b : Nat) (s : Sampler) :
    (p.assignSampler b s)._samplers ≠ [] ↔ p._samplers ≠ [] := by
  unfold RenderingPass.assignSampler
  simp only [ne_eq, List.set_eq_nil_iff]

/-- The async-loading branch keeps the COLOR slot when the parent's passes
have it. -/
lemma mergeAsync_slots (ctx : EngineContext) (parent : Option TileData) (q : Fin 4)
    (tex : Option TextureId) (pass : RenderingPass) (hp : pass._samplers ≠ [])
    (hpar : ∀ par, parent = some par → SlotsOK par._renderModel._passes) :
    (mergeAsync ctx parent q tex pass)._samplers ≠ [] := by
  unfold mergeAsync
  simp only
  rw [assignSampler_slots]
  cases hpp : parentPassAt parent pass._parent with
  | none => exact hp
  | some pp =>
    have hmem : pp._samplers ≠ [] := by
      unfold parentPassAt at hpp
      cases parent with
      | none => simp at hpp
      | some par =>
        cases hidx : pass._parent with
        | none => simp [hidx] at hpp
        | some i =>
          simp only [hidx] at hpp
          rw [List.get?_eq_getElem?] at hpp
          exact hpar par rfl pp (List.getElem?_mem hpp)
    simp only
    split_ifs
    · rw [assignSampler_slots]
      simpa [RenderingPass.inheritFrom] using hmem
    · simpa [RenderingPass.inheritFrom] using hmem

/-- The image branch of `merge` keeps the COLOR slot. -/
lemma mergeImagePass_slots (ctx : EngineContext) (parent : Option TileData) (q : Fin 4)
    (m : TerrainTileColorLayerModel) (isNew : Bool) (pass : RenderingPass)
    (hp : pass._samplers ≠ [])
    (hpar : ∀ par, parent = some par → SlotsOK par._renderModel._passes) :
    (mergeImagePass ctx parent q m isNew pass)._samplers ≠ [] := by
  have h1 : (pass.setSampler SamplerBinding.COLOR m.texture m.matrix m.revision)._samplers ≠ [] := by
    unfold RenderingPass.setSampler
    rw [assignSampler_slots]
    exact hp
  unfold mergeImagePass
  simp only
  split_ifs
  all_goals first
    | exact h1
    | exact (assignSampler_slots _ _ _).mpr h1
    | exact mergeAsync_slots ctx parent q _ _ h1 hpar
    | exact mergeAsync_slots ctx parent q _ _ ((assignSampler_slots _ _ _).mpr h1) hpar

/-- Updating one pass keeps the COLOR slots when the new pass has one. -/
lemma slotsOK_updatePass (l : List RenderingPass) (i : Nat) (f : RenderingPass → RenderingPass)
    (hl : SlotsOK l) (hf : ∀ p, p._samplers ≠ [] → (f p)._samplers ≠ []) :
    SlotsOK (updatePass l i f) := by
  intro p hp
  unfold updatePass at hp
  by_cases hi : i < l.length
  · rcases List.mem_or_eq_of_mem_set hp with h | h
    · exact hl p h
    · subst h
      apply hf
      rw [List.getD_eq_getElem?_getD, List.getElem?_eq_getElem hi]
      exact hl _ (List.getElem_mem hi)
  · rw [List.set_eq_of_length_le (by omega)] at hp
    exact hl p hp

/-- Setting the layer of a pass keeps its samplers. -/
lemma setLayer_samplers (p : RenderingPass) (layer : Layer) :
    (p.setLayer (some layer))._samplers = p._samplers := rfl

/-- One iteration of the first colour loop keeps the COLOR slots. -/
lemma mergeColorLayer_slots (ctx : EngineContext) (parent : Option TileData)
    (hpar : ∀ par, parent = some par → SlotsOK par._renderModel._passes)
    (e : Option TerrainTileColorLayerModel) (t : TileData) (uids : List UID)
    (hl : SlotsOK t._renderModel._passes) :
    SlotsOK (mergeColorLayer ctx parent e t uids).1._renderModel._passes := by
  cases e with
  | none => exact hl
  | some m =>
    cases hlayer : m.layer with
    | none =>
      unfold mergeColorLayer
      simp only [hlayer]
      exact hl
    | some layer =>
      have h1 : SlotsOK
          (if (getPassIdx t._renderModel._passes layer.uid).isNone = true then
            updatePass (addPass t._renderModel._passes
              (match getPassIdx t._renderModel._passes layer.uid with
                | some i => (t._renderModel._passes.getD i default)._parent
                | none => getParentPassIdx parent layer.uid))
              ((getPassIdx t._renderModel._passes layer.uid).getD t._renderModel._passes.length)
              (fun q => q.setLayer (some layer))
          else t._renderModel._passes) := by
        split_ifs
        · apply slotsOK_updatePass
          · intro p hp
            unfold addPass at hp
            rcases List.mem_append.mp hp with h | h
            · exact hl p h
            · rw [List.mem_singleton.mp h]
              simp [default]
          · intro p hp
            rw [setLayer_samplers]
            exact hp
        · exact hl
      unfold mergeColorLayer
      simp only [hlayer]
      by_cases himg : (m.isImageLayerModel && m.texture.isSome) = true
      · rw [if_pos himg]
        show SlotsOK (updatePass _ _ _)
        exact slotsOK_updatePass _ _ _ h1
          (fun p hp => mergeImagePass_slots ctx parent _ m _ p hp hpar)
      · rw [if_neg himg]
        exact h1

/-- The first colour loop keeps the COLOR slots. -/
lemma mergeColorLayers_slots (ctx : EngineContext) (parent : Option TileData)
    (hpar : ∀ par, parent = some par → SlotsOK par._renderModel._passes)
    (entries : List (Option TerrainTileColorLayerModel)) :
    ∀ (t : TileData) (uids : List UID), SlotsOK t._renderModel._passes →
      SlotsOK (mergeColorLayers ctx parent entries t uids).1._renderModel._passes := by
  induction entries with
  | nil => intro t uids hl; exact hl
  | cons e rest ih =>
    intro t uids hl
    unfold mergeColorLayers
    exact ih _ _ (mergeColorLayer_slots ctx parent hpar e t uids hl)

/-- The image branch for a layer that is not loading asynchronously: the COLOR
sampler takes the model's texture, matrix and revision; the UID stays. -/
lemma mergeImagePass_sync (ctx : EngineContext) (parent : Option TileData) (q : Fin 4)
    (m : TerrainTileColorLayerModel) (isNew : Bool) (pass : RenderingPass)
    (hp : pass._samplers ≠ []) (hsync : m.asyncLoading = false) :
    (mergeImagePass ctx parent q m isNew pass)._sourceUID = pass._sourceUID ∧
    ((mergeImagePass ctx parent q m isNew pass).sampler SamplerBinding.COLOR)._texture =
      m.texture ∧
    ((mergeImagePass ctx parent q m isNew pass).sampler SamplerBinding.COLOR)._matrix =
      m.matrix ∧
    ((mergeImagePass ctx parent q m isNew pass).sampler SamplerBinding.COLOR)._revision =
      m.revision := by
  obtain ⟨uid, samplers, layer, tileLayer, par⟩ := pass
  cases samplers with
  | nil => exact absurd rfl hp
  | cons s rest =>
    unfold mergeImagePass
    simp only [hsync, Bool.false_eq_true, if_false]
    split_ifs
    · cases rest <;>
        simp [RenderingPass.setSampler, RenderingPass.assignSampler, RenderingPass.sampler,
          SamplerBinding.COLOR, SamplerBinding.COLOR_PARENT]
    · simp [RenderingPass.setSampler, RenderingPass.assignSampler, RenderingPass.sampler,
        SamplerBinding.COLOR]

/-- One iteration of the first colour loop on an image entry with a texture,
loaded synchronously: afterwards some pass has the layer's UID and the
model's texture, matrix and revision in its COLOR sampler, and the UID is
recorded as loaded. -/
lemma mergeColorLayer_installs (ctx : EngineContext) (parent : Option TileData)
    (m : TerrainTileColorLayerModel) (layer : Layer) (tex : TextureId)
    (hlayer : m.layer = some layer) (himg : m.isImageLayerModel = true)
    (htex : m.texture = some tex) (hsync : m.asyncLoading = false)
    (t : TileData) (uids : List UID) (hl : SlotsOK t._renderModel._passes) :
    ∃ (k : Nat) (P : RenderingPass),
      (mergeColorLayer ctx parent (some m) t uids).1._renderModel._passes[k]? = some P ∧
      P._sourceUID = layer.uid ∧
      (P.sampler SamplerBinding.COLOR)._texture = some tex ∧
      (P.sampler SamplerBinding.COLOR)._matrix = m.matrix ∧
      (P.sampler SamplerBinding.COLOR)._revision = m.revision ∧
      layer.uid ∈ (mergeColorLayer ctx parent (some m) t uids).2 := by
  have hcond : (m.isImageLayerModel && m.texture.isSome) = true := by simp [himg, htex]
  unfold mergeColorLayer
  simp only [hlayer]
  rw [if_pos hcond]
  cases hidx : getPassIdx t._renderModel._passes layer.uid with
  | some j =>
    obtain ⟨hj, huid⟩ := getPassIdx_some _ _ _ hidx
    have hmem : (t._renderModel._passes.getD j default)._samplers ≠ [] := by
      rw [List.getD_eq_getElem?_getD, List.getElem?_eq_getElem hj]
      exact hl _ (List.getElem_mem hj)
    obtain ⟨h1, h2, h3, h4⟩ := mergeImagePass_sync ctx parent t._key.getQuadrant m false
      (t._renderModel._passes.getD j default) hmem hsync
    simp only [Option.isNone_some, Bool.false_eq_true, if_false, Option.getD_some]
    refine ⟨j, mergeImagePass ctx parent t._key.getQuadrant m false
      (t._renderModel._passes.getD j default), ?_, h1.trans huid, h2.trans htex, h3, h4, ?_⟩
    · show (updatePass _ _ _)[j]? = _
      unfold updatePass
      rw [List.getElem?_set_self hj]
    · show layer.uid ∈ List.insert _ uids
      rw [updatePass_getD_self _ _ _ hj, h1, huid]
      exact List.mem_insert_self _ _
  | none =>
    simp only [Option.isNone_none, if_true, Option.getD_none]
    have hbase : updatePass (addPass t._renderModel._passes (getParentPassIdx parent layer.uid))
        t._renderModel._passes.length (fun q => q.setLayer (some layer)) =
        t._renderModel._passes ++
          [({ (default : RenderingPass) with
              _parent := getParentPassIdx parent layer.uid }).setLayer (some layer)] := by
      unfold addPass
      rw [updatePass_append_last]
    rw [hbase, updatePass_append_last]
    obtain ⟨h1, h2, h3, h4⟩ := mergeImagePass_sync ctx parent t._key.getQuadrant m true
      (({ (default : RenderingPass) with
        _parent := getParentPassIdx parent layer.uid }).setLayer (some layer))
      (by simp [RenderingPass.setLayer, default]) hsync
    refine ⟨t._renderModel._passes.length, _, ?_, h1, h2.trans htex, h3, h4, ?_⟩
    · show (_ ++ [_])[_]? = _
      rw [List.getElem?_concat_length]
    · show layer.uid ∈ List.insert _ uids
      rw [List.getD_eq_getElem?_getD, List.getElem?_concat_length]
      simp only [Option.getD_some]
      rw [h1]
      exact List.mem_insert_self _ _

/-- One iteration of the first colour loop on an entry for another layer: a
pass stays at its index, and the recorded UIDs stay recorded. -/
lemma mergeColorLayer_keeps_index (ctx : EngineContext) (parent : Option TileData)
    (e : Option TerrainTileColorLayerModel) (t : TileData) (uids : List UID)
    (k : Nat) (P : RenderingPass) (hk : t._renderModel._passes[k]? = some P)
    (hno : ∀ cm, e = some cm → ∀ l, cm.layer = some l → l.uid ≠ P._sourceUID) :
    (mergeColorLayer ctx parent e t uids).1._renderModel._passes[k]? = some P ∧
    (∀ u ∈ uids, u ∈ (mergeColorLayer ctx parent e t uids).2) := by
  have hklt : k < t._renderModel._passes.length := by
    by_contra hge
    rw [List.getElem?_eq_none (by omega)] at hk
    cases hk
  cases e with
  | none => exact ⟨hk, fun u hu => hu⟩
  | some m =>
    cases hlayer : m.layer with
    | none =>
      unfold mergeColorLayer
      simp only [hlayer]
      exact ⟨hk, fun u hu => hu⟩
    | some layer =>
      have hne : layer.uid ≠ P._sourceUID := hno m rfl layer hlayer
      unfold mergeColorLayer
      simp only [hlayer]
      cases hidx : getPassIdx t._renderModel._passes layer.uid with
      | some j =>
        obtain ⟨hj, huid⟩ := getPassIdx_some _ _ _ hidx
        have hjk : j ≠ k := by
          intro hjk
          subst hjk
          rw [List.getD_eq_getElem?_getD, hk] at huid
          exact hne huid.symm
        simp only [Option.isNone_some, Bool.false_eq_true, if_false, Option.getD_some]
        by_cases himg : (m.isImageLayerModel && m.texture.isSome) = true
        · rw [if_pos himg]
          refine ⟨?_, fun u hu => List.mem_insert_of_mem hu⟩
          show (updatePass _ _ _)[k]? = some P
          rw [updatePass_getElem?_ne _ _ _ _ hjk]
          exact hk
        · rw [if_neg himg]
          exact ⟨hk, fun u hu => List.mem_insert_of_mem hu⟩
      | none =>
        simp only [Option.isNone_none, if_true, Option.getD_none]
        have hbase : updatePass
            (addPass t._renderModel._passes (getParentPassIdx parent layer.uid))
            t._renderModel._passes.length (fun q => q.setLayer (some layer)) =
            t._renderModel._passes ++
              [({ (default : RenderingPass) with
                  _parent := getParentPassIdx parent layer.uid }).setLayer (some layer)] := by
          unfold addPass
          rw [updatePass_append_last]
        rw [hbase]
        by_cases himg : (m.isImageLayerModel && m.texture.isSome) = true
        · rw [if_pos himg, updatePass_append_last]
          refine ⟨?_, fun u hu => List.mem_insert_of_mem hu⟩
          show (_ ++ [_])[k]? = some P
          rw [List.getElem?_append_left hklt]
          exact hk
        · rw [if_neg himg]
          refine ⟨?_, fun u hu => List.mem_insert_of_mem hu⟩
          show (_ ++ [_])[k]? = some P
          rw [List.getElem?_append_left hklt]
          exact hk

/-- The first colour loop over entries for other layers: a pass stays at its
index, and the recorded UIDs stay recorded. -/
lemma mergeColorLayers_keeps_index (ctx : EngineContext) (parent : Option TileData)
    (k : Nat) (P : RenderingPass) :
    ∀ (entries : List (Option TerrainTileColorLayerModel)) (t : TileData) (uids : List UID),
      t._renderModel._passes[k]? = some P →
      (∀ cm, some cm ∈ entries → ∀ l, cm.layer = some l → l.uid ≠ P._sourceUID) →
      (mergeColorLayers ctx parent entries t uids).1._renderModel._passes[k]? = some P ∧
      (∀ u ∈ uids, u ∈ (mergeColorLayers ctx parent entries t uids).2) := by
  intro entries
  induction entries with
  | nil =>
    intro t uids hk _
    exact ⟨hk, fun u hu => hu⟩
  | cons e rest ih =>
    intro t uids hk hno
    obtain ⟨hk1, hsub1⟩ := mergeColorLayer_keeps_index ctx parent e t uids k P hk
      (fun cm hcm l hlay => hno cm (hcm ▸ List.mem_cons_self _ _) l hlay)
    obtain ⟨hk2, hsub2⟩ := ih _ (mergeColorLayer ctx parent e t uids).2 hk1
      (fun cm hcm l hlay => hno cm (List.mem_cons_of_mem _ hcm) l hlay)
    unfold mergeColorLayers
    exact ⟨hk2, fun u hu => hsub2 u (hsub1 u hu)⟩

/-- The first colour loop over a concatenation runs over the parts in turn. -/
lemma mergeColorLayers_append (ctx : EngineContext) (parent : Option TileData)
    (as bs : List (Option TerrainTileColorLayerModel)) :
    ∀ (t : TileData) (uids : List UID),
      mergeColorLayers ctx parent (as ++ bs) t uids =
        mergeColorLayers ctx parent bs (mergeColorLayers ctx parent as t uids).1
          (mergeColorLayers ctx parent as t uids).2 := by
  induction as with
  | nil => intro t uids; rfl
  | cons a rest ih =>
    intro t uids
    have h1 : ∀ (l : List (Option TerrainTileColorLayerModel)),
        mergeColorLayers ctx parent (a :: l) t uids =
          mergeColorLayers ctx parent l (mergeColorLayer ctx parent a t uids).1
            (mergeColorLayer ctx parent a t uids).2 := fun _ => rfl
    rw [List.cons_append, h1, h1]
    exact ih _ _

/-- Re-inheriting one shared slot leaves every other shared slot alone. -/
lemma inheritSharedSampler_shared_ne (parent : Option TileData) (b k : Nat) (t : TileData)
    (h : b ≠ k) :
    (t.inheritSharedSampler parent b)._renderModel._sharedSamplers[k]? =
      t._renderModel._sharedSamplers[k]? := by
  unfold TileData.inheritSharedSampler
  cases parent with
  | none =>
    simp only [TileRenderModel.clearSharedSampler]
    exact List.getElem?_set_ne h
  | some par =>
    simp only
    exact List.getElem?_set_ne h

/-- Installing one shared slot leaves every other shared slot alone. -/
lemma setSharedSampler_ne (m : TileRenderModel) (b k : Nat) (tex : Option TextureId)
    (revision : Nat) (h : b ≠ k) :
    (m.setSharedSampler b tex revision)._sharedSamplers[k]? = m._sharedSamplers[k]? := by
  unfold TileRenderModel.setSharedSampler
  exact List.getElem?_set_ne h

/-- The first colour loop leaves the shared samplers alone. -/
lemma mergeColorLayers_shared (ctx : EngineContext) (parent : Option TileData)
    (entries : List (Option TerrainTileColorLayerModel)) :
    ∀ (t : TileData) (uids : List UID),
      (mergeColorLayers ctx parent entries t uids).1._renderModel._sharedSamplers =
        t._renderModel._sharedSamplers := by
  induction entries with
  | nil => intro t uids; rfl
  | cons e rest ih =>
    intro t uids
    unfold mergeColorLayers
    simp only
    rw [ih]
    unfold mergeColorLayer
    cases e with
    | none => rfl
    | some m =>
      cases hl : m.layer with
      | none => simp only [hl]
      | some layer =>
        simp only [hl]
        split_ifs <;> rfl

/-- The colour section of `merge` leaves the shared samplers alone. -/
lemma mergeColor_shared (ctx : EngineContext) (parent : Option TileData)
    (model : TerrainTileModel) (manifest : CreateTileManifest) (t : TileData) :
    (t.mergeColor ctx parent model manifest)._renderModel._sharedSamplers =
      t._renderModel._sharedSamplers := by
  unfold TileData.mergeColor
  split_ifs
  · exact mergeColorLayers_shared ctx parent model.colorLayers t []
  · rfl

/-- The normal-map section of `merge` leaves the ELEVATION slot alone. -/
lemma mergeNormal_elevation (ctx : EngineContext) (parent : Option TileData)
    (model : TerrainTileModel) (manifest : CreateTileManifest) (t : TileData) :
    (t.mergeNormal ctx parent model manifest)._renderModel._sharedSamplers[
        SamplerBinding.ELEVATION]? =
      t._renderModel._sharedSamplers[SamplerBinding.ELEVATION]? := by
  have hne : SamplerBinding.NORMAL ≠ SamplerBinding.ELEVATION := by decide
  unfold TileData.mergeNormal
  split_ifs <;> (try split) <;> (try split) <;>
    first
    | rfl
    | exact setSharedSampler_ne _ _ _ _ _ hne
    | exact inheritSharedSampler_shared_ne _ _ _ _ hne

/-- The land-cover section of `merge` leaves the ELEVATION slot alone. -/
lemma mergeLandCover_elevation (ctx : EngineContext) (parent : Option TileData)
    (model : TerrainTileModel) (manifest : CreateTileManifest) (t : TileData) :
    (t.mergeLandCover ctx parent model manifest)._renderModel._sharedSamplers[
        SamplerBinding.ELEVATION]? =
      t._renderModel._sharedSamplers[SamplerBinding.ELEVATION]? := by
  have hne : SamplerBinding.LANDCOVER ≠ SamplerBinding.ELEVATION := by decide
  unfold TileData.mergeLandCover
  split_ifs <;> (try split) <;>
    first
    | rfl
    | exact setSharedSampler_ne _ _ _ _ _ hne
    | exact inheritSharedSampler_shared_ne _ _ _ _ hne

/-- The slot found for a shared layer is one of the slots from SHARED on. -/
lemma findSharedBinding_ge (bindings : List SamplerBinding) (uid : UID) (b : Nat)
    (h : findSharedBinding bindings uid = some b) : SamplerBinding.SHARED ≤ b := by
  unfold findSharedBinding at h
  have := List.find?_some h
  simp only [Bool.and_eq_true, decide_eq_true_eq] at this
  exact this.1.1

/-- The first shared-layer loop of `merge` leaves the slots below SHARED alone. -/
lemma mergeSharedLayers_low (ctx : EngineContext) (layers : List TerrainTileImageLayerModel)
    (k : Nat) (hk : k < SamplerBinding.SHARED) :
    ∀ (t : TileData) (uids : List UID),
      (mergeSharedLayers ctx layers t uids).1._renderModel._sharedSamplers[k]? =
        t._renderModel._sharedSamplers[k]? := by
  induction layers with
  | nil => intro t uids; rfl
  | cons m rest ih =>
    intro t uids
    unfold mergeSharedLayers
    split
    · rename_i tex b _ hb
      rw [ih]
      have hge := findSharedBinding_ge _ _ _ hb
      exact setSharedSampler_ne _ _ _ _ _ (by omega)
    · exact ih t uids

/-- The second shared-layer loop of `merge` leaves the slots below SHARED alone. -/
lemma releaseSharedLayers_low (ctx : EngineContext) (parent : Option TileData)
    (manifest : CreateTileManifest) (uids : List UID) (is : List Nat)
    (k : Nat) (hk : k < SamplerBinding.SHARED) :
    ∀ t : TileData,
      (releaseSharedLayers ctx parent manifest uids is t)._renderModel._sharedSamplers[k]? =
        t._renderModel._sharedSamplers[k]? := by
  induction is with
  | nil => intro t; rfl
  | cons i rest ih =>
    intro t
    unfold releaseSharedLayers
    simp only
    split_ifs with hc
    · rw [ih]
      simp only [Bool.and_eq_true, decide_eq_true_eq] at hc
      exact inheritSharedSampler_shared_ne _ _ _ _ (by omega)
    · exact ih t

/-- The elevation section of `merge` with the binding active and an elevation
texture in the model installs the texture with the identity matrix and the
model's revision. -/
lemma mergeElevation_installs (ctx : EngineContext) (parent : Option TileData)
    (model : TerrainTileModel) (manifest : CreateTileManifest) (t : TileData)
    (e : TerrainTileElevationModel) (tex : TextureId)
    (hactive : isActive ctx.bindings SamplerBinding.ELEVATION = true)
    (hmodel : model.elevationModel = some e) (htex : e.texture = some tex)
    (hslot : SamplerBinding.ELEVATION < t._renderModel._sharedSamplers.length) :
    (t.mergeElevation ctx parent model manifest).1._renderModel._sharedSamplers[
        SamplerBinding.ELEVATION]? =
      some { (t._renderModel._sharedSamplers.getD SamplerBinding.ELEVATION default) with
        _texture := some tex, _matrix := 1, _revision := e.revision } := by
  have hb : model.elevationModel.bind (fun e => e.texture.map (fun tex => (tex, e.revision))) =
      some (tex, e.revision) := by
    rw [hmodel]
    simp [htex]
  unfold TileData.mergeElevation
  simp only [hactive, if_true, hb]
  rw [updateElevationRaster_renderModel]
  unfold TileRenderModel.setSharedSampler
  exact List.getElem?_set_self hslot

/-- What `merge` does to the tile itself leaves the ELEVATION slot as the
elevation section left it, and the colour section does not touch it. -/
lemma mergeOwn_elevation (ctx : EngineContext) (parent : Option TileData)
    (model : TerrainTileModel) (manifest : CreateTileManifest) (t : TileData) :
    (t.mergeOwn ctx parent model manifest)._renderModel._sharedSamplers[
        SamplerBinding.ELEVATION]? =
      (((if manifest.includesConstraints then t.createGeometry ctx else t).mergeColor
        ctx parent model manifest).mergeElevation ctx parent model
          manifest).1._renderModel._sharedSamplers[SamplerBinding.ELEVATION]? := by
  have hlow : SamplerBinding.ELEVATION < SamplerBinding.SHARED := by decide
  unfold TileData.mergeOwn
  simp only
  rw [releaseSharedLayers_low _ _ _ _ _ _ hlow, mergeSharedLayers_low _ _ _ hlow,
    mergeLandCover_elevation, mergeNormal_elevation]

/-- C14 (amended): in `merge(model, manifest)` with the COLOR binding active,
let the model carry an image colour layer for UID u with a texture, not
loading asynchronously, as its last entry for u, and let every pass of the
tile and of its parent have the COLOR slot.  Then the tile afterwards has a
pass for u whose COLOR sampler holds exactly the model's texture, matrix and
revision; that pass is owned if and only if the model's matrix is the
identity.  When the ELEVATION binding is active, the model carries an
elevation texture and the tile has the ELEVATION slot, the ELEVATION shared
sampler afterwards holds that texture with the identity matrix and the
model's revision, and is owned. -/
theorem merge_installs_delivered_data (ctx : EngineContext) (parent : Option TileData)
    (model : TerrainTileModel) (manifest : CreateTileManifest) (d : TileData)
    (children : List TileNode) (results : List CreateChildResult) :
    (∀ (pre post : List (Option TerrainTileColorLayerModel)) (m : TerrainTileColorLayerModel)
        (layer : Layer) (tex : TextureId),
      isActive ctx.bindings SamplerBinding.COLOR = true →
      model.colorLayers = pre ++ some m :: post →
      m.layer = some layer → m.isImageLayerModel = true → m.texture = some tex →
      m.asyncLoading = false →
      (∀ cm, some cm ∈ post → ∀ l, cm.layer = some l → l.uid ≠ layer.uid) →
      SlotsOK d._renderModel._passes →
      (∀ par, parent = some par → SlotsOK par._renderModel._passes) →
      ∃ P ∈ ((TileNode.mk d children results).merge ctx parent model
          manifest).1.d._renderModel._passes,
        P._sourceUID = layer.uid ∧
        (P.sampler SamplerBinding.COLOR)._texture = some tex ∧
        (P.sampler SamplerBinding.COLOR)._matrix = m.matrix ∧
        (P.sampler SamplerBinding.COLOR)._revision = m.revision ∧
        (P.ownsTexture = true ↔ m.matrix = 1)) ∧
    (∀ (e : TerrainTileElevationModel) (tex : TextureId),
      isActive ctx.bindings SamplerBinding.ELEVATION = true →
      model.elevationModel = some e → e.texture = some tex →
      SamplerBinding.ELEVATION < d._renderModel._sharedSamplers.length →
      ∃ s, ((TileNode.mk d children results).merge ctx parent model
          manifest).1.d._renderModel._sharedSamplers[SamplerBinding.ELEVATION]? = some s ∧
        s._texture = some tex ∧ s._matrix = 1 ∧ s._revision = e.revision ∧
        s.ownsTexture = true) := by
  have hd0 : (if manifest.includesConstraints then d.createGeometry ctx else d)._renderModel =
      d._renderModel := by
    split_ifs
    · exact (createGeometry_renderModel ctx d).1
    · rfl
  constructor
  · intro pre post m layer tex hcolor hmodel hlayer himg htex hsync hlast hslots hpar
    have hres := merge_passes ctx parent model manifest d children results
    rw [mergeColor_passes ctx parent model manifest _ hcolor, hmodel] at hres
    have hsplit : pre ++ some m :: post = pre ++ ([some m] ++ post) := rfl
    rw [hsplit, mergeColorLayers_append, mergeColorLayers_append] at hres
    have hslots1 := mergeColorLayers_slots ctx parent hpar pre
      (if manifest.includesConstraints then d.createGeometry ctx else d) []
      (by rw [hd0]; exact hslots)
    have hone : ∀ (t : TileData) (uids : List UID),
        mergeColorLayers ctx parent [some m] t uids = mergeColorLayer ctx parent (some m) t uids :=
      fun _ _ => rfl
    rw [hone] at hres
    obtain ⟨k, P, hk, huid, h1, h2, h3, hin⟩ := mergeColorLayer_installs ctx parent m layer tex
      hlayer himg htex hsync _ (mergeColorLayers ctx parent pre
        (if manifest.includesConstraints then d.createGeometry ctx else d) []).2 hslots1
    obtain ⟨hk2, hsub⟩ := mergeColorLayers_keeps_index ctx parent k P post _
      (mergeColorLayer ctx parent (some m) (mergeColorLayers ctx parent pre
        (if manifest.includesConstraints then d.createGeometry ctx else d) []).1
        (mergeColorLayers ctx parent pre
          (if manifest.includesConstraints then d.createGeometry ctx else d) []).2).2 hk
      (fun cm hcm l hlay => by rw [huid]; exact hlast cm hcm l hlay)
    have hloaded := hsub _ hin
    rw [← huid] at hloaded
    refine ⟨P, ?_, huid, h1, h2, h3, ?_⟩
    · rw [hres, List.mem_filterMap]
      refine ⟨P, List.getElem?_mem hk2, ?_⟩
      apply orphanFate_neg
      simp [hloaded]
    · unfold RenderingPass.ownsTexture Sampler.ownsTexture
      rw [h1, h2]
      simp
  · intro e tex hactive hmodel htex hslot
    have hres : ((TileNode.mk d children results).merge ctx parent model
        manifest).1.d._renderModel._sharedSamplers[SamplerBinding.ELEVATION]? =
        (d.mergeOwn ctx parent model manifest)._renderModel._sharedSamplers[
          SamplerBinding.ELEVATION]? := by
      rw [TileNode.merge]
      rfl
    have hshared : ((if manifest.includesConstraints then d.createGeometry ctx else d).mergeColor
        ctx parent model manifest)._renderModel._sharedSamplers =
        d._renderModel._sharedSamplers := by
      rw [mergeColor_shared, hd0]
    rw [hres, mergeOwn_elevation,
      mergeElevation_installs ctx parent model manifest _ e tex hactive hmodel htex
        (by rw [hshared]; exact hslot)]
    refine ⟨_, rfl, rfl, rfl, rfl, ?_⟩
    simp [Sampler.ownsTexture]

/-- Witness for C14: a new level-1 tile without passes merges a model that
delivers layer 7 with texture 9, identity matrix, revision 4. -/
theorem merge_installs_delivered_data_witness :
    ∃ P ∈ ((TileNode.mk (sampleTile ⟨1, 0, 0⟩ []) [] []).merge
        (sampleContext (sampleBindings true false) 0 0) none sampleImageModel
        sampleManifest).1.d._renderModel._passes,
      P._sourceUID = 7 ∧
      (P.sampler SamplerBinding.COLOR)._texture = some 9 ∧
      (P.sampler SamplerBinding.COLOR)._matrix = 1 ∧
      (P.sampler SamplerBinding.COLOR)._revision = 4 ∧
      (P.ownsTexture = true ↔ (1 : Matrixf) = 1) :=
  (merge_installs_delivered_data (sampleContext (sampleBindings true false) 0 0) none
    sampleImageModel sampleManifest (sampleTile ⟨1, 0, 0⟩ []) [] []).1 [] []
    ⟨some ⟨7, false⟩, true, some 9, 1, 4, false, false⟩ ⟨7, false⟩ 9
    rfl rfl rfl rfl rfl rfl (by simp) (by simp [SlotsOK, sampleTile]) (by simp)

/-- The scale/bias matrix of quadrant 0 is not the identity. -/
lemma scaleBias_zero_ne_one : scaleBias 0 ≠ 1 := by
  intro h
  have h00 := congrFun (congrFun h 0) 0
  rw [scaleBias_apply] at h00
  have h03 : ¬ ((0 : Fin 4) = 3) := by decide
  have h02 : ¬ ((0 : Fin 4) = 2) := by decide
  rw [if_neg h03, if_neg h02] at h00
  norm_num at h00

/-- C14 (counterexample): a new level-1 tile merges a model that delivers
layer 7 with texture 9 through the scale/bias matrix of quadrant 0.  The
tile's only pass afterwards holds exactly the model's texture, matrix and
revision in its COLOR sampler, and is not owned. -/
theorem merge_installs_scaled_texture_not_owned :
    ∃ P, ((TileNode.mk (sampleTile ⟨1, 0, 0⟩ []) [] []).merge
        (sampleContext (sampleBindings true false) 0 0) none sampleScaledImageModel
        sampleManifest).1.d._renderModel._passes = [P] ∧
      P._sourceUID = 7 ∧
      (P.sampler SamplerBinding.COLOR)._texture = some 9 ∧
      (P.sampler SamplerBinding.COLOR)._matrix = scaleBias 0 ∧
      (P.sampler SamplerBinding.COLOR)._revision = 4 ∧
      P.ownsTexture = false := by
  have hcolor : isActive (sampleContext (sampleBindings true false) 0 0).bindings
      SamplerBinding.COLOR = true := rfl
  refine ⟨⟨7, [⟨some 9, scaleBias 0, none, 4⟩, default], some ⟨7, false⟩, none, none⟩,
    ?_, rfl, rfl, rfl, rfl, ?_⟩
  · rw [merge_passes, mergeColor_passes _ _ _ _ _ hcolor]
    have hfate : orphanFate none (⟨1, 0, 0⟩ : TileKey).getQuadrant sampleManifest [7]
        (⟨7, [⟨some 9, scaleBias 0, none, 4⟩, default], some ⟨7, false⟩, none, none⟩ :
          RenderingPass) =
        some ⟨7, [⟨some 9, scaleBias 0, none, 4⟩, default], some ⟨7, false⟩, none, none⟩ := by
      apply orphanFate_neg
      simp
    show List.filterMap (orphanFate none (⟨1, 0, 0⟩ : TileKey).getQuadrant sampleManifest [7])
      [(⟨7, [⟨some 9, scaleBias 0, none, 4⟩, default], some ⟨7, false⟩, none, none⟩ :
        RenderingPass)] = _
    rw [List.filterMap_cons_some hfate]
    rfl
  · simp [RenderingPass.ownsTexture, RenderingPass.sampler, Sampler.ownsTexture,
      SamplerBinding.COLOR, scaleBias_zero_ne_one]

end Rex

namespace Rex

/-! ## One pass per UID -/

/-- The second colour loop of `merge` keeps every pass whose UID was recorded
as loaded. -/
lemma filterMap_orphanFate_loaded (parent : Option TileData) (q : Fin 4)
    (manifest : CreateTileManifest) (uids : List UID) (l : List RenderingPass)
    (h : ∀ x ∈ l, x._sourceUID ∈ uids) :
    l.filterMap (orphanFate parent q manifest uids) = l := by
  induction l with
  | nil => rfl
  | cons x rest ih =>
    have hx : orphanFate parent q manifest uids x = some x := by
      apply orphanFate_neg
      simp [h x (List.mem_cons_self _ _)]
    rw [List.filterMap_cons_some hx, ih (fun y hy => h y (List.mem_cons_of_mem _ hy))]

/-- C16 (the code at the failing input): a tile with passes for layers 1 and 2
under a parent whose only pass is for layer 2; the parent pointer of the
tile's pass for layer 1 refers to the parent's first pass, which since the
parent dropped its pass for layer 1 is the pass for layer 2.  Both tiles have
pairwise distinct UIDs.  A merge of a model that delivers layer 1, loading
asynchronously, makes the pass inherit from the pass its pointer refers to:
afterwards both passes of the tile have UID 2. -/
theorem merge_async_stale_parent_pointer_duplicates_uid :
    UIDsDistinct sampleStaleTile._renderModel._passes ∧
    UIDsDistinct sampleShrunkParent._renderModel._passes ∧
    ((TileNode.mk sampleStaleTile [] []).merge (sampleContext (sampleBindings true false) 0 0)
        (some sampleShrunkParent) sampleAsyncModel
        sampleManifest).1.d._renderModel._passes.map (fun p => p._sourceUID) = [2, 2] ∧
    ¬ UIDsDistinct ((TileNode.mk sampleStaleTile [] []).merge
        (sampleContext (sampleBindings true false) 0 0) (some sampleShrunkParent)
        sampleAsyncModel sampleManifest).1.d._renderModel._passes := by
  have hcolor : isActive (sampleContext (sampleBindings true false) 0 0).bindings
      SamplerBinding.COLOR = true := rfl
  have hres : ((TileNode.mk sampleStaleTile [] []).merge
      (sampleContext (sampleBindings true false) 0 0) (some sampleShrunkParent)
      sampleAsyncModel sampleManifest).1.d._renderModel._passes.map (fun p => p._sourceUID) =
      [2, 2] := by
    rw [merge_passes, mergeColor_passes _ _ _ _ _ hcolor]
    have huids : (mergeColorLayers (sampleContext (sampleBindings true false) 0 0)
        (some sampleShrunkParent) sampleAsyncModel.colorLayers
        (if sampleManifest.includesConstraints = true then
          sampleStaleTile.createGeometry (sampleContext (sampleBindings true false) 0 0)
          else sampleStaleTile) []).1._renderModel._passes.map (fun p => p._sourceUID) =
        [2, 2] := rfl
    have hloaded : (mergeColorLayers (sampleContext (sampleBindings true false) 0 0)
        (some sampleShrunkParent) sampleAsyncModel.colorLayers
        (if sampleManifest.includesConstraints = true then
          sampleStaleTile.createGeometry (sampleContext (sampleBindings true false) 0 0)
          else sampleStaleTile) []).2 = [2] := rfl
    rw [filterMap_orphanFate_loaded, huids]
    intro x hx
    rw [hloaded]
    have hxu : x._sourceUID ∈ [(2 : UID), 2] := by
      rw [← huids]
      exact List.mem_map_of_mem _ hx
    simpa using hxu
  have h1 : UIDsDistinct sampleStaleTile._renderModel._passes := by
    show ([1, 2] : List UID).Nodup
    decide
  have h2 : UIDsDistinct sampleShrunkParent._renderModel._passes := by
    show ([2] : List UID).Nodup
    decide
  refine ⟨h1, h2, hres, ?_⟩
  unfold UIDsDistinct
  rw [hres]
  decide

end Rex

namespace Rex

/-! ## Future textures in the update traversal -/

/-- All images are resolved exactly when the countdown of the traversal
reaches zero. -/
lemma countResolved_eq_length (images : TextureImages) (tex : TextureId) :
    (images tex).length - countResolved (images tex) = 0 ↔ allResolved images tex := by
  unfold countResolved allResolved
  have hle := List.length_filter_le (fun i : Option TexImage =>
    match i with
    | some im => decide (im.s > 0)
    | none => false) (images tex)
  rw [Nat.sub_eq_zero_iff_le]
  constructor
  · intro h
    have heq := List.filter_length_eq_length.mp (le_antisymm hle h)
    intro i hi
    have := heq i hi
    cases i with
    | none => simp at this
    | some im => exact ⟨im, rfl, by simpa using this⟩
  · intro h
    apply le_of_eq
    symm
    apply List.filter_length_eq_length.mpr
    intro i hi
    obtain ⟨im, rfl, hs⟩ := h i hi
    simpa using hs

/-- No update call is made on a texture exactly when none of its images asks
for one. -/
lemma countUpdated_eq_zero (images : TextureImages) (tex : TextureId) :
    countUpdated (images tex) = 0 ↔ noneUpdated images tex := by
  unfold countUpdated noneUpdated
  rw [List.length_eq_zero, List.filter_eq_nil_iff]
  constructor
  · intro h im him
    have := h (some im) him
    simpa using this
  · intro h i hi
    cases i with
    | none => simp
    | some im => simp [h im hi]

/-- The three outcomes of the sampler loop for a sampler with a future
texture. -/
lemma sampler_updateImages_future (images : TextureImages) (sampler : Sampler)
    (future : TextureId) (hf : sampler._futureTexture = some future) :
    (allResolved images future →
      (sampler.updateImages images).1 =
        { sampler with _texture := some future, _matrix := 1, _futureTexture := none } ∧
      (sampler.updateImages images).2.2 = 1) ∧
    (¬ allResolved images future → noneUpdated images future →
      (sampler.updateImages images).1 = { sampler with _futureTexture := none } ∧
      (sampler.updateImages images).2.2 = 0) ∧
    (¬ allResolved images future → ¬ noneUpdated images future →
      (sampler.updateImages images).1 = sampler ∧ (sampler.updateImages images).2.2 = 0) := by
  unfold Sampler.updateImages
  simp only [hf]
  refine ⟨?_, ?_, ?_⟩
  · intro hall
    rw [if_pos ((countResolved_eq_length images future).mpr hall)]
    exact ⟨rfl, rfl⟩
  · intro hall hnone
    rw [if_neg (fun h => hall ((countResolved_eq_length images future).mp h)),
      if_pos ((countUpdated_eq_zero images future).mpr hnone)]
    exact ⟨rfl, rfl⟩
  · intro hall hnone
    rw [if_neg (fun h => hall ((countResolved_eq_length images future).mp h)),
      if_neg (fun h => hnone ((countUpdated_eq_zero images future).mp h))]
    exact ⟨rfl, rfl⟩

/-- The update branch of `traverse` maps every sampler of every pass through
the sampler loop and leaves the positions alone. -/
lemma traverseUpdate_sampler (ctx : EngineContext) (images : TextureImages) (t : TileNode)
    (hactive : t.d._imageUpdatesActive = true) (p s : Nat) (pass : RenderingPass)
    (sampler : Sampler) (hp : t.d._renderModel._passes[p]? = some pass)
    (hs : pass._samplers[s]? = some sampler) :
    ∃ pass1, (t.traverseUpdate ctx images).1.d._renderModel._passes[p]? = some pass1 ∧
      pass1._samplers[s]? = some (sampler.updateImages images).1 ∧
      pass1._sourceUID = pass._sourceUID := by
  obtain ⟨d, cs, rs⟩ := t
  simp only [TileNode.d] at hactive hp
  have hpasses : ((TileNode.mk d cs rs).traverseUpdate ctx images).1.d._renderModel._passes =
      (d._renderModel._passes.map (RenderingPass.updateImages images)).map (fun r => r.1) := by
    unfold TileNode.traverseUpdate
    simp only [hactive, if_true]
    split_ifs <;> simp only [TileNode.d, TileData.updateImages] <;> split_ifs <;> rfl
  rw [hpasses]
  refine ⟨(pass.updateImages images).1, ?_, ?_, rfl⟩
  · simp [List.getElem?_map, hp]
  · simp [RenderingPass.updateImages, List.getElem?_map, hs]

/-- C17: in an update traversal with image updates active, take any sampler of
any pass of the tile that holds a future texture.  If every image of the
future texture is present with a valid size, the sampler's texture becomes the
future texture, its matrix the identity, and the future slot is cleared.  If
not all are resolved and no image of the future texture was updated in this
traversal, the future slot is cleared while texture and matrix stay.
Otherwise the sampler is unchanged.  The pass keeps its position and UID. -/
theorem traverseUpdate_resolves_or_drops_future (ctx : EngineContext)
    (images : TextureImages) (t : TileNode) (p s : Nat) (pass : RenderingPass)
    (sampler : Sampler) (future : TextureId)
    (hactive : t.d._imageUpdatesActive = true)
    (hp : t.d._renderModel._passes[p]? = some pass)
    (hs : pass._samplers[s]? = some sampler)
    (hf : sampler._futureTexture = some future) :
    ∃ pass1, (t.traverseUpdate ctx images).1.d._renderModel._passes[p]? = some pass1 ∧
      pass1._sourceUID = pass._sourceUID ∧
      (allResolved images future →
        pass1._samplers[s]? =
          some { sampler with _texture := some future, _matrix := 1, _futureTexture := none }) ∧
      (¬ allResolved images future → noneUpdated images future →
        pass1._samplers[s]? = some { sampler with _futureTexture := none }) ∧
      (¬ allResolved images future → ¬ noneUpdated images future →
        pass1._samplers[s]? = some sampler) := by
  obtain ⟨pass1, h1, h2, h3⟩ := traverseUpdate_sampler ctx images t hactive p s pass sampler hp hs
  obtain ⟨ha, hb, hc⟩ := sampler_updateImages_future images sampler future hf
  refine ⟨pass1, h1, h3, ?_, ?_, ?_⟩
  · intro hall
    rw [h2, (ha hall).1]
  · intro hall hnone
    rw [h2, (hb hall hnone).1]
  · intro hall hnone
    rw [h2, (hc hall hnone).1]

/-- Witness for C17: the pass of `sampleFutureTile` serves texture 5 while
texture 9 loads; the one image of texture 9 has a size, so the traversal swaps
texture 9 in with the identity matrix and clears the future slot. -/
theorem traverseUpdate_resolves_or_drops_future_witness :
    ∃ pass1, (sampleFutureTile.traverseUpdate (sampleContext [] 0 0)
        sampleImages).1.d._renderModel._passes[0]? = some pass1 ∧
      pass1._samplers[0]? = some ⟨some 9, 1, none, 1⟩ := by
  obtain ⟨pass1, h1, _, h2, _, _⟩ :=
    traverseUpdate_resolves_or_drops_future (sampleContext [] 0 0) sampleImages sampleFutureTile
      0 0 (samplePass 7 ⟨some 5, scaleBias 0, some 9, 1⟩ default)
      ⟨some 5, scaleBias 0, some 9, 1⟩ 9 rfl rfl rfl rfl
  exact ⟨pass1, h1, h2 (by simp [allResolved, sampleImages])⟩

end Rex

namespace Rex

/-! ## Dormant sub-tiles and their removal -/

/-- C24: `areSubTilesDormant()` is true exactly when the tile has at least four
children and each of the sub-tiles 0..3 is dormant; it is false for a tile
without children; while one of the four is not dormant it is false, so a
removal conditioned on it leaves the tile as it is; and `removeSubTiles()`
leaves no children, `_childrenReady = false` and no pending creation results,
the other members unchanged. -/
theorem areSubTilesDormant_iff_four_dormant_children (ctx : EngineContext) (t : TileNode) :
    (t.areSubTilesDormant ctx = true ↔
      4 ≤ t.getNumChildren ∧
        ∀ i c, i < 4 → t.children.get? i = some c → c.d.isDormant ctx = true) ∧
    (t.getNumChildren = 0 → t.areSubTilesDormant ctx = false) ∧
    (∀ i c, i < 4 → t.children.get? i = some c → c.d.isDormant ctx = false →
      t.areSubTilesDormant ctx = false ∧
      (if t.areSubTilesDormant ctx = true then t.removeSubTiles else t) = t) ∧
    t.removeSubTiles.getNumChildren = 0 ∧
    t.removeSubTiles.d._childrenReady = false ∧
    t.removeSubTiles.createChildResults = [] ∧
    t.removeSubTiles.d = { t.d with _childrenReady := false } := by
  have hiff : t.areSubTilesDormant ctx = true ↔
      4 ≤ t.getNumChildren ∧
        ∀ i c, i < 4 → t.children.get? i = some c → c.d.isDormant ctx = true := by
    unfold TileNode.areSubTilesDormant
    rw [Bool.and_eq_true, decide_eq_true_eq, List.all_eq_true]
    constructor
    · rintro ⟨h4, hall⟩
      refine ⟨h4, fun i c hi hc => hall c ?_⟩
      rw [List.mem_iff_get?]
      exact ⟨i, by rw [List.get?_eq_getElem?, List.getElem?_take_of_lt hi, ← List.get?_eq_getElem?]; exact hc⟩
    · rintro ⟨h4, hall⟩
      refine ⟨h4, fun c hc => ?_⟩
      rw [List.mem_iff_get?] at hc
      obtain ⟨i, hi⟩ := hc
      have hlt : i < 4 := by
        by_contra hge
        have hlen : (List.take 4 t.children).length ≤ i :=
          le_trans (List.length_take_le _ _) (not_lt.mp hge)
        rw [List.get?_eq_none.mpr hlen] at hi
        cases hi
      rw [List.get?_eq_getElem?, List.getElem?_take_of_lt hlt, ← List.get?_eq_getElem?] at hi
      exact hall i c hlt hi
  have hnot : ∀ i c, i < 4 → t.children.get? i = some c → c.d.isDormant ctx = false →
      t.areSubTilesDormant ctx = false := by
    intro i c hi hc hd
    cases hs : t.areSubTilesDormant ctx with
    | false => rfl
    | true =>
      have := (hiff.mp hs).2 i c hi hc
      rw [hd] at this
      cases this
  refine ⟨hiff, ?_, ?_, ?_⟩
  · intro h0
    cases hs : t.areSubTilesDormant ctx with
    | false => rfl
    | true =>
      have := (hiff.mp hs).1
      omega
  · intro i c hi hc hd
    refine ⟨hnot i c hi hc hd, ?_⟩
    rw [hnot i c hi hc hd]
    rfl
  · cases t with
    | mk d cs rs => exact ⟨rfl, rfl, rfl, rfl⟩

/-- Witness for C24: the four freshly created children of the sample tile,
never traversed, are all dormant at frame 10 and time 100; at frame 0 they are
not; after `removeSubTiles()` the tile has no children. -/
theorem areSubTilesDormant_iff_four_dormant_children_witness :
    sampleSubdivided.getNumChildren = 4 ∧
    sampleSubdivided.areSubTilesDormant (sampleContext [] 10 100) = true ∧
    sampleSubdivided.areSubTilesDormant (sampleContext [] 0 0) = false ∧
    sampleSyncTile.areSubTilesDormant (sampleContext [] 10 100) = false ∧
    sampleSubdivided.removeSubTiles.getNumChildren = 0 := by
  have h := areSubTilesDormant_iff_four_dormant_children (sampleContext [] 10 100)
    sampleSubdivided
  have h0 := areSubTilesDormant_iff_four_dormant_children (sampleContext [] 0 0)
    sampleSubdivided
  have hn : sampleSubdivided.getNumChildren = 4 := by decide
  have key : ∀ i c, sampleSubdivided.children.get? i = some c →
      c.d._lastTraversalFrame = 0 ∧ c.d._lastTraversalTime = 0 := by
    intro i c hc
    have hmem : c ∈ sampleSubdivided.children := List.mem_iff_get?.mpr ⟨i, hc⟩
    simp only [sampleSubdivided, TileNode.setChildrenReady, TileNode.children,
      createChildrenSync, List.nil_append, List.cons_append, List.mem_cons,
      List.mem_singleton, List.not_mem_nil, or_false] at hmem
    rcases hmem with rfl | rfl | rfl | rfl <;> exact ⟨rfl, rfl⟩
  refine ⟨hn, ?_, ?_, by decide, h.2.2.2.1⟩
  · rw [h.1]
    refine ⟨by decide, ?_⟩
    intro i c _ hc
    obtain ⟨hf, ht⟩ := key i c hc
    simp only [TileData.isDormant, hf, ht]
    norm_num [usub32, sampleContext, sampleOptions]
  · cases hc : sampleSubdivided.children.get? 0 with
    | none =>
      have hlen : sampleSubdivided.children.length ≤ 0 := List.get?_eq_none.mp hc
      have h4 : sampleSubdivided.children.length = 4 := hn
      omega
    | some c =>
      obtain ⟨hf, ht⟩ := key 0 c hc
      refine (h0.2.2.1 0 c (by decide) hc ?_).1
      simp only [TileData.isDormant, hf, ht]
      norm_num [usub32, sampleContext, sampleOptions]

end Rex

namespace Rex

/-! ## The value of `nextLoadIsProgressive` -/

/-- C26: `nextLoadIsProgressive()` evaluates as (progressive option and null
manifest pointer) or (the next manifest's progressive flag is not set to
false).  For a tile whose manifest pointer refers to the front of its load
queue: with a non-empty queue the result is true exactly when the manifest of
the front operation does not have `progressive` explicitly set to false,
whatever the context and its progressive option; with an empty queue and the
option enabled the result is true and the null pointer is not dereferenced;
with an empty queue and the option disabled the null pointer is
dereferenced. -/
theorem nextLoadIsProgressive_follows_front_manifest (ctx : EngineContext) (t : TileData)
    (hptr : t._nextLoadManifestPtr = t._loadQueue.head?.map (fun op => op._manifest)) :
    (t.nextLoadIsProgressive ctx =
      if (ctx.options.progressive && t._nextLoadManifestPtr.isNone) = true then some true
      else t._nextLoadManifestPtr.map (fun m => decide (m.progressive ≠ some false))) ∧
    (∀ op rest, t._loadQueue = op :: rest →
      (∀ ctx1 : EngineContext,
        t.nextLoadIsProgressive ctx1 = some (decide (op._manifest.progressive ≠ some false))) ∧
      (t.nextLoadIsProgressive ctx = some true ↔ op._manifest.progressive ≠ some false)) ∧
    (t._loadQueue = [] → ctx.options.progressive = true →
      t.nextLoadIsProgressive ctx = some true) ∧
    (t._loadQueue = [] → ctx.options.progressive = false →
      t.nextLoadIsProgressive ctx = none) := by
  refine ⟨?_, ?_, ?_, ?_⟩
  · unfold TileData.nextLoadIsProgressive
    cases t._nextLoadManifestPtr <;> rfl
  · intro op rest hq
    rw [hq] at hptr
    have hall : ∀ ctx1 : EngineContext,
        t.nextLoadIsProgressive ctx1 =
          some (decide (op._manifest.progressive ≠ some false)) := by
      intro ctx1
      unfold TileData.nextLoadIsProgressive
      rw [hptr]
      simp
    refine ⟨hall, ?_⟩
    rw [hall ctx]
    simp
  · intro hq hp
    rw [hq] at hptr
    unfold TileData.nextLoadIsProgressive
    rw [hptr, hp]
    rfl
  · intro hq hp
    rw [hq] at hptr
    unfold TileData.nextLoadIsProgressive
    rw [hptr, hp]
    rfl

/-- Witness for C26: with the progressive option enabled, a tile whose queued
load has a manifest that leaves `progressive` unset answers true, a tile whose
queued load has `progressive` set to false answers false, and a tile with an
empty queue answers true. -/
theorem nextLoadIsProgressive_follows_front_manifest_witness :
    sampleDirtyParent.nextLoadIsProgressive sampleProgressiveContext = some true ∧
    sampleNonProgressiveLoad.nextLoadIsProgressive sampleProgressiveContext = some false ∧
    (sampleTile rootKey []).nextLoadIsProgressive sampleProgressiveContext = some true := by
  refine ⟨?_, ?_, ?_⟩
  · exact ((nextLoadIsProgressive_follows_front_manifest sampleProgressiveContext
      sampleDirtyParent rfl).2.1 _ _ rfl).1 sampleProgressiveContext
  · exact ((nextLoadIsProgressive_follows_front_manifest sampleProgressiveContext
      sampleNonProgressiveLoad rfl).2.1 _ _ rfl).1 sampleProgressiveContext
  · exact (nextLoadIsProgressive_follows_front_manifest sampleProgressiveContext
      (sampleTile rootKey []) rfl).2.2.1 rfl rfl

end Rex

namespace Rex

/-! ## The cached members of the load queue -/

/-- A job changing the result of a queued operation keeps the cached members in
agreement with the queue. -/
lemma queueInv_jobProgress (t : TileData) (i : Nat) (result : FutureState) (h : QueueInv t) :
    QueueInv { t with _loadQueue :=
      match t._loadQueue.get? i with
      | some op => t._loadQueue.set i { op with _result := result }
      | none => t._loadQueue } := by
  obtain ⟨h1, h2⟩ := h
  cases hg : t._loadQueue.get? i with
  | none => exact ⟨h1, h2⟩
  | some op =>
    refine ⟨?_, ?_⟩
    · show t._loadsInQueue = (t._loadQueue.set i _).length
      rw [List.length_set]
      exact h1
    · show t._nextLoadManifestPtr = (t._loadQueue.set i _).head?.map _
      rw [h2]
      cases hq : t._loadQueue with
      | nil => rfl
      | cons a rest =>
        cases i with
        | zero =>
          rw [hq] at hg
          simp only [List.get?_cons_zero, Option.some.injEq] at hg
          subst hg
          rfl
        | succ k => rfl

/-- After `refreshLayers` the cached members agree with the queue. -/
lemma queueInv_refreshLayers (t : TileData) (m : CreateTileManifest) :
    QueueInv (t.refreshLayers m) := by
  refine ⟨rfl, ?_⟩
  unfold TileData.refreshLayers
  simp only
  rw [if_pos (by simp)]

/-- The call `processLoadQueue` keeps the cached members in agreement with the
queue. -/
lemma queueInv_processLoadQueue (t : TileData) (h : QueueInv t) :
    QueueInv t.processLoadQueue.1 := by
  obtain ⟨h1, h2⟩ := h
  unfold TileData.processLoadQueue
  cases hq : t._loadQueue with
  | nil => exact ⟨by rw [h1, hq], by rw [h2, hq]⟩
  | cons op rest =>
    simp only
    by_cases ha : op._result = FutureState.abandoned
    · rw [if_pos ha]
      exact ⟨by rw [h1, hq]; rfl, by rw [h2, hq]; rfl⟩
    · rw [if_neg ha]
      by_cases hv : op._result = FutureState.available
      · rw [if_pos hv]
        exact ⟨rfl, rfl⟩
      · rw [if_neg hv]
        exact ⟨by rw [h1, hq], by rw [h2, hq]⟩

/-- The cached members agree with the queue after every run of queue steps
from a tile on which they agree. -/
lemma queueInv_runQueue (steps : List QueueStep) :
    ∀ (t : TileData) (merged : List CreateTileManifest), QueueInv t →
      QueueInv (runQueue steps t merged).1 := by
  induction steps with
  | nil => intro t merged h; exact h
  | cons s rest ih =>
    intro t merged h
    cases s with
    | refreshLayers m => exact ih _ _ (queueInv_refreshLayers t m)
    | processLoadQueue => exact ih _ _ (queueInv_processLoadQueue t h)
    | jobProgress i result => exact ih _ _ (queueInv_jobProgress t i result h)

/-- C27: after every `refreshLayers`, whatever the tile, the counter
`_loadsInQueue` is the length of the load queue and `_nextLoadManifestPtr`
refers to the manifest of the front operation; the call appends the new
operation at the back and the queue grows by exactly one.  A
`processLoadQueue` that hands an operation to the merger sets both members
anew, and every other one leaves the queue length, the front manifest and both
members as they were, so on every tile reached from construction by
`refreshLayers` calls, `processLoadQueue` calls and progress of the jobs, the
counter is the length of the queue and the pointer is null exactly when the
queue is empty and refers to the front manifest otherwise. -/
theorem load_queue_counter_and_pointer_track_queue (ctx : EngineContext) (key : TileKey)
    (steps : List QueueStep) (m : CreateTileManifest) (t : TileData) :
    (QueueInv (t.refreshLayers m) ∧
      (t.refreshLayers m)._loadQueue = t._loadQueue ++ [⟨m, FutureState.abandoned⟩] ∧
      (t.refreshLayers m)._loadQueue.length = t._loadQueue.length + 1 ∧
      (t.refreshLayers m)._loadsInQueue = t._loadQueue.length + 1 ∧
      (t.refreshLayers m)._nextLoadManifestPtr ≠ none) ∧
    (t.processLoadQueue.2 = [Event.submitToMerger] → QueueInv t.processLoadQueue.1) ∧
    (QueueInv t → QueueInv t.processLoadQueue.1) ∧
    QueueInv (runQueue steps (TileData.new ctx key) []).1 ∧
    QueueInv (runQueue steps (TileData.new ctx key) []).1.processLoadQueue.1 ∧
    (QueueInv t → (t._nextLoadManifestPtr = none ↔ t._loadQueue = []) ∧
      ∀ op rest, t._loadQueue = op :: rest → t._nextLoadManifestPtr = some op._manifest) := by
  have hnew : QueueInv (TileData.new ctx key) := by
    unfold TileData.new TileData.createGeometry
    split_ifs <;> exact ⟨rfl, rfl⟩
  have hrun := queueInv_runQueue steps (TileData.new ctx key) [] hnew
  refine ⟨⟨queueInv_refreshLayers t m, rfl, ?_, ?_, ?_⟩, ?_, queueInv_processLoadQueue t,
    hrun, queueInv_processLoadQueue _ hrun, ?_⟩
  · show (t._loadQueue ++ [_]).length = _
    simp
  · show (t._loadQueue ++ [_]).length = _
    simp
  · rw [(queueInv_refreshLayers t m).2]
    show (t._loadQueue ++ [_]).head?.map _ ≠ none
    cases t._loadQueue <;> simp
  · intro hev
    unfold TileData.processLoadQueue at hev ⊢
    cases hq : t._loadQueue with
    | nil => rw [hq] at hev; cases hev
    | cons op rest =>
      rw [hq] at hev
      simp only at hev ⊢
      by_cases ha : op._result = FutureState.abandoned
      · rw [if_pos ha] at hev
        cases hev
      · rw [if_neg ha] at hev ⊢
        by_cases hv : op._result = FutureState.available
        · rw [if_pos hv]
          exact ⟨rfl, rfl⟩
        · rw [if_neg hv] at hev
          cases hev
  · intro hinv
    obtain ⟨_, h2⟩ := hinv
    constructor
    · rw [h2]
      cases t._loadQueue <;> simp
    · intro op rest hq
      rw [h2, hq]
      rfl

/-- Witness for C27: on a root tile, one `refreshAllLayers` gives a queue of one
operation, a counter of 1 and a pointer to the manifest just queued; the
following `processLoadQueue`, which dispatches the operation, keeps them. -/
theorem load_queue_counter_and_pointer_track_queue_witness :
    QueueInv sampleDirtyParent ∧ sampleDirtyParent._loadsInQueue = 1 ∧
    sampleDirtyParent._loadQueue.length = 1 ∧
    QueueInv sampleDirtyParent.processLoadQueue.1 ∧
    sampleDirtyParent.processLoadQueue.1._loadsInQueue = 1 := by
  have h := load_queue_counter_and_pointer_track_queue sampleProgressiveContext rootKey []
    sampleProgressiveContext.emptyManifest (sampleTile rootKey [])
  have h1 := load_queue_counter_and_pointer_track_queue sampleProgressiveContext rootKey []
    sampleProgressiveContext.emptyManifest sampleDirtyParent
  exact ⟨h.1.1, rfl, rfl, h1.2.2.1 h.1.1, rfl⟩

end Rex

namespace Rex

/-! ## Inheritance through several levels -/

/-- The matrix of a sampler handed down a chain of quadrants. -/
lemma inheritedSampler_fields (quadrants : List (Fin 4)) :
    ∀ s : Sampler, (inheritedSampler s quadrants)._texture = s._texture ∧
      (inheritedSampler s quadrants)._revision = s._revision ∧
      (inheritedSampler s quadrants)._matrix =
        quadrants.foldl (fun m q => preMult m (scaleBias q)) s._matrix := by
  induction quadrants with
  | nil => intro s; exact ⟨rfl, rfl, rfl⟩
  | cons q rest ih =>
    intro s
    exact ih (s.preMultBy (scaleBias q))

/-- The image of a texture coordinate under the matrix of a chain of `n`
quadrants: both coordinates are scaled by `2^(-n)` and shifted by a multiple of
`2^(-n)` below 1. -/
lemma inheritedMatrix_vecMul (quadrants : List (Fin 4)) :
    ∃ kx ky : ℕ, kx < 2 ^ quadrants.length ∧ ky < 2 ^ quadrants.length ∧
      ∀ u v : ℚ, Matrix.vecMul (texCoord u v) (inheritedMatrix quadrants) =
        texCoord ((u + kx) / 2 ^ quadrants.length) ((v + ky) / 2 ^ quadrants.length) := by
  induction quadrants using List.reverseRecOn with
  | nil =>
    refine ⟨0, 0, by simp, by simp, ?_⟩
    intro u v
    simp [inheritedMatrix]
  | append_singleton l q ih =>
    obtain ⟨kx, ky, hkx, hky, hM⟩ := ih
    have hstep : inheritedMatrix (l ++ [q]) = scaleBias q * inheritedMatrix l := by
      unfold inheritedMatrix
      rw [List.foldl_append]
      rfl
    have hlen : (l ++ [q]).length = l.length + 1 := by simp
    have hmul : ∀ u v : ℚ, Matrix.vecMul (texCoord u v) (inheritedMatrix (l ++ [q])) =
        texCoord ((u / 2 + (specOffset q).1 + kx) / 2 ^ l.length)
          ((v / 2 + (specOffset q).2 + ky) / 2 ^ l.length) := by
      intro u v
      rw [hstep, ← Matrix.vecMul_vecMul, vecMul_scaleBias, hM]
    rw [hlen]
    have hq : ∃ ox oy : ℕ, ox < 2 ∧ oy < 2 ∧ (specOffset q).1 = (ox : ℚ) / 2 ∧
        (specOffset q).2 = (oy : ℚ) / 2 := by
      fin_cases q
      · exact ⟨0, 1, by decide, by decide, by simp [specOffset], by simp [specOffset]⟩
      · exact ⟨1, 1, by decide, by decide, by simp [specOffset], by simp [specOffset]⟩
      · exact ⟨0, 0, by decide, by decide, by simp [specOffset], by simp [specOffset]⟩
      · exact ⟨1, 0, by decide, by decide, by simp [specOffset], by simp [specOffset]⟩
    obtain ⟨ox, oy, hox, hoy, hx, hy⟩ := hq
    refine ⟨2 * kx + ox, 2 * ky + oy, by rw [pow_succ]; omega, by rw [pow_succ]; omega, ?_⟩
    intro u v
    rw [hmul, hx, hy]
    have h2 : (2 : ℚ) ^ l.length ≠ 0 := pow_ne_zero _ (by norm_num)
    have hx2 : (u / 2 + (ox : ℚ) / 2 + kx) / 2 ^ l.length =
        (u + ((2 * kx + ox : ℕ) : ℚ)) / 2 ^ (l.length + 1) := by
      rw [pow_succ]
      push_cast
      field_simp
      ring
    have hy2 : (v / 2 + (oy : ℚ) / 2 + ky) / 2 ^ l.length =
        (v + ((2 * ky + oy : ℕ) : ℚ)) / 2 ^ (l.length + 1) := by
      rw [pow_succ]
      push_cast
      field_simp
      ring
    rw [hx2, hy2]

/-- C28: for every finite chain of quadrants `q1..qn`, `n ≥ 0`, the matrix
obtained from the identity by successive pre-multiplication with
`scaleBias[q1]`, ..., `scaleBias[qn]` sends the row vector `(u, v, 0, 1)` to
`((u + kx) / 2^n, (v + ky) / 2^n, 0, 1)` with natural numbers `kx, ky < 2^n`:
the scale is `2^(-n)` on both axes, the offsets are multiples of `2^(-n)`, and
every point of the unit square lands in the sub-square of side `2^(-n)` at
that offset, inside the unit square.  A sampler holding its own texture with
an identity matrix that is handed down the chain keeps its texture and
revision and gets exactly that matrix.  Coordinates are rational numbers. -/
theorem inherited_matrix_maps_unit_square_to_subsquare (quadrants : List (Fin 4))
    (tex : TextureId) (revision : Nat) :
    (inheritedSampler (ownSampler tex revision) quadrants)._texture = some tex ∧
    (inheritedSampler (ownSampler tex revision) quadrants)._revision = revision ∧
    (inheritedSampler (ownSampler tex revision) quadrants)._matrix = inheritedMatrix quadrants ∧
    ∃ kx ky : ℕ, kx < 2 ^ quadrants.length ∧ ky < 2 ^ quadrants.length ∧
      ∀ u v : ℚ,
        Matrix.vecMul (texCoord u v) (inheritedMatrix quadrants) =
          texCoord (u / 2 ^ quadrants.length + kx / 2 ^ quadrants.length)
            (v / 2 ^ quadrants.length + ky / 2 ^ quadrants.length) ∧
        (0 ≤ u → u ≤ 1 → 0 ≤ v → v ≤ 1 →
          ∃ x y : ℚ, Matrix.vecMul (texCoord u v) (inheritedMatrix quadrants) = texCoord x y ∧
            (kx : ℚ) / 2 ^ quadrants.length ≤ x ∧ x ≤ (kx + 1) / 2 ^ quadrants.length ∧
            (ky : ℚ) / 2 ^ quadrants.length ≤ y ∧ y ≤ (ky + 1) / 2 ^ quadrants.length ∧
            0 ≤ x ∧ x ≤ 1 ∧ 0 ≤ y ∧ y ≤ 1) := by
  obtain ⟨ht, hr, hm⟩ := inheritedSampler_fields quadrants (ownSampler tex revision)
  refine ⟨ht, hr, hm, ?_⟩
  obtain ⟨kx, ky, hkx, hky, hM⟩ := inheritedMatrix_vecMul quadrants
  refine ⟨kx, ky, hkx, hky, ?_⟩
  intro u v
  have hpos : (0 : ℚ) < 2 ^ quadrants.length := pow_pos (by norm_num) _
  have hkx1 : (kx : ℚ) + 1 ≤ 2 ^ quadrants.length := by exact_mod_cast hkx
  have hky1 : (ky : ℚ) + 1 ≤ 2 ^ quadrants.length := by exact_mod_cast hky
  have hkx0 : (0 : ℚ) ≤ kx := Nat.cast_nonneg _
  have hky0 : (0 : ℚ) ≤ ky := Nat.cast_nonneg _
  constructor
  · rw [hM, add_div, add_div]
  · intro hu0 hu1 hv0 hv1
    refine ⟨_, _, hM u v, ?_, ?_, ?_, ?_, ?_, ?_, ?_, ?_⟩
    · exact div_le_div_of_nonneg_right (by linarith) hpos.le
    · exact div_le_div_of_nonneg_right (by linarith) hpos.le
    · exact div_le_div_of_nonneg_right (by linarith) hpos.le
    · exact div_le_div_of_nonneg_right (by linarith) hpos.le
    · exact div_nonneg (by linarith) hpos.le
    · rw [div_le_one hpos]; linarith
    · exact div_nonneg (by linarith) hpos.le
    · rw [div_le_one hpos]; linarith

/-- Witness for C28: through the chain of quadrants 1, 2 the corner (1, 1) of
the unit square goes to a point `(1/4 + kx/4, 1/4 + ky/4)` with `kx, ky < 4`,
and the sampler handed down still holds texture 5. -/
theorem inherited_matrix_maps_unit_square_to_subsquare_witness :
    (inheritedSampler (ownSampler 5 1) [1, 2])._texture = some 5 ∧
    ∃ kx ky : ℕ, kx < 4 ∧ ky < 4 ∧
      Matrix.vecMul (texCoord 1 1) (inheritedMatrix [1, 2]) =
        texCoord (1 / 2 ^ 2 + kx / 2 ^ 2) (1 / 2 ^ 2 + ky / 2 ^ 2) := by
  obtain ⟨ht, _, _, kx, ky, hkx, hky, h⟩ :=
    inherited_matrix_maps_unit_square_to_subsquare [1, 2] 5 1
  exact ⟨ht, kx, ky, hkx, hky, (h 1 1).1⟩

end Rex

namespace Rex

/-! ## What `merge` leaves alone -/

/-- The elevation section of `merge` leaves every other shared slot alone. -/
lemma mergeElevation_shared_ne (ctx : EngineContext) (parent : Option TileData)
    (model : TerrainTileModel) (manifest : CreateTileManifest) (t : TileData) (k : Nat)
    (hne : SamplerBinding.ELEVATION ≠ k) :
    (t.mergeElevation ctx parent model manifest).1._renderModel._sharedSamplers[k]? =
      t._renderModel._sharedSamplers[k]? := by
  unfold TileData.mergeElevation
  split_ifs <;> (try split) <;>
    first
    | rfl
    | (rw [updateElevationRaster_renderModel]; exact setSharedSampler_ne _ _ _ _ _ hne)
    | (rw [updateElevationRaster_renderModel]; exact inheritSharedSampler_shared_ne _ _ _ _ hne)

/-- The normal-map section of `merge` leaves every other shared slot alone. -/
lemma mergeNormal_shared_ne (ctx : EngineContext) (parent : Option TileData)
    (model : TerrainTileModel) (manifest : CreateTileManifest) (t : TileData) (k : Nat)
    (hne : SamplerBinding.NORMAL ≠ k) :
    (t.mergeNormal ctx parent model manifest)._renderModel._sharedSamplers[k]? =
      t._renderModel._sharedSamplers[k]? := by
  unfold TileData.mergeNormal
  split_ifs <;> (try split) <;> (try split) <;>
    first
    | rfl
    | exact setSharedSampler_ne _ _ _ _ _ hne
    | exact inheritSharedSampler_shared_ne _ _ _ _ hne

/-- The land-cover section of `merge` leaves every other shared slot alone. -/
lemma mergeLandCover_shared_ne (ctx : EngineContext) (parent : Option TileData)
    (model : TerrainTileModel) (manifest : CreateTileManifest) (t : TileData) (k : Nat)
    (hne : SamplerBinding.LANDCOVER ≠ k) :
    (t.mergeLandCover ctx parent model manifest)._renderModel._sharedSamplers[k]? =
      t._renderModel._sharedSamplers[k]? := by
  unfold TileData.mergeLandCover
  split_ifs <;> (try split) <;>
    first
    | rfl
    | exact setSharedSampler_ne _ _ _ _ _ hne
    | exact inheritSharedSampler_shared_ne _ _ _ _ hne

/-- Without elevation in the manifest and without an elevation texture in the
model, the elevation section of `merge` does nothing. -/
lemma mergeElevation_skip (ctx : EngineContext) (parent : Option TileData)
    (model : TerrainTileModel) (manifest : CreateTileManifest) (t : TileData)
    (hman : manifest.includesElevation = false)
    (hmod : model.elevationModel.bind (fun e => e.texture) = none) :
    t.mergeElevation ctx parent model manifest = (t, false) := by
  have hb : model.elevationModel.bind
      (fun e => e.texture.map (fun tex => (tex, e.revision))) = none := by
    cases he : model.elevationModel with
    | none => rfl
    | some e =>
      rw [he] at hmod
      simp only [Option.some_bind] at hmod ⊢
      rw [hmod]
      rfl
  unfold TileData.mergeElevation
  rw [hb, hman]
  simp

/-- Without elevation in the manifest and without an elevation texture in the
model, the normal-map section of `merge` does nothing. -/
lemma mergeNormal_skip (ctx : EngineContext) (parent : Option TileData)
    (model : TerrainTileModel) (manifest : CreateTileManifest) (t : TileData)
    (hman : manifest.includesElevation = false)
    (hmod : model.elevationModel.bind (fun e => e.texture) = none) :
    t.mergeNormal ctx parent model manifest = t := by
  have hb : model.elevationModel.bind (fun e => e.texture.map (fun _ => e)) = none := by
    cases he : model.elevationModel with
    | none => rfl
    | some e =>
      rw [he] at hmod
      simp only [Option.some_bind] at hmod ⊢
      rw [hmod]
      rfl
  unfold TileData.mergeNormal
  rw [hb, hman]
  simp

/-- Without land cover in the manifest and without a land-cover texture in the
model, the land-cover section of `merge` does nothing. -/
lemma mergeLandCover_skip (ctx : EngineContext) (parent : Option TileData)
    (model : TerrainTileModel) (manifest : CreateTileManifest) (t : TileData)
    (hman : manifest.includesLandCover = false)
    (hmod : model.landCoverModel.bind (fun e => e.texture) = none) :
    t.mergeLandCover ctx parent model manifest = t := by
  have hb : model.landCoverModel.bind
      (fun e => e.texture.map (fun tex => (tex, e.revision))) = none := by
    cases he : model.landCoverModel with
    | none => rfl
    | some e =>
      rw [he] at hmod
      simp only [Option.some_bind] at hmod ⊢
      rw [hmod]
      rfl
  unfold TileData.mergeLandCover
  rw [hb, hman]
  simp

/-- The shared slots below SHARED after `merge`, section by section. -/
lemma merge_shared_low (ctx : EngineContext) (parent : Option TileData)
    (model : TerrainTileModel) (manifest : CreateTileManifest) (d : TileData)
    (children : List TileNode) (results : List CreateChildResult) (k : Nat)
    (hk : k < SamplerBinding.SHARED) :
    ((TileNode.mk d children results).merge ctx parent model manifest).1.d._renderModel._sharedSamplers[k]? =
      (((((if manifest.includesConstraints then d.createGeometry ctx else d).mergeColor
        ctx parent model manifest).mergeElevation ctx parent model manifest).1.mergeNormal
          ctx parent model manifest).mergeLandCover
            ctx parent model manifest)._renderModel._sharedSamplers[k]? := by
  rw [TileNode.merge]
  simp only [TileNode.d, TileData.mergeOwn]
  rw [releaseSharedLayers_low _ _ _ _ _ _ hk, mergeSharedLayers_low _ _ _ hk]

/-- C30: in every `merge(model, manifest)` whose manifest does not include
elevation and whose model carries no elevation texture, the ELEVATION and
NORMAL shared samplers of the tile are unchanged; when the manifest does not
include land cover and the model carries no land-cover texture, the LANDCOVER
sampler is unchanged; and a pass whose layer the manifest does not include and
for whose layer the model has no entry is still among the passes afterwards,
unchanged in every field. -/
theorem merge_keeps_data_neither_requested_nor_delivered (ctx : EngineContext)
    (parent : Option TileData) (model : TerrainTileModel) (manifest : CreateTileManifest)
    (d : TileData) (children : List TileNode) (results : List CreateChildResult) :
    (manifest.includesElevation = false →
      model.elevationModel.bind (fun e => e.texture) = none →
      ((TileNode.mk d children results).merge ctx parent model
          manifest).1.d._renderModel._sharedSamplers[SamplerBinding.ELEVATION]? =
        d._renderModel._sharedSamplers[SamplerBinding.ELEVATION]? ∧
      ((TileNode.mk d children results).merge ctx parent model
          manifest).1.d._renderModel._sharedSamplers[SamplerBinding.NORMAL]? =
        d._renderModel._sharedSamplers[SamplerBinding.NORMAL]?) ∧
    (manifest.includesLandCover = false →
      model.landCoverModel.bind (fun e => e.texture) = none →
      ((TileNode.mk d children results).merge ctx parent model
          manifest).1.d._renderModel._sharedSamplers[SamplerBinding.LANDCOVER]? =
        d._renderModel._sharedSamplers[SamplerBinding.LANDCOVER]?) ∧
    (∀ (k : Nat) (P : RenderingPass), d._renderModel._passes[k]? = some P →
      manifest.includesLayer P._layer = false →
      (∀ cm, some cm ∈ model.colorLayers → ∀ l, cm.layer = some l → l.uid ≠ P._sourceUID) →
      P ∈ ((TileNode.mk d children results).merge ctx parent model
          manifest).1.d._renderModel._passes) := by
  have hgeo : (if manifest.includesConstraints then d.createGeometry ctx else d)._renderModel =
      d._renderModel := by
    split_ifs
    · exact (createGeometry_renderModel ctx d).1
    · rfl
  have hcol : ((if manifest.includesConstraints then d.createGeometry ctx else d).mergeColor
      ctx parent model manifest)._renderModel._sharedSamplers = d._renderModel._sharedSamplers := by
    rw [mergeColor_shared, hgeo]
  refine ⟨?_, ?_, ?_⟩
  · intro hman hmod
    constructor
    · rw [merge_shared_low _ _ _ _ _ _ _ _ (by decide),
        mergeLandCover_shared_ne _ _ _ _ _ _ (by decide),
        mergeNormal_shared_ne _ _ _ _ _ _ (by decide),
        mergeElevation_skip _ _ _ _ _ hman hmod, hcol]
    · rw [merge_shared_low _ _ _ _ _ _ _ _ (by decide),
        mergeLandCover_shared_ne _ _ _ _ _ _ (by decide),
        mergeNormal_skip _ _ _ _ _ hman hmod,
        mergeElevation_shared_ne _ _ _ _ _ _ (by decide), hcol]
  · intro hman hmod
    rw [merge_shared_low _ _ _ _ _ _ _ _ (by decide),
      mergeLandCover_skip _ _ _ _ _ hman hmod,
      mergeNormal_shared_ne _ _ _ _ _ _ (by decide),
      mergeElevation_shared_ne _ _ _ _ _ _ (by decide), hcol]
  · intro k P hk hman hno
    rw [merge_passes]
    have hk0 : (if manifest.includesConstraints then d.createGeometry ctx
        else d)._renderModel._passes[k]? = some P := by
      rw [hgeo]
      exact hk
    by_cases hcolor : isActive ctx.bindings SamplerBinding.COLOR = true
    · rw [mergeColor_passes _ _ _ _ _ hcolor]
      obtain ⟨hk1, _⟩ := mergeColorLayers_keeps_index ctx parent k P model.colorLayers _ [] hk0 hno
      rw [List.mem_filterMap]
      refine ⟨P, List.mem_iff_getElem?.mpr ⟨k, hk1⟩, ?_⟩
      apply orphanFate_neg
      rw [hman]
      simp
    · unfold TileData.mergeColor
      rw [if_neg hcolor]
      exact List.mem_iff_getElem?.mpr ⟨k, hk0⟩

/-- Witness for C30: a tile that owns texture 3 for layer 7 and has a shared
slot, under a parent with a pass for layer 7, merges a model that delivers
nothing under a manifest that asks for nothing: the pass is still there as it
was, and the ELEVATION slot is as it was. -/
theorem merge_keeps_data_neither_requested_nor_delivered_witness :
    sampleOwnedPass ∈ ((TileNode.mk sampleOwnedTile [] []).merge
      (sampleContext (sampleBindings true false) 0 0) (some sampleParentWithPass) emptyModel
      sampleNothingManifest).1.d._renderModel._passes ∧
    ((TileNode.mk sampleOwnedTile [] []).merge
      (sampleContext (sampleBindings true false) 0 0) (some sampleParentWithPass) emptyModel
      sampleNothingManifest).1.d._renderModel._sharedSamplers[SamplerBinding.ELEVATION]? =
      sampleOwnedTile._renderModel._sharedSamplers[SamplerBinding.ELEVATION]? := by
  have h := merge_keeps_data_neither_requested_nor_delivered
    (sampleContext (sampleBindings true false) 0 0) (some sampleParentWithPass) emptyModel
    sampleNothingManifest sampleOwnedTile [] []
  refine ⟨h.2.2 0 sampleOwnedPass rfl rfl ?_, (h.1 rfl rfl).1⟩
  intro cm hcm
  simp [emptyModel] at hcm

end Rex

namespace Rex

/-! ## `refreshInheritedData` right after `initializeData` -/

/-- Writing back the element a list already holds at an index changes nothing. -/
lemma set_getD_same {α : Type} (l : List α) (i : Nat) (d : α) : l.set i (l.getD i d) = l := by
  by_cases hi : i < l.length
  · apply List.ext_getElem?
    intro n
    rw [List.getElem?_set]
    by_cases hn : i = n
    · subst hn
      simp [hi, List.getD_eq_getElem?_getD]
    · simp [hn]
  · exact List.set_eq_of_length_le (by omega)

/-- The render model and key after `initializeData`. -/
lemma initializeData_renderModel (ctx : EngineContext) (parent t : TileData) :
    (t.initializeData ctx (some parent))._renderModel =
      ⟨initializePasses ctx t t._key.getQuadrant 0 parent._renderModel._passes
          t._renderModel._passes,
        parent._renderModel._sharedSamplers.map
          (fun s => s.preMultBy (scaleBias t._key.getQuadrant))⟩ ∧
    (t.initializeData ctx (some parent))._key = t._key := by
  unfold TileData.initializeData
  simp only
  split_ifs
  · exact ⟨updateElevationRaster_renderModel _, (updateElevationRaster_fields _).2.2⟩
  · exact ⟨rfl, rfl⟩

/-- Re-inheriting a sampler that is the parent's sampler scaled gives it back. -/
lemma inheritFrom_preMultBy (ps : Sampler) (sb : Matrixf) :
    (ps.preMultBy sb).inheritFrom ps sb = ps.preMultBy sb := rfl

/-- The samplers of an initialised pass are as many as the parent's. -/
lemma initializePass_length (ctx : EngineContext) (q : Fin 4) (p : Nat) (pp : RenderingPass) :
    (initializePass ctx q p pp)._samplers.length = pp._samplers.length ∧
    (initializePass ctx q p pp)._sourceUID = pp._sourceUID := by
  unfold initializePass
  simp only
  split_ifs <;> simp

/-- The COLOR step of `refreshInheritedData` gives back a pass just initialised
from the same parent pass. -/
lemma refreshColor_initializePass (ctx : EngineContext) (q : Fin 4) (p : Nat)
    (pp : RenderingPass) :
    (refreshColor ctx q pp (initializePass ctx q p pp)).1 = initializePass ctx q p pp := by
  have hset : (initializePass ctx q p pp)._samplers.set SamplerBinding.COLOR
      (((initializePass ctx q p pp).sampler SamplerBinding.COLOR).inheritFrom
        (pp.sampler SamplerBinding.COLOR) (scaleBias q)) =
      (initializePass ctx q p pp)._samplers := by
    by_cases hlen : SamplerBinding.COLOR < pp._samplers.length
    · have hs := initializePass_sampler ctx q p pp SamplerBinding.COLOR hlen
      rw [if_neg (by simp [SamplerBinding.COLOR, SamplerBinding.COLOR_PARENT])] at hs
      rw [hs, inheritFrom_preMultBy, ← hs]
      exact set_getD_same _ _ _
    · apply List.set_eq_of_length_le
      rw [(initializePass_length ctx q p pp).1]
      omega
  unfold refreshColor
  by_cases hc : isActive ctx.bindings SamplerBinding.COLOR = true
  · rw [if_pos hc]
    simp only
    by_cases hi : ((initializePass ctx q p pp).sampler SamplerBinding.COLOR).inheritsTexture = true
    · rw [if_pos hi]
      show RenderingPass.assignSampler _ _ _ = _
      unfold RenderingPass.assignSampler
      rw [hset]
    · rw [if_neg hi]
  · rw [if_neg hc]

/-- The COLOR_PARENT step of `refreshInheritedData` gives back a pass just
initialised from the same parent pass. -/
lemma refreshColorParent_initializePass (ctx : EngineContext) (t : TileData) (q : Fin 4)
    (p : Nat) (pp : RenderingPass) :
    (refreshColorParent ctx t q pp (initializePass ctx q p pp)).1 =
      initializePass ctx q p pp := by
  unfold refreshColorParent
  by_cases hcp : isActive ctx.bindings SamplerBinding.COLOR_PARENT = true
  · rw [if_pos hcp]
    by_cases hlen : SamplerBinding.COLOR_PARENT < pp._samplers.length
    · have hs := initializePass_sampler ctx q p pp SamplerBinding.COLOR_PARENT hlen
      rw [if_pos ⟨hcp, rfl⟩] at hs
      simp only [hs]
      rw [if_neg]
      simp [Sampler.preMultBy]
    · have hshort : ∀ s : Sampler, (initializePass ctx q p pp).assignSampler
          SamplerBinding.COLOR_PARENT s = initializePass ctx q p pp := by
        intro s
        unfold RenderingPass.assignSampler
        rw [List.set_eq_of_length_le]
        rw [(initializePass_length ctx q p pp).1]
        omega
      simp only
      split_ifs <;> first | exact hshort _ | rfl
  · rw [if_neg hcp]

/-- Every initialised pass comes from a parent pass in legal range. -/
lemma mem_initializedPasses (ctx : EngineContext) (t : TileData) (L : List RenderingPass)
    (x : RenderingPass) :
    x ∈ initializedPasses ctx t L ↔
      ∃ p pp, L[p]? = some pp ∧ t.passInLegalRange ctx pp = true ∧
        x = initializePass ctx t._key.getQuadrant p pp := by
  unfold initializedPasses
  simp only [List.mem_map, List.mem_filter, Prod.exists]
  constructor
  · rintro ⟨p, pp, ⟨hmem, hleg⟩, hx⟩
    exact ⟨p, pp, List.mk_mem_enum_iff_getElem?.mp hmem, hleg, hx.symm⟩
  · rintro ⟨p, pp, hget, hleg, hx⟩
    exact ⟨p, pp, ⟨List.mk_mem_enum_iff_getElem?.mpr hget, hleg⟩, hx.symm⟩

/-- With pairwise distinct UIDs, a UID names one position of the list. -/
lemma uid_position_unique (L : List RenderingPass) (h : UIDsDistinct L) (p p1 : Nat)
    (pp pp1 : RenderingPass) (hp : L[p]? = some pp) (hp1 : L[p1]? = some pp1)
    (huid : pp._sourceUID = pp1._sourceUID) : p = p1 ∧ pp = pp1 := by
  have hlt : p < L.length := by
    by_contra hge
    rw [List.getElem?_eq_none (by omega)] at hp
    cases hp
  have hlt1 : p1 < L.length := by
    by_contra hge
    rw [List.getElem?_eq_none (by omega)] at hp1
    cases hp1
  rw [List.getElem?_eq_getElem hlt] at hp
  rw [List.getElem?_eq_getElem hlt1] at hp1
  injection hp with hp
  injection hp1 with hp1
  have hm : (L.map (fun x => x._sourceUID))[p]? = (L.map (fun x => x._sourceUID))[p1]? := by
    rw [List.getElem?_map, List.getElem?_map, List.getElem?_eq_getElem hlt,
      List.getElem?_eq_getElem hlt1, hp, hp1]
    exact congrArg some huid
  have hnd := List.nodup_iff_getElem?_ne_getElem?.mp h
  have hlen : (L.map (fun x => x._sourceUID)).length = L.length := List.length_map _ _
  have hpp : p = p1 := by
    rcases lt_trichotomy p p1 with hlt2 | heq | hgt
    · exact absurd hm (hnd p p1 hlt2 (by omega))
    · exact heq
    · exact absurd hm.symm (hnd p1 p hgt (by omega))
  subst hpp
  exact ⟨rfl, hp.symm.trans hp1⟩

/-- In the passes of a freshly initialised tile, the lookup by the UID of a
parent pass finds the copy of that very pass when it is in legal range, and
nothing when it is not. -/
lemma getPassIdx_initializedPasses (ctx : EngineContext) (t : TileData) (L : List RenderingPass)
    (h : UIDsDistinct L) (p : Nat) (pp : RenderingPass) (hp : L[p]? = some pp) :
    (t.passInLegalRange ctx pp = true →
      ∃ i, getPassIdx (initializedPasses ctx t L) pp._sourceUID = some i ∧
        (initializedPasses ctx t L)[i]? = some (initializePass ctx t._key.getQuadrant p pp)) ∧
    (t.passInLegalRange ctx pp = false →
      getPassIdx (initializedPasses ctx t L) pp._sourceUID = none) := by
  have hfound : ∀ i, getPassIdx (initializedPasses ctx t L) pp._sourceUID = some i →
      t.passInLegalRange ctx pp = true ∧
      (initializedPasses ctx t L)[i]? = some (initializePass ctx t._key.getQuadrant p pp) := by
    intro i hi
    obtain ⟨hlt, huid⟩ := getPassIdx_some _ _ _ hi
    rw [List.getD_eq_getElem?_getD, List.getElem?_eq_getElem hlt] at huid
    simp only [Option.getD_some] at huid
    have hmem : (initializedPasses ctx t L)[i] ∈ initializedPasses ctx t L :=
      List.getElem_mem _
    obtain ⟨p1, pp1, hp1, hleg1, hx⟩ := (mem_initializedPasses ctx t L _).mp hmem
    rw [hx, (initializePass_length ctx _ p1 pp1).2] at huid
    obtain ⟨hpe, hppe⟩ := uid_position_unique L h p1 p pp1 pp hp1 hp huid
    subst hpe
    subst hppe
    refine ⟨hleg1, ?_⟩
    rw [List.getElem?_eq_getElem hlt, hx]
  constructor
  · intro hleg
    have hmem : initializePass ctx t._key.getQuadrant p pp ∈ initializedPasses ctx t L :=
      (mem_initializedPasses ctx t L _).mpr ⟨p, pp, hp, hleg, rfl⟩
    have hex : ∃ x ∈ initializedPasses ctx t L,
        (fun q : RenderingPass => q._sourceUID == pp._sourceUID) x = true :=
      ⟨_, hmem, by simp [(initializePass_length ctx t._key.getQuadrant p pp).2]⟩
    have hlt := List.findIdx_lt_length_of_exists hex
    have hidx : getPassIdx (initializedPasses ctx t L) pp._sourceUID =
        some ((initializedPasses ctx t L).findIdx (fun q => q._sourceUID == pp._sourceUID)) := by
      unfold getPassIdx
      simp only
      rw [if_pos hlt]
    exact ⟨_, hidx, (hfound _ hidx).2⟩
  · intro hleg
    cases hidx : getPassIdx (initializedPasses ctx t L) pp._sourceUID with
    | none => rfl
    | some i =>
      have := (hfound i hidx).1
      rw [hleg] at this
      cases this

/-- The body of the second loop of `refreshInheritedData` leaves the passes of a
freshly initialised tile as they are; `t1` is any tile with the key of `t`. -/
lemma refreshPass_initializedPasses (ctx : EngineContext) (t t1 : TileData)
    (hkey : t1._key = t._key) (L : List RenderingPass)
    (h : UIDsDistinct L) (p p1 : Nat) (pp : RenderingPass) (hp : L[p]? = some pp)
    (changes : Nat) :
    (refreshPass ctx t1 t._key.getQuadrant p1 pp (initializedPasses ctx t L) changes).1 =
      initializedPasses ctx t L := by
  obtain ⟨hyes, hno⟩ := getPassIdx_initializedPasses ctx t L h p pp hp
  have hlegeq : t1.passInLegalRange ctx pp = t.passInLegalRange ctx pp := by
    unfold TileData.passInLegalRange
    rw [hkey]
  unfold refreshPass
  cases hleg : t.passInLegalRange ctx pp with
  | false =>
    rw [hno hleg]
    simp only
    rw [hlegeq, hleg]
    rfl
  | true =>
    obtain ⟨i, hidx, hget⟩ := hyes hleg
    rw [hidx]
    simp only
    have hD : (initializedPasses ctx t L).getD i default =
        initializePass ctx t._key.getQuadrant p pp := by
      rw [List.getD_eq_getElem?_getD, hget]
      rfl
    rw [hD, refreshColor_initializePass, refreshColorParent_initializePass, ← hD]
    exact set_getD_same _ _ _

/-- The second loop of `refreshInheritedData` leaves the passes of a freshly
initialised tile as they are. -/
lemma refreshPasses_initializedPasses (ctx : EngineContext) (t t1 : TileData)
    (hkey : t1._key = t._key) (L : List RenderingPass) (h : UIDsDistinct L) :
    ∀ (rest : List RenderingPass) (p : Nat) (changes : Nat),
      (∀ pp ∈ rest, ∃ k : Nat, L[k]? = some pp) →
      (refreshPasses ctx t1 t._key.getQuadrant p rest (initializedPasses ctx t L) changes).1 =
        initializedPasses ctx t L := by
  intro rest
  induction rest with
  | nil => intro p changes _; rfl
  | cons pp rest ih =>
    intro p changes hall
    obtain ⟨k, hk⟩ := hall pp (List.mem_cons_self _ _)
    unfold refreshPasses
    simp only
    rw [refreshPass_initializedPasses ctx t t1 hkey L h k p pp hk changes]
    exact ih (p + 1) _ (fun x hx => hall x (List.mem_cons_of_mem _ hx))

/-- The first loop of `refreshInheritedData` removes no pass of a freshly
initialised tile: the parent has a pass for every UID. -/
lemma removeOrphanedPasses_initializedPasses (ctx : EngineContext) (t parent : TileData) :
    (removeOrphanedPasses parent._renderModel
      (initializedPasses ctx t parent._renderModel._passes) 0 0).1 =
        initializedPasses ctx t parent._renderModel._passes := by
  have h := removeOrphanedPasses_eq parent._renderModel
    (initializedPasses ctx t parent._renderModel._passes) [] 0
  simp only [List.nil_append, List.length_nil] at h
  rw [h]
  simp only
  rw [List.filter_eq_self]
  intro x hx
  obtain ⟨p, pp, hp, _, hxe⟩ := (mem_initializedPasses ctx t _ x).mp hx
  have hsome : (parent._renderModel.getPass x._sourceUID).isSome = true := by
    unfold TileRenderModel.getPass
    rw [List.find?_isSome]
    refine ⟨pp, List.mem_iff_getElem?.mpr ⟨p, hp⟩, ?_⟩
    rw [hxe, (initializePass_length ctx _ p pp).2]
    simp
  cases hg : parent._renderModel.getPass x._sourceUID with
  | none => rw [hg] at hsome; cases hsome
  | some g => simp

/-- The third loop of `refreshInheritedData` leaves the render model as it is
when every shared sampler it visits is the parent's sampler scaled. -/
lemma refreshSharedSamplers_scaled (q : Fin 4) :
    ∀ (rest : List Sampler) (binding : Nat) (t : TileData) (changes : Nat),
      (∀ j ps, rest[j]? = some ps →
        t._renderModel._sharedSamplers.getD (binding + j) default =
          ps.preMultBy (scaleBias q)) →
      (refreshSharedSamplers q binding rest t changes).1._renderModel = t._renderModel := by
  intro rest
  induction rest with
  | nil => intro binding t changes _; rfl
  | cons ps rest ih =>
    intro binding t changes hall
    have h0 : t._renderModel._sharedSamplers.getD binding default =
        ps.preMultBy (scaleBias q) := hall 0 ps (by simp)
    have hstep : (refreshSharedSampler q binding ps t)._renderModel = t._renderModel := by
      unfold refreshSharedSampler
      simp only
      have hset : t.setShared (t._renderModel._sharedSamplers.set binding
          ((t._renderModel._sharedSamplers.getD binding default).inheritFrom ps
            (scaleBias q))) = t := by
        rw [h0, inheritFrom_preMultBy, ← h0, set_getD_same]
        rfl
      rw [hset]
      split_ifs
      · exact updateElevationRaster_renderModel t
      · rfl
    unfold refreshSharedSamplers
    simp only
    split_ifs
    · rw [ih (binding + 1) _ (changes + 1), hstep]
      intro j ps1 hj
      rw [hstep]
      have := hall (j + 1) ps1 (by simpa using hj)
      rw [← this]
      congr 1
      omega
    · apply ih (binding + 1) t changes
      intro j ps1 hj
      have := hall (j + 1) ps1 (by simpa using hj)
      rw [← this]
      congr 1
      omega

/-- The render model of the tile a `refreshInheritedData` call returns is the
one its three loops leave. -/
lemma refreshInheritedData_renderModel (ctx : EngineContext) (parent d : TileData)
    (children : List TileNode) (results : List CreateChildResult) :
    ((TileNode.mk d children results).refreshInheritedData ctx parent).1.d._renderModel =
      (d.refreshOwn ctx parent).1._renderModel := by
  rw [TileNode.refreshInheritedData]
  simp only
  split_ifs <;> rfl

/-- The three loops of `refreshInheritedData`, run on a tile just initialised
from the same parent, give back its render model. -/
lemma refreshOwn_initializeData (ctx : EngineContext) (parent t : TileData)
    (hfresh : t._renderModel._passes = [])
    (huid : UIDsDistinct parent._renderModel._passes) :
    ((t.initializeData ctx (some parent)).refreshOwn ctx parent).1._renderModel =
      (t.initializeData ctx (some parent))._renderModel := by
  obtain ⟨hrm, hkey⟩ := initializeData_renderModel ctx parent t
  have hpasses : (t.initializeData ctx (some parent))._renderModel._passes =
      initializedPasses ctx t parent._renderModel._passes := by
    rw [hrm]
    simp only
    rw [initializePasses_eq, hfresh]
    rfl
  have hshared : (t.initializeData ctx (some parent))._renderModel._sharedSamplers =
      parent._renderModel._sharedSamplers.map
        (fun s => s.preMultBy (scaleBias t._key.getQuadrant)) := by
    rw [hrm]
  unfold TileData.refreshOwn
  simp only
  rw [hpasses, hkey, removeOrphanedPasses_initializedPasses,
    refreshPasses_initializedPasses ctx t _ hkey _ huid _ _ _
      (fun pp hpp => List.mem_iff_getElem?.mp hpp)]
  have hsame : (t.initializeData ctx (some parent)).setPasses
      (initializedPasses ctx t parent._renderModel._passes) =
      t.initializeData ctx (some parent) := by
    unfold TileData.setPasses
    rw [← hpasses]
  rw [hsame]
  apply refreshSharedSamplers_scaled
  intro j ps hj
  rw [hshared, Nat.zero_add, List.getD_eq_getElem?_getD, List.getElem?_map, hj]
  rfl

/-- C29 (amended): for every tile without passes that `initializeData` has just
initialised from a parent whose passes have pairwise distinct layer UIDs, an
immediately following `refreshInheritedData` against the same, unchanged
parent returns the tile with the same render model: the same passes in the
same order and the same shared samplers, every sampler with its texture,
matrix and revision as before.  This holds whether or not every pass of the
parent is in legal range for the key of the tile; the passes of the tile are
the scaled copies of the parent's passes in legal range. -/
theorem refreshInheritedData_after_initializeData_keeps_render_model (ctx : EngineContext)
    (parent t : TileData) (children : List TileNode) (results : List CreateChildResult)
    (hfresh : t._renderModel._passes = [])
    (huid : UIDsDistinct parent._renderModel._passes) :
    ((TileNode.mk (t.initializeData ctx (some parent)) children results).refreshInheritedData
        ctx parent).1.d._renderModel = (t.initializeData ctx (some parent))._renderModel ∧
    ((t.initializeData ctx (some parent)).refreshOwn ctx parent).1._renderModel =
      (t.initializeData ctx (some parent))._renderModel ∧
    (t.initializeData ctx (some parent))._renderModel._passes =
      ((parent._renderModel._passes.enumFrom 0).filter
        (fun ip => t.passInLegalRange ctx ip.2)).map
        (fun ip => initializePass ctx t._key.getQuadrant ip.1 ip.2) ∧
    ((∀ pp ∈ parent._renderModel._passes, t.passInLegalRange ctx pp = true) →
      (t.initializeData ctx (some parent))._renderModel._passes.length =
        parent._renderModel._passes.length) := by
  have hown := refreshOwn_initializeData ctx parent t hfresh huid
  have hpasses : (t.initializeData ctx (some parent))._renderModel._passes =
      initializedPasses ctx t parent._renderModel._passes := by
    rw [(initializeData_renderModel ctx parent t).1]
    simp only
    rw [initializePasses_eq, hfresh]
    rfl
  refine ⟨?_, hown, hpasses, ?_⟩
  · rw [refreshInheritedData_renderModel, hown]
  · intro hall
    rw [hpasses]
    unfold initializedPasses
    rw [List.length_map, List.filter_eq_self.mpr, List.enumFrom_length]
    intro ip hip
    exact hall ip.2 (List.mem_iff_getElem?.mpr ⟨ip.1, List.mem_enum_iff_getElem?.mp hip⟩)

/-- Witness for C29: a level-1 tile without passes is initialised from a parent
with passes for the layers 7 and 8 and two shared samplers, with image
blending on; it gets two passes, and the refresh that follows returns the same
render model. -/
theorem refreshInheritedData_after_initializeData_keeps_render_model_witness :
    (sampleTile ⟨1, 0, 0⟩ [])._renderModel._passes = [] ∧
    UIDsDistinct sampleTwoPassParent._renderModel._passes ∧
    ((TileNode.mk ((sampleTile ⟨1, 0, 0⟩ []).initializeData
        (sampleContext (sampleBindings true true) 0 0) (some sampleTwoPassParent))
        [] []).refreshInheritedData (sampleContext (sampleBindings true true) 0 0)
        sampleTwoPassParent).1.d._renderModel =
      ((sampleTile ⟨1, 0, 0⟩ []).initializeData
        (sampleContext (sampleBindings true true) 0 0) (some sampleTwoPassParent))._renderModel ∧
    ((sampleTile ⟨1, 0, 0⟩ []).initializeData
        (sampleContext (sampleBindings true true) 0 0)
        (some sampleTwoPassParent))._renderModel._passes.length = 2 := by
  have huid : UIDsDistinct sampleTwoPassParent._renderModel._passes := by
    show ([7, 8] : List UID).Nodup
    decide
  have h := refreshInheritedData_after_initializeData_keeps_render_model
    (sampleContext (sampleBindings true true) 0 0) sampleTwoPassParent
    (sampleTile ⟨1, 0, 0⟩ []) [] [] rfl huid
  refine ⟨rfl, huid, h.1, ?_⟩
  rw [h.2.2.2]
  · rfl
  · intro pp hpp
    have hpp2 : pp ∈ [samplePass 7 (ownSampler 5 1) default,
        samplePass 8 (ownSampler 6 2) (ownSampler 4 1)] := hpp
    simp only [List.mem_cons, List.mem_singleton, List.not_mem_nil, or_false] at hpp2
    rcases hpp2 with rfl | rfl <;> rfl


/-- C29 (counterexample): a parent with two passes for the same layer UID 7,
both in legal range for the child.  A new level-1 child initialised from it by
`initializeData` has the COLOR samplers (texture 5, revision 1) and
(texture 6, revision 2); the `refreshInheritedData` that follows against the
same parent looks both parent passes up by UID, finds the child's first pass
both times and leaves the COLOR samplers (texture 6, revision 2) and
(texture 6, revision 2): the render model has changed. -/
theorem refreshInheritedData_after_initializeData_duplicate_uid_changes :
    (sampleTile ⟨1, 0, 0⟩ [])._renderModel._passes = [] ∧
    (∀ pp ∈ sampleDuplicateParent._renderModel._passes,
      (sampleTile ⟨1, 0, 0⟩ []).passInLegalRange (sampleContext (sampleBindings true false) 0 0)
        pp = true) ∧
    ¬ UIDsDistinct sampleDuplicateParent._renderModel._passes ∧
    (((sampleTile ⟨1, 0, 0⟩ []).initializeData (sampleContext (sampleBindings true false) 0 0)
        (some sampleDuplicateParent))._renderModel._passes.map
      (fun P => ((P.sampler SamplerBinding.COLOR)._texture,
        (P.sampler SamplerBinding.COLOR)._revision))) = [(some 5, 1), (some 6, 2)] ∧
    (((TileNode.mk ((sampleTile ⟨1, 0, 0⟩ []).initializeData
        (sampleContext (sampleBindings true false) 0 0) (some sampleDuplicateParent))
        [] []).refreshInheritedData (sampleContext (sampleBindings true false) 0 0)
        sampleDuplicateParent).1.d._renderModel._passes.map
      (fun P => ((P.sampler SamplerBinding.COLOR)._texture,
        (P.sampler SamplerBinding.COLOR)._revision))) = [(some 6, 2), (some 6, 2)] ∧
    ((TileNode.mk ((sampleTile ⟨1, 0, 0⟩ []).initializeData
        (sampleContext (sampleBindings true false) 0 0) (some sampleDuplicateParent))
        [] []).refreshInheritedData (sampleContext (sampleBindings true false) 0 0)
        sampleDuplicateParent).1.d._renderModel ≠
      ((sampleTile ⟨1, 0, 0⟩ []).initializeData (sampleContext (sampleBindings true false) 0 0)
        (some sampleDuplicateParent))._renderModel := by
  have hlegal : ∀ pp ∈ sampleDuplicateParent._renderModel._passes,
      (sampleTile ⟨1, 0, 0⟩ []).passInLegalRange (sampleContext (sampleBindings true false) 0 0)
        pp = true := by
    intro pp hpp
    have hpp2 : pp ∈ [samplePass 7 (ownSampler 5 1) default,
        samplePass 7 (ownSampler 6 2) default] := hpp
    simp only [List.mem_cons, List.mem_singleton, List.not_mem_nil, or_false] at hpp2
    rcases hpp2 with rfl | rfl <;> rfl
  have hdup : ¬ UIDsDistinct sampleDuplicateParent._renderModel._passes := by
    show ¬ ([7, 7] : List UID).Nodup
    decide
  have hq : (sampleTile ⟨1, 0, 0⟩ [])._key.getQuadrant = 0 := by decide
  have hsb : preMult 1 (scaleBias 0) ≠ 1 := by
    unfold preMult
    rw [mul_one]
    exact scaleBias_zero_ne_one
  have hinit : ((sampleTile ⟨1, 0, 0⟩ []).initializeData
      (sampleContext (sampleBindings true false) 0 0)
      (some sampleDuplicateParent))._renderModel._passes =
      [{ samplePass 7 ⟨some 5, preMult 1 (scaleBias 0), none, 1⟩
            ⟨none, preMult 1 (scaleBias 0), none, 0⟩ with _parent := some 0 },
       { samplePass 7 ⟨some 6, preMult 1 (scaleBias 0), none, 2⟩
            ⟨none, preMult 1 (scaleBias 0), none, 0⟩ with _parent := some 1 }] := by
    rw [(initializeData_renderModel _ _ _).1]
    rfl
  have hafter : ((TileNode.mk ((sampleTile ⟨1, 0, 0⟩ []).initializeData
      (sampleContext (sampleBindings true false) 0 0) (some sampleDuplicateParent))
      [] []).refreshInheritedData (sampleContext (sampleBindings true false) 0 0)
      sampleDuplicateParent).1.d._renderModel._passes =
      [{ samplePass 7 ⟨some 6, preMult 1 (scaleBias 0), none, 2⟩
            ⟨none, preMult 1 (scaleBias 0), none, 0⟩ with _parent := some 0 },
       { samplePass 7 ⟨some 6, preMult 1 (scaleBias 0), none, 2⟩
            ⟨none, preMult 1 (scaleBias 0), none, 0⟩ with _parent := some 1 }] := by
    rw [refreshInheritedData_renderModel]
    unfold TileData.refreshOwn
    simp only
    rw [(refreshSharedSamplers_fields _ _ _ _ _).2.2.2]
    show (refreshPasses _ _ _ 0 _ _ _).1 = _
    have hkeep : ∀ P : RenderingPass, P._sourceUID = 7 →
        (!(P.inheritsTexture && (sampleDuplicateParent._renderModel.getPass
          P._sourceUID).isNone)) = true := by
      intro P hP
      rw [hP]
      have : (sampleDuplicateParent._renderModel.getPass 7).isNone = false := by decide
      rw [this]
      simp
    have hrem := removeOrphanedPasses_eq sampleDuplicateParent._renderModel
      ((sampleTile ⟨1, 0, 0⟩ []).initializeData (sampleContext (sampleBindings true false) 0 0)
        (some sampleDuplicateParent))._renderModel._passes [] 0
    simp only [List.nil_append, List.length_nil] at hrem
    rw [hrem]
    simp only
    rw [List.filter_eq_self.mpr (by
      intro P hP
      rw [hinit] at hP
      simp only [List.mem_cons, List.mem_singleton, List.not_mem_nil, or_false] at hP
      rcases hP with rfl | rfl <;> exact hkeep _ rfl)]
    rw [(initializeData_renderModel _ _ _).2, hinit]
    have hca : isActive (sampleContext (sampleBindings true false) 0 0).bindings
        SamplerBinding.COLOR = true := by decide
    have hcp : ¬ isActive (sampleContext (sampleBindings true false) 0 0).bindings
        SamplerBinding.COLOR_PARENT = true := by decide
    have hstep : ∀ (p c : Nat) (tex : TextureId) (rev : Nat) (X Y : RenderingPass)
        (hX : X._sourceUID = 7) (hXs : X._samplers =
          [⟨some tex, preMult 1 (scaleBias 0), none, rev⟩,
           ⟨none, preMult 1 (scaleBias 0), none, 0⟩]) (tex1 : TextureId) (rev1 : Nat),
        (refreshPass (sampleContext (sampleBindings true false) 0 0)
          ((sampleTile ⟨1, 0, 0⟩ []).initializeData
            (sampleContext (sampleBindings true false) 0 0) (some sampleDuplicateParent))
          (sampleTile ⟨1, 0, 0⟩ [])._key.getQuadrant p
          (samplePass 7 (ownSampler tex1 rev1) default) [X, Y] c).1 =
          [{ X with _samplers := [⟨some tex1, preMult 1 (scaleBias 0), none, rev1⟩,
              ⟨none, preMult 1 (scaleBias 0), none, 0⟩] }, Y] := by
      intro p c tex rev X Y hX hXs tex1 rev1
      have hidx : getPassIdx [X, Y] (samplePass 7 (ownSampler tex1 rev1) default)._sourceUID =
          some 0 := by
        unfold getPassIdx
        simp [List.findIdx_cons, hX, samplePass]
      have hinh : (X.sampler SamplerBinding.COLOR).inheritsTexture = true := by
        simp [RenderingPass.sampler, hXs, SamplerBinding.COLOR, Sampler.inheritsTexture, hsb]
      unfold refreshPass
      rw [hidx]
      simp only
      unfold refreshColorParent
      rw [if_neg hcp]
      unfold refreshColor
      rw [if_pos hca]
      simp only [List.getD_cons_zero]
      rw [if_pos hinh]
      simp [RenderingPass.assignSampler, RenderingPass.sampler, hXs, SamplerBinding.COLOR,
        Sampler.inheritFrom, samplePass, ownSampler, hq]
    have hloop : ∀ (c : Nat) (mine : List RenderingPass),
        refreshPasses (sampleContext (sampleBindings true false) 0 0)
          ((sampleTile ⟨1, 0, 0⟩ []).initializeData
            (sampleContext (sampleBindings true false) 0 0) (some sampleDuplicateParent))
          (sampleTile ⟨1, 0, 0⟩ [])._key.getQuadrant 0
          sampleDuplicateParent._renderModel._passes mine c =
        refreshPass (sampleContext (sampleBindings true false) 0 0)
          ((sampleTile ⟨1, 0, 0⟩ []).initializeData
            (sampleContext (sampleBindings true false) 0 0) (some sampleDuplicateParent))
          (sampleTile ⟨1, 0, 0⟩ [])._key.getQuadrant 1
          (samplePass 7 (ownSampler 6 2) default)
          (refreshPass (sampleContext (sampleBindings true false) 0 0)
            ((sampleTile ⟨1, 0, 0⟩ []).initializeData
              (sampleContext (sampleBindings true false) 0 0) (some sampleDuplicateParent))
            (sampleTile ⟨1, 0, 0⟩ [])._key.getQuadrant 0
            (samplePass 7 (ownSampler 5 1) default) mine c).1
          (refreshPass (sampleContext (sampleBindings true false) 0 0)
            ((sampleTile ⟨1, 0, 0⟩ []).initializeData
              (sampleContext (sampleBindings true false) 0 0) (some sampleDuplicateParent))
            (sampleTile ⟨1, 0, 0⟩ [])._key.getQuadrant 0
            (samplePass 7 (ownSampler 5 1) default) mine c).2 := fun _ _ => rfl
    rw [hloop, hstep 0 _ 5 1 _ _ rfl rfl 5 1, hstep 1 _ 5 1 _ _ rfl rfl 6 2]
    rfl
  refine ⟨rfl, hlegal, hdup, ?_, ?_, ?_⟩
  · rw [hinit]
    rfl
  · rw [hafter]
    rfl
  · intro heq
    have := congrArg (fun m => m._passes.map
      (fun P => (P.sampler SamplerBinding.COLOR)._texture)) heq
    simp only at this
    rw [hafter, hinit] at this
    simp [samplePass, RenderingPass.sampler, SamplerBinding.COLOR] at this

end Rex

namespace Arena

/-! ## The handle table -/

/-- The refresh loop keeps the length of the host array. -/
lemma refreshLoop_length (store : List Texture) (ctx : Nat) (texs : List Nat) :
    ∀ (i : Nat) (buf : List Nat) (dirty : Bool),
      (refreshLoop store ctx texs i buf dirty).1.length = buf.length := by
  induction texs with
  | nil => intro i buf dirty; simp [refreshLoop]
  | cons ref rest ih =>
    intro i buf dirty
    unfold refreshLoop
    simp only
    split_ifs
    · rw [ih]; simp
    · rw [ih]

/-- Writing back the value an entry already holds changes nothing. -/
lemma set_getD_self (l : List Nat) (i : Nat) (v : Nat) (h : l.getD i 0 = v) (hi : i < l.length) :
    l.set i v = l := by
  apply List.ext_getElem?
  intro n
  rw [List.getElem?_set]
  by_cases hn : i = n
  · subst hn
    rw [List.getD_eq_getElem?_getD, List.getElem?_eq_getElem hi] at h
    simp only [Option.getD_some] at h
    simp [hi, h]
  · simp [hn]

/-- After the refresh loop, entry `j` of the host array holds the current
handle of the texture visited at that index, and is untouched elsewhere. -/
lemma refreshLoop_getD (store : List Texture) (ctx : Nat) (texs : List Nat) :
    ∀ (i : Nat) (buf : List Nat) (dirty : Bool) (j : Nat), i + texs.length ≤ buf.length →
      (refreshLoop store ctx texs i buf dirty).1.getD j 0 =
        if i ≤ j ∧ j < i + texs.length then currentHandle store ctx (texs.getD (j - i) 0)
        else buf.getD j 0 := by
  induction texs with
  | nil =>
    intro i buf dirty j _
    have : ¬ (i ≤ j ∧ j < i + ([] : List Nat).length) := by simp
    rw [if_neg this]
    simp [refreshLoop]
  | cons ref rest ih =>
    intro i buf dirty j hlen
    simp only [List.length_cons] at hlen
    have hset : ∀ d : Bool, (refreshLoop store ctx rest (i + 1)
        (buf.set i (currentHandle store ctx ref)) d).1.getD j 0 =
        if i ≤ j ∧ j < i + (rest.length + 1) then
          currentHandle store ctx ((ref :: rest).getD (j - i) 0)
        else buf.getD j 0 := by
      intro d
      rw [ih (i + 1) _ d j (by simp; omega)]
      by_cases h1 : i + 1 ≤ j ∧ j < i + 1 + rest.length
      · have h2 : i ≤ j ∧ j < i + (rest.length + 1) := by omega
        rw [if_pos h1, if_pos h2]
        have : j - i = (j - (i + 1)) + 1 := by omega
        rw [this]
        simp
      · rw [if_neg h1]
        by_cases h3 : j = i
        · subst h3
          have h2 : j ≤ j ∧ j < j + (rest.length + 1) := by omega
          rw [if_pos h2]
          have hj : j < buf.length := by omega
          simp [List.getD_eq_getElem?_getD, List.getElem?_set, hj]
        · have h2 : ¬ (i ≤ j ∧ j < i + (rest.length + 1)) := by omega
          rw [if_neg h2]
          simp [List.getD_eq_getElem?_getD, List.getElem?_set, Ne.symm h3]
    unfold refreshLoop
    simp only [List.length_cons]
    by_cases hne : buf.getD i 0 ≠ currentHandle store ctx ref
    · rw [if_pos hne]
      exact hset true
    · rw [if_neg hne]
      have hsame : buf.set i (currentHandle store ctx ref) = buf :=
        set_getD_self buf i _ (not_not.mp hne) (by omega)
      have := hset dirty
      rw [hsame] at this
      exact this

/-- The refresh of a table with a host array long enough: the array keeps its
length, its first entries are the current handles, the others are untouched. -/
lemma refresh_spec (store : List Texture) (ctx : Nat) (textures : List Nat) (l : HandleLUT)
    (buf : List Nat) (hb : l._buf = some buf) (hlen : textures.length ≤ buf.length) :
    ∃ buf1, (l.refresh store ctx textures)._buf = some buf1 ∧ buf1.length = buf.length ∧
      (∀ k, k < textures.length →
        buf1.getD k 0 = currentHandle store ctx (textures.getD k 0)) ∧
      (∀ k, textures.length ≤ k → buf1.getD k 0 = buf.getD k 0) ∧
      (l.refresh store ctx textures)._allocatedSize = l._allocatedSize ∧
      (l.refresh store ctx textures)._numTextures = l._numTextures ∧
      (l.refresh store ctx textures)._buffer = l._buffer ∧
      (l._dirty = true → (l.refresh store ctx textures)._dirty = true) := by
  refine ⟨(refreshLoop store ctx textures 0 buf l._dirty).1, ?_, ?_, ?_, ?_, rfl, rfl, rfl, ?_⟩
  · simp [HandleLUT.refresh, hb]
  · exact refreshLoop_length _ _ _ _ _ _
  · intro k hk
    rw [refreshLoop_getD store ctx textures 0 buf l._dirty k (by omega)]
    rw [if_pos (by omega)]
    simp
  · intro k hk
    rw [refreshLoop_getD store ctx textures 0 buf l._dirty k (by omega)]
    rw [if_neg (by omega)]
  · intro hd
    simp only [HandleLUT.refresh, hd]
    have : ∀ (texs : List Nat) (i : Nat) (b : List Nat),
        (refreshLoop store ctx texs i b true).2 = true := by
      intro texs
      induction texs with
      | nil => intro i b; simp [refreshLoop]
      | cons r rest ih =>
        intro i b
        unfold refreshLoop
        simp only
        split_ifs <;> exact ih _ _
    exact this _ _ _

/-- The array `new GLuint64[n]` has `n` entries. -/
lemma newArray_length (env : GLEnv) (n : Nat) : (newArray env n).length = n := by
  simp [newArray]

/-- The discovery step keeps the required size. -/
lemma discover_requiredSize (env : GLEnv) (l : HandleLUT) :
    (l.discover env)._requiredSize = l._requiredSize := by
  unfold HandleLUT.discover
  simp only
  split_ifs <;> rfl

/-- The reallocation branch: one entry per texture on both sides, holding the
current handles, and one `glBufferStorage` of the required size. -/
lemma reallocate_spec (env : GLEnv) (store : List Texture) (ctx : Nat) (textures : List Nat)
    (l : HandleLUT) :
    (l.reallocate env store ctx textures).1._allocatedSize = l._requiredSize ∧
    (l.reallocate env store ctx textures).1._numTextures = textures.length ∧
    ∃ data, data.length = textures.length ∧
      (l.reallocate env store ctx textures).1._buf = some data ∧
      (l.reallocate env store ctx textures).1._buffer = some ⟨l._requiredSize, data⟩ ∧
      GLCall.bufferStorage l._requiredSize data ∈ (l.reallocate env store ctx textures).2 ∧
      (∀ k, k < textures.length →
        data.getD k 0 = currentHandle store ctx (textures.getD k 0)) := by
  have hreq : ((l.discover env).release)._requiredSize = l._requiredSize :=
    discover_requiredSize env l
  refine ⟨hreq, rfl,
    (refreshLoop store ctx textures 0 (newArray env textures.length)
      ((l.discover env).release)._dirty).1, ?_, rfl, ?_, ?_, ?_⟩
  · rw [refreshLoop_length, newArray_length]
  · show some (GLBuffer.mk ((l.discover env).release)._requiredSize _) = _
    rw [hreq]
    rfl
  · show GLCall.bufferStorage l._requiredSize _ ∈
      _ ++ [GLCall.bufferStorage ((l.discover env).release)._requiredSize _]
    rw [hreq]
    apply List.mem_append_right
    exact List.mem_singleton.mpr rfl
  · intro k hk
    rw [refreshLoop_getD store ctx textures 0 _ _ k (by rw [newArray_length]; omega)]
    rw [if_pos (by omega)]
    simp

/-- What `sync` does when the table is too small: after the call the table has
one entry per texture, freshly allocated on both sides, holding the current
handles, and the driver saw one `glBufferStorage`. -/
lemma sync_realloc (env : GLEnv) (store : List Texture) (ctx : Nat) (textures : List Nat)
    (l : HandleLUT) (h : textures.length * 8 > l._allocatedSize) :
    (l.sync env store ctx textures).1._allocatedSize = textures.length * 8 ∧
    (l.sync env store ctx textures).1._numTextures = textures.length ∧
    ∃ data, data.length = textures.length ∧
      (l.sync env store ctx textures).1._buf = some data ∧
      (l.sync env store ctx textures).1._buffer = some ⟨textures.length * 8, data⟩ ∧
      GLCall.bufferStorage (textures.length * 8) data ∈ (l.sync env store ctx textures).2 ∧
      (∀ k, k < textures.length →
        data.getD k 0 = currentHandle store ctx (textures.getD k 0)) := by
  have hsync : l.sync env store ctx textures =
      HandleLUT.reallocate env store ctx textures { l with _requiredSize := textures.length * 8 } := by
    unfold HandleLUT.sync
    simp only [sizeofGLuint64]
    rw [if_pos h]
  rw [hsync]
  exact reallocate_spec env store ctx textures { l with _requiredSize := textures.length * 8 }

/-- What `sync` does when the table is large enough and dirty: the handles are
copied again into the existing host array, which is uploaded into the existing
GPU buffer; the flag is cleared and no size changes. -/
lemma sync_in_place (env : GLEnv) (store : List Texture) (ctx : Nat) (textures : List Nat)
    (l : HandleLUT) (h : ¬ textures.length * 8 > l._allocatedSize) (hd : l._dirty = true)
    (buf : List Nat) (hb : l._buf = some buf) (hlen : textures.length ≤ buf.length) :
    ∃ buf1, (l.sync env store ctx textures).1._buf = some buf1 ∧ buf1.length = buf.length ∧
      (∀ k, k < textures.length →
        buf1.getD k 0 = currentHandle store ctx (textures.getD k 0)) ∧
      (∀ k, textures.length ≤ k → buf1.getD k 0 = buf.getD k 0) ∧
      (l.sync env store ctx textures).2 = [GLCall.bufferSubData 0 l._allocatedSize buf1] ∧
      (l.sync env store ctx textures).1._dirty = false ∧
      (l.sync env store ctx textures).1._allocatedSize = l._allocatedSize ∧
      (l.sync env store ctx textures).1._numTextures = l._numTextures ∧
      (l.sync env store ctx textures).1._buffer =
        l._buffer.map (fun b => { b with data := buf1 }) := by
  obtain ⟨buf1, hb1, hlen1, hent, hrest, hal, hnum, hbuffer, hdirty⟩ :=
    refresh_spec store ctx textures { l with _requiredSize := textures.length * 8 } buf hb hlen
  have hd1 := hdirty hd
  have hsync : l.sync env store ctx textures =
      ((HandleLUT.refresh store ctx textures
          { l with _requiredSize := textures.length * 8 }).update.1,
       (HandleLUT.refresh store ctx textures
          { l with _requiredSize := textures.length * 8 }).update.2.1) := by
    unfold HandleLUT.sync
    simp only [sizeofGLuint64]
    rw [if_neg h, if_pos hd]
  rw [hsync]
  unfold HandleLUT.update
  simp only [hd1, if_true]
  refine ⟨buf1, hb1, hlen1, hent, hrest, ?_, trivial, hal, hnum, ?_⟩
  · rw [hal, hb1]
    rfl
  · rw [hbuffer, hb1]
    rfl

/-- What `sync` does when the table is large enough and clean: only the
required size is recorded. -/
lemma sync_clean (env : GLEnv) (store : List Texture) (ctx : Nat) (textures : List Nat)
    (l : HandleLUT) (h : ¬ textures.length * 8 > l._allocatedSize) (hd : l._dirty = false) :
    l.sync env store ctx textures = ({ l with _requiredSize := textures.length * 8 }, []) := by
  unfold HandleLUT.sync
  simp only [sizeofGLuint64]
  rw [if_neg h]
  simp [hd]

/-- C9: HandleLUT::sync reallocates (one glBufferStorage, a new host array and
GPU buffer with one entry per texture) if and only if the required size, 8
bytes per texture, exceeds the allocated size; otherwise, when the table is
dirty, it copies the handles again into the existing host array, uploads it
into the existing GPU buffer with one glBufferSubData, clears the dirty flag
and leaves the allocated size unchanged; when it is clean nothing but the
required size is touched.  In particular with 3 textures and 24 bytes
allocated no reallocation occurs. -/
theorem sync_reallocates_iff_undersized (env : GLEnv) (store : List Texture) (ctx : Nat)
    (textures : List Nat) (l : HandleLUT) :
    ((∃ size data, GLCall.bufferStorage size data ∈ (l.sync env store ctx textures).2) ↔
      textures.length * 8 > l._allocatedSize) ∧
    (textures.length * 8 > l._allocatedSize →
      (l.sync env store ctx textures).1._allocatedSize = textures.length * 8 ∧
      (l.sync env store ctx textures).1._numTextures = textures.length ∧
      ∃ data, data.length = textures.length ∧
        (l.sync env store ctx textures).1._buf = some data ∧
        (l.sync env store ctx textures).1._buffer = some ⟨textures.length * 8, data⟩ ∧
        (∀ k, k < textures.length →
          data.getD k 0 = currentHandle store ctx (textures.getD k 0))) ∧
    (¬ textures.length * 8 > l._allocatedSize → l._dirty = true →
      ∀ buf, l._buf = some buf → textures.length ≤ buf.length →
        ∃ buf1, (l.sync env store ctx textures).1._buf = some buf1 ∧
          buf1.length = buf.length ∧
          (∀ k, k < textures.length →
            buf1.getD k 0 = currentHandle store ctx (textures.getD k 0)) ∧
          (l.sync env store ctx textures).2 = [GLCall.bufferSubData 0 l._allocatedSize buf1] ∧
          (l.sync env store ctx textures).1._dirty = false ∧
          (l.sync env store ctx textures).1._allocatedSize = l._allocatedSize ∧
          (l.sync env store ctx textures).1._buffer =
            l._buffer.map (fun b => { b with data := buf1 })) ∧
    (¬ textures.length * 8 > l._allocatedSize → l._dirty = false →
      l.sync env store ctx textures = ({ l with _requiredSize := textures.length * 8 }, [])) ∧
    (textures.length = 3 → l._allocatedSize = 24 →
      ∀ size data, GLCall.bufferStorage size data ∉ (l.sync env store ctx textures).2) := by
  have hno : ¬ textures.length * 8 > l._allocatedSize →
      ∀ size data, GLCall.bufferStorage size data ∉ (l.sync env store ctx textures).2 := by
    intro h size data hmem
    cases hd : l._dirty with
    | false =>
      rw [sync_clean env store ctx textures l h hd] at hmem
      simp at hmem
    | true =>
      have hsync : l.sync env store ctx textures =
          ((HandleLUT.refresh store ctx textures
              { l with _requiredSize := textures.length * 8 }).update.1,
           (HandleLUT.refresh store ctx textures
              { l with _requiredSize := textures.length * 8 }).update.2.1) := by
        unfold HandleLUT.sync
        simp only [sizeofGLuint64]
        rw [if_neg h, if_pos hd]
      rw [hsync] at hmem
      unfold HandleLUT.update at hmem
      simp only at hmem
      split_ifs at hmem <;> simp at hmem
  refine ⟨⟨?_, ?_⟩, ?_, ?_, ?_, ?_⟩
  · rintro ⟨size, data, hmem⟩
    by_contra h
    exact hno h size data hmem
  · intro h
    obtain ⟨_, _, data, _, _, _, hmem, _⟩ := sync_realloc env store ctx textures l h
    exact ⟨_, data, hmem⟩
  · intro h
    obtain ⟨h1, h2, data, h3, h4, h5, _, h7⟩ := sync_realloc env store ctx textures l h
    exact ⟨h1, h2, data, h3, h4, h5, h7⟩
  · intro h hd buf hb hlen
    obtain ⟨buf1, h1, h2, h3, _, h5, h6, h7, _, h9⟩ :=
      sync_in_place env store ctx textures l h hd buf hb hlen
    exact ⟨buf1, h1, h2, h3, h5, h6, h7, h9⟩
  · intro h hd
    exact sync_clean env store ctx textures l h hd
  · intro h3 h24
    apply hno
    omega

/-- Witness for C9: three textures compiled in context 0 with handles 10, 21,
30, a dirty table of 24 bytes still holding 20 for the second texture: the
handle is corrected in place with one glBufferSubData and no reallocation. -/
theorem sync_reallocates_iff_undersized_witness :
    sampleLUT._dirty = true ∧ ¬ ([0, 1, 2].length * 8 > sampleLUT._allocatedSize) ∧
    ∃ buf1,
      (sampleLUT.sync sampleEnv [compiledTexture 10, compiledTexture 21, compiledTexture 30]
        0 [0, 1, 2]).1._buf = some buf1 ∧
      buf1.getD 1 0 = 21 ∧
      (sampleLUT.sync sampleEnv [compiledTexture 10, compiledTexture 21, compiledTexture 30]
        0 [0, 1, 2]).2 = [GLCall.bufferSubData 0 24 buf1] ∧
      (sampleLUT.sync sampleEnv [compiledTexture 10, compiledTexture 21, compiledTexture 30]
        0 [0, 1, 2]).1._allocatedSize = 24 := by
  refine ⟨rfl, by decide, ?_⟩
  obtain ⟨buf1, h1, _, h3, h4, _, h6, _⟩ :=
    (sync_reallocates_iff_undersized sampleEnv
      [compiledTexture 10, compiledTexture 21, compiledTexture 30] 0 [0, 1, 2] sampleLUT).2.2.1
      (by decide) rfl [10, 20, 30] rfl (by decide)
  refine ⟨buf1, h1, ?_, h4, h6⟩
  rw [h3 1 (by decide)]
  rfl

/-! ## Size of the handle table after `apply` -/

/-- Consistency with fewer textures implies consistency with more. -/
lemma LUTConsistent.mono {N M : Nat} {l : HandleLUT} (h : LUTConsistent N l) (hNM : N ≤ M) :
    LUTConsistent M l :=
  ⟨h.1, le_trans h.2.1 hNM, h.2.2⟩

/-- After `sync` with at least one texture the table is consistent and has
exactly one entry per texture. -/
lemma sync_consistent (env : GLEnv) (store : List Texture) (ctx : Nat) (textures : List Nat)
    (l : HandleLUT) (h : LUTConsistent textures.length l) (hN : 1 ≤ textures.length) :
    LUTConsistent textures.length (l.sync env store ctx textures).1 ∧
      (l.sync env store ctx textures).1._numTextures = textures.length := by
  by_cases hgt : textures.length * 8 > l._allocatedSize
  · obtain ⟨h1, h2, data, h3, h4, h5, _, _⟩ := sync_realloc env store ctx textures l hgt
    refine ⟨⟨by rw [h1, h2]; ring, by rw [h2], ?_⟩, h2⟩
    intro _
    exact ⟨data, _, h4, by rw [h3, h2], h5, by rw [h1], by rw [h3, h2]⟩
  · obtain ⟨hal, hle, hbuf⟩ := h
    have hnum : l._numTextures = textures.length := by omega
    obtain ⟨b, g, hb, hbl, hg, hgs, hgd⟩ := hbuf (by omega)
    cases hd : l._dirty with
    | false =>
      rw [sync_clean env store ctx textures l hgt hd]
      exact ⟨⟨hal, hle, fun _ => ⟨b, g, hb, hbl, hg, hgs, hgd⟩⟩, hnum⟩
    | true =>
      obtain ⟨buf1, h1, h2, _, _, _, _, h7, h8, h9⟩ :=
        sync_in_place env store ctx textures l hgt hd b hb (by omega)
      refine ⟨⟨by rw [h7, h8]; exact hal, by rw [h8]; exact hle, ?_⟩, by rw [h8]; exact hnum⟩
      intro _
      refine ⟨buf1, { g with data := buf1 }, h1, by rw [h2, hbl, h8], ?_, ?_, ?_⟩
      · rw [h9, hg]
        rfl
      · rw [h7]
        exact hgs
      · rw [h8]
        show buf1.length = _
        rw [h2, hbl]

/-- The shape of `apply` on an arena with textures: the registry is kept, and
only the state of the applied context is replaced; its handle table is the
result of `sync` on the previous table, possibly marked dirty first. -/
lemma apply_shape (env : GLEnv) (ctx : Nat) (ico : Bool) (a : TextureArena)
    (hne : a._textures.isEmpty = false) :
    ∃ (gc5 : GCState) (l0 : HandleLUT) (store2 : List Texture),
      (a.apply env ctx ico).1._gc = a._gc.set ctx gc5 ∧
      (a.apply env ctx ico).1._textures = a._textures ∧
      gc5._handleLUT = (l0.sync env store2 ctx a._textures).1 ∧
      (l0 = (a._gc.getD ctx default)._handleLUT ∨
        l0 = { (a._gc.getD ctx default)._handleLUT with _dirty := true }) := by
  unfold TextureArena.apply
  rw [if_neg (by simp [hne])]
  refine ⟨_, _, _, rfl, rfl, rfl, ?_⟩
  split_ifs <;> simp

/-- The method `apply` keeps the arena invariant. -/
lemma apply_inv (env : GLEnv) (n ctx : Nat) (ico : Bool) (a : TextureArena)
    (h : ArenaInv n a) : ArenaInv n (a.apply env ctx ico).1 := by
  cases hne : a._textures.isEmpty with
  | true =>
    unfold TextureArena.apply
    simp only [hne, if_true]
    exact h
  | false =>
    obtain ⟨gc5, l0, store2, hgc, htex, hl, hl0⟩ := apply_shape env ctx ico a hne
    obtain ⟨hlen, hall⟩ := h
    have hN : 1 ≤ a._textures.length := by
      cases hts : a._textures with
      | nil => rw [hts] at hne; simp at hne
      | cons x xs => simp
    have hold : LUTConsistent a._textures.length (a._gc.getD ctx default)._handleLUT := by
      rw [List.getD_eq_getElem?_getD]
      cases hg : a._gc[ctx]? with
      | none =>
        simp only [Option.getD_none]
        exact ⟨rfl, Nat.zero_le _, fun h0 => absurd h0 (lt_irrefl 0)⟩
      | some gc =>
        simp only [Option.getD_some]
        exact hall gc (List.getElem?_mem hg)
    have hl0c : LUTConsistent a._textures.length l0 := by
      rcases hl0 with h1 | h1
      · rw [h1]; exact hold
      · rw [h1]; exact hold
    refine ⟨by rw [hgc]; simpa using hlen, ?_⟩
    intro gc hmem
    rw [htex]
    rw [hgc] at hmem
    rcases List.mem_or_eq_of_mem_set hmem with h1 | h1
    · exact hall gc h1
    · rw [h1, hl]
      exact (sync_consistent env store2 ctx a._textures l0 hl0c hN).1

/-- The method `add` keeps the arena invariant. -/
lemma add_inv (env : GLEnv) (n : Nat) (tex : Option Nat) (a : TextureArena)
    (h : ArenaInv n a) : ArenaInv n (a.add env tex) := by
  obtain ⟨hlen, hall⟩ := h
  unfold TextureArena.add
  cases tex with
  | none => exact ⟨hlen, hall⟩
  | some ref =>
    simp only
    split
    · exact ⟨hlen, hall⟩
    · refine ⟨by simpa using hlen, ?_⟩
      intro gc hmem
      simp only [List.mem_map] at hmem
      obtain ⟨gc0, hmem0, hgc⟩ := hmem
      have h0 := (hall gc0 hmem0).mono (Nat.le_succ a._textures.length)
      have hl : gc._handleLUT = gc0._handleLUT := by
        rw [← hgc]
        split_ifs <;> rfl
      rw [hl]
      simpa using h0

/-- Every reachable arena satisfies the invariant. -/
lemma arena_reachable_inv (env : GLEnv) (store : List Texture) (n : Nat) (a : TextureArena)
    (h : ArenaReachable env store n a) : ArenaInv n a := by
  induction h with
  | empty =>
    refine ⟨by simp [TextureArena.empty], ?_⟩
    intro gc hmem
    simp only [TextureArena.empty, List.mem_replicate] at hmem
    rw [hmem.2]
    exact ⟨rfl, Nat.zero_le _, fun h0 => absurd h0 (lt_irrefl 0)⟩
  | add tex a _ ih => exact add_inv env n tex a ih
  | apply ctx ico a _ ih => exact apply_inv env n ctx ico a ih

/-- C8: for every arena reachable from an empty arena by add and apply calls,
with N ≥ 1 registered textures, the handle lookup table of a context has
exactly N 64-bit entries after the next apply on that context: N entries
counted, 8 N bytes allocated, a host array of N entries and a GPU buffer of
8 N bytes holding N entries. -/
theorem apply_handle_table_has_one_entry_per_texture (env : GLEnv) (store : List Texture)
    (n : Nat) (a : TextureArena) (ctx : Nat) (ico : Bool)
    (hreach : ArenaReachable env store n a) (hN : 1 ≤ a._textures.length) (hctx : ctx < n) :
    (a.apply env ctx ico).1._textures.length = a._textures.length ∧
    (((a.apply env ctx ico).1._gc.getD ctx default)._handleLUT)._numTextures =
      a._textures.length ∧
    (((a.apply env ctx ico).1._gc.getD ctx default)._handleLUT)._allocatedSize =
      8 * a._textures.length ∧
    ∃ b g, (((a.apply env ctx ico).1._gc.getD ctx default)._handleLUT)._buf = some b ∧
      b.length = a._textures.length ∧
      (((a.apply env ctx ico).1._gc.getD ctx default)._handleLUT)._buffer = some g ∧
      g.size = 8 * a._textures.length ∧ g.data.length = a._textures.length := by
  obtain ⟨hlen, hall⟩ := arena_reachable_inv env store n a hreach
  have hne : a._textures.isEmpty = false := by
    cases hts : a._textures with
    | nil => rw [hts] at hN; simp at hN
    | cons x xs => rfl
  obtain ⟨gc5, l0, store2, hgc, htex, hl, hl0⟩ := apply_shape env ctx ico a hne
  have hold : LUTConsistent a._textures.length (a._gc.getD ctx default)._handleLUT := by
    have hc : ctx < a._gc.length := by omega
    rw [List.getD_eq_getElem?_getD, List.getElem?_eq_getElem hc]
    simp only [Option.getD_some]
    exact hall _ (List.getElem_mem hc)
  have hl0c : LUTConsistent a._textures.length l0 := by
    rcases hl0 with h1 | h1
    · rw [h1]; exact hold
    · rw [h1]; exact hold
  obtain ⟨⟨hal, _, hbuf⟩, hnum⟩ := sync_consistent env store2 ctx a._textures l0 hl0c hN
  have hget : ((a.apply env ctx ico).1._gc.getD ctx default)._handleLUT =
      (l0.sync env store2 ctx a._textures).1 := by
    have hc : ctx < a._gc.length := by omega
    rw [hgc, List.getD_eq_getElem?_getD, List.getElem?_set_self hc]
    simp only [Option.getD_some]
    exact hl
  rw [hget]
  obtain ⟨b, g, hb, hbl, hg, hgs, hgd⟩ := hbuf (by omega)
  refine ⟨by rw [htex], hnum, by rw [hal, hnum], b, g, hb, by rw [hbl, hnum], hg, ?_, ?_⟩
  · rw [hgs, hal, hnum]
  · rw [hgd, hnum]

/-- Witness for C8: after one texture is added to an empty arena, the next
apply on context 0 leaves a table of one entry and 8 bytes. -/
theorem apply_handle_table_has_one_entry_per_texture_witness :
    ArenaReachable sampleEnv [sampleTexture] 1 sampleArena ∧
    1 ≤ sampleArena._textures.length ∧
    (((sampleArena.apply sampleEnv 0 false).1._gc.getD 0 default)._handleLUT)._numTextures = 1 ∧
    (((sampleArena.apply sampleEnv 0 false).1._gc.getD 0 default)._handleLUT)._allocatedSize = 8 := by
  have hreach : ArenaReachable sampleEnv [sampleTexture] 1 sampleArena :=
    ArenaReachable.add (some 0) _ ArenaReachable.empty
  have hN : 1 ≤ sampleArena._textures.length := by decide
  obtain ⟨_, h2, h3, _⟩ :=
    apply_handle_table_has_one_entry_per_texture sampleEnv [sampleTexture] 1 sampleArena 0 false
      hreach hN (by decide)
  exact ⟨hreach, hN, h2, h3⟩

/-! ## The queues of `apply` -/

/-- Updating a texture keeps the size of the store. -/
lemma updateTexture_length (store : List Texture) (ref : Nat) (f : Texture → Texture) :
    (updateTexture store ref f).length = store.length := by
  unfold updateTexture
  cases store.get? ref <;> simp

/-- Updating a texture leaves the other textures alone. -/
lemma updateTexture_getD_ne (store : List Texture) (ref k : Nat) (f : Texture → Texture)
    (h : ref ≠ k) : (updateTexture store ref f).getD k default = store.getD k default := by
  unfold updateTexture
  cases store.get? ref with
  | none => rfl
  | some t => simp [List.getD_eq_getElem?_getD, List.getElem?_set_ne h]

/-- Updating a texture of the store applies the update to it. -/
lemma updateTexture_getD_self (store : List Texture) (ref : Nat) (f : Texture → Texture)
    (h : ref < store.length) :
    (updateTexture store ref f).getD ref default = f (store.getD ref default) := by
  unfold updateTexture
  rw [List.get?_eq_getElem?, List.getElem?_eq_getElem h]
  simp [List.getD_eq_getElem?_getD, List.getElem?_set_self h, List.getElem?_eq_getElem h]

/-- Updating a texture outside the store does nothing. -/
lemma updateTexture_out (store : List Texture) (ref : Nat) (f : Texture → Texture)
    (h : store.length ≤ ref) : updateTexture store ref f = store := by
  unfold updateTexture
  rw [List.get?_eq_getElem?, List.getElem?_eq_none h]

/-- A texture compiled in a context has a slot for that context. -/
lemma gltexture_some_lt (t : Texture) (ctx : Nat) (g : GLTexture)
    (h : (t.get ctx)._gltexture = some g) : ctx < t._gc.length := by
  by_contra hge
  unfold Texture.get at h
  rw [List.getD_eq_getElem?_getD, List.getElem?_eq_none (by omega)] at h
  cases h

/-- Toggling residency of a compiled texture keeps its handle. -/
lemma makeResident_some (t : Texture) (ctx : Nat) (b : Bool) (g : GLTexture)
    (h : (t.get ctx)._gltexture = some g) :
    ((t.makeResident ctx b).get ctx)._gltexture = some { g with resident := b } := by
  have hlt := gltexture_some_lt t ctx g h
  unfold Texture.makeResident
  rw [h]
  simp [Texture.get, List.getD_eq_getElem?_getD, List.getElem?_set_self hlt]

/-- Toggling residency of a texture that is not compiled does nothing. -/
lemma makeResident_none (t : Texture) (ctx : Nat) (b : Bool)
    (h : (t.get ctx)._gltexture = none) : t.makeResident ctx b = t := by
  unfold Texture.makeResident
  rw [h]

/-- Toggling residency over a queue: a texture that is not compiled stays so. -/
lemma makeAllResident_none (ctx : Nat) (b : Bool) (refs : List Nat) :
    ∀ (store : List Texture) (k : Nat), glTextureOf store k ctx = none →
      glTextureOf (makeAllResident ctx b refs store) k ctx = none := by
  induction refs with
  | nil => intro store k h; exact h
  | cons ref rest ih =>
    intro store k h
    unfold makeAllResident
    apply ih
    unfold glTextureOf at h ⊢
    by_cases hk : ref = k
    · subst hk
      by_cases hlt : ref < store.length
      · rw [updateTexture_getD_self _ _ _ hlt, makeResident_none _ _ _ h]
        exact h
      · rw [updateTexture_out _ _ _ (by omega)]
        exact h
    · rw [updateTexture_getD_ne _ _ _ _ hk]
      exact h

/-- Toggling residency over a queue: a compiled texture keeps its handle; it
takes the toggle if it is in the queue and keeps its residency otherwise. -/
lemma makeAllResident_some (ctx : Nat) (b : Bool) (refs : List Nat) :
    ∀ (store : List Texture) (k : Nat) (g : GLTexture), glTextureOf store k ctx = some g →
      glTextureOf (makeAllResident ctx b refs store) k ctx =
        some ⟨g.handle, if k ∈ refs then b else g.resident⟩ := by
  induction refs with
  | nil => intro store k g h; simpa using h
  | cons ref rest ih =>
    intro store k g h
    unfold makeAllResident
    by_cases hk : ref = k
    · subst hk
      have hlt : ref < store.length := by
        by_contra hge
        unfold glTextureOf at h
        rw [List.getD_eq_getElem?_getD, List.getElem?_eq_none (by omega)] at h
        cases h
      have h1 : glTextureOf (updateTexture store ref (Texture.makeResident ctx b)) ref ctx =
          some { g with resident := b } := by
        unfold glTextureOf at h ⊢
        rw [updateTexture_getD_self _ _ _ hlt]
        exact makeResident_some _ _ _ _ h
      rw [ih _ _ _ h1]
      by_cases hin : ref ∈ rest <;> simp [hin]
    · have h1 : glTextureOf (updateTexture store ref (Texture.makeResident ctx b)) k ctx =
          some g := by
        unfold glTextureOf at h ⊢
        rw [updateTexture_getD_ne _ _ _ _ hk]
        exact h
      rw [ih _ _ _ h1]
      have hkr : k ≠ ref := fun h2 => hk h2.symm
      simp [hkr]

/-- The stages of `apply` on an arena with textures: the first loop, the
deactivations, the activations, and the synchronisation of the handle table,
which is marked dirty first when the activate queue is not empty. -/
lemma apply_stages (env : GLEnv) (ctx : Nat) (ico : Bool) (a : TextureArena)
    (hne : a._textures.isEmpty = false) :
    (a.apply env ctx ico).1.store =
      makeAllResident ctx true (addStage env ctx ico a).2.1
        (makeAllResident ctx false (a._gc.getD ctx default)._toDeactivate
          (addStage env ctx ico a).1) ∧
    (a.apply env ctx ico).1._textures = a._textures ∧
    (a.apply env ctx ico).1._gc = a._gc.set ctx
      { _inUse := true, _toAdd := (addStage env ctx ico a).2.2, _toActivate := [],
        _toDeactivate := [],
        _handleLUT :=
          ((if (addStage env ctx ico a).2.1.isEmpty then (a._gc.getD ctx default)._handleLUT
            else { (a._gc.getD ctx default)._handleLUT with _dirty := true }).sync env
            (makeAllResident ctx true (addStage env ctx ico a).2.1
              (makeAllResident ctx false (a._gc.getD ctx default)._toDeactivate
                (addStage env ctx ico a).1)) ctx a._textures).1 } := by
  unfold TextureArena.apply addStage toAddAtApply
  rw [if_neg (by simp [hne])]
  simp only
  cases hin : (a._gc.getD ctx default)._inUse
  · simp only [if_true]
    generalize processToAdd env ctx (if (!a._textures.isEmpty) = true then ico else false)
      a._textures a.store (a._gc.getD ctx default)._toActivate [] = r
    cases he : r.2.1.isEmpty
    · simp [he]
    · have hnil : r.2.1 = [] := List.isEmpty_iff.mp he
      simp [he, hnil, makeAllResident, hin]
  · simp only [Bool.true_eq_false, if_false]
    have hin1 := hin
    rw [List.getD_eq_getElem?_getD] at hin1
    generalize processToAdd env ctx
      (if (!(a._gc.getD ctx default)._toAdd.isEmpty) = true then ico else false)
      (a._gc.getD ctx default)._toAdd a.store (a._gc.getD ctx default)._toActivate [] = r
    cases he : r.2.1.isEmpty
    · simp [he, hin1]
    · have hnil : r.2.1 = [] := List.isEmpty_iff.mp he
      simp [he, hnil, makeAllResident, hin1]

/-- The first loop of `apply` only appends to the activate queue. -/
lemma processToAdd_activate_prefix (env : GLEnv) (ctx : Nat) (ico : Bool) (refs : List Nat) :
    ∀ (store : List Texture) (act still : List Nat),
      ∃ more, (processToAdd env ctx ico refs store act still).2.1 = act ++ more := by
  induction refs with
  | nil => intro store act still; exact ⟨[], by simp [processToAdd]⟩
  | cons ref rest ih =>
    intro store act still
    unfold processToAdd
    simp only
    split_ifs
    · exact ih _ _ _
    · exact ih _ _ _
    · obtain ⟨more, h⟩ := ih (updateTexture store ref (Texture.compileGLObjects env ref ctx))
        (act ++ [ref]) still
      exact ⟨ref :: more, by rw [h]; simp⟩
    · obtain ⟨more, h⟩ := ih store (act ++ [ref]) still
      exact ⟨ref :: more, by rw [h]; simp⟩

/-- The first loop of `apply` leaves every compiled texture as it is. -/
lemma processToAdd_gl_some (env : GLEnv) (ctx : Nat) (ico : Bool) (refs : List Nat) :
    ∀ (store : List Texture) (act still : List Nat) (k : Nat) (g : GLTexture),
      glTextureOf store k ctx = some g →
      glTextureOf (processToAdd env ctx ico refs store act still).1 k ctx = some g := by
  induction refs with
  | nil => intro store act still k g h; exact h
  | cons ref rest ih =>
    intro store act still k g h
    have hne : (!(store.getD ref default).isCompiled ctx) = true → ref ≠ k := by
      intro hc hk
      subst hk
      unfold glTextureOf at h
      unfold Texture.isCompiled at hc
      rw [h] at hc
      simp at hc
    have hkeep : ∀ f : Texture → Texture, (!(store.getD ref default).isCompiled ctx) = true →
        glTextureOf (updateTexture store ref f) k ctx = some g := by
      intro f hc
      unfold glTextureOf at h ⊢
      rw [updateTexture_getD_ne _ _ _ _ (hne hc)]
      exact h
    unfold processToAdd
    simp only
    split_ifs with hc hico hset
    · exact ih _ _ _ _ _ (hkeep _ hc)
    · exact ih _ _ _ _ _ h
    · exact ih _ _ _ _ _ (hkeep _ hc)
    · exact ih _ _ _ _ _ h

/-- C19 (amended): on an arena with at least one registered texture, `apply`
in a context of the arena processes the whole deactivate queue before the
activate queue: a compiled texture that is in the activate queue is resident
after `apply`, also when it is in the deactivate queue as well, and keeps its
handle.  After `apply` both queues are empty, and whenever the activate queue
was not empty the handle table is the result of `sync` on the table marked
dirty. -/
theorem apply_deactivates_then_activates (env : GLEnv) (ctx : Nat) (ico : Bool)
    (a : TextureArena) (hne : a._textures ≠ []) (hctx : ctx < a._gc.length) :
    ((a.apply env ctx ico).1._gc.getD ctx default)._toActivate = [] ∧
    ((a.apply env ctx ico).1._gc.getD ctx default)._toDeactivate = [] ∧
    (∀ (ref : Nat) (g : GLTexture), ref ∈ (a._gc.getD ctx default)._toActivate →
      glTextureOf a.store ref ctx = some g →
      glTextureOf (a.apply env ctx ico).1.store ref ctx = some ⟨g.handle, true⟩) ∧
    ((a._gc.getD ctx default)._toActivate ≠ [] →
      ((a.apply env ctx ico).1._gc.getD ctx default)._handleLUT =
        (({ (a._gc.getD ctx default)._handleLUT with _dirty := true } : HandleLUT).sync env
          (a.apply env ctx ico).1.store ctx a._textures).1) := by
  have hne1 : a._textures.isEmpty = false := by
    cases h : a._textures with
    | nil => exact absurd h hne
    | cons x xs => rfl
  obtain ⟨hstore, _, hgc⟩ := apply_stages env ctx ico a hne1
  have hget : ∀ gc5 : GCState, (a._gc.set ctx gc5).getD ctx default = gc5 := by
    intro gc5
    rw [List.getD_eq_getElem?_getD, List.getElem?_set_self hctx]
    rfl
  obtain ⟨more, hmore⟩ := processToAdd_activate_prefix env ctx
    (if !(toAddAtApply ctx a).isEmpty then ico else false) (toAddAtApply ctx a) a.store
    (a._gc.getD ctx default)._toActivate []
  have hact : (addStage env ctx ico a).2.1 = (a._gc.getD ctx default)._toActivate ++ more := hmore
  refine ⟨?_, ?_, ?_, ?_⟩
  · rw [hgc, hget]
  · rw [hgc, hget]
  · intro ref g hin hg
    rw [hstore]
    have h1 : glTextureOf (addStage env ctx ico a).1 ref ctx = some g :=
      processToAdd_gl_some env ctx _ _ _ _ _ ref g hg
    have h2 := makeAllResident_some ctx false (a._gc.getD ctx default)._toDeactivate _ ref g h1
    have h3 := makeAllResident_some ctx true (addStage env ctx ico a).2.1 _ ref _ h2
    rw [h3]
    have hin2 : ref ∈ (addStage env ctx ico a).2.1 := by
      rw [hact]
      exact List.mem_append_left _ hin
    simp [hin2]
  · intro hnonempty
    rw [hgc, hget, hstore]
    have hnot : (addStage env ctx ico a).2.1.isEmpty = false := by
      rw [hact]
      cases h : (a._gc.getD ctx default)._toActivate with
      | nil => exact absurd h hnonempty
      | cons x xs => rfl
    simp only [hnot, Bool.false_eq_true, if_false]

/-- Witness for C19: one compiled texture is registered and was queued for
deactivation and then for activation; after `apply` it is resident with its
handle 7 and both queues are empty. -/
theorem apply_deactivates_then_activates_witness :
    ((sampleToggled.apply sampleEnv 0 false).1._gc.getD 0 default)._toActivate = [] ∧
    ((sampleToggled.apply sampleEnv 0 false).1._gc.getD 0 default)._toDeactivate = [] ∧
    glTextureOf (sampleToggled.apply sampleEnv 0 false).1.store 0 0 = some ⟨7, true⟩ :=
  have h := apply_deactivates_then_activates sampleEnv 0 false sampleToggled
    (by decide) (by decide)
  ⟨h.1, h.2.1, h.2.2.1 0 ⟨7, true⟩ (by decide) rfl⟩

/-- C19 (counterexample): an arena without any registered texture in which a
texture was queued for activation.  `apply` returns at once: the activate
queue of the context still holds the texture afterwards. -/
theorem apply_without_textures_keeps_queues :
    sampleUnregistered._textures = [] ∧
    (sampleUnregistered._gc.getD 0 default)._toActivate = [0] ∧
    sampleUnregistered.apply sampleEnv 0 false = (sampleUnregistered, []) ∧
    ((sampleUnregistered.apply sampleEnv 0 false).1._gc.getD 0 default)._toActivate = [0] := by
  refine ⟨rfl, rfl, rfl, rfl⟩

/-! ## The to-add queue of `apply` -/

/-- Without an incremental compile operation the first loop of `apply` moves
every texture of the to-add queue to the activate queue and keeps nothing. -/
lemma processToAdd_sync_queues (env : GLEnv) (ctx : Nat) (refs : List Nat) :
    ∀ (store : List Texture) (act still : List Nat),
      (processToAdd env ctx false refs store act still).2.1 = act ++ refs ∧
      (processToAdd env ctx false refs store act still).2.2 = still := by
  induction refs with
  | nil => intro store act still; simp [processToAdd]
  | cons ref rest ih =>
    intro store act still
    unfold processToAdd
    simp only [Bool.false_eq_true, if_false]
    split_ifs
    · obtain ⟨h1, h2⟩ := ih (updateTexture store ref (Texture.compileGLObjects env ref ctx))
        (act ++ [ref]) still
      exact ⟨by rw [h1]; simp, h2⟩
    · obtain ⟨h1, h2⟩ := ih store (act ++ [ref]) still
      exact ⟨by rw [h1]; simp, h2⟩

/-- Compiling a texture in a context it has a slot for makes it compiled. -/
lemma compileGLObjects_some (env : GLEnv) (ref ctx : Nat) (t : Texture)
    (h : ctx < t._gc.length) :
    ((t.compileGLObjects env ref ctx).get ctx)._gltexture =
      some ⟨env.newHandle ref ctx, false⟩ := by
  simp [Texture.compileGLObjects, Texture.get, List.getD_eq_getElem?_getD,
    List.getElem?_set_self h]

/-- Without an incremental compile operation every texture of the to-add queue
that has a slot in the store and for the context is compiled after the first
loop of `apply`. -/
lemma processToAdd_sync_compiles (env : GLEnv) (ctx : Nat) (refs : List Nat) :
    ∀ (store : List Texture) (act still : List Nat) (k : Nat), k ∈ refs →
      k < store.length → ctx < (store.getD k default)._gc.length →
      ∃ g, glTextureOf (processToAdd env ctx false refs store act still).1 k ctx = some g := by
  induction refs with
  | nil => intro store act still k hk; cases hk
  | cons ref rest ih =>
    intro store act still k hk hlt hgc
    unfold processToAdd
    simp only [Bool.false_eq_true, if_false]
    by_cases hc : (!(store.getD ref default).isCompiled ctx) = true
    · rw [if_pos hc]
      by_cases hrk : ref = k
      · subst hrk
        have h1 : glTextureOf (updateTexture store ref (Texture.compileGLObjects env ref ctx))
            ref ctx = some ⟨env.newHandle ref ctx, false⟩ := by
          unfold glTextureOf
          rw [updateTexture_getD_self _ _ _ hlt]
          exact compileGLObjects_some env ref ctx _ hgc
        exact ⟨_, processToAdd_gl_some env ctx false rest _ _ _ ref _ h1⟩
      · have hin : k ∈ rest := by
          rcases List.mem_cons.mp hk with h | h
          · exact absurd h.symm hrk
          · exact h
        apply ih _ _ _ k hin
        · rw [updateTexture_length]; exact hlt
        · rw [updateTexture_getD_ne _ _ _ _ hrk]; exact hgc
    · rw [if_neg hc]
      by_cases hrk : ref = k
      · subst hrk
        simp only [Bool.not_eq_true, Bool.not_eq_false'] at hc
        unfold Texture.isCompiled at hc
        cases hg : ((store.getD ref default).get ctx)._gltexture with
        | none => rw [hg] at hc; cases hc
        | some g => exact ⟨g, processToAdd_gl_some env ctx false rest _ _ _ ref g hg⟩
      · have hin : k ∈ rest := by
          rcases List.mem_cons.mp hk with h | h
          · exact absurd h.symm hrk
          · exact h
        exact ih _ _ _ k hin hlt hgc

/-- Setting the compile-set flag of a texture leaves its GL object alone. -/
lemma setCompileSet_gl (store : List Texture) (ref ctx k : Nat) :
    glTextureOf (updateTexture store ref
      (fun t => { t with _gc := t._gc.set ctx { (t.get ctx) with _compileSet := true } })) k ctx =
      glTextureOf store k ctx := by
  unfold glTextureOf
  by_cases hrk : ref = k
  · subst hrk
    by_cases hlt : ref < store.length
    · rw [updateTexture_getD_self _ _ _ hlt]
      by_cases hc : ctx < (store.getD ref default)._gc.length
      · have hc1 := hc
        rw [List.getD_eq_getElem?_getD] at hc1
        simp [Texture.get, List.getD_eq_getElem?_getD, List.getElem?_set_self hc1]
      · simp only [Texture.get]
        rw [List.set_eq_of_length_le (by omega)]
    · rw [updateTexture_out _ _ _ (by omega)]
  · rw [updateTexture_getD_ne _ _ _ _ hrk]

/-- With an incremental compile operation the first loop of `apply` compiles
nothing: every GL object is as before. -/
lemma processToAdd_ico_gl (env : GLEnv) (ctx : Nat) (refs : List Nat) :
    ∀ (store : List Texture) (act still : List Nat) (k : Nat),
      glTextureOf (processToAdd env ctx true refs store act still).1 k ctx =
        glTextureOf store k ctx := by
  induction refs with
  | nil => intro store act still k; rfl
  | cons ref rest ih =>
    intro store act still k
    unfold processToAdd
    simp only [if_true]
    split_ifs
    · rw [ih, setCompileSet_gl]
    · exact ih _ _ _ _
    · exact ih _ _ _ _

/-- With an incremental compile operation the first loop of `apply` keeps the
textures that are not compiled, in order, and moves the compiled ones to the
activate queue. -/
lemma processToAdd_ico_queues (env : GLEnv) (ctx : Nat) (refs : List Nat) :
    ∀ (store : List Texture) (act still : List Nat),
      (processToAdd env ctx true refs store act still).2.1 =
        act ++ refs.filter (fun r => (glTextureOf store r ctx).isSome) ∧
      (processToAdd env ctx true refs store act still).2.2 =
        still ++ refs.filter (fun r => !(glTextureOf store r ctx).isSome) := by
  induction refs with
  | nil => intro store act still; simp [processToAdd]
  | cons ref rest ih =>
    intro store act still
    have hfun : ∀ s1 : List Texture, (∀ k, glTextureOf s1 k ctx = glTextureOf store k ctx) →
        (fun r => (glTextureOf s1 r ctx).isSome) = (fun r => (glTextureOf store r ctx).isSome) ∧
        (fun r => !(glTextureOf s1 r ctx).isSome) =
          (fun r => !(glTextureOf store r ctx).isSome) := by
      intro s1 h
      exact ⟨funext (fun r => by rw [h]), funext (fun r => by rw [h])⟩
    unfold processToAdd
    simp only [if_true]
    by_cases hc : (!(store.getD ref default).isCompiled ctx) = true
    · have hnone : glTextureOf store ref ctx = none := by
        unfold Texture.isCompiled at hc
        unfold glTextureOf
        cases hg : ((store.getD ref default).get ctx)._gltexture with
        | none => rfl
        | some g => rw [hg] at hc; cases hc
      rw [if_pos hc]
      split_ifs
      · obtain ⟨h1, h2⟩ := ih (updateTexture store ref
          (fun t => { t with _gc := t._gc.set ctx { (t.get ctx) with _compileSet := true } }))
          act (still ++ [ref])
        obtain ⟨hf1, hf2⟩ := hfun _ (fun k => setCompileSet_gl store ref ctx k)
        rw [h1, h2, hf1, hf2]
        simp [List.filter_cons, hnone]
      · obtain ⟨h1, h2⟩ := ih store act (still ++ [ref])
        rw [h1, h2]
        simp [List.filter_cons, hnone]
    · have hsome : ∃ g, glTextureOf store ref ctx = some g := by
        unfold Texture.isCompiled at hc
        unfold glTextureOf
        cases hg : ((store.getD ref default).get ctx)._gltexture with
        | none => rw [hg] at hc; exact absurd rfl hc
        | some g => exact ⟨g, rfl⟩
      obtain ⟨g, hsome⟩ := hsome
      rw [if_neg hc]
      obtain ⟨h1, h2⟩ := ih store (act ++ [ref]) still
      rw [h1, h2]
      simp [List.filter_cons, hsome]

/-- Setting the compile-set flag of a texture keeps the flags that are set. -/
lemma setCompileSet_flag_keep (store : List Texture) (ref ctx k : Nat)
    (h : compileSetOf store k ctx = true) :
    compileSetOf (updateTexture store ref
      (fun t => { t with _gc := t._gc.set ctx { (t.get ctx) with _compileSet := true } }))
      k ctx = true := by
  unfold compileSetOf at h ⊢
  by_cases hrk : ref = k
  · subst hrk
    by_cases hlt : ref < store.length
    · rw [updateTexture_getD_self _ _ _ hlt]
      by_cases hc : ctx < (store.getD ref default)._gc.length
      · have hc1 := hc
        rw [List.getD_eq_getElem?_getD] at hc1
        simp [Texture.get, List.getD_eq_getElem?_getD, List.getElem?_set_self hc1]
      · simp only [Texture.get]
        rw [List.set_eq_of_length_le (by omega)]
        exact h
    · rw [updateTexture_out _ _ _ (by omega)]
      exact h
  · rw [updateTexture_getD_ne _ _ _ _ hrk]
    exact h

/-- Setting the compile-set flag of a texture with a slot sets it. -/
lemma setCompileSet_flag_self (store : List Texture) (ref ctx : Nat)
    (hlt : ref < store.length) (hc : ctx < (store.getD ref default)._gc.length) :
    compileSetOf (updateTexture store ref
      (fun t => { t with _gc := t._gc.set ctx { (t.get ctx) with _compileSet := true } }))
      ref ctx = true := by
  unfold compileSetOf
  rw [updateTexture_getD_self _ _ _ hlt]
  have hc1 := hc
  rw [List.getD_eq_getElem?_getD] at hc1
  simp [Texture.get, List.getD_eq_getElem?_getD, List.getElem?_set_self hc1]

/-- With an incremental compile operation the first loop of `apply` keeps the
compile-set flags that are set. -/
lemma processToAdd_ico_flag_keep (env : GLEnv) (ctx : Nat) (refs : List Nat) :
    ∀ (store : List Texture) (act still : List Nat) (k : Nat),
      compileSetOf store k ctx = true →
      compileSetOf (processToAdd env ctx true refs store act still).1 k ctx = true := by
  induction refs with
  | nil => intro store act still k h; exact h
  | cons ref rest ih =>
    intro store act still k h
    unfold processToAdd
    simp only [if_true]
    split_ifs
    · exact ih _ _ _ _ (setCompileSet_flag_keep store ref ctx k h)
    · exact ih _ _ _ _ h
    · exact ih _ _ _ _ h

/-- Setting the compile-set flag keeps the size of the store and the slots of
every texture. -/
lemma setCompileSet_slots (store : List Texture) (ref ctx k : Nat) :
    ((updateTexture store ref
      (fun t => { t with _gc := t._gc.set ctx { (t.get ctx) with _compileSet := true } })).getD
        k default)._gc.length = (store.getD k default)._gc.length := by
  by_cases hrk : ref = k
  · subst hrk
    by_cases hlt : ref < store.length
    · rw [updateTexture_getD_self _ _ _ hlt]
      simp
    · rw [updateTexture_out _ _ _ (by omega)]
  · rw [updateTexture_getD_ne _ _ _ _ hrk]

/-- With an incremental compile operation every texture of the to-add queue
that is not compiled and has a slot has a compile set after the first loop. -/
lemma processToAdd_ico_flag_set (env : GLEnv) (ctx : Nat) (refs : List Nat) :
    ∀ (store : List Texture) (act still : List Nat) (k : Nat), k ∈ refs →
      glTextureOf store k ctx = none → k < store.length →
      ctx < (store.getD k default)._gc.length →
      compileSetOf (processToAdd env ctx true refs store act still).1 k ctx = true := by
  induction refs with
  | nil => intro store act still k hk; cases hk
  | cons ref rest ih =>
    intro store act still k hk hnone hlt hgc
    by_cases hrk : ref = k
    · subst hrk
      have hc : (!(store.getD ref default).isCompiled ctx) = true := by
        unfold glTextureOf at hnone
        unfold Texture.isCompiled
        rw [hnone]
        rfl
      unfold processToAdd
      simp only [if_true]
      rw [if_pos hc]
      split_ifs with hflag
      · exact processToAdd_ico_flag_keep env ctx rest _ _ _ ref
          (setCompileSet_flag_self store ref ctx hlt hgc)
      · apply processToAdd_ico_flag_keep
        simpa [compileSetOf] using hflag
    · have hin : k ∈ rest := by
        rcases List.mem_cons.mp hk with h | h
        · exact absurd h.symm hrk
        · exact h
      unfold processToAdd
      simp only [if_true]
      split_ifs
      · apply ih _ _ _ k hin
        · rw [setCompileSet_gl]; exact hnone
        · rw [updateTexture_length]; exact hlt
        · rw [setCompileSet_slots]; exact hgc
      · exact ih _ _ _ k hin hnone hlt hgc
      · exact ih _ _ _ k hin hnone hlt hgc

/-- Without an incremental compile operation no compile request is made. -/
lemma compileRequests_sync (env : GLEnv) (ctx : Nat) (refs : List Nat) :
    ∀ store : List Texture, compileRequests env ctx false refs store = [] := by
  induction refs with
  | nil => intro store; rfl
  | cons ref rest ih =>
    intro store
    unfold compileRequests
    simp only [Bool.false_eq_true, if_false]
    split_ifs
    · exact ih _
    · exact ih _

/-- No compile request is made for a texture that has a compile set. -/
lemma compileRequests_flagged (env : GLEnv) (ctx : Nat) (refs : List Nat) :
    ∀ (store : List Texture) (k : Nat), compileSetOf store k ctx = true →
      k ∉ compileRequests env ctx true refs store := by
  induction refs with
  | nil => intro store k _ h; cases h
  | cons ref rest ih =>
    intro store k hflag
    unfold compileRequests
    simp only [if_true]
    split_ifs with hc hset
    · intro hmem
      rcases List.mem_cons.mp hmem with h | h
      · subst h
        unfold compileSetOf at hflag
        rw [hflag] at hset
        cases hset
      · exact ih _ k (setCompileSet_flag_keep store ref ctx k hflag) h
    · exact ih store k hflag
    · exact ih store k hflag

/-- A compile request is made for every texture of the queue that is not
compiled and has no compile set. -/
lemma compileRequests_unflagged (env : GLEnv) (ctx : Nat) (refs : List Nat) :
    ∀ (store : List Texture) (k : Nat), k ∈ refs → glTextureOf store k ctx = none →
      compileSetOf store k ctx = false → k ∈ compileRequests env ctx true refs store := by
  induction refs with
  | nil => intro store k hk; cases hk
  | cons ref rest ih =>
    intro store k hk hnone hflag
    by_cases hrk : ref = k
    · subst hrk
      have hc : (!(store.getD ref default).isCompiled ctx) = true := by
        unfold glTextureOf at hnone
        unfold Texture.isCompiled
        rw [hnone]
        rfl
      have hset : (!((store.getD ref default).get ctx)._compileSet) = true := by
        unfold compileSetOf at hflag
        rw [hflag]
        rfl
      unfold compileRequests
      simp only [if_true]
      rw [if_pos hc, if_pos hset]
      exact List.mem_cons_self _ _
    · have hin : k ∈ rest := by
        rcases List.mem_cons.mp hk with h | h
        · exact absurd h.symm hrk
        · exact h
      unfold compileRequests
      simp only [if_true]
      split_ifs
      · apply List.mem_cons_of_mem
        apply ih _ k hin
        · rw [setCompileSet_gl]; exact hnone
        · unfold compileSetOf at hflag ⊢
          rw [updateTexture_getD_ne _ _ _ _ hrk]
          exact hflag
      · exact ih store k hin hnone hflag
      · exact ih store k hin hnone hflag

/-- No compile request is made for a texture that is compiled. -/
lemma compileRequests_compiled (env : GLEnv) (ctx : Nat) (refs : List Nat) :
    ∀ (store : List Texture) (k : Nat) (g : GLTexture), glTextureOf store k ctx = some g →
      k ∉ compileRequests env ctx true refs store := by
  induction refs with
  | nil => intro store k g _ h; cases h
  | cons ref rest ih =>
    intro store k g hsome
    unfold compileRequests
    simp only [if_true]
    split_ifs with hc hset
    · intro hmem
      rcases List.mem_cons.mp hmem with h | h
      · subst h
        unfold glTextureOf at hsome
        unfold Texture.isCompiled at hc
        rw [hsome] at hc
        cases hc
      · exact ih _ k g (by rw [setCompileSet_gl]; exact hsome) h
    · exact ih store k g hsome
    · exact ih store k g hsome

/-- Toggling residency over a queue leaves a texture that is not compiled as
it is. -/
lemma makeAllResident_getD_uncompiled (ctx : Nat) (b : Bool) (refs : List Nat) :
    ∀ (store : List Texture) (k : Nat), glTextureOf store k ctx = none →
      (makeAllResident ctx b refs store).getD k default = store.getD k default := by
  induction refs with
  | nil => intro store k _; rfl
  | cons ref rest ih =>
    intro store k h
    unfold makeAllResident
    have hstep : (updateTexture store ref (Texture.makeResident ctx b)).getD k default =
        store.getD k default := by
      by_cases hrk : ref = k
      · subst hrk
        by_cases hlt : ref < store.length
        · rw [updateTexture_getD_self _ _ _ hlt]
          exact makeResident_none _ _ _ h
        · rw [updateTexture_out _ _ _ (by omega)]
      · exact updateTexture_getD_ne _ _ _ _ hrk
    rw [ih _ k (by unfold glTextureOf at h ⊢; rw [hstep]; exact h), hstep]

/-- C20: let `apply` run in a context of an arena with registered textures;
the to-add queue it works on is the registry on the context's first apply and
the context's queue afterwards.  Without an incremental compile operation the
to-add queue is empty afterwards, no compile request is made, and every
texture of the queue (with a slot in the store and for the context) is
compiled and resident afterwards.  With one, a texture of the queue that is
not compiled stays in the to-add queue, is still not compiled afterwards, has
a compile set afterwards, and a compile request is made for it exactly when it
had no compile set before, so only on the first apply that sees it.  In both
cases a texture of the queue that is already compiled leaves the to-add queue
and is resident afterwards. -/
theorem apply_processes_to_add_queue (env : GLEnv) (ctx : Nat) (ico : Bool)
    (a : TextureArena) (hne : a._textures ≠ []) (hctx : ctx < a._gc.length) :
    ((a._gc.getD ctx default)._inUse = false → toAddAtApply ctx a = a._textures) ∧
    (ico = false →
      ((a.apply env ctx ico).1._gc.getD ctx default)._toAdd = [] ∧
      a.applyCompileRequests env ctx ico = [] ∧
      ∀ ref ∈ toAddAtApply ctx a, ref < a.store.length →
        ctx < (a.store.getD ref default)._gc.length →
        ∃ handle, glTextureOf (a.apply env ctx ico).1.store ref ctx = some ⟨handle, true⟩) ∧
    (ico = true →
      ∀ ref ∈ toAddAtApply ctx a, glTextureOf a.store ref ctx = none →
        ref ∈ ((a.apply env ctx ico).1._gc.getD ctx default)._toAdd ∧
        glTextureOf (a.apply env ctx ico).1.store ref ctx = none ∧
        (ref ∈ a.applyCompileRequests env ctx ico ↔ compileSetOf a.store ref ctx = false) ∧
        (ref < a.store.length → ctx < (a.store.getD ref default)._gc.length →
          compileSetOf (a.apply env ctx ico).1.store ref ctx = true)) ∧
    (∀ (ref : Nat) (g : GLTexture), ref ∈ toAddAtApply ctx a →
      glTextureOf a.store ref ctx = some g →
        ref ∉ ((a.apply env ctx ico).1._gc.getD ctx default)._toAdd ∧
        ref ∉ a.applyCompileRequests env ctx ico ∧
        glTextureOf (a.apply env ctx ico).1.store ref ctx = some ⟨g.handle, true⟩) := by
  have hne1 : a._textures.isEmpty = false := by
    cases h : a._textures with
    | nil => exact absurd h hne
    | cons x xs => rfl
  obtain ⟨hstore, _, hgc⟩ := apply_stages env ctx ico a hne1
  have hget : ∀ gc5 : GCState, (a._gc.set ctx gc5).getD ctx default = gc5 := by
    intro gc5
    rw [List.getD_eq_getElem?_getD, List.getElem?_set_self hctx]
    rfl
  have hadd : ((a.apply env ctx ico).1._gc.getD ctx default)._toAdd =
      (addStage env ctx ico a).2.2 := by
    rw [hgc, hget]
  have hreq : a.applyCompileRequests env ctx ico =
      compileRequests env ctx (if !(toAddAtApply ctx a).isEmpty then ico else false)
        (toAddAtApply ctx a) a.store := by
    unfold TextureArena.applyCompileRequests
    rw [if_neg (by simp [hne1])]
  have hico : ∀ ref ∈ toAddAtApply ctx a,
      (if !(toAddAtApply ctx a).isEmpty then ico else false) = ico := by
    intro ref hin
    cases h : toAddAtApply ctx a with
    | nil => rw [h] at hin; cases hin
    | cons x xs => rfl
  refine ⟨?_, ?_, ?_, ?_⟩
  · intro hin
    unfold toAddAtApply
    rw [if_pos hin]
  · intro hf
    subst hf
    have hfalse : (if !(toAddAtApply ctx a).isEmpty then false else false) = false := by
      split_ifs <;> rfl
    have hq := processToAdd_sync_queues env ctx (toAddAtApply ctx a) a.store
      (a._gc.getD ctx default)._toActivate []
    refine ⟨?_, ?_, ?_⟩
    · rw [hadd]
      unfold addStage
      rw [hfalse]
      exact hq.2
    · rw [hreq, hfalse]
      exact compileRequests_sync env ctx _ _
    · intro ref hin hlt hslot
      obtain ⟨g, hg⟩ := processToAdd_sync_compiles env ctx (toAddAtApply ctx a) a.store
        (a._gc.getD ctx default)._toActivate [] ref hin hlt hslot
      have hg1 : glTextureOf (addStage env ctx false a).1 ref ctx = some g := by
        unfold addStage
        rw [hfalse]
        exact hg
      have hact : ref ∈ (addStage env ctx false a).2.1 := by
        unfold addStage
        rw [hfalse, hq.1]
        exact List.mem_append_right _ hin
      have h2 := makeAllResident_some ctx false (a._gc.getD ctx default)._toDeactivate _ ref g hg1
      have h3 := makeAllResident_some ctx true (addStage env ctx false a).2.1 _ ref _ h2
      refine ⟨g.handle, ?_⟩
      rw [hstore, h3]
      simp [hact]
  · intro ht ref hin hnone
    subst ht
    have hi := hico ref hin
    have hq := processToAdd_ico_queues env ctx (toAddAtApply ctx a) a.store
      (a._gc.getD ctx default)._toActivate []
    have hgl : glTextureOf (addStage env ctx true a).1 ref ctx = none := by
      unfold addStage
      rw [hi, processToAdd_ico_gl]
      exact hnone
    have h2 := makeAllResident_none ctx false (a._gc.getD ctx default)._toDeactivate _ ref hgl
    have h3 := makeAllResident_none ctx true (addStage env ctx true a).2.1 _ ref h2
    refine ⟨?_, ?_, ?_, ?_⟩
    · rw [hadd]
      unfold addStage
      rw [hi, hq.2]
      simp [hin, hnone]
    · rw [hstore]
      exact h3
    · rw [hreq, hi]
      constructor
      · intro hmem
        cases hflag : compileSetOf a.store ref ctx with
        | false => rfl
        | true => exact absurd hmem (compileRequests_flagged env ctx _ a.store ref hflag)
      · intro hflag
        exact compileRequests_unflagged env ctx _ a.store ref hin hnone hflag
    · intro hlt hslot
      have hflag := processToAdd_ico_flag_set env ctx (toAddAtApply ctx a) a.store
        (a._gc.getD ctx default)._toActivate [] ref hin hnone hlt hslot
      have hflag1 : compileSetOf (addStage env ctx true a).1 ref ctx = true := by
        unfold addStage
        rw [hi]
        exact hflag
      unfold compileSetOf at hflag1 ⊢
      rw [hstore, makeAllResident_getD_uncompiled ctx true _ _ ref h2,
        makeAllResident_getD_uncompiled ctx false _ _ ref hgl]
      exact hflag1
  · intro ref g hin hsome
    have hi := hico ref hin
    have hg1 : glTextureOf (addStage env ctx ico a).1 ref ctx = some g :=
      processToAdd_gl_some env ctx _ _ _ _ _ ref g hsome
    have hact : ref ∈ (addStage env ctx ico a).2.1 ∧ ref ∉ (addStage env ctx ico a).2.2 ∧
        ref ∉ compileRequests env ctx ico (toAddAtApply ctx a) a.store := by
      unfold addStage
      rw [hi]
      cases ico with
      | false =>
        have hq := processToAdd_sync_queues env ctx (toAddAtApply ctx a) a.store
          (a._gc.getD ctx default)._toActivate []
        rw [hq.1, hq.2, compileRequests_sync]
        exact ⟨List.mem_append_right _ hin, by simp, by simp⟩
      | true =>
        have hq := processToAdd_ico_queues env ctx (toAddAtApply ctx a) a.store
          (a._gc.getD ctx default)._toActivate []
        rw [hq.1, hq.2]
        refine ⟨?_, ?_, ?_⟩
        · simp [hin, hsome]
        · simp [hsome]
        · exact compileRequests_compiled env ctx _ a.store ref g hsome
    have h2 := makeAllResident_some ctx false (a._gc.getD ctx default)._toDeactivate _ ref g hg1
    have h3 := makeAllResident_some ctx true (addStage env ctx ico a).2.1 _ ref _ h2
    refine ⟨?_, ?_, ?_⟩
    · rw [hadd]
      exact hact.2.1
    · rw [hreq, hi]
      exact hact.2.2
    · rw [hstore, h3]
      simp [hact.1]

/-- Witness for C20: one uncompiled texture is registered in an arena that was
never applied; the first apply without an incremental compile operation
compiles it and makes it resident, and leaves the to-add queue empty. -/
theorem apply_processes_to_add_queue_witness :
    ((sampleFresh.apply sampleEnv 0 false).1._gc.getD 0 default)._toAdd = [] ∧
    sampleFresh.applyCompileRequests sampleEnv 0 false = [] ∧
    ∃ handle, glTextureOf (sampleFresh.apply sampleEnv 0 false).1.store 0 0 =
      some ⟨handle, true⟩ :=
  have h := (apply_processes_to_add_queue sampleEnv 0 false sampleFresh
    (by decide) (by decide)).2.1 rfl
  ⟨h.1, h.2.1, h.2.2 0 (by decide) (by decide) (by decide)⟩

/-! ## Registering a texture: `add` -/

/-- C21: `add(tex)` with an image that is present or loads successfully
appends `tex` at the end of the registry, so that every texture registered
before keeps its index, and appends it to the to-add queue of exactly the
contexts marked in use: the state of every other context is unchanged and no
context is added or removed.  `add(null)` changes nothing, and `add` of a
texture whose image cannot be loaded changes neither the registry nor any
context state. -/
theorem add_registers_and_queues_in_use_contexts (env : GLEnv) (a : TextureArena) (ref : Nat) :
    (∀ img, imageForAdd a ref = some img →
      (a.add env (some ref))._textures = a._textures ++ [ref] ∧
      (∀ i, i < a._textures.length → (a.add env (some ref))._textures[i]? = a._textures[i]?) ∧
      (a.add env (some ref))._gc.length = a._gc.length ∧
      (∀ (i : Nat) (gc : GCState), a._gc[i]? = some gc →
        (gc._inUse = true →
          (a.add env (some ref))._gc[i]? = some { gc with _toAdd := gc._toAdd ++ [ref] }) ∧
        (gc._inUse = false → (a.add env (some ref))._gc[i]? = some gc))) ∧
    a.add env none = a ∧
    (imageForAdd a ref = none →
      (a.add env (some ref))._textures = a._textures ∧ (a.add env (some ref))._gc = a._gc) := by
  refine ⟨?_, rfl, ?_⟩
  · intro img himg
    unfold imageForAdd at himg
    have hadd : a.add env (some ref) =
        { store := updateTexture a.store ref
            (fun t => { t with _image := some (prepareImage env img) }),
          _textures := a._textures ++ [ref],
          _gc := a._gc.map (fun gc =>
            if gc._inUse then { gc with _toAdd := gc._toAdd ++ [ref] } else gc) } := by
      unfold TextureArena.add
      simp only
      rw [himg]
    rw [hadd]
    refine ⟨rfl, ?_, ?_, ?_⟩
    · intro i hi
      exact List.getElem?_append_left hi
    · simp
    · intro i gc hgc
      constructor
      · intro hin
        simp [List.getElem?_map, hgc, hin]
      · intro hin
        simp [List.getElem?_map, hgc, hin]
  · intro himg
    unfold imageForAdd at himg
    unfold TextureArena.add
    simp only
    rw [himg]
    exact ⟨rfl, rfl⟩

/-- Witness for C21: in an arena with one context in use and one not, `add` of
a texture with a loaded image appends it to the registry and to the queue of
the context in use only. -/
theorem add_registers_and_queues_in_use_contexts_witness :
    (sampleTwoContexts.add sampleEnv (some 1))._textures = [0, 1] ∧
    ((sampleTwoContexts.add sampleEnv (some 1))._gc.getD 0 default)._toAdd = [1] ∧
    ((sampleTwoContexts.add sampleEnv (some 1))._gc.getD 1 default)._toAdd = [] ∧
    (sampleTwoContexts.add sampleEnv (some 2))._textures = [0] :=
  have h := add_registers_and_queues_in_use_contexts sampleEnv sampleTwoContexts 1
  have h2 := add_registers_and_queues_in_use_contexts sampleEnv sampleTwoContexts 2
  ⟨(h.1 ⟨false, GL_RGBA, GL_RGBA, 1⟩ rfl).1, by decide, by decide, (h2.2.2 rfl).1⟩

/-! ## Normalising the internal format in `add` -/

/-- The image a registered texture holds after `add`. -/
lemma add_image (env : GLEnv) (a : TextureArena) (ref : Nat) (img : Image)
    (himg : imageForAdd a ref = some img) (hlt : ref < a.store.length) :
    ((a.add env (some ref)).store.getD ref default)._image = some (prepareImage env img) := by
  unfold imageForAdd at himg
  unfold TextureArena.add
  simp only
  rw [himg]
  simp only
  rw [updateTexture_getD_self _ _ _ hlt]

/-- C22 (amended): for every texture of the store whose image is not
block-compressed, `add` hands the image to the compressor and keeps what it
returns.  The internal format is set to the canonical one before that only
when it equals the pixel format: `GL_RED` to `GL_R16F`, `GL_RG` to `GL_RG8`,
`GL_RGB` to `GL_RGB8`, `GL_RGBA` to `GL_RGBA8`, any other to `GL_RGBA8`.  An
image whose internal format differs from its pixel format goes to the
compressor with its internal format as it is, and a compressed image is left
alone. -/
theorem add_normalizes_internal_format_when_unsized (env : GLEnv) (a : TextureArena)
    (ref : Nat) (img : Image) (himg : imageForAdd a ref = some img)
    (hlt : ref < a.store.length) :
    ((a.add env (some ref)).store.getD ref default)._image = some (prepareImage env img) ∧
    (img.compressed = false → img.pixelFormat = img.internalTextureFormat →
      prepareImage env img =
        env.compressImageInPlace
          { img with internalTextureFormat := normalizedInternalFormat img.pixelFormat }) ∧
    (img.compressed = false → img.pixelFormat ≠ img.internalTextureFormat →
      prepareImage env img = env.compressImageInPlace img) ∧
    (img.compressed = true → prepareImage env img = img) ∧
    normalizedInternalFormat GL_RED = GL_R16F ∧ normalizedInternalFormat GL_RG = GL_RG8 ∧
    normalizedInternalFormat GL_RGB = GL_RGB8 ∧ normalizedInternalFormat GL_RGBA = GL_RGBA8 ∧
    (∀ f, normalizedInternalFormat f = GL_R16F ∨ normalizedInternalFormat f = GL_RG8 ∨
      normalizedInternalFormat f = GL_RGB8 ∨ normalizedInternalFormat f = GL_RGBA8) := by
  refine ⟨add_image env a ref img himg hlt, ?_, ?_, ?_, by decide, by decide, by decide,
    by decide, ?_⟩
  · intro hc heq
    unfold prepareImage
    simp [hc, heq]
  · intro hc hne
    unfold prepareImage
    simp [hc, hne]
  · intro hc
    unfold prepareImage
    simp [hc]
  · intro f
    unfold normalizedInternalFormat
    split_ifs <;> simp

/-- Witness for C22: `sampleTexture` has an uncompressed `GL_RGBA` image whose
internal format equals the pixel format; `add` hands it to the compressor with
the internal format `GL_RGBA8`. -/
theorem add_normalizes_internal_format_when_unsized_witness :
    prepareImage sampleEnv ⟨false, GL_RGBA, GL_RGBA, 1⟩ =
      sampleEnv.compressImageInPlace
        { (⟨false, GL_RGBA, GL_RGBA, 1⟩ : Image) with
          internalTextureFormat := normalizedInternalFormat GL_RGBA } :=
  (add_normalizes_internal_format_when_unsized sampleEnv (TextureArena.empty [sampleTexture] 1)
    0 ⟨false, GL_RGBA, GL_RGBA, 1⟩ rfl (by decide)).2.1 rfl rfl

/-- C22 (counterexample): a texture whose image has one channel (`GL_RED`), is
not block-compressed and has the internal format `GL_R8`.  After `add`, with a
compressor that keeps the internal format, the internal format is still
`GL_R8`, not `GL_R16F`: the compressor received the image with `GL_R8`. -/
theorem add_keeps_sized_internal_format :
    (((TextureArena.empty [sizedRedTexture] 1).add sampleEnv (some 0)).store.getD 0
        default)._image = some ⟨true, GL_RED, GL_R8, 1⟩ ∧
    GL_R8 ≠ GL_R16F ∧
    prepareImage sampleEnv ⟨false, GL_RED, GL_R8, 1⟩ =
      sampleEnv.compressImageInPlace ⟨false, GL_RED, GL_R8, 1⟩ ∧
    (TextureArena.empty [sizedRedTexture] 1).add sampleEnv (some 0) =
      { store := [{ sizedRedTexture with _image := some ⟨true, GL_RED, GL_R8, 1⟩ }],
        _textures := [0], _gc := [default] } := by
  refine ⟨by decide, by decide, by decide, by decide⟩

/-! ## The order of the driver calls in `compileGLObjects` -/

/-- The upload loops make one upload call per mip level and slice, and nothing
else. -/
lemma uploadCalls_spec (img : Image) (slices : Nat) :
    (∀ c ∈ uploadCalls img slices, c.isUpload = true) ∧
    (uploadCalls img slices).length = img.numMipmapLevels * slices := by
  unfold uploadCalls
  constructor
  · intro c hc
    simp only [List.mem_flatMap, List.mem_map, List.mem_range] at hc
    obtain ⟨m, _, r, _, hr⟩ := hc
    rw [← hr]
    split_ifs <;> rfl
  · generalize img.numMipmapLevels = n
    induction n with
    | zero => simp
    | succ k ih =>
      rw [List.range_succ, List.flatMap_append, List.length_append, ih]
      simp [Nat.succ_mul]

/-- C23 (amended): in the sequence of driver calls of
`Texture::compileGLObjects`, the bindless handle is requested exactly once,
after the storage allocation and the four filter and wrap parameter calls and
before every upload: the calls are the bind, the storage allocation, the four
parameter calls, the handle request, then one upload per mip level and slice,
then the GPU mipmap generation, made exactly when the image has at most one
mip level.  No texture-parameter call follows the handle request. -/
theorem compileGLObjects_handle_after_parameters_before_uploads (img : Image)
    (slices : Nat) :
    compileGLCalls img slices =
      [TexCall.bind, TexCall.texStorage3D img.numMipmapLevels (storageInternalFormat img),
       TexCall.texParameteri GL_TEXTURE_MIN_FILTER GL_LINEAR_MIPMAP_LINEAR,
       TexCall.texParameteri GL_TEXTURE_MAG_FILTER GL_LINEAR,
       TexCall.texParameteri GL_TEXTURE_WRAP_S GL_REPEAT,
       TexCall.texParameteri GL_TEXTURE_WRAP_T GL_REPEAT] ++
      [TexCall.getHandle] ++
      (uploadCalls img slices ++
        if img.numMipmapLevels ≤ 1 then [TexCall.generateMipmap] else []) ∧
    (compileGLCalls img slices).count TexCall.getHandle = 1 ∧
    (∀ c ∈ uploadCalls img slices ++
        (if img.numMipmapLevels ≤ 1 then [TexCall.generateMipmap] else []),
      c.isParameter = false ∧ c ≠ TexCall.getHandle) ∧
    (uploadCalls img slices).length = img.numMipmapLevels * slices ∧
    (TexCall.generateMipmap ∈ compileGLCalls img slices ↔ img.numMipmapLevels ≤ 1) := by
  have hup := uploadCalls_spec img slices
  have hpost : ∀ c ∈ uploadCalls img slices ++
      (if img.numMipmapLevels ≤ 1 then [TexCall.generateMipmap] else []),
      c.isParameter = false ∧ c ≠ TexCall.getHandle := by
    intro c hc
    rcases List.mem_append.mp hc with h | h
    · have := hup.1 c h
      cases c <;> simp [TexCall.isUpload, TexCall.isParameter] at this ⊢
    · split_ifs at h
      · rw [List.mem_singleton.mp h]
        exact ⟨rfl, by decide⟩
      · cases h
  have heq : compileGLCalls img slices =
      [TexCall.bind, TexCall.texStorage3D img.numMipmapLevels (storageInternalFormat img),
       TexCall.texParameteri GL_TEXTURE_MIN_FILTER GL_LINEAR_MIPMAP_LINEAR,
       TexCall.texParameteri GL_TEXTURE_MAG_FILTER GL_LINEAR,
       TexCall.texParameteri GL_TEXTURE_WRAP_S GL_REPEAT,
       TexCall.texParameteri GL_TEXTURE_WRAP_T GL_REPEAT] ++
      [TexCall.getHandle] ++
      (uploadCalls img slices ++
        if img.numMipmapLevels ≤ 1 then [TexCall.generateMipmap] else []) := by
    unfold compileGLCalls
    simp
  refine ⟨heq, ?_, hpost, hup.2, ?_⟩
  · rw [heq, List.count_append, List.count_append]
    have h0 : (uploadCalls img slices ++
        if img.numMipmapLevels ≤ 1 then [TexCall.generateMipmap] else []).count
        TexCall.getHandle = 0 := by
      rw [List.count_eq_zero]
      intro hin
      exact (hpost _ hin).2 rfl
    rw [h0]
    rfl
  · rw [heq]
    constructor
    · intro hin
      by_contra hgt
      simp only [List.mem_append, List.mem_cons, List.mem_singleton, if_neg hgt,
        List.not_mem_nil, or_false] at hin
      rcases hin with (h | h) | h
      · simp at h
      · cases h
      · have := hup.1 _ h
        simp [TexCall.isUpload] at this
    · intro hle
      simp [hle]

/-- C23 (counterexample): for an image with one mip level and one slice, not
compressed, the handle request is the seventh of nine calls: the upload and
the GPU mipmap generation come after it, and the mipmap generation is last. -/
theorem compileGLObjects_handle_request_not_last :
    compileGLCalls ⟨false, GL_RGBA, GL_RGBA8, 1⟩ 1 =
      [TexCall.bind, TexCall.texStorage3D 1 GL_COMPRESSED_RGBA_S3TC_DXT5_EXT,
       TexCall.texParameteri GL_TEXTURE_MIN_FILTER GL_LINEAR_MIPMAP_LINEAR,
       TexCall.texParameteri GL_TEXTURE_MAG_FILTER GL_LINEAR,
       TexCall.texParameteri GL_TEXTURE_WRAP_S GL_REPEAT,
       TexCall.texParameteri GL_TEXTURE_WRAP_T GL_REPEAT,
       TexCall.getHandle, TexCall.texSubImage3D 0 0, TexCall.generateMipmap] ∧
    (compileGLCalls ⟨false, GL_RGBA, GL_RGBA8, 1⟩ 1).getLast? = some TexCall.generateMipmap := by
  refine ⟨by decide, by decide⟩

/-! ## The entries of the handle table after `sync` -/

/-- C25: after a `HandleLUT::sync` that reallocates (required size above the
allocated size) or finds a consistent table dirty, the host array has an entry
for every index below the number of registered textures, and entry `i` is the
bindless handle of the `i`-th registered texture in that context when the
texture is compiled there and 0 when it is not. -/
theorem sync_entries_are_current_handles (env : GLEnv) (store : List Texture) (ctx : Nat)
    (textures : List Nat) (l : HandleLUT) (N : Nat) (hc : LUTConsistent N l)
    (h : textures.length * 8 > l._allocatedSize ∨ l._dirty = true) :
    ∃ buf1, (l.sync env store ctx textures).1._buf = some buf1 ∧
      textures.length ≤ buf1.length ∧
      ∀ i, i < textures.length →
        (∀ g, ((store.getD (textures.getD i 0) default).get ctx)._gltexture = some g →
          (store.getD (textures.getD i 0) default).isCompiled ctx = true ∧
          buf1.getD i 0 = g.handle) ∧
        (((store.getD (textures.getD i 0) default).get ctx)._gltexture = none →
          (store.getD (textures.getD i 0) default).isCompiled ctx = false ∧
          buf1.getD i 0 = 0) := by
  have hcur : ∀ (buf1 : List Nat) (i : Nat),
      buf1.getD i 0 = currentHandle store ctx (textures.getD i 0) →
      (∀ g, ((store.getD (textures.getD i 0) default).get ctx)._gltexture = some g →
        (store.getD (textures.getD i 0) default).isCompiled ctx = true ∧
        buf1.getD i 0 = g.handle) ∧
      (((store.getD (textures.getD i 0) default).get ctx)._gltexture = none →
        (store.getD (textures.getD i 0) default).isCompiled ctx = false ∧
        buf1.getD i 0 = 0) := by
    intro buf1 i hk
    constructor
    · intro g hg
      refine ⟨?_, ?_⟩
      · unfold Texture.isCompiled
        rw [hg]
        rfl
      · rw [hk]
        unfold currentHandle
        rw [hg]
    · intro hg
      refine ⟨?_, ?_⟩
      · unfold Texture.isCompiled
        rw [hg]
        rfl
      · rw [hk]
        unfold currentHandle
        rw [hg]
  by_cases hbig : textures.length * 8 > l._allocatedSize
  · obtain ⟨_, _, data, hlen, hbuf, _, _, hent⟩ := sync_realloc env store ctx textures l hbig
    exact ⟨data, hbuf, le_of_eq hlen.symm, fun i hi => hcur data i (hent i hi)⟩
  · have hd : l._dirty = true := h.resolve_left hbig
    obtain ⟨hal, _, hpos⟩ := hc
    by_cases hz : 0 < l._numTextures
    · obtain ⟨b, g, hb, hblen, _⟩ := hpos hz
      have hle : textures.length ≤ b.length := by omega
      obtain ⟨buf1, hb1, hlen1, hent, _⟩ :=
        sync_in_place env store ctx textures l hbig hd b hb hle
      exact ⟨buf1, hb1, by omega, fun i hi => hcur buf1 i (hent i hi)⟩
    · have hnil : textures = [] := by
        apply List.eq_nil_of_length_eq_zero
        omega
      subst hnil
      refine ⟨(l._buf.getD []), ?_, Nat.zero_le _, fun i hi => absurd hi (by simp)⟩
      unfold HandleLUT.sync
      simp only [sizeofGLuint64]
      rw [if_neg hbig, if_pos hd]
      simp [HandleLUT.update, HandleLUT.refresh, refreshLoop, hd]

/-- Witness for C25: a dirty table of three entries holding 10, 20, 30 is
synchronised with three textures of which the first has handle 10, the second
is not compiled and the third has handle 30: afterwards the entries are
10, 0, 30. -/
theorem sync_entries_are_current_handles_witness :
    LUTConsistent 3 sampleLUT ∧ sampleLUT._dirty = true ∧
    (sampleLUT.sync sampleEnv [compiledTexture 10, uncompiledTexture, compiledTexture 30]
      0 [0, 1, 2]).1._buf = some [10, 0, 30] ∧
    ∃ buf1,
      (sampleLUT.sync sampleEnv [compiledTexture 10, uncompiledTexture, compiledTexture 30]
        0 [0, 1, 2]).1._buf = some buf1 ∧
      buf1.getD 1 0 = 0 ∧ buf1.getD 2 0 = 30 := by
  have hc : LUTConsistent 3 sampleLUT :=
    ⟨by decide, by decide, fun _ => ⟨[10, 20, 30], ⟨24, [10, 20, 30]⟩, rfl, rfl, rfl, rfl, rfl⟩⟩
  refine ⟨hc, rfl, by decide, ?_⟩
  obtain ⟨buf1, h1, _, h3⟩ :=
    sync_entries_are_current_handles sampleEnv
      [compiledTexture 10, uncompiledTexture, compiledTexture 30] 0 [0, 1, 2] sampleLUT 3 hc
      (Or.inr rfl)
  exact ⟨buf1, h1, ((h3 1 (by decide)).2 rfl).2, ((h3 2 (by decide)).1 ⟨30, true⟩ rfl).2⟩

end Arena
